import Mathlib

/-!
The glTF 2.0 importer (`code/glTF2Importer.cpp`).

A shallow embedding of `glTF2Importer.cpp`: the faces, the vertex data and the
morph targets of an output mesh (`ImportMeshes`), the bones of a skinned node
(`BuildVertexWeightMapping`, `ImportNode`), the node tree, the materials and
embedded textures, the animations, and the whole call (`InternReadFile`,
`CanRead`), with the properties proved about them.

The source has two texts for the skin binding of `ImportNode` and for the
animation import, chosen by the macro `GVRF_ASSIMP` (lines 861-1033 and
1069-1468).  The text without the macro uses a variable `mesh_idx` that has no
declaration (lines 972 and 1029) and declares `int k` twice in one block
(lines 851 and 1028), so the text with the macro is the one that builds.  Both
are embedded: `bindSkin_GVRF`, `ImportNode_meshes_GVRF` and
`ImportAnimations_GVRF` follow the text with the macro, and `bindSkin`,
`ImportNode_meshes`, `GatherSamplers`, `CreateNodeAnim` and `ImportAnimations`
the text without it.

Conventions of the embedding.

* `unsigned int` values are natural numbers; where the source subtracts or
  increments them the result is reduced modulo `2^32` (`u32`, `u32sub`).
* Heap arrays are total functions together with their length.  A write or a
  read outside the length, a read through a null pointer and a read of an
  accessor element at or beyond the accessor's `count` leave defined
  behaviour: the embedded function returns `none`.
* The accessor decoder (`Accessor::ExtractData`, `Accessor::Indexer`) is not
  part of this file of the source; an accessor carries what the decoder
  yields for it.
-/

namespace glTF2Importer

/-! ## Machine integers -/

/-- Number of values of the C++ type `unsigned int`. -/
def UINT_MOD : Nat := 4294967296

/-- The value of an `unsigned int` expression whose mathematical value is `n`. -/
def u32 (n : Nat) : Nat := n % UINT_MOD

/-- The `unsigned int` difference `a - b`. -/
def u32sub (a b : Nat) : Nat := (a + UINT_MOD - b % UINT_MOD) % UINT_MOD

/-! ## Counted loops -/

/-- Iterations of `for (unsigned i = ..; i < n; i += step) body`, starting at
`i` with state `s`; the first argument bounds the number of iterations. -/
def forLoopAux {σ : Type} (n step : Nat) (body : Nat → σ → Option σ) :
    Nat → Nat → σ → Option σ
  | 0, _, _ => none
  | fuel + 1, i, s =>
    if i < n then
      (body i s).bind (forLoopAux n step body fuel (u32 (i + step)))
    else some s

/-- The loop `for (unsigned i = a; i < n; i += step) body` run on state `s`.
A loop whose counter grows needs at most `n` iterations, so `n + 1` rounds of
`forLoopAux` are given. -/
def forLoop {σ : Type} (a n step : Nat) (body : Nat → σ → Option σ) (s : σ) : Option σ :=
  forLoopAux n step body (n + 1) a s

/-! ## Faces -/

/-- The output type `aiFace`: `mIndices` with `mNumIndices` its length; a
default-constructed face has no indices. -/
structure aiFace where
  mIndices : List Nat := []
deriving DecidableEq, Repr

/-- The field `mNumIndices` of a face. -/
def aiFace.mNumIndices (f : aiFace) : Nat := f.mIndices.length

/-- The overload `SetFace(face, a)`, lines 350-355. -/
def SetFace1 (a : Nat) : aiFace := { mIndices := [a] }

/-- The overload `SetFace(face, a, b)`, lines 357-363. -/
def SetFace2 (a b : Nat) : aiFace := { mIndices := [a, b] }

/-- The overload `SetFace(face, a, b, c)`, lines 365-372. -/
def SetFace3 (a b c : Nat) : aiFace := { mIndices := [a, b, c] }

/-- An array `aiFace*` of `size` faces. -/
structure FaceArray where
  size : Nat
  elems : Nat → aiFace

/-- The array `new aiFace[n]`. -/
def newFaces (n : Nat) : FaceArray := { size := n, elems := fun _ => {} }

/-- The assignment `faces[i] = f`; outside the array it is a fault. -/
def FaceArray.write (faces : FaceArray) (i : Nat) (f : aiFace) : Option FaceArray :=
  if i < faces.size then
    some { size := faces.size, elems := fun k => if k = i then f else faces.elems k }
  else none

/-- The read `faces[i].mIndices[j]`; outside the array, or of an index the
face does not have, it is a fault. -/
def FaceArray.index (faces : FaceArray) (i j : Nat) : Option Nat :=
  if i < faces.size then (faces.elems i).mIndices[j]? else none

/-- The faces of an array, in order. -/
def FaceArray.toList (faces : FaceArray) : List aiFace :=
  (List.range faces.size).map faces.elems

/-- What `Accessor::GetIndexer()` yields for the accessor `prim.indices`: the
accessor's `count` and the element at each position of the index stream. -/
structure Indexer where
  count : Nat
  values : Nat → Nat

/-- The read `data.GetUInt(i)`; at or beyond `count` it is a fault. -/
def Indexer.GetUInt (data : Indexer) (i : Nat) : Option Nat :=
  if i < data.count then some (data.values i) else none

/-- The enumeration `PrimitiveMode`. -/
inductive PrimitiveMode where
  | PrimitiveMode_POINTS
  | PrimitiveMode_LINES
  | PrimitiveMode_LINE_LOOP
  | PrimitiveMode_LINE_STRIP
  | PrimitiveMode_TRIANGLES
  | PrimitiveMode_TRIANGLE_STRIP
  | PrimitiveMode_TRIANGLE_FAN
deriving DecidableEq, Repr

open PrimitiveMode

/-- Face assembly of `ImportMeshes` for a primitive with an index accessor,
lines 538-612. -/
def facesIndexed (mode : PrimitiveMode) (data : Indexer) : Option FaceArray :=
  let count := data.count
  match mode with
  | PrimitiveMode_POINTS =>
    let nFaces := count
    forLoop 0 count 1
      (fun i faces => do
        let a ← data.GetUInt i
        faces.write i (SetFace1 a))
      (newFaces nFaces)
  | PrimitiveMode_LINES =>
    let nFaces := count / 2
    forLoop 0 count 2
      (fun i faces => do
        let a ← data.GetUInt i
        let b ← data.GetUInt (u32 (i + 1))
        faces.write (i / 2) (SetFace2 a b))
      (newFaces nFaces)
  | PrimitiveMode_LINE_LOOP => do
    let nFaces := u32sub count 0
    let a ← data.GetUInt 0
    let b ← data.GetUInt 1
    let faces ← (newFaces nFaces).write 0 (SetFace2 a b)
    let faces ← forLoop 2 count 1
      (fun i faces => do
        let p ← faces.index (u32sub i 2) 1
        let c ← data.GetUInt i
        faces.write (u32sub i 1) (SetFace2 p c))
      faces
    let p ← faces.index (u32sub count 2) 1
    let q ← faces.index 0 0
    faces.write (u32sub count 1) (SetFace2 p q)
  | PrimitiveMode_LINE_STRIP => do
    let nFaces := u32sub count 1
    let a ← data.GetUInt 0
    let b ← data.GetUInt 1
    let faces ← (newFaces nFaces).write 0 (SetFace2 a b)
    forLoop 2 count 1
      (fun i faces => do
        let p ← faces.index (u32sub i 2) 1
        let c ← data.GetUInt i
        faces.write (u32sub i 1) (SetFace2 p c))
      faces
  | PrimitiveMode_TRIANGLES =>
    let nFaces := count / 3
    forLoop 0 count 3
      (fun i faces => do
        let a ← data.GetUInt i
        let b ← data.GetUInt (u32 (i + 1))
        let c ← data.GetUInt (u32 (i + 2))
        faces.write (i / 3) (SetFace3 a b c))
      (newFaces nFaces)
  | PrimitiveMode_TRIANGLE_STRIP =>
    let nFaces := u32sub count 2
    forLoop 0 nFaces 1
      (fun i faces =>
        if u32 (i + 1) % 2 = 0 then do
          let a ← data.GetUInt (u32 (i + 1))
          let b ← data.GetUInt i
          let c ← data.GetUInt (u32 (i + 2))
          faces.write i (SetFace3 a b c)
        else do
          let a ← data.GetUInt i
          let b ← data.GetUInt (u32 (i + 1))
          let c ← data.GetUInt (u32 (i + 2))
          faces.write i (SetFace3 a b c))
      (newFaces nFaces)
  | PrimitiveMode_TRIANGLE_FAN => do
    let nFaces := u32sub count 2
    let a ← data.GetUInt 0
    let b ← data.GetUInt 1
    let c ← data.GetUInt 2
    let faces ← (newFaces nFaces).write 0 (SetFace3 a b c)
    forLoop 1 nFaces 1
      (fun i faces => do
        let p ← faces.index 0 0
        let q ← faces.index (u32sub i 1) 2
        let r ← data.GetUInt (u32 (i + 2))
        faces.write i (SetFace3 p q r))
      faces

/-- Face assembly of `ImportMeshes` for a primitive without an index accessor,
lines 613-686; `count` is `aim->mNumVertices`. -/
def facesNoIndices (mode : PrimitiveMode) (count : Nat) : Option FaceArray :=
  match mode with
  | PrimitiveMode_POINTS =>
    let nFaces := count
    forLoop 0 count 1
      (fun i faces => faces.write i (SetFace1 i))
      (newFaces nFaces)
  | PrimitiveMode_LINES =>
    let nFaces := count / 2
    forLoop 0 count 2
      (fun i faces => faces.write (i / 2) (SetFace2 i (u32 (i + 1))))
      (newFaces nFaces)
  | PrimitiveMode_LINE_LOOP => do
    let nFaces := u32sub count 0
    let faces ← (newFaces nFaces).write 0 (SetFace2 0 1)
    let faces ← forLoop 2 count 1
      (fun i faces => do
        let p ← faces.index (u32sub i 2) 1
        faces.write (u32sub i 1) (SetFace2 p i))
      faces
    let p ← faces.index (u32sub count 2) 1
    let q ← faces.index 0 0
    faces.write (u32sub count 1) (SetFace2 p q)
  | PrimitiveMode_LINE_STRIP => do
    let nFaces := u32sub count 1
    let faces ← (newFaces nFaces).write 0 (SetFace2 0 1)
    forLoop 2 count 1
      (fun i faces => do
        let p ← faces.index (u32sub i 2) 1
        faces.write (u32sub i 1) (SetFace2 p i))
      faces
  | PrimitiveMode_TRIANGLES =>
    let nFaces := count / 3
    forLoop 0 count 3
      (fun i faces => faces.write (i / 3) (SetFace3 i (u32 (i + 1)) (u32 (i + 2))))
      (newFaces nFaces)
  | PrimitiveMode_TRIANGLE_STRIP =>
    let nFaces := u32sub count 2
    forLoop 0 nFaces 1
      (fun i faces =>
        if u32 (i + 1) % 2 = 0 then
          faces.write i (SetFace3 (u32 (i + 1)) i (u32 (i + 2)))
        else
          faces.write i (SetFace3 i (u32 (i + 1)) (u32 (i + 2))))
      (newFaces nFaces)
  | PrimitiveMode_TRIANGLE_FAN => do
    let nFaces := u32sub count 2
    let faces ← (newFaces nFaces).write 0 (SetFace3 0 1 2)
    forLoop 1 nFaces 1
      (fun i faces => do
        let p ← faces.index 0 0
        let q ← faces.index (u32sub i 1) 2
        faces.write i (SetFace3 p q (u32 (i + 2))))
      faces

/-- The switch over the primitive mode that `ImportMeshes` has twice (lines
544-611 and 618-685), with the read of stream position `k` abstracted as
`rd k`: both copies are instances of it (`facesIndexed_eq_facesWith`,
`facesNoIndices_eq_facesWith`), which lets one proof serve both. -/
def facesWith (rd : Nat → Option Nat) (count : Nat) (mode : PrimitiveMode) :
    Option FaceArray :=
  match mode with
  | PrimitiveMode_POINTS =>
    let nFaces := count
    forLoop 0 count 1
      (fun i faces => do
        let a ← rd i
        faces.write i (SetFace1 a))
      (newFaces nFaces)
  | PrimitiveMode_LINES =>
    let nFaces := count / 2
    forLoop 0 count 2
      (fun i faces => do
        let a ← rd i
        let b ← rd (u32 (i + 1))
        faces.write (i / 2) (SetFace2 a b))
      (newFaces nFaces)
  | PrimitiveMode_LINE_LOOP => do
    let nFaces := u32sub count 0
    let a ← rd 0
    let b ← rd 1
    let faces ← (newFaces nFaces).write 0 (SetFace2 a b)
    let faces ← forLoop 2 count 1
      (fun i faces => do
        let p ← faces.index (u32sub i 2) 1
        let c ← rd i
        faces.write (u32sub i 1) (SetFace2 p c))
      faces
    let p ← faces.index (u32sub count 2) 1
    let q ← faces.index 0 0
    faces.write (u32sub count 1) (SetFace2 p q)
  | PrimitiveMode_LINE_STRIP => do
    let nFaces := u32sub count 1
    let a ← rd 0
    let b ← rd 1
    let faces ← (newFaces nFaces).write 0 (SetFace2 a b)
    forLoop 2 count 1
      (fun i faces => do
        let p ← faces.index (u32sub i 2) 1
        let c ← rd i
        faces.write (u32sub i 1) (SetFace2 p c))
      faces
  | PrimitiveMode_TRIANGLES =>
    let nFaces := count / 3
    forLoop 0 count 3
      (fun i faces => do
        let a ← rd i
        let b ← rd (u32 (i + 1))
        let c ← rd (u32 (i + 2))
        faces.write (i / 3) (SetFace3 a b c))
      (newFaces nFaces)
  | PrimitiveMode_TRIANGLE_STRIP =>
    let nFaces := u32sub count 2
    forLoop 0 nFaces 1
      (fun i faces =>
        if u32 (i + 1) % 2 = 0 then do
          let a ← rd (u32 (i + 1))
          let b ← rd i
          let c ← rd (u32 (i + 2))
          faces.write i (SetFace3 a b c)
        else do
          let a ← rd i
          let b ← rd (u32 (i + 1))
          let c ← rd (u32 (i + 2))
          faces.write i (SetFace3 a b c))
      (newFaces nFaces)
  | PrimitiveMode_TRIANGLE_FAN => do
    let nFaces := u32sub count 2
    let a ← rd 0
    let b ← rd 1
    let c ← rd 2
    let faces ← (newFaces nFaces).write 0 (SetFace3 a b c)
    forLoop 1 nFaces 1
      (fun i faces => do
        let p ← faces.index 0 0
        let q ← faces.index (u32sub i 1) 2
        let r ← rd (u32 (i + 2))
        faces.write i (SetFace3 p q r))
      faces

/-- The faces `ImportMeshes` stores in the output mesh (`aim->mFaces` with
`aim->mNumFaces` its size), lines 535-692: from the index accessor when the
primitive has one, from the vertex count `mNumVertices` otherwise. -/
def assembleFaces (indices : Option Indexer) (mode : PrimitiveMode) (mNumVertices : Nat) :
    Option FaceArray :=
  match indices with
  | some data => facesIndexed mode data
  | none => facesNoIndices mode mNumVertices

/-- The count the face assembly works from: `prim.indices->count`, or the
vertex count without an index accessor. -/
def streamCount (indices : Option Indexer) (mNumVertices : Nat) : Nat :=
  match indices with
  | some data => data.count
  | none => mNumVertices

/-- The index stream `s`: position `k` of the index accessor, or `k` itself
without an index accessor. -/
def stream (indices : Option Indexer) (k : Nat) : Nat :=
  match indices with
  | some data => data.values k
  | none => k

/-- The debug check `CheckValidFacesIndices`, lines 375-385: no face has an
index at or beyond `nVerts`. -/
def CheckValidFacesIndices (faces : FaceArray) (nFaces nVerts : Nat) : Bool :=
  (List.range nFaces).all fun i => (faces.elems i).mIndices.all fun idx => !(idx ≥ nVerts)

/-! ## Skinning: data model -/

/-- The value of an `int` converted from the `unsigned int` value `n`. -/
def i32 (n : Nat) : Int :=
  if n % UINT_MOD < 2147483648 then ((n % UINT_MOD : Nat) : Int)
  else ((n % UINT_MOD : Nat) : Int) - (UINT_MOD : Int)

/-- The output type `aiVertexWeight`; `W` stands for `float`, of which the
code uses the constant `0` and the comparison `weight > 0` only. -/
structure aiVertexWeight (W : Type) where
  mVertexId : Nat
  mWeight : W
deriving DecidableEq, Repr

/-- The output type `aiBone`: its name and its weights (`mNumWeights` is the
length of `mWeights`).  The offset matrix is not part of this embedding. -/
structure aiBone (W : Type) where
  mName : String
  mWeights : List (aiVertexWeight W)
deriving DecidableEq, Repr

/-- The flags of `aiMesh::mPrimitiveTypes` that `ImportMeshes` sets. -/
inductive aiPrimitiveType where
  | aiPrimitiveType_POINT
  | aiPrimitiveType_LINE
  | aiPrimitiveType_TRIANGLE
deriving DecidableEq, Repr

/-- The members of `aiVector3D`. -/
structure aiVector3D (W : Type) where
  x : W
  y : W
  z : W
deriving DecidableEq, Repr

/-- The members of `aiColor4D`. -/
structure aiColor4D (W : Type) where
  r : W
  g : W
  b : W
  a : W
deriving DecidableEq, Repr

/-- The output type `aiAnimMesh`, an animated mesh: the vertex count, the
arrays of positions, normals, tangents and bitangents (`none` for a null
pointer) and the weight. -/
structure aiAnimMesh (W : Type) where
  mNumVertices : Nat := 0
  mVertices : Option (List (aiVector3D W)) := none
  mNormals : Option (List (aiVector3D W)) := none
  mTangents : Option (List (aiVector3D W)) := none
  mBitangents : Option (List (aiVector3D W)) := none
  mWeight : W
deriving DecidableEq, Repr

/-- The members of an output `aiMesh` that hold the vertex data and the
animated meshes, lines 437-533, apart from the colour sets; the other members
are in `aiMesh`.  A null array pointer is `none`; `mTextureCoords` and
`mNumUVComponents` have one slot for each of the
`AI_MAX_NUMBER_OF_TEXTURECOORDS` UV sets, and `mNumAnimMeshes` is the length of
`mAnimMeshes`. -/
structure VertexData (W : Type) where
  mNumVertices : Nat := 0
  mVertices : Option (List (aiVector3D W)) := none
  mNormals : Option (List (aiVector3D W)) := none
  mTangents : Option (List (aiVector3D W)) := none
  mBitangents : Option (List (aiVector3D W)) := none
  mTextureCoords : List (Option (List (aiVector3D W))) := []
  mNumUVComponents : List Nat := []
  mAnimMeshes : List (aiAnimMesh W) := []
deriving DecidableEq, Repr

/-- The output type `aiMesh`: the vertex data and the animated meshes
(`VertexData`), the name, the primitive-type flag, the colour sets (one slot
for each of the `AI_MAX_NUMBER_OF_COLOR_SETS` sets, `none` for a null pointer),
the faces (`mNumFaces` is the length of `mFaces`), the material index and the
bones (`mNumBones` is the length of `mBones`). -/
structure aiMesh (W : Type) extends VertexData W where
  mName : String := ""
  mPrimitiveTypes : Option aiPrimitiveType := none
  mColors : List (Option (List (aiColor4D W))) := []
  mFaces : List aiFace := []
  mMaterialIndex : Nat := 0
  mBones : List (aiBone W) := []
deriving DecidableEq, Repr

/-- The members of `aiQuaternion`. -/
structure aiQuaternion (W : Type) where
  w : W
  x : W
  y : W
  z : W
deriving DecidableEq, Repr

/-- The struct `Tangent`, lines 72-75: the tangent `xyz` and the handedness
`w`. -/
structure Tangent (W : Type) where
  xyz : aiVector3D W
  w : W
deriving DecidableEq, Repr

/-- An accessor of the asset: its `count`, its element size
(`GetElementSize()`), its number of components (`GetNumComponents()`) and what
`ExtractData` yields for it at the element types the importer asks for; `none`
is an extraction that leaves the pointer null.  Element `i` of an extracted
array of `Weights`, `Indices8` or `Indices16` is the function of the slot `j`;
`vec3 i`, `tangents i`, `color4 i`, `quats i` and `floats i` are element `i` of
an extracted array of `aiVector3D`, of `Tangent`, of `aiColor4D`, of
`aiQuaternion` and of `float`; `floats i` is also the value that
`GetIndexer().GetValue<float>(i)` reads. -/
structure Accessor (W : Type) where
  count : Nat
  elementSize : Nat := 0
  weights : Option (Nat → Nat → W) := none
  indices8 : Option (Nat → Nat → Nat) := none
  indices16 : Option (Nat → Nat → Nat) := none
  numComponents : Nat := 0
  vec3 : Option (Nat → aiVector3D W) := none
  tangents : Option (Nat → Tangent W) := none
  color4 : Option (Nat → aiColor4D W) := none
  quats : Option (Nat → aiQuaternion W) := none
  floats : Option (Nat → W) := none

/-- The attribute lists of a primitive that the embedding reads:
`attributes.position` (POSITION, an entry is `none` for a null `Ref`),
`attributes.weight` (WEIGHTS_n), `attributes.joint` (JOINTS_n),
`attributes.normal` (NORMAL), `attributes.tangent` (TANGENT),
`attributes.texcoord` (TEXCOORD_n) and `attributes.color` (COLOR_n). -/
structure Attributes (W : Type) where
  position : List (Option (Accessor W)) := []
  weight : List (Accessor W) := []
  joint : List (Accessor W) := []
  normal : List (Option (Accessor W)) := []
  tangent : List (Option (Accessor W)) := []
  texcoord : List (Accessor W) := []
  color : List (Accessor W) := []

/-- The input type `Mesh::Primitive::Target`, a morph target: the accessors of
its POSITION, NORMAL and TANGENT deltas. -/
structure Primitive.Target (W : Type) where
  position : List (Accessor W) := []
  normal : List (Accessor W) := []
  tangent : List (Accessor W) := []

/-- The input type `Mesh::Primitive`. -/
structure Primitive (W : Type) where
  attributes : Attributes W := {}
  mode : PrimitiveMode := PrimitiveMode_TRIANGLES
  indices : Option Indexer := none
  material : Option Nat := none
  targets : List (Primitive.Target W) := []

/-- The input type `Mesh`. -/
structure Mesh (W : Type) where
  id : String := ""
  name : String := ""
  primitives : List (Primitive W) := []
  weights : List W := []

/-- The input type `Node`; a `Ref` to a mesh, node or skin is its index in the
asset. -/
structure Node where
  id : String := ""
  name : String := ""
  children : List Nat := []
  meshes : List Nat := []
  skin : Option Nat := none
  camera : Option Nat := none
deriving DecidableEq, Repr

/-- The input type `Scene`: the root nodes. -/
structure Scene where
  nodes : List Nat := []
deriving DecidableEq, Repr

/-- The input type `Skin`: the joints `jointNames` and the accessor
`inverseBindMatrices`, which is `none` for a null `Ref`, `some none` for an
accessor from which `ExtractData` extracts nothing, and `some (some count)` for
an accessor from which it extracts an array of `count` matrices. -/
structure Skin where
  jointNames : List Nat := []
  inverseBindMatrices : Option (Option Nat) := none

/-- The collections of the asset that mesh and node import read, and the
designated scene `r.scene` (`none` for a null `Ref`). -/
structure Asset (W : Type) where
  meshes : List (Mesh W) := []
  nodes : List Node := []
  skins : List Skin := []
  scene : Option Scene := none

/-- Modelled from the spec: `ASSIMP_itoa10` is declared in
`include/assimp/StringUtils.h`, outside this file of the source; it writes the
decimal representation of its argument. -/
def ASSIMP_itoa10 (number : Nat) : String := toString number

/-! ## Skinning: `BuildVertexWeightMapping` -/

/-- The statement `map[bone].emplace_back(i, weight)`. -/
def emplaceBack {W : Type} (map : List (List (aiVertexWeight W))) (bone : Nat)
    (vw : aiVertexWeight W) : List (List (aiVertexWeight W)) :=
  map.set bone (map.getD bone [] ++ [vw])

/-- The function `BuildVertexWeightMapping`, lines 773-819.  The release build is embedded:
`ai_assert(false)` at line 801 is followed by the `return`. -/
def BuildVertexWeightMapping {W : Type} [Zero W] [LT W] [DecidableRel (α := W) (· < ·)]
    (primitive : Primitive W) (map : List (List (aiVertexWeight W))) :
    Option (List (List (aiVertexWeight W))) :=
  let attr := primitive.attributes
  match attr.weight, attr.joint with
  | [], _ => some map
  | _ :: _, [] => some map
  | weight0 :: _, joint0 :: _ =>
    if weight0.count ≠ joint0.count then some map
    else
      let num_vertices : Int := i32 weight0.count
      let weights := weight0.weights
      let indices8 := if joint0.elementSize = 4 then joint0.indices8 else none
      let indices16 := if joint0.elementSize = 4 then none else joint0.indices16
      if indices8.isNone && indices16.isNone then some map
      else
        (List.range num_vertices.toNat).foldlM
          (fun map i =>
            (List.range 4).foldlM
              (fun map j => do
                let bone ← match indices8 with
                  | some values => some (values i j)
                  | none => indices16.map fun values => values i j
                let weight ← weights.map fun values => values i j
                if weight > 0 ∧ bone < map.length then
                  pure (emplaceBack map bone { mVertexId := i, mWeight := weight })
                else pure map)
              map)
          map

/-- The influences of bone `b` as the specification words them: the pairs
`(v, weights[v][j])`, in order of increasing vertex `v` and then increasing
slot `j` in `0..3`, over those `(v, j)` with `weights[v][j] > 0` and
`joints[v][j] = b`. -/
def transposedInfluences {W : Type} [Zero W] [LT W] [DecidableRel (α := W) (· < ·)]
    (weights : Nat → Nat → W) (joints : Nat → Nat → Nat) (numVertices b : Nat) :
    List (aiVertexWeight W) :=
  (List.range numVertices).flatMap fun v =>
    (List.range 4).filterMap fun j =>
      if weights v j > 0 ∧ joints v j = b then
        some { mVertexId := v, mWeight := weights v j }
      else none

/-- The joint indices `joints[v][j]` of a JOINTS accessor as
`BuildVertexWeightMapping` reads them: 8-bit when the element size is 4,
16-bit otherwise. -/
def jointValues {W : Type} (joint0 : Accessor W) : Option (Nat → Nat → Nat) :=
  if joint0.elementSize = 4 then joint0.indices8 else joint0.indices16

/-! ## Skinning: `ImportNode` -/

/-- The count of output meshes of a node, lines 842-848: the `int` sum of the
`unsigned` differences `meshOffsets[idx + 1] - meshOffsets[idx]`. -/
def nodeMeshCount (meshOffsets : List Nat) (meshes : List Nat) : Option Int :=
  (meshes.foldlM
    (fun count idx => do
      let hi ← meshOffsets[idx + 1]?
      let lo ← meshOffsets[idx]?
      pure (u32 (count + u32sub hi lo)))
    0).map i32

/-- The loop `for (unsigned j = lo; j < hi; ++j, ++k) mMeshes[k] = j`, lines
855-858 and 1029-1032, on the array `mMeshes` and the counter `k`. -/
def fillRange (lo hi : Nat) (state : List Nat × Nat) : Option (List Nat × Nat) :=
  forLoop lo hi 1
    (fun j st => if st.2 < st.1.length then some (st.1.set st.2 j, st.2 + 1) else none)
    state

/-- The array `ainode->mMeshes` after lines 849-859; the entries of
`new unsigned int[count]` start as 0 here. -/
def nodeMeshList (meshOffsets : List Nat) (meshes : List Nat) : Option (List Nat) := do
  let count ← nodeMeshCount meshOffsets meshes
  if count < 0 then none
  else
    let st ← meshes.foldlM
      (fun st idx => do
        let lo ← meshOffsets[idx]?
        let hi ← meshOffsets[idx + 1]?
        fillRange lo hi st)
      (List.replicate count.toNat 0, 0)
    pure st.1

/-- The bone for joint `i`, lines 990-1024 (without the offset matrix). -/
def makeBone {W : Type} [Zero W] (r : Asset W) (skin : Skin)
    (weighting : List (List (aiVertexWeight W))) (i : Nat) : Option (aiBone W) := do
  let jointRef ← skin.jointNames[i]?
  let joint ← r.nodes[jointRef]?
  let mName :=
    if joint.name ≠ "" then joint.name
    else "bone_" ++ ASSIMP_itoa10 i
  let weights ← weighting[i]?
  if weights.length > 0 then
    pure { mName := mName, mWeights := weights }
  else
    pure { mName := mName, mWeights := [{ mVertexId := 0, mWeight := 0 }] }

/-- The primitive `node.meshes[0]->primitives[primitiveNo]` of line 986. -/
def primitiveOf {W : Type} (r : Asset W) (node : Node) (primitiveNo : Nat) :
    Option (Primitive W) := do
  let mesh0Ref ← node.meshes[0]?
  let mesh0 ← r.meshes[mesh0Ref]?
  mesh0.primitives[primitiveNo]?

/-- One round of the loop over `primitiveNo`, lines 972-1025, on the meshes of
the scene.  The variable `mesh_idx` has no declaration in the source and is a
parameter. -/
def skinPrimitive {W : Type} [Zero W] [LT W] [DecidableRel (α := W) (· < ·)]
    (r : Asset W) (meshOffsets : List Nat) (mesh_idx : Nat) (node : Node) (skin : Skin)
    (primitiveNo : Nat) (sceneMeshes : List (aiMesh W)) : Option (List (aiMesh W)) := do
  let offset ← meshOffsets[mesh_idx]?
  let slot := u32 (offset + primitiveNo)
  let mesh ← sceneMeshes[slot]?
  let mNumBones := skin.jointNames.length
  let weighting : List (List (aiVertexWeight W)) := List.replicate mNumBones []
  let primitive ← primitiveOf r node primitiveNo
  let weighting ← BuildVertexWeightMapping primitive weighting
  let mBones ← (List.range mNumBones).mapM (makeBone r skin weighting)
  pure (sceneMeshes.set slot { mesh with mBones := mBones })

/-- Skin binding of `ImportNode`, lines 968-1027 (the branch without
`GVRF_ASSIMP`), for a node with `count` output meshes: the meshes of the scene
after it. -/
def bindSkin {W : Type} [Zero W] [LT W] [DecidableRel (α := W) (· < ·)]
    (r : Asset W) (meshOffsets : List Nat) (mesh_idx : Nat) (node : Node) (count : Int)
    (sceneMeshes : List (aiMesh W)) : Option (List (aiMesh W)) :=
  match node.skin with
  | none => some sceneMeshes
  | some skinRef => do
    let skin ← r.skins[skinRef]?
    (List.range count.toNat).foldlM
      (fun meshes primitiveNo => skinPrimitive r meshOffsets mesh_idx node skin primitiveNo meshes)
      sceneMeshes

/-- Mesh and skin binding of `ImportNode`, lines 840-1034 (the branch without
`GVRF_ASSIMP`): the node's output-mesh list `ainode->mMeshes` and the meshes
of the scene after the call; a node without meshes has the empty list. -/
def ImportNode_meshes {W : Type} [Zero W] [LT W] [DecidableRel (α := W) (· < ·)]
    (r : Asset W) (meshOffsets : List Nat) (mesh_idx : Nat) (node : Node)
    (sceneMeshes : List (aiMesh W)) : Option (List Nat × List (aiMesh W)) :=
  if node.meshes.isEmpty then some ([], sceneMeshes)
  else do
    let count ← nodeMeshCount meshOffsets node.meshes
    let mMeshes ← nodeMeshList meshOffsets node.meshes
    let sceneMeshes ← bindSkin r meshOffsets mesh_idx node count sceneMeshes
    let lo ← meshOffsets[mesh_idx]?
    let hi ← meshOffsets[mesh_idx + 1]?
    let st ← fillRange lo hi (mMeshes, 0)
    pure (st.1, sceneMeshes)

/-! ## Mesh vertex data: attributes, texture coordinates and morph targets -/

/-- The vertex count `aim->mNumVertices` of a primitive, lines 437-440: the
count of `POSITION[0]` when that accessor is there, 0 otherwise. -/
def vertexCount {W : Type} (prim : Primitive W) : Nat :=
  match prim.attributes.position with
  | some position0 :: _ => position0.count
  | _ => 0

/-- The array that `ExtractData` leaves in a pointer of type `aiVector3D*`:
`count` elements, or `none` when the pointer stays null. -/
def Accessor.ExtractData_vec3 {W : Type} (acc : Accessor W) : Option (List (aiVector3D W)) :=
  acc.vec3.map (fun values => (List.range acc.count).map values)

/-- The array that `ExtractData` leaves in a pointer of type `Tangent*`. -/
def Accessor.ExtractData_tangent {W : Type} (acc : Accessor W) : Option (List (Tangent W)) :=
  acc.tangents.map (fun values => (List.range acc.count).map values)

/-- Modelled from the spec: the operator `+` of `aiVector3D`, which `+=` applies;
it is declared in `include/assimp/vector3.inl`, outside this file of the
source, and adds componentwise. -/
def aiVector3D.add {W : Type} [Add W] (a b : aiVector3D W) : aiVector3D W :=
  { x := a.x + b.x, y := a.y + b.y, z := a.z + b.z }

/-- Modelled from the spec: the operator `^` of `aiVector3D`, the cross
product `normal × tangent`; it is declared in `include/assimp/vector3.inl`,
outside this file of the source. -/
def aiVector3D.cross {W : Type} [Mul W] [Sub W] (a b : aiVector3D W) : aiVector3D W :=
  { x := a.y * b.z - a.z * b.y, y := a.z * b.x - a.x * b.z, z := a.x * b.y - a.y * b.x }

/-- Modelled from the spec: the operator `*` of an `aiVector3D` and a number,
declared in `include/assimp/vector3.inl`, outside this file of the source. -/
def aiVector3D.scale {W : Type} [Mul W] (a : aiVector3D W) (f : W) : aiVector3D W :=
  { x := a.x * f, y := a.y * f, z := a.z * f }

/-- The array `aim->mVertices`, lines 437-440. -/
def importPositions {W : Type} (attr : Attributes W) : Option (List (aiVector3D W)) :=
  match attr.position with
  | some position0 :: _ => position0.ExtractData_vec3
  | _ => none

/-- The loop of lines 455-458 on the extracted normals and tangents: the
arrays `mTangents` and `mBitangents`, which have `mNumVertices` elements. -/
def importTangents {W : Type} [Mul W] [Sub W] (mNumVertices : Nat)
    (mNormals : Option (List (aiVector3D W))) (tangents : Option (List (Tangent W))) :
    Option (List (aiVector3D W) × List (aiVector3D W)) :=
  ((List.range mNumVertices).mapM
    (fun i => do
      let tangents ← tangents
      let tangent : Tangent W ← tangents[i]?
      let mNormals ← mNormals
      let normal : aiVector3D W ← mNormals[i]?
      pure (tangent.xyz, (normal.cross tangent.xyz).scale tangent.w))).map List.unzip

/-- The normals, tangents and bitangents of the output mesh, lines 442-462, on
a mesh whose vertex data has the vertex count and the positions only. -/
def importNormals {W : Type} [Mul W] [Sub W] (attr : Attributes W) (aim : VertexData W) :
    Option (VertexData W) :=
  match attr.normal with
  | some normal0 :: _ =>
    let mNormals := normal0.ExtractData_vec3
    match attr.tangent with
    | some tangent0 :: _ => do
      let tb ← importTangents aim.mNumVertices mNormals tangent0.ExtractData_tangent
      pure { aim with mNormals := mNormals, mTangents := some tb.1, mBitangents := some tb.2 }
    | _ => some { aim with mNormals := mNormals }
  | _ => some aim

/-- The loop of lines 484-486 on the array `values`, which is `none` for a
null pointer: the second coordinate of each of the first `mNumVertices`
elements is flipped. -/
def flipTexCoords {W : Type} [One W] [Sub W] (mNumVertices : Nat)
    (values : Option (List (aiVector3D W))) : Option (Option (List (aiVector3D W))) :=
  (List.range mNumVertices).foldlM
    (fun values i => do
      let values ← values
      let value ← values[i]?
      pure (some (values.set i { value with y := 1 - value.y })))
    values

/-- The loop over the texture coordinate channels, lines 473-487, on the
arrays `mTextureCoords` and `mNumUVComponents` of the output mesh.  The macro
`AI_MAX_NUMBER_OF_TEXTURECOORDS` is defined outside this file of the source and
is a parameter. -/
def importTexCoords {W : Type} [One W] [Sub W] (AI_MAX_NUMBER_OF_TEXTURECOORDS : Nat)
    (texcoord : List (Accessor W)) (aim : VertexData W) : Option (VertexData W) :=
  (List.range (min texcoord.length AI_MAX_NUMBER_OF_TEXTURECOORDS)).foldlM
    (fun aim tc => do
      let texcoord_tc ← texcoord[tc]?
      if texcoord_tc.count ≠ aim.mNumVertices then some aim
      else do
        let values ← flipTexCoords aim.mNumVertices texcoord_tc.ExtractData_vec3
        if tc < aim.mTextureCoords.length ∧ tc < aim.mNumUVComponents.length then
          pure
            { aim with
              mTextureCoords := aim.mTextureCoords.set tc values
              mNumUVComponents := aim.mNumUVComponents.set tc texcoord_tc.numComponents }
        else none)
    aim

/-- Modelled from the spec: `aiCreateAnimMesh` is declared in
`include/assimp/CreateAnimMesh.h`, outside this file of the source; it
allocates one animated-mesh copy initialized from the base mesh.  The weight
of a new animated mesh is 0. -/
def aiCreateAnimMesh {W : Type} [Zero W] (aim : VertexData W) : aiAnimMesh W :=
  { mNumVertices := aim.mNumVertices
    mVertices := aim.mVertices
    mNormals := aim.mNormals
    mTangents := aim.mTangents
    mBitangents := aim.mBitangents
    mWeight := 0 }

/-- The loops of lines 501-503 and 509-511: the delta `diff[vertexId]` is added
to element `vertexId` of the array `values`, for each `vertexId` below
`mNumVertices`.  Either array is `none` for a null pointer. -/
def addDiff {W : Type} [Add W] (mNumVertices : Nat) (diff : Option (List (aiVector3D W)))
    (values : Option (List (aiVector3D W))) : Option (Option (List (aiVector3D W))) :=
  (List.range mNumVertices).foldlM
    (fun values vertexId => do
      let values ← values
      let value ← values[vertexId]?
      let diff ← diff
      let delta ← diff[vertexId]?
      pure (some (values.set vertexId (value.add delta))))
    values

/-- The POSITION delta of a morph target, lines 498-505. -/
def targetPosition {W : Type} [Add W] (mNumVertices : Nat) (target : Primitive.Target W)
    (animMesh : aiAnimMesh W) : Option (aiAnimMesh W) :=
  if target.position.length > 0 then do
    let position0 ← target.position[0]?
    let mVertices ← addDiff mNumVertices position0.ExtractData_vec3 animMesh.mVertices
    pure { animMesh with mVertices := mVertices }
  else some animMesh

/-- The NORMAL delta of a morph target, lines 506-513. -/
def targetNormal {W : Type} [Add W] (mNumVertices : Nat) (target : Primitive.Target W)
    (animMesh : aiAnimMesh W) : Option (aiAnimMesh W) :=
  if target.normal.length > 0 then do
    let normal0 ← target.normal[0]?
    let mNormals ← addDiff mNumVertices normal0.ExtractData_vec3 animMesh.mNormals
    pure { animMesh with mNormals := mNormals }
  else some animMesh

/-- The loop of lines 521-525 on the arrays `mTangents` and `mBitangents` of
the animated mesh. -/
def addTangentDiff {W : Type} [Add W] [Mul W] [Sub W] (mNumVertices : Nat)
    (tangent : Option (List (Tangent W))) (tangentDiff : Option (List (aiVector3D W)))
    (mNormals : Option (List (aiVector3D W)))
    (arrays : Option (List (aiVector3D W)) × Option (List (aiVector3D W))) :
    Option (Option (List (aiVector3D W)) × Option (List (aiVector3D W))) :=
  (List.range mNumVertices).foldlM
    (fun arrays vertexId => do
      let tangent ← tangent
      let tangent_v ← tangent[vertexId]?
      let tangentDiff ← tangentDiff
      let delta ← tangentDiff[vertexId]?
      let xyz := tangent_v.xyz.add delta
      let mTangents ← arrays.1
      if vertexId < mTangents.length then do
        let mNormals ← mNormals
        let normal ← mNormals[vertexId]?
        let mBitangents ← arrays.2
        if vertexId < mBitangents.length then
          pure (some (mTangents.set vertexId xyz),
            some (mBitangents.set vertexId ((normal.cross xyz).scale tangent_v.w)))
        else none
      else none)
    arrays

/-- The TANGENT delta of a morph target, lines 514-528; `attr` are the
attributes of the base primitive. -/
def targetTangent {W : Type} [Add W] [Mul W] [Sub W] (mNumVertices : Nat)
    (attr : Attributes W) (target : Primitive.Target W) (animMesh : aiAnimMesh W) :
    Option (aiAnimMesh W) :=
  if target.tangent.length > 0 then do
    let tangent0 ← attr.tangent[0]?
    let tangent0 ← tangent0
    let tangent := tangent0.ExtractData_tangent
    let targetTangent0 ← target.tangent[0]?
    let tangentDiff := targetTangent0.ExtractData_vec3
    let arrays ← addTangentDiff mNumVertices tangent tangentDiff animMesh.mNormals
      (animMesh.mTangents, animMesh.mBitangents)
    pure { animMesh with mTangents := arrays.1, mBitangents := arrays.2 }
  else some animMesh

/-- The weight of the animated mesh of target `i`, lines 529-531. -/
def targetWeight {W : Type} (weights : List W) (i : Nat) (animMesh : aiAnimMesh W) :
    Option (aiAnimMesh W) :=
  if weights.length > i then do
    let weight ← weights[i]?
    pure { animMesh with mWeight := weight }
  else some animMesh

/-- One round of the loop over the morph targets, lines 494-531: the animated
mesh of target `i`. -/
def importTarget {W : Type} [Zero W] [Add W] [Mul W] [Sub W] (weights : List W)
    (attr : Attributes W) (aim : VertexData W) (i : Nat) (target : Primitive.Target W) :
    Option (aiAnimMesh W) := do
  let animMesh := aiCreateAnimMesh aim
  let animMesh ← targetPosition aim.mNumVertices target animMesh
  let animMesh ← targetNormal aim.mNumVertices target animMesh
  let animMesh ← targetTangent aim.mNumVertices attr target animMesh
  targetWeight weights i animMesh

/-- The animated meshes of a primitive, lines 488-533: the array
`aim->mAnimMeshes`, which stays empty without morph targets. -/
def importTargets {W : Type} [Zero W] [Add W] [Mul W] [Sub W] (weights : List W)
    (attr : Attributes W) (targets : List (Primitive.Target W)) (aim : VertexData W) :
    Option (List (aiAnimMesh W)) :=
  let numTargets := u32 targets.length
  if numTargets > 0 then
    (List.range numTargets).mapM
      (fun i => do
        let target ← targets[i]?
        importTarget weights attr aim i target)
  else some []

/-- The vertex data of the output mesh of a primitive, lines 435-533 without
the colour sets, which `importColors` embeds. -/
def importVertexData {W : Type} [Zero W] [One W] [Add W] [Mul W] [Sub W]
    (AI_MAX_NUMBER_OF_TEXTURECOORDS : Nat) (mesh : Mesh W) (prim : Primitive W) :
    Option (VertexData W) := do
  let attr := prim.attributes
  let aim : VertexData W :=
    { mNumVertices := vertexCount prim
      mVertices := importPositions attr
      mTextureCoords := List.replicate AI_MAX_NUMBER_OF_TEXTURECOORDS none
      mNumUVComponents := List.replicate AI_MAX_NUMBER_OF_TEXTURECOORDS 0 }
  let aim ← importNormals attr aim
  let aim ← importTexCoords AI_MAX_NUMBER_OF_TEXTURECOORDS attr.texcoord aim
  let mAnimMeshes ← importTargets mesh.weights attr prim.targets aim
  pure { aim with mAnimMeshes := mAnimMeshes }

/-- Modelled from the spec: the number of UV sets of a mesh.  The macro
`AI_MAX_NUMBER_OF_TEXTURECOORDS` is defined in `include/assimp/mesh.h`, outside
this file of the source, as `0x8`. -/
def AI_MAX_NUMBER_OF_TEXTURECOORDS : Nat := 8

/-- Modelled from the spec: the number of colour sets of a mesh.  The macro
`AI_MAX_NUMBER_OF_COLOR_SETS` is defined in `include/assimp/mesh.h`, outside
this file of the source, as `0x8`. -/
def AI_MAX_NUMBER_OF_COLOR_SETS : Nat := 8

/-- The array that `ExtractData` leaves in the pointer `aim->mColors[c]`, line
471, which holds the `count` default-constructed colours of line 470 before:
the `count` elements of the accessor, or the array of line 470 when the
accessor has no data.  A default-constructed `aiColor4D` has the components
0. -/
def Accessor.ExtractData_color4 {W : Type} [Zero W] (acc : Accessor W) : List (aiColor4D W) :=
  match acc.color4 with
  | some values => (List.range acc.count).map values
  | none => List.replicate acc.count { r := 0, g := 0, b := 0, a := 0 }

/-- The loop over the colour sets, lines 464-472, on the array `aim->mColors`
of an output mesh with `mNumVertices` vertices. -/
def importColors {W : Type} [Zero W] (color : List (Accessor W)) (mNumVertices : Nat)
    (mColors : List (Option (List (aiColor4D W)))) :
    Option (List (Option (List (aiColor4D W)))) :=
  (List.range (min color.length AI_MAX_NUMBER_OF_COLOR_SETS)).foldlM
    (fun mColors c => do
      let color_c ← color[c]?
      if color_c.count ≠ mNumVertices then some mColors
      else if c < mColors.length then some (mColors.set c (some color_c.ExtractData_color4))
      else none)
    mColors

/-- The delta accessors `delta` of a morph target can be added to the array
`values` of a mesh with `mNumVertices` vertices: when there is a delta
accessor, the first one has data with at least `mNumVertices` elements and the
array is there with at least `mNumVertices` elements. -/
def DeltaFits {W : Type} (mNumVertices : Nat) (delta : List (Accessor W))
    (values : Option (List (aiVector3D W))) : Prop :=
  ∀ acc rest, delta = acc :: rest →
    (∃ diff, acc.vec3 = some diff) ∧ mNumVertices ≤ acc.count ∧
    ∃ array, values = some array ∧ mNumVertices ≤ array.length

/-- The array `result` is the array `base` with the first delta accessor of
`delta` added for each vertex: without a delta accessor it is `base`, and with
one, element `v` of the result is element `v` of the base plus element `v` of
the delta for each of the `mNumVertices` vertices `v`. -/
def DeltaApplied {W : Type} [Add W] (mNumVertices : Nat) (delta : List (Accessor W))
    (base result : Option (List (aiVector3D W))) : Prop :=
  (delta = [] → result = base) ∧
  ∀ acc rest diff, delta = acc :: rest → acc.vec3 = some diff →
    ∃ baseArray resultArray, base = some baseArray ∧ result = some resultArray ∧
      resultArray.length = baseArray.length ∧
      ∀ v, v < mNumVertices →
        ∃ value, baseArray[v]? = some value ∧ resultArray[v]? = some (value.add (diff v))

/-- The deltas of a morph target fit the base mesh `aim` of a primitive with
the attributes `attr`: the POSITION and NORMAL deltas fit the positions and
normals of the base mesh, and when the target has a TANGENT delta, the delta
has data for every vertex, the base primitive has tangents with data for every
vertex, and the base mesh has normals, tangents and bitangents for every
vertex. -/
def TargetFits {W : Type} (attr : Attributes W) (aim : VertexData W)
    (target : Primitive.Target W) : Prop :=
  DeltaFits aim.mNumVertices target.position aim.mVertices ∧
  DeltaFits aim.mNumVertices target.normal aim.mNormals ∧
  ∀ acc rest, target.tangent = acc :: rest →
    (∃ diff, acc.vec3 = some diff) ∧ aim.mNumVertices ≤ acc.count ∧
    (∃ tangent0 others values, attr.tangent = some tangent0 :: others ∧
      tangent0.tangents = some values ∧ aim.mNumVertices ≤ tangent0.count) ∧
    (∃ array, aim.mNormals = some array ∧ aim.mNumVertices ≤ array.length) ∧
    (∃ array, aim.mTangents = some array ∧ aim.mNumVertices ≤ array.length) ∧
    (∃ array, aim.mBitangents = some array ∧ aim.mNumVertices ≤ array.length)

/-! ## Materials and meshes: `ImportMaterials`, `ImportMeshes` -/

/-- The function `ImportMaterials`, lines 335-347, on the array
`mScene->mMaterials` (an entry is `none` until it is assigned;
`mScene->mNumMaterials` is the length).  `ImportMaterial` is the translation
of one material and `defaultMaterial` the default-constructed `Material`. -/
def ImportMaterials {M A : Type} (ImportMaterial : M → A) (defaultMaterial : M)
    (materials : List M) : Option (List (Option A)) :=
  let numImportedMaterials := u32 materials.length
  let mNumMaterials := u32 (numImportedMaterials + 1)
  let mMaterials : List (Option A) := List.replicate mNumMaterials none
  if numImportedMaterials < mMaterials.length then
    forLoop 0 numImportedMaterials 1
      (fun i mMaterials => do
        let mat ← materials[i]?
        if i < mMaterials.length then
          some (mMaterials.set i (some (ImportMaterial mat)))
        else none)
      (mMaterials.set numImportedMaterials (some (ImportMaterial defaultMaterial)))
  else none

/-- The primitive-type flag of a mode, lines 416-433. -/
def primitiveTypeFlag : PrimitiveMode → aiPrimitiveType
  | PrimitiveMode_POINTS => aiPrimitiveType.aiPrimitiveType_POINT
  | PrimitiveMode_LINES => aiPrimitiveType.aiPrimitiveType_LINE
  | PrimitiveMode_LINE_LOOP => aiPrimitiveType.aiPrimitiveType_LINE
  | PrimitiveMode_LINE_STRIP => aiPrimitiveType.aiPrimitiveType_LINE
  | PrimitiveMode_TRIANGLES => aiPrimitiveType.aiPrimitiveType_TRIANGLE
  | PrimitiveMode_TRIANGLE_STRIP => aiPrimitiveType.aiPrimitiveType_TRIANGLE
  | PrimitiveMode_TRIANGLE_FAN => aiPrimitiveType.aiPrimitiveType_TRIANGLE

/-- The name of the output mesh of primitive `p`, lines 408-414.  The length
limit of `aiString` is not part of this embedding. -/
def meshName {W : Type} (mesh : Mesh W) (p : Nat) : String :=
  let mName := if mesh.name = "" then mesh.id else mesh.name
  if mesh.primitives.length > 1 then mName ++ "-" ++ ASSIMP_itoa10 p
  else mName

/-- The material index of the output mesh of a primitive, lines 694-699, for
the value `mNumMaterials` of `mScene->mNumMaterials`. -/
def materialIndex {W : Type} (mNumMaterials : Nat) (prim : Primitive W) : Nat :=
  match prim.material with
  | some index => index
  | none => u32sub mNumMaterials 1

/-- The body of the loop over the primitives of a mesh, lines 403-700: the
output mesh of primitive `p`, with its name (lines 408-414), its
primitive-type flag (lines 416-433), its vertex data, colour sets and animated
meshes (lines 435-533), its faces (lines 535-692) and its material index
(lines 694-699).  The macros `AI_MAX_NUMBER_OF_TEXTURECOORDS` and
`AI_MAX_NUMBER_OF_COLOR_SETS` are the constants above.  A fault of any of
these lines is a fault of the body. -/
def importPrimitive {W : Type} [Zero W] [One W] [Add W] [Mul W] [Sub W]
    (mNumMaterials : Nat) (mesh : Mesh W) (p : Nat) (prim : Primitive W) :
    Option (aiMesh W) := do
  let vertexData ← importVertexData AI_MAX_NUMBER_OF_TEXTURECOORDS mesh prim
  let mColors ← importColors prim.attributes.color vertexData.mNumVertices
    (List.replicate AI_MAX_NUMBER_OF_COLOR_SETS none)
  let faces ← assembleFaces prim.indices prim.mode vertexData.mNumVertices
  pure
    { toVertexData := vertexData
      mName := meshName mesh p
      mPrimitiveTypes := some (primitiveTypeFlag prim.mode)
      mColors := mColors
      mFaces := faces.toList
      mMaterialIndex := materialIndex mNumMaterials prim }

/-- The state of the loops of `ImportMeshes`: the member `meshOffsets`, the
counter `k` and the vector `meshes`. -/
structure MeshImportState (W : Type) where
  meshOffsets : List Nat
  k : Nat
  meshes : List (aiMesh W)

/-- The loop over the primitives of one mesh, lines 402-701. -/
def importMeshPrimitives {W : Type} [Zero W] [One W] [Add W] [Mul W] [Sub W]
    (mNumMaterials : Nat) (mesh : Mesh W) (meshes : List (aiMesh W)) :
    Option (List (aiMesh W)) :=
  forLoop 0 mesh.primitives.length 1
    (fun p meshes => do
      let prim ← mesh.primitives[p]?
      let aim ← importPrimitive mNumMaterials mesh p prim
      pure (meshes ++ [aim]))
    meshes

/-- The function `ImportMeshes`, lines 390-714, for the meshes `r.meshes` of
the asset and the value of the member `meshOffsets` at the call: the member
`meshOffsets` and the array `mScene->mMeshes` after it. -/
def ImportMeshes {W : Type} [Zero W] [One W] [Add W] [Mul W] [Sub W]
    (mNumMaterials : Nat) (rmeshes : List (Mesh W)) (meshOffsets : List Nat) :
    Option (List Nat × List (aiMesh W)) := do
  let st ← forLoop 0 rmeshes.length 1
    (fun m (st : MeshImportState W) => do
      let mesh ← rmeshes[m]?
      let meshes ← importMeshPrimitives mNumMaterials mesh st.meshes
      pure
        { meshOffsets := st.meshOffsets ++ [st.k]
          k := u32 (st.k + u32 mesh.primitives.length)
          meshes := meshes })
    { meshOffsets := meshOffsets, k := 0, meshes := [] }
  pure (st.meshOffsets ++ [st.k], st.meshes)

/-- The sum of the primitive counts of the meshes `0 .. k-1`. -/
def primitiveCountBefore {W : Type} (rmeshes : List (Mesh W)) (k : Nat) : Nat :=
  ((rmeshes.take k).map fun mesh => mesh.primitives.length).sum

/-- The concatenation, in the order of `meshes`, of the ranges
`meshOffsets[idx] .. meshOffsets[idx + 1] - 1`, as the specification words the
output-mesh list of a node. -/
def nodeMeshRanges (meshOffsets : List Nat) (meshes : List Nat) : List Nat :=
  meshes.flatMap fun idx =>
    List.range' (meshOffsets.getD idx 0)
      (meshOffsets.getD (idx + 1) 0 - meshOffsets.getD idx 0)

/-! ## The node tree: `ImportNode`, `ImportNodes` -/

/-- The output type `aiNode`.  A pointer to a node is its index in the memory
`aiScene.nodes`; `mNumChildren` and `mNumMeshes` are the lengths of
`mChildren` and `mMeshes`.  The transformation is embedded apart, in
`GetNodeTransform`. -/
structure aiNode where
  mName : String := ""
  mParent : Option Nat := none
  mChildren : List Nat := []
  mMeshes : List Nat := []
deriving DecidableEq, Repr

/-- The output type `aiCamera`, as far as node import writes it. -/
structure aiCamera where
  mName : String := ""
deriving DecidableEq, Repr

/-- The scene that node import works on: the memory of the `aiNode` objects
allocated so far (in the order of `new aiNode`), the root pointer
`mRootNode`, and the arrays `mMeshes` and `mCameras`. -/
structure aiScene (W : Type) where
  nodes : List aiNode := []
  mRootNode : Option Nat := none
  mMeshes : List (aiMesh W) := []
  mCameras : List aiCamera := []
deriving DecidableEq, Repr

/-- The output name of an input node, line 824: its name, or its id when the
name is empty. -/
def nameOrId (node : Node) : String :=
  if node.name = "" then node.id else node.name

/-- The assignments `child->mParent = parent` and
`parent->mChildren[parent->mNumChildren] = child` (lines 834-835 and
1058-1059) on the node memory. -/
def attachChild (nodes : List aiNode) (parent child : Nat) : List aiNode :=
  (nodes.modify (fun n => { n with mParent := some parent }) child).modify
    (fun n => { n with mChildren := n.mChildren ++ [child] }) parent

/-- The loop that imports the nodes `refs` with `importNode` and attaches each
result to `parent`, lines 832-836 and 1056-1060. -/
def importChildren {W : Type} (importNode : Nat → aiScene W → Option (Nat × aiScene W))
    (parent : Nat) (refs : List Nat) (pScene : aiScene W) : Option (aiScene W) :=
  refs.foldlM
    (fun pScene ref => do
      let res ← importNode ref pScene
      pure { res.2 with nodes := attachChild res.2.nodes parent res.1 })
    pScene

/-- The function `ImportNode`, lines 821-1040 (the branch without
`GVRF_ASSIMP`), on the node `ptr` of the asset: the pointer to the new node and
the scene after the call.  The first argument bounds the depth of the
recursion; `mesh_idx`, which the source does not declare, is a parameter that
may depend on the node. -/
def ImportNode {W : Type} [Zero W] [LT W] [DecidableRel (α := W) (· < ·)]
    (r : Asset W) (meshOffsets : List Nat) (mesh_idx : Node → Nat) :
    Nat → Nat → aiScene W → Option (Nat × aiScene W)
  | 0, _, _ => none
  | fuel + 1, ptr, pScene => do
    let node ← r.nodes[ptr]?
    let ainode := pScene.nodes.length
    let pScene := { pScene with nodes := pScene.nodes ++ [{ mName := nameOrId node }] }
    let pScene ← importChildren (ImportNode r meshOffsets mesh_idx fuel) ainode
      (node.children.take (u32 node.children.length)) pScene
    let res ← ImportNode_meshes r meshOffsets (mesh_idx node) node pScene.mMeshes
    let pScene :=
      { pScene with
        nodes := pScene.nodes.modify (fun n => { n with mMeshes := res.1 }) ainode
        mMeshes := res.2 }
    match node.camera with
    | none => pure (ainode, pScene)
    | some camera =>
      if camera < pScene.mCameras.length then
        pure (ainode,
          { pScene with
            mCameras := pScene.mCameras.modify (fun c => { c with mName := nameOrId node })
              camera })
      else none

/-- The function `ImportNodes`, lines 1042-1067: the scene after it.  The
first argument bounds the depth of the recursion of `ImportNode`. -/
def ImportNodes {W : Type} [Zero W] [LT W] [DecidableRel (α := W) (· < ·)]
    (r : Asset W) (meshOffsets : List Nat) (mesh_idx : Node → Nat) (fuel : Nat)
    (pScene : aiScene W) : Option (aiScene W) :=
  match r.scene with
  | none => some pScene
  | some scene =>
    let rootNodes := scene.nodes
    let numRootNodes := u32 rootNodes.length
    if numRootNodes = 1 then do
      let rootRef ← rootNodes[0]?
      let res ← ImportNode r meshOffsets mesh_idx fuel rootRef pScene
      pure { res.2 with mRootNode := some res.1 }
    else if numRootNodes > 1 then do
      let root := pScene.nodes.length
      let pScene := { pScene with nodes := pScene.nodes ++ [{ mName := "ROOT" }] }
      let pScene ← importChildren (ImportNode r meshOffsets mesh_idx fuel) root
        (rootNodes.take numRootNodes) pScene
      pure { pScene with mRootNode := some root }
    else some pScene

/-- The output node `a`, with the subtree below it, is the import of the input
node `ptr`: it carries the output name of `ptr`, it has as many children as
`ptr`, and child `i` is a later node whose parent is `a` and that is the import
of the `i`-th child of `ptr`.  The first argument bounds the depth. -/
def ImportedNode (rnodes : List Node) : Nat → List aiNode → Nat → Nat → Prop
  | 0, _, _, _ => False
  | fuel + 1, nodes, a, ptr =>
    ∃ node anode, rnodes[ptr]? = some node ∧ nodes[a]? = some anode ∧
      anode.mName = nameOrId node ∧
      anode.mChildren.length = node.children.length ∧
      ∀ (i cref : Nat), node.children[i]? = some cref →
        ∃ c cnode, anode.mChildren[i]? = some c ∧ a < c ∧ nodes[c]? = some cnode ∧
          cnode.mParent = some a ∧ ImportedNode rnodes fuel nodes c cref

/-- The camera names that `ImportNode` assigns for the node `ptr`, in the order
of the assignments: those of the children, child by child in list order, and
then the one of the node itself.  The first argument bounds the depth. -/
def cameraWrites (rnodes : List Node) : Nat → Nat → List (Nat × String)
  | 0, _ => []
  | fuel + 1, ptr =>
    match rnodes[ptr]? with
    | none => []
    | some node =>
      node.children.flatMap (cameraWrites rnodes fuel) ++
        match node.camera with
        | some camera => [(camera, nameOrId node)]
        | none => []

/-- The cameras after the assignments `writes`, made in order. -/
def replayCameraWrites (writes : List (Nat × String)) (cameras : List aiCamera) :
    List aiCamera :=
  writes.foldl (fun cameras w => cameras.modify (fun c => { c with mName := w.2 }) w.1)
    cameras

/-- The input node `ptr` can be imported within depth `fuel` into a scene with
`numMeshes` meshes and `numCameras` cameras: the node and the nodes below it
exist, no chain of children from `ptr` is longer than `fuel` (so none runs into
a cycle), the children counts fit `unsigned int`, mesh and skin binding of each
node stay in bounds, and the referenced cameras exist. -/
def Importable {W : Type} [Zero W] [LT W] [DecidableRel (α := W) (· < ·)]
    (r : Asset W) (meshOffsets : List Nat) (mesh_idx : Node → Nat)
    (numMeshes numCameras : Nat) : Nat → Nat → Prop
  | 0, _ => False
  | fuel + 1, ptr =>
    ∃ node, r.nodes[ptr]? = some node ∧ node.children.length < UINT_MOD ∧
      (∀ cref, cref ∈ node.children →
        Importable r meshOffsets mesh_idx numMeshes numCameras fuel cref) ∧
      (∀ meshes : List (aiMesh W), meshes.length = numMeshes →
        ∃ res, ImportNode_meshes r meshOffsets (mesh_idx node) node meshes = some res ∧
          res.2.length = numMeshes) ∧
      ∀ camera, node.camera = some camera → camera < numCameras

/-- The node memory `nodes'` keeps, from pointer `a` on, the names and the
children of `nodes`, and the parents of the nodes after `a`. -/
def NodesKept (a : Nat) (nodes nodes' : List aiNode) : Prop :=
  ∀ (i : Nat) (n : aiNode), a ≤ i → nodes[i]? = some n →
    ∃ n', nodes'[i]? = some n' ∧ n'.mName = n.mName ∧ n'.mChildren = n.mChildren ∧
      (a < i → n'.mParent = n.mParent)

/-- What a call `importNode ref s = some (c, s')` of a node import guarantees:
the new node is allocated at the end of the memory, the nodes allocated before
are left alone, the new node has no parent and is the import of `ref`, the
cameras are those after the camera assignments of `ref`, and the root pointer
is left alone. -/
def ImportContract {W : Type} (rnodes : List Node) (fuel : Nat)
    (importNode : Nat → aiScene W → Option (Nat × aiScene W)) : Prop :=
  ∀ (ref : Nat) (s : aiScene W) (c : Nat) (s' : aiScene W),
    importNode ref s = some (c, s') →
      c = s.nodes.length ∧ s.nodes.length < s'.nodes.length ∧
      (∀ i : Nat, i < s.nodes.length → s'.nodes[i]? = s.nodes[i]?) ∧
      ImportedNode rnodes fuel s'.nodes c ref ∧
      (∃ cn, s'.nodes[c]? = some cn ∧ cn.mParent = none) ∧
      s'.mCameras = replayCameraWrites (cameraWrites rnodes fuel ref) s.mCameras ∧
      s'.mRootNode = s.mRootNode

/-! ## Node transforms: `GetNodeTransform` -/

/-- The members of `aiMatrix4x4`. -/
structure aiMatrix4x4 (W : Type) where
  a1 : W
  a2 : W
  a3 : W
  a4 : W
  b1 : W
  b2 : W
  b3 : W
  b4 : W
  c1 : W
  c2 : W
  c3 : W
  c4 : W
  d1 : W
  d2 : W
  d3 : W
  d4 : W
deriving DecidableEq, Repr

/-- Modelled from the spec: the entry of a matrix in row `r` and column `c`.
In the member names of `aiMatrix4x4` the letter is the row (a to d) and the
digit is the column (1 to 4); the header that declares the members is not
among the sources at hand. -/
def aiMatrix4x4.entry {W : Type} (m : aiMatrix4x4 W) (r c : Fin 4) : W :=
  match r, c with
  | 0, 0 => m.a1
  | 0, 1 => m.a2
  | 0, 2 => m.a3
  | 0, 3 => m.a4
  | 1, 0 => m.b1
  | 1, 1 => m.b2
  | 1, 2 => m.b3
  | 1, 3 => m.b4
  | 2, 0 => m.c1
  | 2, 1 => m.c2
  | 2, 2 => m.c3
  | 2, 3 => m.c4
  | 3, 0 => m.d1
  | 3, 1 => m.d2
  | 3, 2 => m.d3
  | 3, 3 => m.d4

/-- The transform members of `glTF2::Node`; a `Nullable` member that is not
present is `none`, and `vec3`, `vec4`, `mat4` are arrays of 3, 4, 16 floats. -/
structure NodeTransform (W : Type) where
  matrix : Option (Fin 16 → W) := none
  translation : Option (Fin 3 → W) := none
  rotation : Option (Fin 4 → W) := none
  scale : Option (Fin 3 → W) := none

/-- The function `CopyValue(const glTF2::vec3&, aiVector3D&)`, lines 186-189. -/
def CopyValue_vec3 {W : Type} (v : Fin 3 → W) : aiVector3D W :=
  { x := v 0, y := v 1, z := v 2 }

/-- The function `CopyValue(const glTF2::vec4&, aiQuaternion&)`, lines 191-194. -/
def CopyValue_quat {W : Type} (v : Fin 4 → W) : aiQuaternion W :=
  { x := v 0, y := v 1, z := v 2, w := v 3 }

/-- The function `CopyValue(const glTF2::mat4&, aiMatrix4x4&)`, lines 196-202:
every member of the output is assigned. -/
def CopyValue_mat4 {W : Type} (v : Fin 16 → W) : aiMatrix4x4 W :=
  { a1 := v 0, b1 := v 1, c1 := v 2, d1 := v 3,
    a2 := v 4, b2 := v 5, c2 := v 6, d2 := v 7,
    a3 := v 8, b3 := v 9, c3 := v 10, d3 := v 11,
    a4 := v 12, b4 := v 13, c4 := v 14, d4 := v 15 }

/-- The matrix operations of assimp that `GetNodeTransform` calls and that the
sources at hand do not contain: the product `operator*`, the matrices made by
`aiMatrix4x4::Translation` and `aiMatrix4x4::Scaling`, and the matrix
`aiMatrix4x4(rot.GetMatrix())` of a quaternion. -/
structure MatrixOps (W : Type) where
  mul : aiMatrix4x4 W → aiMatrix4x4 W → aiMatrix4x4 W
  Translation : aiVector3D W → aiMatrix4x4 W
  ofQuaternion : aiQuaternion W → aiMatrix4x4 W
  Scaling : aiVector3D W → aiMatrix4x4 W

/-- The function `GetNodeTransform`, lines 744-771, as the value of `matrix`
after the call. -/
def GetNodeTransform {W : Type} (ops : MatrixOps W) (matrix : aiMatrix4x4 W)
    (node : NodeTransform W) : aiMatrix4x4 W :=
  match node.matrix with
  | some value => CopyValue_mat4 value
  | none =>
    let matrix :=
      match node.translation with
      | some value => ops.mul matrix (ops.Translation (CopyValue_vec3 value))
      | none => matrix
    let matrix :=
      match node.rotation with
      | some value => ops.mul matrix (ops.ofQuaternion (CopyValue_quat value))
      | none => matrix
    match node.scale with
    | some value => ops.mul matrix (ops.Scaling (CopyValue_vec3 value))
    | none => matrix

/-! ## Animations: `GatherSamplers` and the channels of `ImportAnimations` -/

/-- The values of `glTF2::AnimationPath` that the importer compares with. -/
inductive AnimationPath where
  | AnimationPath_TRANSLATION
  | AnimationPath_ROTATION
  | AnimationPath_SCALE
  | AnimationPath_WEIGHTS
deriving DecidableEq, Repr

/-- The members of `Animation::Target` that the importer reads; `node` is the
index of the referenced node. -/
structure Target where
  node : Nat
  path : AnimationPath
deriving DecidableEq, Repr

/-- The members of `Animation::Channel`; `sampler` is an `int`. -/
structure Channel where
  sampler : Int := -1
  target : Target
deriving DecidableEq, Repr

/-- The members of `glTF2::Animation` that the importer reads; `S` is the type
`Animation::Sampler`. -/
structure Animation (S : Type) where
  name : String := ""
  samplers : List S := []
  channels : List Channel := []

/-- The struct `AnimationSamplers`, lines 1298-1304.  A pointer
`&anim.samplers[k]` is the index `k`, and `nullptr` is `none`. -/
structure AnimationSamplers where
  translation : Option Int := none
  rotation : Option Int := none
  scale : Option Int := none
deriving DecidableEq, Repr

/-- The chain of assignments in lines 1398-1404 on the entry `sampler`. -/
def assignSampler (path : AnimationPath) (index : Int) (sampler : AnimationSamplers) :
    AnimationSamplers :=
  if path = AnimationPath.AnimationPath_TRANSLATION then
    { sampler with translation := some index }
  else if path = AnimationPath.AnimationPath_ROTATION then
    { sampler with rotation := some index }
  else if path = AnimationPath.AnimationPath_SCALE then
    { sampler with scale := some index }
  else sampler

/-- The access `samplers[key]` to a `std::unordered_map`, followed by the
update `f` of the entry referred to: an absent entry is first created with the
default value.  The map is the list of its entries in the order of their
creation; the order in which C++ iterates over the map is not specified. -/
def mapUpdate (samplers : List (Nat × AnimationSamplers)) (key : Nat)
    (f : AnimationSamplers → AnimationSamplers) : List (Nat × AnimationSamplers) :=
  if samplers.any (fun e => e.1 = key) then
    samplers.map (fun e => if e.1 = key then (e.1, f e.2) else e)
  else samplers ++ [(key, f {})]

/-- One round of the loop of `GatherSamplers`, lines 1390-1404, on the channel
`channel`; `numSamplers` is `static_cast<int>(anim.samplers.size())`. -/
def gatherChannel (numSamplers : Int) (samplers : List (Nat × AnimationSamplers))
    (channel : Channel) : List (Nat × AnimationSamplers) :=
  if channel.sampler ≥ numSamplers then samplers
  else
    let node_index := channel.target.node
    mapUpdate samplers node_index (assignSampler channel.target.path channel.sampler)

/-- The function `GatherSamplers`, lines 1386-1408. -/
def GatherSamplers {S : Type} (anim : Animation S) : Option (List (Nat × AnimationSamplers)) :=
  forLoop 0 anim.channels.length 1
    (fun c samplers => do
      let channel ← anim.channels[c]?
      pure (gatherChannel (i32 anim.samplers.length) samplers channel))
    []

/-- The channels of one animation, lines 1428-1438 of `ImportAnimations`:
`mNumChannels` and the array `mChannels`.  `CreateNodeAnim` is the function
that makes a channel from a node and its samplers; `N` is the type of the
nodes `r.nodes` as far as `CreateNodeAnim` reads them. -/
def importAnimationChannels {S CH N : Type} (CreateNodeAnim : N → AnimationSamplers → Option CH)
    (rnodes : List N) (anim : Animation S) : Option (Nat × List CH) := do
  let samplers ← GatherSamplers anim
  let mNumChannels := u32 samplers.length
  if mNumChannels > 0 then
    if samplers.length ≤ mNumChannels then do
      let mChannels ← samplers.mapM
        (fun iter => do
          let node ← rnodes[iter.1]?
          CreateNodeAnim node iter.2)
      pure (mNumChannels, mChannels)
    else none
  else pure (mNumChannels, [])

/-- The sampler of the last channel among `channels` that has a sampler index
below `numSamplers`, the target node `node` and the path `path`. -/
def lastSampler (numSamplers : Int) (channels : List Channel) (node : Nat)
    (path : AnimationPath) : Option Int :=
  ((channels.filter
    (fun ch => decide (ch.sampler < numSamplers) && decide (ch.target.node = node) &&
      decide (ch.target.path = path))).getLast?).map (fun ch => ch.sampler)

/-- The entry that the channels `channels` determine for the node `node`: for
each of the three paths the sampler of the last channel for it. -/
def gatheredEntry (numSamplers : Int) (channels : List Channel) (node : Nat) :
    AnimationSamplers :=
  { translation := lastSampler numSamplers channels node AnimationPath.AnimationPath_TRANSLATION
    rotation := lastSampler numSamplers channels node AnimationPath.AnimationPath_ROTATION
    scale := lastSampler numSamplers channels node AnimationPath.AnimationPath_SCALE }

/-! ## Animations: `CreateNodeAnim` and `ImportAnimations` -/

/-- The output type `aiVectorKey`. -/
structure aiVectorKey (W : Type) where
  mTime : W
  mValue : aiVector3D W
deriving DecidableEq, Repr

/-- The output type `aiQuatKey`. -/
structure aiQuatKey (W : Type) where
  mTime : W
  mValue : aiQuaternion W
deriving DecidableEq, Repr

/-- The output type `aiNodeAnim`; `mNumPositionKeys`, `mNumRotationKeys` and
`mNumScalingKeys` are the lengths of the key arrays. -/
structure aiNodeAnim (W : Type) where
  mNodeName : String := ""
  mPositionKeys : List (aiVectorKey W) := []
  mRotationKeys : List (aiQuatKey W) := []
  mScalingKeys : List (aiVectorKey W) := []
deriving DecidableEq, Repr

/-- The output type `aiMeshMorphKey`: the time and the array `mWeights`
(`mNumValuesAndWeights` is its length). -/
structure aiMeshMorphKey (W : Type) where
  mTime : W
  mWeights : List W := []
deriving DecidableEq, Repr

/-- The output type `aiMeshMorphAnim`, a morph-mesh channel (`mNumKeys` is the
length of `mKeys`). -/
structure aiMeshMorphAnim (W : Type) where
  mName : String := ""
  mKeys : List (aiMeshMorphKey W) := []
deriving DecidableEq, Repr

/-- The output type `aiAnimation`; `mNumChannels` is kept next to the array
`mChannels`, and `mNumMorphMeshChannels` next to the array
`mMorphMeshChannels`, which only the `GVRF_ASSIMP` build fills. -/
structure aiAnimation (W : Type) where
  mName : String := ""
  mDuration : W
  mTicksPerSecond : W
  mNumChannels : Nat := 0
  mChannels : List (aiNodeAnim W) := []
  mNumMorphMeshChannels : Nat := 0
  mMorphMeshChannels : List (aiMeshMorphAnim W) := []
deriving DecidableEq, Repr

/-- The type `Animation::Sampler` as `CreateNodeAnim` reads it: `inputCount` is
`input->count` (an `unsigned int`), `times` is the array that
`input->ExtractData(times)` yields, and `vec3Values`, `quatValues` are the
arrays that `output->ExtractData(values)` yields for `values` of type
`aiVector3D*` and `aiQuaternion*`.  `ExtractData` is not among the sources at
hand; an extraction that leaves the pointer null is the empty array. -/
structure Animation.Sampler (W : Type) where
  inputCount : Nat := 0
  times : List W := []
  vec3Values : List (aiVector3D W) := []
  quatValues : List (aiQuaternion W) := []
deriving DecidableEq, Repr

/-- The object that the pointer `&anim.samplers[index]` of an
`AnimationSamplers` entry points to; there is none for an index outside the
vector. -/
def derefSampler {S : Type} (samplers : List S) (index : Int) : Option S :=
  if index < 0 then none else samplers[index.toNat]?

/-- The constant `kMillisecondsFromSeconds`, line 1311. -/
def kMillisecondsFromSeconds {W : Type} [NatCast W] : W := ((1000 : Nat) : W)

/-- The loop of lines 1320-1323 and 1368-1371 with the assignments before it:
the `count` keys made from the times and the values of the sampler. -/
def vectorKeys {W : Type} [Mul W] [NatCast W] (sampler : Animation.Sampler W) :
    Option (List (aiVectorKey W)) :=
  let mNumKeys := sampler.inputCount
  (List.range mNumKeys).mapM
    (fun i => do
      let time ← sampler.times[i]?
      let value ← sampler.vec3Values[i]?
      pure { mTime := time * kMillisecondsFromSeconds, mValue := value })

/-- The value that lines 1344-1347 give to a rotation key with the source
quaternion `value`. -/
def rotationValue {W : Type} (value : aiQuaternion W) : aiQuaternion W :=
  { x := value.w, y := value.x, z := value.y, w := value.z }

/-- The loop of lines 1342-1348 with the assignments before it. -/
def quatKeys {W : Type} [Mul W] [NatCast W] (sampler : Animation.Sampler W) :
    Option (List (aiQuatKey W)) :=
  let mNumKeys := sampler.inputCount
  (List.range mNumKeys).mapM
    (fun i => do
      let time ← sampler.times[i]?
      let value ← sampler.quatValues[i]?
      pure { mTime := time * kMillisecondsFromSeconds, mValue := rotationValue value })

/-- The position keys of a channel, lines 1313-1333. -/
def positionKeys {W : Type} [Zero W] [Mul W] [NatCast W]
    (animSamplers : List (Animation.Sampler W)) (node : NodeTransform W)
    (samplers : AnimationSamplers) : Option (List (aiVectorKey W)) :=
  match samplers.translation with
  | some index => do
    let sampler ← derefSampler animSamplers index
    vectorKeys sampler
  | none =>
    match node.translation with
    | some value =>
      some [{ mTime := 0, mValue := { x := value 0, y := value 1, z := value 2 } }]
    | none => some []

/-- The rotation keys of a channel, lines 1335-1359. -/
def rotationKeys {W : Type} [Zero W] [Mul W] [NatCast W]
    (animSamplers : List (Animation.Sampler W)) (node : NodeTransform W)
    (samplers : AnimationSamplers) : Option (List (aiQuatKey W)) :=
  match samplers.rotation with
  | some index => do
    let sampler ← derefSampler animSamplers index
    quatKeys sampler
  | none =>
    match node.rotation with
    | some value =>
      some [{ mTime := 0,
              mValue := { x := value 0, y := value 1, z := value 2, w := value 3 } }]
    | none => some []

/-- The scaling keys of a channel, lines 1361-1381. -/
def scalingKeys {W : Type} [Zero W] [Mul W] [NatCast W]
    (animSamplers : List (Animation.Sampler W)) (node : NodeTransform W)
    (samplers : AnimationSamplers) : Option (List (aiVectorKey W)) :=
  match samplers.scale with
  | some index => do
    let sampler ← derefSampler animSamplers index
    vectorKeys sampler
  | none =>
    match node.scale with
    | some value =>
      some [{ mTime := 0, mValue := { x := value 0, y := value 1, z := value 2 } }]
    | none => some []

/-- The function `CreateNodeAnim`, lines 1306-1384.  The node is given by its
members `Node` and by its transform members; `animSamplers` is the vector
`anim.samplers` that the pointers of `samplers` point into. -/
def CreateNodeAnim {W : Type} [Zero W] [Mul W] [NatCast W]
    (animSamplers : List (Animation.Sampler W)) (node : Node × NodeTransform W)
    (samplers : AnimationSamplers) : Option (aiNodeAnim W) := do
  let mPositionKeys ← positionKeys animSamplers node.2 samplers
  let mRotationKeys ← rotationKeys animSamplers node.2 samplers
  let mScalingKeys ← scalingKeys animSamplers node.2 samplers
  pure
    { mNodeName := node.1.name
      mPositionKeys := mPositionKeys
      mRotationKeys := mRotationKeys
      mScalingKeys := mScalingKeys }

/-- One of the three blocks of lines 1444-1461: the time of the last key of a
non-empty key array replaces `maxDuration` when it is greater. -/
def lastKeyDuration {W : Type} [LT W] [DecidableRel (α := W) (· < ·)]
    (lastKeyTime : Option W) (maxDuration : W) : W :=
  match lastKeyTime with
  | some mTime => if mTime > maxDuration then mTime else maxDuration
  | none => maxDuration

/-- One round of the loop of lines 1442-1462 on the channel `chan`. -/
def channelDuration {W : Type} [LT W] [DecidableRel (α := W) (· < ·)]
    (maxDuration : W) (chan : aiNodeAnim W) : W :=
  let maxDuration :=
    lastKeyDuration (chan.mPositionKeys.getLast?.map (fun key => key.mTime)) maxDuration
  let maxDuration :=
    lastKeyDuration (chan.mRotationKeys.getLast?.map (fun key => key.mTime)) maxDuration
  lastKeyDuration (chan.mScalingKeys.getLast?.map (fun key => key.mTime)) maxDuration

/-- The loop of lines 1441-1462: the value of `maxDuration` after it. -/
def animationDuration {W : Type} [Zero W] [LT W] [DecidableRel (α := W) (· < ·)]
    (mNumChannels : Nat) (mChannels : List (aiNodeAnim W)) : Option W :=
  forLoop 0 mNumChannels 1
    (fun j maxDuration => do
      let chan ← mChannels[j]?
      pure (channelDuration maxDuration chan))
    0

/-- One round of the loop of `ImportAnimations`, lines 1421-1465: the output
animation for `anim`. -/
def ImportAnimation {W : Type} [Zero W] [Mul W] [NatCast W] [LT W]
    [DecidableRel (α := W) (· < ·)]
    (rnodes : List (Node × NodeTransform W)) (anim : Animation (Animation.Sampler W)) :
    Option (aiAnimation W) := do
  let channels ← importAnimationChannels (CreateNodeAnim anim.samplers) rnodes anim
  let maxDuration ← animationDuration channels.1 channels.2
  pure
    { mName := anim.name
      mDuration := maxDuration
      mTicksPerSecond := 0
      mNumChannels := channels.1
      mChannels := channels.2 }

/-- The function `ImportAnimations`, lines 1410-1467, on the array
`mScene->mAnimations` (`mNumAnimations` is its length); `scene` is `r.scene`
and `animations` is `r.animations`, whose `Size()` is an `unsigned int`. -/
def ImportAnimations {W : Type} [Zero W] [Mul W] [NatCast W] [LT W]
    [DecidableRel (α := W) (· < ·)]
    (scene : Option Scene) (rnodes : List (Node × NodeTransform W))
    (animations : List (Animation (Animation.Sampler W)))
    (mAnimations : List (aiAnimation W)) : Option (List (aiAnimation W)) :=
  match scene with
  | none => some mAnimations
  | some _ =>
    let mNumAnimations := u32 animations.length
    if mNumAnimations = 0 then some []
    else (animations.take mNumAnimations).mapM (ImportAnimation rnodes)

/-- The times of the last keys of the non-empty key arrays of the channels. -/
def lastKeyTimes {W : Type} (mChannels : List (aiNodeAnim W)) : List W :=
  mChannels.flatMap
    (fun chan =>
      (chan.mPositionKeys.getLast?.map (fun key => key.mTime)).toList ++
      (chan.mRotationKeys.getLast?.map (fun key => key.mTime)).toList ++
      (chan.mScalingKeys.getLast?.map (fun key => key.mTime)).toList)

/-! ## Embedded textures: `ImportEmbeddedTextures` -/

/-- The members of `glTF2::Image` that the importer reads.  `hasData` is the
result of `HasData()` and `dataLength` the result of `GetDataLength()`; both
functions are declared outside the sources at hand. -/
structure Image where
  uri : String := ""
  mimeType : String := ""
  hasData : Bool := false
  dataLength : Nat := 0
deriving DecidableEq, Repr

/-- The output type `aiTexture` without the pixel data; a new texture has the
width and height 0 and an empty format hint. -/
structure aiTexture where
  mWidth : Nat := 0
  mHeight : Nat := 0
  achFormatHint : String := ""
deriving DecidableEq, Repr

/-- The state that `ImportEmbeddedTextures` works on: the member
`embeddedTexIdxs` of the importer, and `mNumTextures` and the array
`mTextures` of the scene (a slot of the array is `none` until a texture is
stored in it). -/
structure TextureState where
  embeddedTexIdxs : List Int := []
  mNumTextures : Nat := 0
  mTextures : List (Option aiTexture) := []
deriving DecidableEq, Repr

/-- The call `v.resize(size, value)` of a `std::vector`. -/
def resize {α : Type} (v : List α) (size : Nat) (value : α) : List α :=
  v.take size ++ List.replicate (size - v.length) value

/-- The pointer `strchr(mimeType, '/') + 1` of line 1503 as the text it
points to, the text after the first slash; it is `none` when there is no
slash, where the pointer is `NULL + 1` and may not be read. -/
def afterSlash (mimeType : String) : Option String :=
  match mimeType.data.dropWhile (fun c => c != '/') with
  | [] => none
  | _ :: ext => some (String.mk ext)

/-- The format hint of a texture after lines 1502-1512; `achFormatHint` is the
hint before.  Lengths are counted in characters. -/
def formatHint (mimeType : String) (achFormatHint : String) : Option String :=
  if mimeType ≠ "" then do
    let ext ← afterSlash mimeType
    let ext := if ext = "jpeg" then "jpg" else ext
    let len := ext.length
    if len ≤ 3 then pure ext else pure achFormatHint
  else pure achFormatHint

/-- The second loop of `ImportEmbeddedTextures`, lines 1487-1514, from the image
index `i` on; `images` are the images from that index on. -/
def addEmbeddedTextures : Nat → List Image → TextureState → Option TextureState
  | _, [], st => some st
  | i, img :: images, st =>
    if !img.hasData then addEmbeddedTextures (i + 1) images st
    else do
      let idx : Int := i32 st.mNumTextures
      let mNumTextures := u32 (st.mNumTextures + 1)
      let embeddedTexIdxs ←
        if i < st.embeddedTexIdxs.length then some (st.embeddedTexIdxs.set i idx) else none
      let length := img.dataLength
      let hint ← formatHint img.mimeType ""
      let tex : aiTexture := { mWidth := u32 length, mHeight := 0, achFormatHint := hint }
      let mTextures ←
        if 0 ≤ idx ∧ idx.toNat < st.mTextures.length then
          some (st.mTextures.set idx.toNat (some tex))
        else none
      addEmbeddedTextures (i + 1) images
        { embeddedTexIdxs := embeddedTexIdxs, mNumTextures := mNumTextures,
          mTextures := mTextures }

/-- The function `ImportEmbeddedTextures`, lines 1470-1515; `images` is
`r.images`, whose `Size()` is an `unsigned int`. -/
def ImportEmbeddedTextures (images : List Image) (st : TextureState) : Option TextureState :=
  let size := u32 images.length
  let embeddedTexIdxs := resize st.embeddedTexIdxs size (-1)
  let numEmbeddedTexs : Int := i32 ((images.take size).countP (fun img => img.hasData))
  if numEmbeddedTexs = 0 then some { st with embeddedTexIdxs := embeddedTexIdxs }
  else if numEmbeddedTexs < 0 then none
  else
    addEmbeddedTextures 0 (images.take size)
      { embeddedTexIdxs := embeddedTexIdxs, mNumTextures := st.mNumTextures,
        mTextures := List.replicate numEmbeddedTexs.toNat none }

/-! ## Materials: `ImportMaterial` -/

/-- The values of `glTF2::SamplerWrap`: its four enumerators, and `other` for a
value of the underlying type that is none of them. -/
inductive SamplerWrap where
  | UNSET
  | Clamp_To_Edge
  | Mirrored_Repeat
  | Repeat
  | other (value : Nat)
deriving DecidableEq, Repr

/-- The values of `aiTextureMapMode`. -/
inductive aiTextureMapMode where
  | aiTextureMapMode_Wrap
  | aiTextureMapMode_Clamp
  | aiTextureMapMode_Decal
  | aiTextureMapMode_Mirror
deriving DecidableEq, Repr

/-- The function `ConvertWrappingMode`, lines 150-164. -/
def ConvertWrappingMode (gltfWrapMode : SamplerWrap) : aiTextureMapMode :=
  match gltfWrapMode with
  | SamplerWrap.Mirrored_Repeat => aiTextureMapMode.aiTextureMapMode_Mirror
  | SamplerWrap.Clamp_To_Edge => aiTextureMapMode.aiTextureMapMode_Clamp
  | SamplerWrap.UNSET => aiTextureMapMode.aiTextureMapMode_Wrap
  | SamplerWrap.Repeat => aiTextureMapMode.aiTextureMapMode_Wrap
  | SamplerWrap.other _ => aiTextureMapMode.aiTextureMapMode_Wrap

/-- The values of `aiTextureType` that the importer names. -/
inductive aiTextureType where
  | aiTextureType_NONE
  | aiTextureType_DIFFUSE
  | aiTextureType_SPECULAR
  | aiTextureType_EMISSIVE
  | aiTextureType_NORMALS
  | aiTextureType_LIGHTMAP
  | aiTextureType_UNKNOWN
deriving DecidableEq, Repr

/-- The property keys that the importer names, each by the macro that the
source writes.  The macros are defined in headers that are not among the
sources at hand; as names of properties, different macros are different keys.
The macros with the arguments `(type, N)` stand for their key alone here. -/
inductive MatKey where
  | AI_MATKEY_NAME
  | AI_MATKEY_COLOR_DIFFUSE
  | AI_MATKEY_COLOR_SPECULAR
  | AI_MATKEY_COLOR_EMISSIVE
  | AI_MATKEY_SHININESS
  | AI_MATKEY_TWOSIDED
  | AI_MATKEY_GLTF_PBRMETALLICROUGHNESS_BASE_COLOR_FACTOR
  | AI_MATKEY_GLTF_PBRMETALLICROUGHNESS_METALLIC_FACTOR
  | AI_MATKEY_GLTF_PBRMETALLICROUGHNESS_ROUGHNESS_FACTOR
  | AI_MATKEY_GLTF_ALPHAMODE
  | AI_MATKEY_GLTF_ALPHACUTOFF
  | AI_MATKEY_GLTF_PBRSPECULARGLOSSINESS
  | AI_MATKEY_GLTF_PBRSPECULARGLOSSINESS_GLOSSINESS_FACTOR
  | AI_MATKEY_GLTF_UNLIT
  | AI_MATKEY_TEXTURE
  | AI_MATKEY_GLTF_TEXTURE_TEXCOORD
  | AI_MATKEY_GLTF_MAPPINGNAME
  | AI_MATKEY_GLTF_MAPPINGID
  | AI_MATKEY_MAPPINGMODE_U
  | AI_MATKEY_MAPPINGMODE_V
  | AI_MATKEY_GLTF_MAPPINGFILTER_MAG
  | AI_MATKEY_GLTF_MAPPINGFILTER_MIN
  | AI_MATKEY_GLTF_TEXTURE_SCALE
  | AI_MATKEY_GLTF_TEXTURE_STRENGTH
deriving DecidableEq, Repr

/-- The value that an `AddProperty` call stores, by the type of its argument. -/
inductive aiPropertyValue (W : Type) where
  | aiString (value : String)
  | color (value : aiColor4D W)
  | float (value : W)
  | bool (value : Bool)
  | unsigned (value : Nat)
  | mapMode (value : aiTextureMapMode)
  | filter (value : Nat)
deriving DecidableEq, Repr

/-- One call `AddProperty(value, key, type, idx)` on a material. -/
structure aiMaterialProperty (W : Type) where
  mKey : MatKey
  mSemantic : aiTextureType
  mIndex : Nat
  value : aiPropertyValue W
deriving DecidableEq, Repr

/-- Modelled from the spec: `aiMaterial::AddProperty` is not among the sources
at hand; a material is the list of the properties added to it, in the order of
the calls. -/
def AddProperty {W : Type} (mat : List (aiMaterialProperty W)) (value : aiPropertyValue W)
    (key : MatKey) (type : aiTextureType) (idx : Nat) : List (aiMaterialProperty W) :=
  mat ++ [{ mKey := key, mSemantic := type, mIndex := idx, value := value }]

/-- The members of `glTF2::TextureInfo`; `texture` is `none` for a null `Ref`. -/
structure TextureInfo where
  texture : Option Nat := none
  index : Nat := 0
  texCoord : Nat := 0
deriving DecidableEq, Repr

/-- The type `glTF2::NormalTextureInfo`. -/
structure NormalTextureInfo (W : Type) extends TextureInfo where
  scale : W

/-- The type `glTF2::OcclusionTextureInfo`. -/
structure OcclusionTextureInfo (W : Type) extends TextureInfo where
  strength : W

/-- The type `glTF2::PbrMetallicRoughness`. -/
structure PbrMetallicRoughness (W : Type) where
  baseColorFactor : Fin 4 → W
  baseColorTexture : TextureInfo := {}
  metallicRoughnessTexture : TextureInfo := {}
  metallicFactor : W
  roughnessFactor : W

/-- The type `glTF2::PbrSpecularGlossiness`. -/
structure PbrSpecularGlossiness (W : Type) where
  diffuseFactor : Fin 4 → W
  specularFactor : Fin 3 → W
  glossinessFactor : W
  diffuseTexture : TextureInfo := {}
  specularGlossinessTexture : TextureInfo := {}

/-- The members of `glTF2::Material` that `ImportMaterial` reads; the
`Nullable` member `pbrSpecularGlossiness` is `none` when it is not present. -/
structure Material (W : Type) where
  name : String := ""
  pbrMetallicRoughness : PbrMetallicRoughness W
  normalTexture : NormalTextureInfo W
  occlusionTexture : OcclusionTextureInfo W
  emissiveTexture : TextureInfo := {}
  emissiveFactor : Fin 3 → W
  alphaMode : String := "OPAQUE"
  alphaCutoff : W
  doubleSided : Bool := false
  pbrSpecularGlossiness : Option (PbrSpecularGlossiness W) := none
  unlit : Bool := false

/-- The members of `glTF2::Texture`; a null `Ref` is `none`. -/
structure Texture where
  source : Option Nat := none
  sampler : Option Nat := none
deriving DecidableEq, Repr

/-- The members of `glTF2::Sampler`; a filter is `none` when it is `UNSET`. -/
structure Sampler where
  id : String := ""
  name : String := ""
  wrapS : SamplerWrap := SamplerWrap.UNSET
  wrapT : SamplerWrap := SamplerWrap.UNSET
  magFilter : Option Nat := none
  minFilter : Option Nat := none
deriving DecidableEq, Repr

/-- The collections `r.images`, `r.textures` and `r.samplers` of the asset. -/
structure TextureAsset where
  images : List Image := []
  textures : List Texture := []
  samplers : List Sampler := []
deriving DecidableEq, Repr

/-- The `(type, N)` pairs that the macros
`AI_MATKEY_GLTF_PBRMETALLICROUGHNESS_BASE_COLOR_TEXTURE` and
`AI_MATKEY_GLTF_PBRMETALLICROUGHNESS_METALLICROUGHNESS_TEXTURE` stand for; the
header that defines them is not among the sources at hand. -/
structure PbrTextureSlots where
  baseColorTexture : aiTextureType × Nat
  metallicRoughnessTexture : aiTextureType × Nat
deriving DecidableEq, Repr

/-- The function `CopyValue(const glTF2::vec4&, aiColor4D&)`, lines 171-174. -/
def CopyValue_color4 {W : Type} (v : Fin 4 → W) : aiColor4D W :=
  { r := v 0, g := v 1, b := v 2, a := v 3 }

/-- The function `CopyValue(const glTF2::vec3&, aiColor4D&)`, lines 181-184. -/
def CopyValue_color3 {W : Type} [One W] (v : Fin 3 → W) : aiColor4D W :=
  { r := v 0, g := v 1, b := v 2, a := 1 }

/-- The function `SetMaterialColorProperty` for a `vec4`, lines 204-209. -/
def SetMaterialColorProperty4 {W : Type} (prop : Fin 4 → W)
    (mat : List (aiMaterialProperty W)) (pKey : MatKey) (type : aiTextureType) (idx : Nat) :
    List (aiMaterialProperty W) :=
  let col := CopyValue_color4 prop
  AddProperty mat (aiPropertyValue.color col) pKey type idx

/-- The function `SetMaterialColorProperty` for a `vec3`, lines 211-216. -/
def SetMaterialColorProperty3 {W : Type} [One W] (prop : Fin 3 → W)
    (mat : List (aiMaterialProperty W)) (pKey : MatKey) (type : aiTextureType) (idx : Nat) :
    List (aiMaterialProperty W) :=
  let col := CopyValue_color3 prop
  AddProperty mat (aiPropertyValue.color col) pKey type idx

/-- Modelled from the spec: `ASSIMP_itoa10` on an `int`; it writes a minus
sign before the decimal representation of a negative number. -/
def ASSIMP_itoa10_int (number : Int) : String :=
  if number < 0 then "-" ++ ASSIMP_itoa10 (-number).toNat else ASSIMP_itoa10 number.toNat

/-- The texture reference string of lines 221-228: the URI of the image as an
`aiString`, or `*` and the decimal representation of `texIdx` when `texIdx` is
not `-1`.  Modelled from the spec: the `aiString` made from the URI is the URI
itself; the type is declared outside the sources at hand. -/
def textureUri (uri : String) (texIdx : Int) : String :=
  if texIdx ≠ -1 then "*" ++ ASSIMP_itoa10_int texIdx else uri

/-- The properties that lines 233-252 add for the sampler of a texture. -/
def samplerProperties {W : Type} (sampler : Sampler) (mat : List (aiMaterialProperty W))
    (texType : aiTextureType) (texSlot : Nat) : List (aiMaterialProperty W) :=
  let mat := AddProperty mat (aiPropertyValue.aiString sampler.name)
    MatKey.AI_MATKEY_GLTF_MAPPINGNAME texType texSlot
  let mat := AddProperty mat (aiPropertyValue.aiString sampler.id)
    MatKey.AI_MATKEY_GLTF_MAPPINGID texType texSlot
  let wrapS := ConvertWrappingMode sampler.wrapS
  let wrapT := ConvertWrappingMode sampler.wrapT
  let mat := AddProperty mat (aiPropertyValue.mapMode wrapS)
    MatKey.AI_MATKEY_MAPPINGMODE_U texType texSlot
  let mat := AddProperty mat (aiPropertyValue.mapMode wrapT)
    MatKey.AI_MATKEY_MAPPINGMODE_V texType texSlot
  let mat :=
    match sampler.magFilter with
    | some magFilter => AddProperty mat (aiPropertyValue.filter magFilter)
        MatKey.AI_MATKEY_GLTF_MAPPINGFILTER_MAG texType texSlot
    | none => mat
  match sampler.minFilter with
  | some minFilter => AddProperty mat (aiPropertyValue.filter minFilter)
      MatKey.AI_MATKEY_GLTF_MAPPINGFILTER_MIN texType texSlot
  | none => mat

/-- The function `SetMaterialTextureProperty` for a `TextureInfo`, lines
218-256.  A `Ref` is read through the collection it refers to. -/
def SetMaterialTextureProperty {W : Type} (embeddedTexIdxs : List Int) (r : TextureAsset)
    (prop : TextureInfo) (mat : List (aiMaterialProperty W)) (texType : aiTextureType)
    (texSlot : Nat) : Option (List (aiMaterialProperty W)) :=
  match prop.texture with
  | none => some mat
  | some textureRef => do
    let texture ← r.textures[textureRef]?
    match texture.source with
    | none => some mat
    | some sourceRef => do
      let source ← r.images[sourceRef]?
      let texIdx ← embeddedTexIdxs[sourceRef]?
      let uri := textureUri source.uri texIdx
      let mat := AddProperty mat (aiPropertyValue.aiString uri)
        MatKey.AI_MATKEY_TEXTURE texType texSlot
      let mat := AddProperty mat (aiPropertyValue.unsigned prop.texCoord)
        MatKey.AI_MATKEY_GLTF_TEXTURE_TEXCOORD texType texSlot
      match texture.sampler with
      | none => some mat
      | some samplerRef => do
        let sampler ← r.samplers[samplerRef]?
        some (samplerProperties sampler mat texType texSlot)

/-- The condition `prop.texture && prop.texture->source` of lines 262 and 271,
read after the call of line 260 or 269 has returned. -/
def hasSource (r : TextureAsset) (prop : TextureInfo) : Option Bool :=
  match prop.texture with
  | none => some false
  | some textureRef => do
    let texture ← r.textures[textureRef]?
    some texture.source.isSome

/-- The function `SetMaterialTextureProperty` for a `NormalTextureInfo`, lines
258-265. -/
def SetMaterialTextureProperty_normal {W : Type} (embeddedTexIdxs : List Int)
    (r : TextureAsset) (prop : NormalTextureInfo W) (mat : List (aiMaterialProperty W))
    (texType : aiTextureType) (texSlot : Nat) : Option (List (aiMaterialProperty W)) := do
  let mat ← SetMaterialTextureProperty embeddedTexIdxs r prop.toTextureInfo mat texType texSlot
  let present ← hasSource r prop.toTextureInfo
  if present then
    some (AddProperty mat (aiPropertyValue.float prop.scale)
      MatKey.AI_MATKEY_GLTF_TEXTURE_SCALE texType texSlot)
  else some mat

/-- The function `SetMaterialTextureProperty` for an `OcclusionTextureInfo`,
lines 267-274. -/
def SetMaterialTextureProperty_occlusion {W : Type} (embeddedTexIdxs : List Int)
    (r : TextureAsset) (prop : OcclusionTextureInfo W) (mat : List (aiMaterialProperty W))
    (texType : aiTextureType) (texSlot : Nat) : Option (List (aiMaterialProperty W)) := do
  let mat ← SetMaterialTextureProperty embeddedTexIdxs r prop.toTextureInfo mat texType texSlot
  let present ← hasSource r prop.toTextureInfo
  if present then
    some (AddProperty mat (aiPropertyValue.float prop.strength)
      MatKey.AI_MATKEY_GLTF_TEXTURE_STRENGTH texType texSlot)
  else some mat

/-- The block of lines 312-327 of `ImportMaterial` for a present
`pbrSpecularGlossiness`. -/
def specularGlossinessProperties {W : Type} [One W] [Mul W] [NatCast W]
    (embeddedTexIdxs : List Int) (r : TextureAsset) (pbrSG : PbrSpecularGlossiness W)
    (aimat : List (aiMaterialProperty W)) : Option (List (aiMaterialProperty W)) := do
  let aimat := AddProperty aimat (aiPropertyValue.bool true)
    MatKey.AI_MATKEY_GLTF_PBRSPECULARGLOSSINESS aiTextureType.aiTextureType_NONE 0
  let aimat := SetMaterialColorProperty4 pbrSG.diffuseFactor aimat
    MatKey.AI_MATKEY_COLOR_DIFFUSE aiTextureType.aiTextureType_NONE 0
  let aimat := SetMaterialColorProperty3 pbrSG.specularFactor aimat
    MatKey.AI_MATKEY_COLOR_SPECULAR aiTextureType.aiTextureType_NONE 0
  let glossinessAsShininess := pbrSG.glossinessFactor * ((1000 : Nat) : W)
  let aimat := AddProperty aimat (aiPropertyValue.float glossinessAsShininess)
    MatKey.AI_MATKEY_SHININESS aiTextureType.aiTextureType_NONE 0
  let aimat := AddProperty aimat (aiPropertyValue.float pbrSG.glossinessFactor)
    MatKey.AI_MATKEY_GLTF_PBRSPECULARGLOSSINESS_GLOSSINESS_FACTOR
    aiTextureType.aiTextureType_NONE 0
  let aimat ← SetMaterialTextureProperty embeddedTexIdxs r pbrSG.diffuseTexture aimat
    aiTextureType.aiTextureType_DIFFUSE 0
  SetMaterialTextureProperty embeddedTexIdxs r pbrSG.specularGlossinessTexture aimat
    aiTextureType.aiTextureType_SPECULAR 0

/-- The function `ImportMaterial`, lines 276-333. -/
def ImportMaterial {W : Type} [One W] [Sub W] [Mul W] [NatCast W]
    (slots : PbrTextureSlots) (embeddedTexIdxs : List Int) (r : TextureAsset)
    (mat : Material W) : Option (List (aiMaterialProperty W)) := do
  let aimat : List (aiMaterialProperty W) := []
  let aimat :=
    if mat.name ≠ "" then
      AddProperty aimat (aiPropertyValue.aiString mat.name) MatKey.AI_MATKEY_NAME
        aiTextureType.aiTextureType_NONE 0
    else aimat
  let aimat := SetMaterialColorProperty4 mat.pbrMetallicRoughness.baseColorFactor aimat
    MatKey.AI_MATKEY_COLOR_DIFFUSE aiTextureType.aiTextureType_NONE 0
  let aimat := SetMaterialColorProperty4 mat.pbrMetallicRoughness.baseColorFactor aimat
    MatKey.AI_MATKEY_GLTF_PBRMETALLICROUGHNESS_BASE_COLOR_FACTOR
    aiTextureType.aiTextureType_NONE 0
  let aimat ← SetMaterialTextureProperty embeddedTexIdxs r
    mat.pbrMetallicRoughness.baseColorTexture aimat aiTextureType.aiTextureType_DIFFUSE 0
  let aimat ← SetMaterialTextureProperty embeddedTexIdxs r
    mat.pbrMetallicRoughness.baseColorTexture aimat slots.baseColorTexture.1
    slots.baseColorTexture.2
  let aimat ← SetMaterialTextureProperty embeddedTexIdxs r
    mat.pbrMetallicRoughness.metallicRoughnessTexture aimat slots.metallicRoughnessTexture.1
    slots.metallicRoughnessTexture.2
  let aimat := AddProperty aimat (aiPropertyValue.float mat.pbrMetallicRoughness.metallicFactor)
    MatKey.AI_MATKEY_GLTF_PBRMETALLICROUGHNESS_METALLIC_FACTOR
    aiTextureType.aiTextureType_NONE 0
  let aimat := AddProperty aimat (aiPropertyValue.float mat.pbrMetallicRoughness.roughnessFactor)
    MatKey.AI_MATKEY_GLTF_PBRMETALLICROUGHNESS_ROUGHNESS_FACTOR
    aiTextureType.aiTextureType_NONE 0
  let roughnessAsShininess := 1 - mat.pbrMetallicRoughness.roughnessFactor
  let roughnessAsShininess :=
    roughnessAsShininess * (roughnessAsShininess * ((1000 : Nat) : W))
  let aimat := AddProperty aimat (aiPropertyValue.float roughnessAsShininess)
    MatKey.AI_MATKEY_SHININESS aiTextureType.aiTextureType_NONE 0
  let aimat ← SetMaterialTextureProperty_normal embeddedTexIdxs r mat.normalTexture aimat
    aiTextureType.aiTextureType_NORMALS 0
  let aimat ← SetMaterialTextureProperty_occlusion embeddedTexIdxs r mat.occlusionTexture aimat
    aiTextureType.aiTextureType_LIGHTMAP 0
  let aimat ← SetMaterialTextureProperty embeddedTexIdxs r mat.emissiveTexture aimat
    aiTextureType.aiTextureType_EMISSIVE 0
  let aimat := SetMaterialColorProperty3 mat.emissiveFactor aimat
    MatKey.AI_MATKEY_COLOR_EMISSIVE aiTextureType.aiTextureType_NONE 0
  let aimat := AddProperty aimat (aiPropertyValue.bool mat.doubleSided)
    MatKey.AI_MATKEY_TWOSIDED aiTextureType.aiTextureType_NONE 0
  let aimat := AddProperty aimat (aiPropertyValue.aiString mat.alphaMode)
    MatKey.AI_MATKEY_GLTF_ALPHAMODE aiTextureType.aiTextureType_NONE 0
  let aimat := AddProperty aimat (aiPropertyValue.float mat.alphaCutoff)
    MatKey.AI_MATKEY_GLTF_ALPHACUTOFF aiTextureType.aiTextureType_NONE 0
  let aimat ←
    match mat.pbrSpecularGlossiness with
    | some pbrSG => specularGlossinessProperties embeddedTexIdxs r pbrSG aimat
    | none => some aimat
  let aimat :=
    if mat.unlit then
      AddProperty aimat (aiPropertyValue.bool mat.unlit) MatKey.AI_MATKEY_GLTF_UNLIT
        aiTextureType.aiTextureType_NONE 0
    else aimat
  pure aimat

/-- The number that a string of decimal digits denotes. -/
def readDecimal (digits : List Char) : Nat :=
  digits.foldl (fun acc c => acc * 10 + (c.toNat - 48)) 0

/-- The texture slot that a texture reference string `*<decimal>` names. -/
def readTextureSlot (uri : String) : Option Nat :=
  match uri.data with
  | '*' :: digits => some (readDecimal digits)
  | _ => none

/-- A texture reference can be followed: the texture exists and, when it has a
source, its image exists and has an entry in a table of `tableSize` entries,
and its sampler, when it has one, exists. -/
def textureResolves (tableSize : Nat) (r : TextureAsset) (prop : TextureInfo) : Bool :=
  match prop.texture with
  | none => true
  | some textureRef =>
    match r.textures[textureRef]? with
    | none => false
    | some texture =>
      match texture.source with
      | none => true
      | some sourceRef =>
        decide (sourceRef < r.images.length) && decide (sourceRef < tableSize) &&
          match texture.sampler with
          | none => true
          | some samplerRef => decide (samplerRef < r.samplers.length)

/-- The keys of the properties that the `SetMaterialTextureProperty` functions
add. -/
def isTextureKey : MatKey → Bool
  | MatKey.AI_MATKEY_TEXTURE => true
  | MatKey.AI_MATKEY_GLTF_TEXTURE_TEXCOORD => true
  | MatKey.AI_MATKEY_GLTF_MAPPINGNAME => true
  | MatKey.AI_MATKEY_GLTF_MAPPINGID => true
  | MatKey.AI_MATKEY_MAPPINGMODE_U => true
  | MatKey.AI_MATKEY_MAPPINGMODE_V => true
  | MatKey.AI_MATKEY_GLTF_MAPPINGFILTER_MAG => true
  | MatKey.AI_MATKEY_GLTF_MAPPINGFILTER_MIN => true
  | MatKey.AI_MATKEY_GLTF_TEXTURE_SCALE => true
  | MatKey.AI_MATKEY_GLTF_TEXTURE_STRENGTH => true
  | _ => false

/-- The values added to a material under the key `key`, in the order of the
calls. -/
def propertyValues {W : Type} (aimat : List (aiMaterialProperty W)) (key : MatKey) :
    List (aiPropertyValue W) :=
  (aimat.filter (fun p => decide (p.mKey = key))).map (fun p => p.value)

/-- The properties of a material whose key is not a texture key. -/
def nonTextureProperties {W : Type} (aimat : List (aiMaterialProperty W)) :
    List (aiMaterialProperty W) :=
  aimat.filter (fun p => !isTextureKey p.mKey)

/-- A property without texture type and index. -/
def plainProperty {W : Type} (key : MatKey) (value : aiPropertyValue W) :
    aiMaterialProperty W :=
  { mKey := key, mSemantic := aiTextureType.aiTextureType_NONE, mIndex := 0, value := value }

/-- The properties that the block for a present `pbrSpecularGlossiness` adds
under other than texture keys, in order. -/
def specularGlossinessPlain {W : Type} [One W] [Mul W] [NatCast W]
    (pbrSG : PbrSpecularGlossiness W) : List (aiMaterialProperty W) :=
  [ plainProperty MatKey.AI_MATKEY_GLTF_PBRSPECULARGLOSSINESS (aiPropertyValue.bool true),
    plainProperty MatKey.AI_MATKEY_COLOR_DIFFUSE
      (aiPropertyValue.color (CopyValue_color4 pbrSG.diffuseFactor)),
    plainProperty MatKey.AI_MATKEY_COLOR_SPECULAR
      (aiPropertyValue.color (CopyValue_color3 pbrSG.specularFactor)),
    plainProperty MatKey.AI_MATKEY_SHININESS
      (aiPropertyValue.float (pbrSG.glossinessFactor * ((1000 : Nat) : W))),
    plainProperty MatKey.AI_MATKEY_GLTF_PBRSPECULARGLOSSINESS_GLOSSINESS_FACTOR
      (aiPropertyValue.float pbrSG.glossinessFactor) ]

/-- The properties that `ImportMaterial` adds under other than texture keys, in
order. -/
def materialPlain {W : Type} [One W] [Sub W] [Mul W] [NatCast W] (mat : Material W) :
    List (aiMaterialProperty W) :=
  (if mat.name ≠ "" then
      [plainProperty MatKey.AI_MATKEY_NAME (aiPropertyValue.aiString mat.name)]
    else []) ++
  [ plainProperty MatKey.AI_MATKEY_COLOR_DIFFUSE
      (aiPropertyValue.color (CopyValue_color4 mat.pbrMetallicRoughness.baseColorFactor)),
    plainProperty MatKey.AI_MATKEY_GLTF_PBRMETALLICROUGHNESS_BASE_COLOR_FACTOR
      (aiPropertyValue.color (CopyValue_color4 mat.pbrMetallicRoughness.baseColorFactor)),
    plainProperty MatKey.AI_MATKEY_GLTF_PBRMETALLICROUGHNESS_METALLIC_FACTOR
      (aiPropertyValue.float mat.pbrMetallicRoughness.metallicFactor),
    plainProperty MatKey.AI_MATKEY_GLTF_PBRMETALLICROUGHNESS_ROUGHNESS_FACTOR
      (aiPropertyValue.float mat.pbrMetallicRoughness.roughnessFactor),
    plainProperty MatKey.AI_MATKEY_SHININESS
      (aiPropertyValue.float
        ((1 - mat.pbrMetallicRoughness.roughnessFactor) *
          ((1 - mat.pbrMetallicRoughness.roughnessFactor) * ((1000 : Nat) : W)))),
    plainProperty MatKey.AI_MATKEY_COLOR_EMISSIVE
      (aiPropertyValue.color (CopyValue_color3 mat.emissiveFactor)),
    plainProperty MatKey.AI_MATKEY_TWOSIDED (aiPropertyValue.bool mat.doubleSided),
    plainProperty MatKey.AI_MATKEY_GLTF_ALPHAMODE (aiPropertyValue.aiString mat.alphaMode),
    plainProperty MatKey.AI_MATKEY_GLTF_ALPHACUTOFF (aiPropertyValue.float mat.alphaCutoff) ] ++
  (match mat.pbrSpecularGlossiness with
    | some pbrSG => specularGlossinessPlain pbrSG
    | none => []) ++
  (if mat.unlit then
      [plainProperty MatKey.AI_MATKEY_GLTF_UNLIT (aiPropertyValue.bool mat.unlit)]
    else [])

/-- Every texture reference of a material can be followed. -/
def materialResolves {W : Type} (tableSize : Nat) (r : TextureAsset) (mat : Material W) :
    Bool :=
  textureResolves tableSize r mat.pbrMetallicRoughness.baseColorTexture &&
  textureResolves tableSize r mat.pbrMetallicRoughness.metallicRoughnessTexture &&
  textureResolves tableSize r mat.normalTexture.toTextureInfo &&
  textureResolves tableSize r mat.occlusionTexture.toTextureInfo &&
  textureResolves tableSize r mat.emissiveTexture &&
  match mat.pbrSpecularGlossiness with
  | some pbrSG =>
    textureResolves tableSize r pbrSG.diffuseTexture &&
    textureResolves tableSize r pbrSG.specularGlossinessTexture
  | none => true

/-! ## The whole import: `InternReadFile` -/

/-- The members of the importer object that outlive a call of
`InternReadFile`: the tables `meshOffsets` and `embeddedTexIdxs`.  The
constructor, lines 116-122, leaves both empty. -/
structure Importer where
  meshOffsets : List Nat := []
  embeddedTexIdxs : List Int := []
deriving DecidableEq, Repr

/-- The asset as `InternReadFile` reads it once `asset.Load` has returned: the
meshes, nodes, skins and the scene (`core`), the transform members of the node
with a given index, the images, textures and samplers, the materials, the
number `r.cameras.Size()` of cameras and the animations. -/
structure LoadedAsset (W : Type) where
  core : Asset W := {}
  nodeTransform : Nat → NodeTransform W := fun _ => {}
  textures : TextureAsset := {}
  materials : List (Material W) := []
  numCameras : Nat := 0
  animations : List (Animation (Animation.Sampler W)) := []

/-- The output scene `aiScene` of `InternReadFile`: the flags, the textures
(`mNumTextures` and the array `mTextures`), the materials (`mNumMaterials` is
the length of `mMaterials`), the meshes, cameras and nodes (`graph`), and the
animations. -/
structure ImportedScene (W : Type) where
  mFlags : Nat := 0
  mNumTextures : Nat := 0
  mTextures : List (Option aiTexture) := []
  mMaterials : List (List (aiMaterialProperty W)) := []
  graph : aiScene W := {}
  mAnimations : List (aiAnimation W) := []
deriving DecidableEq, Repr

/-- Modelled from the spec: the flag bit `INCOMPLETE` of a scene.  The macro
`AI_SCENE_FLAGS_INCOMPLETE` is defined in `include/assimp/scene.h`, outside this
file of the source, as `0x1`. -/
def AI_SCENE_FLAGS_INCOMPLETE : Nat := 1

/-- The function `ImportCameras`, lines 716-742, on the array
`mScene->mCameras`: one new camera for each camera of the asset.  The lens
members of a camera, which are copied from the asset, are not part of this
embedding. -/
def ImportCameras (numCameras : Nat) (mCameras : List aiCamera) : List aiCamera :=
  if u32 numCameras = 0 then mCameras
  else List.replicate (u32 numCameras) {}

/-- The nodes `r.nodes` of an asset with their transform members, as
`CreateNodeAnim` reads them. -/
def LoadedAsset.nodes {W : Type} (asset : LoadedAsset W) : List (Node × NodeTransform W) :=
  asset.core.nodes.enum.map (fun entry => (entry.2, asset.nodeTransform entry.1))

/-- The function `InternReadFile`, lines 1517-1550, on the importer object
`self`, the loaded asset and the scene `pScene`: the importer object and the
scene after the call.  `slots` stands for the two material macros that are
defined outside this file of the source, `defaultMaterial` is the
default-constructed `Material`, `mesh_idx` is the variable of `ImportNode` that
has no declaration, and `fuel` bounds the depth of the recursion of
`ImportNode`.  A fault in the translation of one material is a fault of the
whole call.  The node import and the animation import are those of the text
without `GVRF_ASSIMP`. -/
def InternReadFile {W : Type} [Zero W] [One W] [Add W] [Sub W] [Mul W] [NatCast W] [LT W]
    [DecidableRel (α := W) (· < ·)]
    (slots : PbrTextureSlots) (defaultMaterial : Material W) (mesh_idx : Node → Nat)
    (fuel : Nat) (self : Importer) (asset : LoadedAsset W) (pScene : ImportedScene W) :
    Option (Importer × ImportedScene W) := do
  let textures ← ImportEmbeddedTextures asset.textures.images
    { embeddedTexIdxs := self.embeddedTexIdxs, mNumTextures := pScene.mNumTextures,
      mTextures := pScene.mTextures }
  let mMaterials ← ImportMaterials
    (ImportMaterial slots textures.embeddedTexIdxs asset.textures) defaultMaterial
    asset.materials
  let mMaterials ← mMaterials.mapM (fun aimat => aimat.join)
  let meshes ← ImportMeshes mMaterials.length asset.core.meshes self.meshOffsets
  let mNumMeshes := u32 meshes.2.length
  let mCameras := ImportCameras asset.numCameras pScene.graph.mCameras
  let graph ← ImportNodes asset.core meshes.1 mesh_idx fuel
    { pScene.graph with mMeshes := meshes.2, mCameras := mCameras }
  let mAnimations ← ImportAnimations asset.core.scene asset.nodes asset.animations
    pScene.mAnimations
  let mFlags :=
    if mNumMeshes = 0 then pScene.mFlags ||| AI_SCENE_FLAGS_INCOMPLETE else pScene.mFlags
  pure
    ({ meshOffsets := meshes.1, embeddedTexIdxs := textures.embeddedTexIdxs },
     { mFlags := mFlags
       mNumTextures := textures.mNumTextures
       mTextures := textures.mTextures
       mMaterials := mMaterials
       graph := graph
       mAnimations := mAnimations })

/-! ## The format check: `CanRead` -/

/-- The function `CanRead`, lines 133-148.  `GetExtension` belongs to
`BaseImporter` and the loading of an asset to `glTF2::Asset`, both outside this
file of the source: `Load handler pFile isBinary` is the member
`asset.asset.version` once `asset.Load(pFile, isBinary)` has returned for an
asset made from the handler, and `none` when `Load` throws.  A null
`pIOHandler` is `none`.  The result `none` is an exception that leaves
`CanRead`. -/
def CanRead {IOSystem : Type} (GetExtension : String → String)
    (Load : IOSystem → String → Bool → Option String) (pFile : String)
    (pIOHandler : Option IOSystem) : Option Bool :=
  let extension := GetExtension pFile
  if extension ≠ "gltf" ∧ extension ≠ "glb" then some false
  else
    match pIOHandler with
    | some handler => do
      let version ← Load handler pFile (extension == "glb")
      pure (decide (version ≠ "") && decide (version.data[0]? = some '2'))
    | none => some false

/-! ## Skinning in the `GVRF_ASSIMP` build: `ImportNode`, lines 861-966 -/

/-- Example WEIGHTS_0 data: two vertices. -/
def exampleWeightValues : Nat → Nat → Int :=
  fun v j => if v = 0 then [5, 0, 3, -1].getD j 0 else [0, 2, 2, 7].getD j 0

/-- Example JOINTS_0 data: two vertices; the last slot of vertex 1 names a
joint the skin does not have. -/
def exampleJointValues : Nat → Nat → Nat :=
  fun v j => if v = 0 then [0, 1, 1, 0].getD j 0 else [1, 1, 0, 9].getD j 0

/-- Example WEIGHTS_0 accessor. -/
def exampleWeights : Accessor Int :=
  { count := 2, elementSize := 16, weights := some exampleWeightValues }

/-- Example JOINTS_0 accessor, with 8-bit components. -/
def exampleJoints : Accessor Int :=
  { count := 2, elementSize := 4, indices8 := some exampleJointValues }

/-- Example primitive with WEIGHTS_0 and JOINTS_0. -/
def examplePrimitive : Primitive Int :=
  { attributes := { weight := [exampleWeights], joint := [exampleJoints] } }

/-- Example asset: mesh 0 has a skinned primitive and one without skin
attributes, mesh 1 has one primitive; node 0 is skinned with the joints node 1
(unnamed) and node 2. -/
def exampleAsset : Asset Int :=
  { meshes := [{ id := "mesh0", primitives := [examplePrimitive, {}] },
               { id := "mesh1", primitives := [{}] }],
    nodes := [{ id := "node0", name := "body", meshes := [0], skin := some 0 },
              { id := "node1" },
              { id := "node2", name := "hip" }],
    skins := [{ jointNames := [1, 2] }] }

/-- The skinned node of the example asset. -/
def exampleNode : Node := { id := "node0", name := "body", meshes := [0], skin := some 0 }

/-- The meshes of a three-mesh scene after skin binding of the example node. -/
def exampleSkinnedMeshes : List (aiMesh Int) :=
  [{ mBones := [{ mName := "bone_0",
                  mWeights := [{ mVertexId := 0, mWeight := 5 },
                               { mVertexId := 1, mWeight := 2 }] },
                { mName := "hip",
                  mWeights := [{ mVertexId := 0, mWeight := 3 },
                               { mVertexId := 1, mWeight := 2 }] }] },
   { mBones := [{ mName := "bone_0", mWeights := [{ mVertexId := 0, mWeight := 0 }] },
                { mName := "hip", mWeights := [{ mVertexId := 0, mWeight := 0 }] }] },
   {}]

/-! ## Example meshes -/

/-- Example meshes: mesh 0, named `quad`, has a POINTS primitive with material
1 and a TRIANGLES primitive without material; mesh 1 has no name, the id
`mesh1` and one LINE_STRIP primitive. -/
def exampleMeshes : List (Mesh Int) :=
  [{ id := "mesh0", name := "quad",
     primitives :=
       [{ mode := PrimitiveMode_POINTS, attributes := { position := [some { count := 2 }] },
          material := some 1 },
        { mode := PrimitiveMode_TRIANGLES,
          attributes := { position := [some { count := 3 }] } }] },
   { id := "mesh1",
     primitives :=
       [{ mode := PrimitiveMode_LINE_STRIP,
          attributes := { position := [some { count := 2 }] } }] }]

/-- The output meshes of the example meshes in a scene with three materials. -/
def exampleOutputMeshes : List (aiMesh Int) :=
  [{ mName := "quad-0", mPrimitiveTypes := some aiPrimitiveType.aiPrimitiveType_POINT,
     mNumVertices := 2, mTextureCoords := List.replicate 8 none,
     mNumUVComponents := List.replicate 8 0, mColors := List.replicate 8 none,
     mFaces := [SetFace1 0, SetFace1 1], mMaterialIndex := 1 },
   { mName := "quad-1", mPrimitiveTypes := some aiPrimitiveType.aiPrimitiveType_TRIANGLE,
     mNumVertices := 3, mTextureCoords := List.replicate 8 none,
     mNumUVComponents := List.replicate 8 0, mColors := List.replicate 8 none,
     mFaces := [SetFace3 0 1 2], mMaterialIndex := 2 },
   { mName := "mesh1", mPrimitiveTypes := some aiPrimitiveType.aiPrimitiveType_LINE,
     mNumVertices := 2, mTextureCoords := List.replicate 8 none,
     mNumUVComponents := List.replicate 8 0, mColors := List.replicate 8 none,
     mFaces := [SetFace2 0 1], mMaterialIndex := 2 }]

/-- An asset with the example meshes. -/
def exampleMeshAsset : Asset Int := { meshes := exampleMeshes }

/-- A node without skin that references mesh 1 and then mesh 0. -/
def exampleMeshNode : Node := { id := "node0", meshes := [1, 0] }

/-! ## An example node tree -/

/-- A scene with one root: node 0, named "A", has the children 1 and 2 and
camera 0; node 1 has no name, the id "n1", the child 3 and camera 0; the nodes
2 and 3, named "C" and "D", both have camera 1. -/
def exampleTreeAsset : Asset Int :=
  { nodes :=
      [ { id := "n0", name := "A", children := [1, 2], camera := some 0 },
        { id := "n1", children := [3], camera := some 0 },
        { id := "n2", name := "C", camera := some 1 },
        { id := "n3", name := "D", camera := some 1 } ]
    scene := some { nodes := [0] } }

/-- The nodes of `exampleTreeAsset` in a scene with the two roots 1 and 2. -/
def exampleForestAsset : Asset Int :=
  { exampleTreeAsset with scene := some { nodes := [1, 2] } }

/-- An output scene with two cameras and nothing else. -/
def exampleTreeScene : aiScene Int := { mCameras := [{}, {}] }

/-! ## Example animations -/

/-- An animation with two samplers (here the numbers 10 and 11) and five
channels: translation and rotation of node 2, a second translation of node 2,
a channel with the sampler index 2, which is not below the number of samplers,
and a `weights` channel of node 3. -/
def exampleAnimation : Animation Nat :=
  { name := "anim"
    samplers := [10, 11]
    channels :=
      [ { sampler := 0, target := { node := 2, path := AnimationPath.AnimationPath_TRANSLATION } },
        { sampler := 1, target := { node := 2, path := AnimationPath.AnimationPath_ROTATION } },
        { sampler := 1, target := { node := 2, path := AnimationPath.AnimationPath_TRANSLATION } },
        { sampler := 2, target := { node := 0, path := AnimationPath.AnimationPath_SCALE } },
        { sampler := 0, target := { node := 3, path := AnimationPath.AnimationPath_WEIGHTS } } ] }

/-- A stand-in for `CreateNodeAnim` that keeps the node name of the channel,
line 1309, and the samplers it was made from. -/
def exampleCreateNodeAnim (node : Node) (samplers : AnimationSamplers) :
    Option (String × AnimationSamplers) :=
  some (node.name, samplers)

/-! ## Example animations with keys -/

/-- Two samplers with non-decreasing times: three keys at the times 0, 1, 2
and two keys at the times 1 and 3. -/
def exampleKeySamplers : List (Animation.Sampler Int) :=
  [ { inputCount := 3
      times := [0, 1, 2]
      vec3Values := [⟨1, 2, 3⟩, ⟨4, 5, 6⟩, ⟨7, 8, 9⟩]
      quatValues := [⟨1, 2, 3, 4⟩, ⟨5, 6, 7, 8⟩, ⟨9, 10, 11, 12⟩] },
    { inputCount := 2
      times := [1, 3]
      vec3Values := [⟨1, 1, 1⟩, ⟨2, 2, 2⟩]
      quatValues := [⟨0, 0, 0, 1⟩, ⟨0, 0, 1, 0⟩] } ]

/-- An animation of node 0 (translation by sampler 0, rotation by sampler 1)
and of node 2 (scale by sampler 1). -/
def exampleKeyAnimation : Animation (Animation.Sampler Int) :=
  { name := "keys"
    samplers := exampleKeySamplers
    channels :=
      [ { sampler := 0, target := { node := 0, path := AnimationPath.AnimationPath_TRANSLATION } },
        { sampler := 1, target := { node := 0, path := AnimationPath.AnimationPath_ROTATION } },
        { sampler := 1, target := { node := 2, path := AnimationPath.AnimationPath_SCALE } } ] }

/-- The nodes of `exampleTreeAsset` with their transform members: node 0 has a
static scale, node 1 a static rotation, node 2 a static translation. -/
def exampleKeyNodes : List (Node × NodeTransform Int) :=
  exampleTreeAsset.nodes.zip
    [ { scale := some (fun _ => 2) },
      { rotation := some (fun i => i.val) },
      { translation := some (fun i => 10 + i.val) },
      {} ]

/-- A sampler whose times decrease: two keys at the times 1 and 0. -/
def exampleUnsortedSamplers : List (Animation.Sampler Int) :=
  [ { inputCount := 2
      times := [1, 0]
      vec3Values := [⟨1, 1, 1⟩, ⟨2, 2, 2⟩] } ]

/-- An animation that translates node 0 by the sampler with decreasing times. -/
def exampleUnsortedAnimation : Animation (Animation.Sampler Int) :=
  { name := "unsorted"
    samplers := exampleUnsortedSamplers
    channels :=
      [ { sampler := 0, target := { node := 0, path := AnimationPath.AnimationPath_TRANSLATION } } ] }

/-- The two channels that `exampleKeyAnimation` has on `exampleKeyNodes`. -/
def exampleKeyChannels : List (aiNodeAnim Int) :=
  [ { mNodeName := "A"
      mPositionKeys :=
        [ { mTime := 0, mValue := ⟨1, 2, 3⟩ }, { mTime := 1000, mValue := ⟨4, 5, 6⟩ },
          { mTime := 2000, mValue := ⟨7, 8, 9⟩ } ]
      mRotationKeys :=
        [ { mTime := 1000, mValue := { x := 0, y := 0, z := 0, w := 1 } },
          { mTime := 3000, mValue := { x := 0, y := 0, z := 1, w := 0 } } ]
      mScalingKeys := [{ mTime := 0, mValue := ⟨2, 2, 2⟩ }] },
    { mNodeName := "C"
      mPositionKeys := [{ mTime := 0, mValue := ⟨10, 11, 12⟩ }]
      mScalingKeys :=
        [ { mTime := 1000, mValue := ⟨1, 1, 1⟩ }, { mTime := 3000, mValue := ⟨2, 2, 2⟩ } ] } ]

/-! ## Example images -/

/-- Four images: an embedded PNG, an image given by its URI, an embedded JPEG
and an embedded WebP image. -/
def exampleImages : List Image :=
  [ { mimeType := "image/png", hasData := true, dataLength := 100 },
    { uri := "wood.png" },
    { mimeType := "image/jpeg", hasData := true, dataLength := 200 },
    { mimeType := "image/webp", hasData := true, dataLength := 300 } ]

/-! ## Example textures and materials -/

/-- The example images with two textures: texture 0 shows the embedded JPEG
image 2 through sampler 0, texture 1 shows the image 1, given by its URI. -/
def exampleTextureAsset : TextureAsset :=
  { images := exampleImages
    textures := [{ source := some 2, sampler := some 0 }, { source := some 1 }]
    samplers :=
      [ { id := "s0", wrapS := SamplerWrap.Mirrored_Repeat, wrapT := SamplerWrap.Repeat,
          magFilter := some 9729 } ] }

/-- The table of `ImportEmbeddedTextures` for the example images. -/
def exampleTexIdxs : List Int := [0, -1, 1, 2]

/-- A material with the base colour (5, 0, 0, 1), the roughness 3, the
texture 0 (an embedded image) as base colour texture and the texture 1 (an
image given by its URI) as normal texture. -/
def exampleMaterial : Material Int :=
  { name := "red"
    pbrMetallicRoughness :=
      { baseColorFactor := fun i => [5, 0, 0, 1].getD i.val 0
        baseColorTexture := { texture := some 0 }
        metallicFactor := 1
        roughnessFactor := 3 }
    normalTexture := { texture := some 1, scale := 2 }
    occlusionTexture := { strength := 1 }
    emissiveFactor := fun _ => 0
    alphaCutoff := 1 }

/-- The example material with the extension `pbrSpecularGlossiness`. -/
def exampleGlossyMaterial : Material Int :=
  { exampleMaterial with
    pbrSpecularGlossiness :=
      some { diffuseFactor := fun i => [7, 8, 9, 1].getD i.val 0
             specularFactor := fun i => [1, 2, 3].getD i.val 0
             glossinessFactor := 4 } }

/-- The `(type, N)` pairs of the two PBR texture macros in the examples. -/
def exampleSlots : PbrTextureSlots :=
  { baseColorTexture := (aiTextureType.aiTextureType_DIFFUSE, 1)
    metallicRoughnessTexture := (aiTextureType.aiTextureType_UNKNOWN, 0) }

/-! ## An example primitive with vertex data -/

/-- A primitive with three vertices: positions, normals, two texture
coordinate channels of which the second has only two elements, and two morph
targets, the first with a POSITION delta and the second with a NORMAL delta. -/
def exampleVertexPrimitive : Primitive Int :=
  { attributes :=
      { position := [some { count := 3, vec3 := some (fun i => ⟨i, 2 * i, 3 * i⟩) }]
        normal := [some { count := 3, vec3 := some (fun _ => ⟨0, 0, 1⟩) }]
        texcoord :=
          [ { count := 3, numComponents := 2, vec3 := some (fun i => ⟨i, 10 * i, 0⟩) },
            { count := 2, numComponents := 2, vec3 := some (fun i => ⟨i, i, 0⟩) },
            { count := 3, numComponents := 2, vec3 := some (fun i => ⟨5, i, 0⟩) } ] }
    targets :=
      [ { position := [{ count := 3, vec3 := some (fun i => ⟨100, 200 + i, 300⟩) }] },
        { normal := [{ count := 3, vec3 := some (fun i => ⟨1, i, 0⟩) }] } ] }

/-- A mesh with `exampleVertexPrimitive` and one weight. -/
def exampleVertexMesh : Mesh Int :=
  { id := "mesh0", primitives := [exampleVertexPrimitive], weights := [7] }

/-- A primitive with one vertex and without normals and tangents, whose only
morph target has a NORMAL delta. -/
def exampleNormalDeltaPrimitive : Primitive Int :=
  { attributes := { position := [some { count := 1, vec3 := some (fun _ => ⟨0, 0, 0⟩) }] }
    targets := [{ normal := [{ count := 1, vec3 := some (fun _ => ⟨0, 0, 1⟩) }] }] }

/-- A primitive with one vertex, with normals and without tangents, whose only
morph target has a TANGENT delta. -/
def exampleTangentDeltaPrimitive : Primitive Int :=
  { attributes :=
      { position := [some { count := 1, vec3 := some (fun _ => ⟨0, 0, 0⟩) }]
        normal := [some { count := 1, vec3 := some (fun _ => ⟨0, 0, 1⟩) }] }
    targets := [{ tangent := [{ count := 1, vec3 := some (fun _ => ⟨1, 0, 0⟩) }] }] }

/-- The base mesh of `exampleVertexPrimitive`: three vertices with positions
and normals. -/
def exampleVertexBase : VertexData Int :=
  { mNumVertices := 3
    mVertices := some [⟨0, 0, 0⟩, ⟨1, 2, 3⟩, ⟨2, 4, 6⟩]
    mNormals := some [⟨0, 0, 1⟩, ⟨0, 0, 1⟩, ⟨0, 0, 1⟩] }

/-- A mesh with the two primitives whose morph targets have a delta for an
attribute that the primitive does not have. -/
def exampleDeltaMesh : Mesh Int :=
  { id := "mesh1", primitives := [exampleNormalDeltaPrimitive, exampleTangentDeltaPrimitive] }

/-! ## Example assets for the whole import -/

/-- The default-constructed material of the examples. -/
def exampleDefaultMaterial : Material Int :=
  { pbrMetallicRoughness :=
      { baseColorFactor := fun _ => 1, metallicFactor := 1, roughnessFactor := 1 }
    normalTexture := { scale := 1 }
    occlusionTexture := { strength := 1 }
    emissiveFactor := fun _ => 0
    alphaCutoff := 0 }

/-- An asset `A`: one mesh with two primitives, one node that shows the mesh,
and one image with embedded data. -/
def exampleAssetA : LoadedAsset Int :=
  { core :=
      { meshes :=
          [ { id := "meshA"
              primitives :=
                [{ mode := PrimitiveMode_POINTS }, { mode := PrimitiveMode_POINTS }] } ]
        nodes := [{ id := "nodeA", meshes := [0] }]
        scene := some { nodes := [0] } }
    textures := { images := [{ mimeType := "image/png", hasData := true, dataLength := 4 }] } }

/-- An asset `B`: one mesh with one primitive, one node that shows the mesh,
one image without embedded data, and one material whose base colour texture
is that image. -/
def exampleAssetB : LoadedAsset Int :=
  { core :=
      { meshes := [{ id := "meshB", primitives := [{ mode := PrimitiveMode_POINTS }] }]
        nodes := [{ id := "nodeB", meshes := [0] }]
        scene := some { nodes := [0] } }
    textures :=
      { images := [{ uri := "wood.png" }]
        textures := [{ source := some 0 }] }
    materials :=
      [ { exampleDefaultMaterial with
          name := "wood"
          pbrMetallicRoughness :=
            { exampleDefaultMaterial.pbrMetallicRoughness with
              baseColorTexture := { texture := some 0 } } } ] }

/-- An asset without meshes: one node and nothing else. -/
def exampleAssetEmpty : LoadedAsset Int :=
  { core := { nodes := [{ id := "node0" }], scene := some { nodes := [0] } } }

/-! ## An example for `CanRead` -/

/-- A stand-in for `GetExtension` on the one path of the example, "model.obj":
the extension is "obj". -/
def exampleGetExtension (_pFile : String) : String := "obj"

/-- A stand-in for the loading of an asset: every path holds an asset of the
version "2.0". -/
def exampleLoad (_handler : Unit) (_pFile : String) (_isBinary : Bool) : Option String :=
  some "2.0"

/-! ## A skinned example asset for the `GVRF_ASSIMP` build -/

theorem u32_of_lt {n : Nat} (h : n < UINT_MOD) : u32 n = n := Nat.mod_eq_of_lt h

theorem u32sub_of_le {a b : Nat} (hb : b ≤ a) (ha : a < UINT_MOD) : u32sub a b = a - b := by
  simp only [u32sub, UINT_MOD] at *
  omega

/-- Invariant rule for `forLoopAux`: a body that succeeds, moves the counter
forward and keeps `P` runs to the end when the rounds suffice. -/
theorem forLoopAux_inv {σ : Type} (P : Nat → σ → Prop) (n step : Nat)
    (body : Nat → σ → Option σ)
    (hbody : ∀ i s, i < n → P i s →
      ∃ s', body i s = some s' ∧ i < u32 (i + step) ∧ P (u32 (i + step)) s') :
    ∀ fuel i s, n - i < fuel → P i s →
      ∃ j s', forLoopAux n step body fuel i s = some s' ∧ n ≤ j ∧ P j s' := by
  intro fuel
  induction fuel with
  | zero => intro i s h; omega
  | succ fuel ih =>
    intro i s hfuel hP
    by_cases hi : i < n
    · obtain ⟨s', hb, hlt, hP'⟩ := hbody i s hi hP
      obtain ⟨j, s'', hrun, hj, hPj⟩ := ih (u32 (i + step)) s' (by omega) hP'
      exact ⟨j, s'', by simp [forLoopAux, hi, hb, hrun], hj, hPj⟩
    · exact ⟨i, s, by simp [forLoopAux, hi], by omega, hP⟩

/-- Invariant rule for `forLoop`, with the postcondition `Q` that the invariant
gives once the counter has reached the bound. -/
theorem forLoop_post {σ : Type} (P : Nat → σ → Prop) (Q : σ → Prop) (a n step : Nat)
    (body : Nat → σ → Option σ) (s : σ) (h0 : P a s)
    (hbody : ∀ i s, i < n → P i s →
      ∃ s', body i s = some s' ∧ i < u32 (i + step) ∧ P (u32 (i + step)) s')
    (hQ : ∀ j s', n ≤ j → P j s' → Q s') :
    ∃ s', forLoop a n step body s = some s' ∧ Q s' := by
  obtain ⟨j, s', hrun, hj, hP⟩ :=
    forLoopAux_inv P n step body hbody (n + 1) a s (by omega) h0
  exact ⟨s', hrun, hQ j s' hj hP⟩

theorem facesIndexed_eq_facesWith (mode : PrimitiveMode) (data : Indexer) :
    facesIndexed mode data = facesWith data.GetUInt data.count mode := by
  cases mode <;> rfl

theorem some_bind_eq {α β : Type} (a : α) (f : α → Option β) : (some a >>= f) = f a := rfl

/-- A bind that returns: its first part returns, and the rest returns on that
value. -/
theorem bind_eq_some_elim {α β : Type} {x : Option α} {f : α → Option β} {b : β}
    (h : (x >>= f) = some b) : ∃ a, x = some a ∧ f a = some b := by
  cases x with
  | none => cases h
  | some a => exact ⟨a, rfl, h⟩

/-- Invariant rule for a fold that has returned. -/
theorem foldlM_some_inv {α σ : Type} (P : σ → Prop) (f : σ → α → Option σ)
    (h : ∀ s x s', P s → f s x = some s' → P s') :
    ∀ (l : List α) (s s' : σ), P s → l.foldlM f s = some s' → P s' := by
  intro l
  induction l with
  | nil =>
    intro s s' hP hrun
    rw [List.foldlM_nil] at hrun
    cases hrun
    exact hP
  | cons x xs ih =>
    intro s s' hP hrun
    rw [List.foldlM_cons] at hrun
    obtain ⟨s1, h1, hrun⟩ := bind_eq_some_elim hrun
    exact ih s1 s' (h s x s1 hP h1) hrun

theorem facesNoIndices_eq_facesWith (mode : PrimitiveMode) (count : Nat) :
    facesNoIndices mode count = facesWith some count mode := by
  cases mode
  · simp only [facesNoIndices, facesWith]; congr 1
  · simp only [facesNoIndices, facesWith]; congr 1
  · simp only [facesNoIndices, facesWith]; rw [some_bind_eq, some_bind_eq]; congr 1
  · simp only [facesNoIndices, facesWith]; rw [some_bind_eq, some_bind_eq]; congr 1
  · simp only [facesNoIndices, facesWith]; congr 1
  · simp only [facesNoIndices, facesWith]; congr 1
  · simp only [facesNoIndices, facesWith]
    rw [some_bind_eq, some_bind_eq, some_bind_eq]; congr 1

/-- Both paths of `assembleFaces` read the stream `stream indices` below
`streamCount indices`. -/
theorem assembleFaces_eq_facesWith (indices : Option Indexer) (mode : PrimitiveMode)
    (mNumVertices : Nat) :
    ∃ rd : Nat → Option Nat,
      assembleFaces indices mode mNumVertices
        = facesWith rd (streamCount indices mNumVertices) mode ∧
      ∀ k, k < streamCount indices mNumVertices → rd k = some (stream indices k) := by
  cases indices with
  | none =>
    exact ⟨some, facesNoIndices_eq_facesWith mode mNumVertices, fun k _ => rfl⟩
  | some data =>
    refine ⟨data.GetUInt, facesIndexed_eq_facesWith mode data, fun k hk => ?_⟩
    simp only [streamCount] at hk
    simp [Indexer.GetUInt, stream, hk]

/-! ## Face assembly by mode -/

theorem FaceArray.write_spec (faces : FaceArray) (i : Nat) (f : aiFace)
    (h : i < faces.size) :
    ∃ faces', faces.write i f = some faces' ∧ faces'.size = faces.size ∧
      ∀ k, faces'.elems k = if k = i then f else faces.elems k :=
  ⟨{ size := faces.size, elems := fun k => if k = i then f else faces.elems k },
    by simp only [FaceArray.write, h, if_true], rfl, fun _ => rfl⟩

theorem facesWith_triangle_strip (rd : Nat → Option Nat) (s : Nat → Nat) (count : Nat)
    (hrd : ∀ k, k < count → rd k = some (s k)) (h2 : 2 ≤ count) (hlt : count < UINT_MOD) :
    ∃ faces, facesWith rd count PrimitiveMode_TRIANGLE_STRIP = some faces ∧
      faces.size = count - 2 ∧
      ∀ i, i < count - 2 → faces.elems i =
        if (i + 1) % 2 = 0 then SetFace3 (s (i + 1)) (s i) (s (i + 2))
        else SetFace3 (s i) (s (i + 1)) (s (i + 2)) := by
  have hn : u32sub count 2 = count - 2 := u32sub_of_le h2 hlt
  simp only [facesWith, hn]
  apply forLoop_post
    (fun i faces => i ≤ count - 2 ∧ faces.size = count - 2 ∧
      ∀ k, k < i → faces.elems k =
        if (k + 1) % 2 = 0 then SetFace3 (s (k + 1)) (s k) (s (k + 2))
        else SetFace3 (s k) (s (k + 1)) (s (k + 2)))
  · exact ⟨by omega, rfl, fun k hk => by omega⟩
  · rintro i faces hi ⟨-, hsize, hP⟩
    have h1 : u32 (i + 1) = i + 1 := u32_of_lt (by omega)
    have h2 : u32 (i + 2) = i + 2 := u32_of_lt (by omega)
    have r0 := hrd i (by omega)
    have r1 := hrd (i + 1) (by omega)
    have r2 := hrd (i + 2) (by omega)
    obtain ⟨faces', hw, hs', he'⟩ := FaceArray.write_spec faces i
      (if (i + 1) % 2 = 0 then SetFace3 (s (i + 1)) (s i) (s (i + 2))
        else SetFace3 (s i) (s (i + 1)) (s (i + 2))) (by omega)
    refine ⟨faces', ?_, by omega, by omega, by omega, fun k hk => ?_⟩
    · rw [← hw]
      by_cases hpar : (i + 1) % 2 = 0 <;> simp [h1, h2, r0, r1, r2, hpar]
    · rw [he']
      by_cases hki : k = i
      · subst hki; simp
      · simp only [hki, if_false]
        exact hP k (by omega)
  · rintro j faces hj ⟨hle, hsize, hP⟩
    exact ⟨hsize, fun i hi => hP i (by omega)⟩

theorem FaceArray.index_eq (faces : FaceArray) (i j : Nat) (l : List Nat)
    (h : i < faces.size) (he : faces.elems i = { mIndices := l }) :
    faces.index i j = l[j]? := by
  simp only [FaceArray.index, h, if_true, he]

theorem facesWith_triangle_fan (rd : Nat → Option Nat) (s : Nat → Nat) (count : Nat)
    (hrd : ∀ k, k < count → rd k = some (s k)) (h3 : 3 ≤ count) (hlt : count < UINT_MOD) :
    ∃ faces, facesWith rd count PrimitiveMode_TRIANGLE_FAN = some faces ∧
      faces.size = count - 2 ∧
      ∀ i, i < count - 2 → faces.elems i = SetFace3 (s 0) (s (i + 1)) (s (i + 2)) := by
  have hn : u32sub count 2 = count - 2 := u32sub_of_le (by omega) hlt
  obtain ⟨faces0, hw0, hs0, he0⟩ := FaceArray.write_spec (newFaces (count - 2)) 0
    (SetFace3 (s 0) (s 1) (s 2)) (by simp only [newFaces]; omega)
  simp only [facesWith, hn, hrd 0 (by omega), hrd 1 (by omega), hrd 2 (by omega)]
  rw [some_bind_eq, some_bind_eq, some_bind_eq, hw0, some_bind_eq]
  apply forLoop_post
    (fun i faces => 1 ≤ i ∧ i ≤ count - 2 ∧ faces.size = count - 2 ∧
      ∀ k, k < i → faces.elems k = SetFace3 (s 0) (s (k + 1)) (s (k + 2)))
  · refine ⟨le_refl 1, by omega, by rw [hs0]; rfl, fun k hk => ?_⟩
    have hk0 : k = 0 := by omega
    subst hk0
    rw [he0]; rfl
  · rintro i faces hi ⟨h1i, -, hsize, hP⟩
    have hu2 : u32 (i + 2) = i + 2 := u32_of_lt (by omega)
    have hu1 : u32 (i + 1) = i + 1 := u32_of_lt (by omega)
    have hsub : u32sub i 1 = i - 1 := u32sub_of_le h1i (by omega)
    have r2 := hrd (i + 2) (by omega)
    have hp : faces.index 0 0 = some (s 0) :=
      FaceArray.index_eq faces 0 0 _ (by omega) (hP 0 (by omega))
    have hq : faces.index (i - 1) 2 = some (s (i - 1 + 2)) :=
      FaceArray.index_eq faces (i - 1) 2 _ (by omega) (hP (i - 1) (by omega))
    have hi1 : i - 1 + 2 = i + 1 := by omega
    rw [hi1] at hq
    obtain ⟨faces', hw, hs', he'⟩ := FaceArray.write_spec faces i
      (SetFace3 (s 0) (s (i + 1)) (s (i + 2))) (by omega)
    refine ⟨faces', ?_, by omega, by omega, by omega, by omega, fun k hk => ?_⟩
    · simp only [hsub, hu2, hp, hq, r2]
      rw [some_bind_eq, some_bind_eq, some_bind_eq, hw]
    · rw [he']
      by_cases hki : k = i
      · subst hki; simp only [if_true]
      · simp only [hki, if_false]
        exact hP k (by omega)
  · rintro j faces hj ⟨-, hle, hsize, hP⟩
    exact ⟨hsize, fun i hi => hP i (by omega)⟩

/-- The loop shared by LINE_STRIP and LINE_LOOP (lines 568-570 and 642-644),
run on an array of at least `count - 1` faces whose face 0 is `(s 0, s 1)`. -/
theorem line_strip_loop (rd : Nat → Option Nat) (s : Nat → Nat) (count n : Nat)
    (hrd : ∀ k, k < count → rd k = some (s k)) (h2 : 2 ≤ count) (hlt : count < UINT_MOD)
    (faces0 : FaceArray) (hn : count - 1 ≤ n) (hs0 : faces0.size = n)
    (he0 : faces0.elems 0 = SetFace2 (s 0) (s 1)) :
    ∃ faces,
      forLoop 2 count 1
        (fun i faces => do
          let p ← faces.index (u32sub i 2) 1
          let c ← rd i
          faces.write (u32sub i 1) (SetFace2 p c))
        faces0 = some faces ∧
      faces.size = n ∧
      ∀ k, k + 1 < count → faces.elems k = SetFace2 (s k) (s (k + 1)) := by
  apply forLoop_post
    (fun i faces => 2 ≤ i ∧ i ≤ count ∧ faces.size = n ∧
      ∀ k, k + 1 < i → faces.elems k = SetFace2 (s k) (s (k + 1)))
  · refine ⟨le_refl 2, h2, hs0, fun k hk => ?_⟩
    have hk0 : k = 0 := by omega
    subst hk0
    exact he0
  · rintro i faces hi ⟨h2i, -, hsize, hP⟩
    have hu1 : u32 (i + 1) = i + 1 := u32_of_lt (by omega)
    have hsub2 : u32sub i 2 = i - 2 := u32sub_of_le h2i (by omega)
    have hsub1 : u32sub i 1 = i - 1 := u32sub_of_le (by omega) (by omega)
    have ri := hrd i hi
    have hp : faces.index (i - 2) 1 = some (s (i - 2 + 1)) :=
      FaceArray.index_eq faces (i - 2) 1 _ (by omega) (hP (i - 2) (by omega))
    have hi1 : i - 2 + 1 = i - 1 := by omega
    rw [hi1] at hp
    obtain ⟨faces', hw, hs', he'⟩ := FaceArray.write_spec faces (i - 1)
      (SetFace2 (s (i - 1)) (s i)) (by omega)
    refine ⟨faces', ?_, by omega, by omega, by omega, by omega, fun k hk => ?_⟩
    · simp only [hsub1, hsub2, hp, ri]
      rw [some_bind_eq, some_bind_eq, hw]
    · rw [he']
      by_cases hki : k = i - 1
      · subst hki
        have hi2 : i - 1 + 1 = i := by omega
        simp only [if_true, hi2]
      · simp only [hki, if_false]
        exact hP k (by omega)
  · rintro j faces hj ⟨-, hle, hsize, hP⟩
    exact ⟨hsize, fun k hk => hP k (by omega)⟩

theorem facesWith_line_strip (rd : Nat → Option Nat) (s : Nat → Nat) (count : Nat)
    (hrd : ∀ k, k < count → rd k = some (s k)) (h2 : 2 ≤ count) (hlt : count < UINT_MOD) :
    ∃ faces, facesWith rd count PrimitiveMode_LINE_STRIP = some faces ∧
      faces.size = count - 1 ∧
      ∀ i, i < count - 1 → faces.elems i = SetFace2 (s i) (s (i + 1)) := by
  have hn : u32sub count 1 = count - 1 := u32sub_of_le (by omega) hlt
  obtain ⟨faces0, hw0, hs0, he0⟩ := FaceArray.write_spec (newFaces (count - 1)) 0
    (SetFace2 (s 0) (s 1)) (by simp only [newFaces]; omega)
  obtain ⟨faces, hrun, hsize, hP⟩ := line_strip_loop rd s count (count - 1) hrd h2 hlt
    faces0 (le_refl _) (by rw [hs0]; rfl) (by rw [he0]; rfl)
  refine ⟨faces, ?_, hsize, fun i hi => hP i (by omega)⟩
  simp only [facesWith, hn, hrd 0 (by omega), hrd 1 (by omega)]
  rw [some_bind_eq, some_bind_eq, hw0, some_bind_eq]
  exact hrun

theorem facesWith_line_loop (rd : Nat → Option Nat) (s : Nat → Nat) (count : Nat)
    (hrd : ∀ k, k < count → rd k = some (s k)) (h2 : 2 ≤ count) (hlt : count < UINT_MOD) :
    ∃ faces, facesWith rd count PrimitiveMode_LINE_LOOP = some faces ∧
      faces.size = count ∧
      (∀ i, i < count - 1 → faces.elems i = SetFace2 (s i) (s (i + 1))) ∧
      faces.elems (count - 1) = SetFace2 (s (count - 1)) (s 0) := by
  have hn : u32sub count 0 = count := by
    have := u32sub_of_le (Nat.zero_le count) hlt
    simpa using this
  have hsub2 : u32sub count 2 = count - 2 := u32sub_of_le h2 hlt
  have hsub1 : u32sub count 1 = count - 1 := u32sub_of_le (by omega) hlt
  obtain ⟨faces0, hw0, hs0, he0⟩ := FaceArray.write_spec (newFaces count) 0
    (SetFace2 (s 0) (s 1)) (by simp only [newFaces]; omega)
  obtain ⟨faces, hrun, hsize, hP⟩ := line_strip_loop rd s count count hrd h2 hlt
    faces0 (by omega) (by rw [hs0]; rfl) (by rw [he0]; rfl)
  have hp : faces.index (count - 2) 1 = some (s (count - 2 + 1)) :=
    FaceArray.index_eq faces (count - 2) 1 _ (by omega) (hP (count - 2) (by omega))
  have hc1 : count - 2 + 1 = count - 1 := by omega
  rw [hc1] at hp
  have hq : faces.index 0 0 = some (s 0) :=
    FaceArray.index_eq faces 0 0 _ (by omega) (hP 0 (by omega))
  obtain ⟨faces', hw, hs', he'⟩ := FaceArray.write_spec faces (count - 1)
    (SetFace2 (s (count - 1)) (s 0)) (by omega)
  refine ⟨faces', ?_, by omega, fun i hi => ?_, ?_⟩
  · simp only [facesWith, hn, hsub1, hsub2, hrd 0 (by omega), hrd 1 (by omega)]
    rw [some_bind_eq, some_bind_eq, hw0, some_bind_eq, hrun, some_bind_eq, hp, some_bind_eq,
      hq, some_bind_eq, hw]
  · rw [he']
    have hne : i ≠ count - 1 := by omega
    simp only [hne, if_false]
    exact hP i (by omega)
  · rw [he']
    simp only [if_true]

theorem facesWith_triangles (rd : Nat → Option Nat) (s : Nat → Nat) (count : Nat)
    (hrd : ∀ k, k < count → rd k = some (s k)) (h3 : count % 3 = 0)
    (hlt : count < UINT_MOD) :
    ∃ faces, facesWith rd count PrimitiveMode_TRIANGLES = some faces ∧
      faces.size = count / 3 ∧
      ∀ i, i < count / 3 →
        faces.elems i = SetFace3 (s (3 * i)) (s (3 * i + 1)) (s (3 * i + 2)) := by
  simp only [facesWith]
  apply forLoop_post
    (fun i faces => i % 3 = 0 ∧ i ≤ count ∧ faces.size = count / 3 ∧
      ∀ k, 3 * k < i →
        faces.elems k = SetFace3 (s (3 * k)) (s (3 * k + 1)) (s (3 * k + 2)))
  · exact ⟨rfl, Nat.zero_le _, rfl, fun k hk => by omega⟩
  · rintro i faces hi ⟨hmod, -, hsize, hP⟩
    have hu1 : u32 (i + 1) = i + 1 := u32_of_lt (by omega)
    have hu2 : u32 (i + 2) = i + 2 := u32_of_lt (by omega)
    have hu3 : u32 (i + 3) = i + 3 := u32_of_lt (by omega)
    have r0 := hrd i hi
    have r1 := hrd (i + 1) (by omega)
    have r2 := hrd (i + 2) (by omega)
    obtain ⟨faces', hw, hs', he'⟩ := FaceArray.write_spec faces (i / 3)
      (SetFace3 (s i) (s (i + 1)) (s (i + 2))) (by omega)
    refine ⟨faces', ?_, by omega, by omega, by omega, by omega, fun k hk => ?_⟩
    · simp only [hu1, hu2, r0, r1, r2]
      rw [some_bind_eq, some_bind_eq, some_bind_eq, hw]
    · rw [he']
      by_cases hki : k = i / 3
      · have hik : 3 * k = i := by omega
        simp only [hki, if_true]
        rw [← hki, hik]
      · simp only [hki, if_false]
        exact hP k (by omega)
  · rintro j faces hj ⟨-, hle, hsize, hP⟩
    exact ⟨hsize, fun i hi => hP i (by omega)⟩

theorem facesWith_lines (rd : Nat → Option Nat) (s : Nat → Nat) (count : Nat)
    (hrd : ∀ k, k < count → rd k = some (s k)) (h2 : count % 2 = 0)
    (hlt : count < UINT_MOD) :
    ∃ faces, facesWith rd count PrimitiveMode_LINES = some faces ∧
      faces.size = count / 2 ∧
      ∀ i, i < count / 2 → faces.elems i = SetFace2 (s (2 * i)) (s (2 * i + 1)) := by
  simp only [facesWith]
  apply forLoop_post
    (fun i faces => i % 2 = 0 ∧ i ≤ count ∧ faces.size = count / 2 ∧
      ∀ k, 2 * k < i → faces.elems k = SetFace2 (s (2 * k)) (s (2 * k + 1)))
  · exact ⟨rfl, Nat.zero_le _, rfl, fun k hk => by omega⟩
  · rintro i faces hi ⟨hmod, -, hsize, hP⟩
    have hu1 : u32 (i + 1) = i + 1 := u32_of_lt (by omega)
    have hu2 : u32 (i + 2) = i + 2 := u32_of_lt (by omega)
    have r0 := hrd i hi
    have r1 := hrd (i + 1) (by omega)
    obtain ⟨faces', hw, hs', he'⟩ := FaceArray.write_spec faces (i / 2)
      (SetFace2 (s i) (s (i + 1))) (by omega)
    refine ⟨faces', ?_, by omega, by omega, by omega, by omega, fun k hk => ?_⟩
    · simp only [hu1, r0, r1]
      rw [some_bind_eq, some_bind_eq, hw]
    · rw [he']
      by_cases hki : k = i / 2
      · have hik : 2 * k = i := by omega
        simp only [hki, if_true]
        rw [← hki, hik]
      · simp only [hki, if_false]
        exact hP k (by omega)
  · rintro j faces hj ⟨-, hle, hsize, hP⟩
    exact ⟨hsize, fun i hi => hP i (by omega)⟩

theorem facesWith_points (rd : Nat → Option Nat) (s : Nat → Nat) (count : Nat)
    (hrd : ∀ k, k < count → rd k = some (s k)) (hlt : count < UINT_MOD) :
    ∃ faces, facesWith rd count PrimitiveMode_POINTS = some faces ∧
      faces.size = count ∧
      ∀ i, i < count → faces.elems i = SetFace1 (s i) := by
  simp only [facesWith]
  apply forLoop_post
    (fun i faces => i ≤ count ∧ faces.size = count ∧
      ∀ k, k < i → faces.elems k = SetFace1 (s k))
  · exact ⟨Nat.zero_le _, rfl, fun k hk => by omega⟩
  · rintro i faces hi ⟨-, hsize, hP⟩
    have hu1 : u32 (i + 1) = i + 1 := u32_of_lt (by omega)
    obtain ⟨faces', hw, hs', he'⟩ := FaceArray.write_spec faces i (SetFace1 (s i)) (by omega)
    refine ⟨faces', ?_, by omega, by omega, by omega, fun k hk => ?_⟩
    · simp only [hrd i hi]
      rw [some_bind_eq, hw]
    · rw [he']
      by_cases hki : k = i
      · subst hki; simp only [if_true]
      · simp only [hki, if_false]
        exact hP k (by omega)
  · rintro j faces hj ⟨hle, hsize, hP⟩
    exact ⟨hsize, fun i hi => hP i (by omega)⟩

/-! ## Face assembly: the claims -/

/-- Claim C1: a TRIANGLE_STRIP primitive with `N ≥ 2` indices (or `N` vertices
without an index accessor) gets exactly `N - 2` faces, and face `i` is
`(s[i+1], s[i], s[i+2])` when `i + 1` is even and `(s[i], s[i+1], s[i+2])`
otherwise, `s` being the index stream (`s[k] = k` without indices). -/
theorem C1_triangle_strip_faces (indices : Option Indexer) (mNumVertices : Nat)
    (h2 : 2 ≤ streamCount indices mNumVertices)
    (hlt : streamCount indices mNumVertices < UINT_MOD) :
    ∃ faces,
      assembleFaces indices PrimitiveMode_TRIANGLE_STRIP mNumVertices = some faces ∧
      faces.size = streamCount indices mNumVertices - 2 ∧
      ∀ i, i < streamCount indices mNumVertices - 2 →
        faces.elems i =
          if (i + 1) % 2 = 0 then
            SetFace3 (stream indices (i + 1)) (stream indices i) (stream indices (i + 2))
          else
            SetFace3 (stream indices i) (stream indices (i + 1)) (stream indices (i + 2)) := by
  obtain ⟨rd, heq, hrd⟩ :=
    assembleFaces_eq_facesWith indices PrimitiveMode_TRIANGLE_STRIP mNumVertices
  rw [heq]
  exact facesWith_triangle_strip rd (stream indices) _ hrd h2 hlt

/-- Witness for C1: the index stream 10, 11, 12, 13 of a 14-vertex mesh. -/
theorem C1_triangle_strip_faces_witness :
    ∃ faces,
      assembleFaces (some { count := 4, values := fun k => 10 + k })
        PrimitiveMode_TRIANGLE_STRIP 14 = some faces ∧
      faces.size = 2 ∧
      faces.elems 0 = SetFace3 10 11 12 ∧ faces.elems 1 = SetFace3 12 11 13 := by
  obtain ⟨faces, h, hsize, hel⟩ :=
    C1_triangle_strip_faces (some { count := 4, values := fun k => 10 + k }) 14
      (by decide) (by decide)
  exact ⟨faces, h, hsize, hel 0 (by decide), hel 1 (by decide)⟩

/-- Counterexample to C2 as stated: the faces of a non-indexed TRIANGLE_STRIP
with 4 vertices are not `(1,0,2)`, `(1,2,3)`. -/
theorem C2_quad_strip_counterexample :
    (assembleFaces none PrimitiveMode_TRIANGLE_STRIP 4).map FaceArray.toList
      ≠ some [SetFace3 1 0 2, SetFace3 1 2 3] := by
  decide

/-- Claim C2, amended: a non-indexed TRIANGLE_STRIP primitive with 4 vertices
is imported as exactly 2 faces, `(0,1,2)` followed by `(2,1,3)`. -/
theorem C2_quad_strip_faces :
    (assembleFaces none PrimitiveMode_TRIANGLE_STRIP 4).map FaceArray.toList
      = some [SetFace3 0 1 2, SetFace3 2 1 3] := by
  decide

/-- Claim C3: a TRIANGLE_FAN primitive with `N ≥ 3` indices (or vertices
without an index accessor) gets exactly `N - 2` faces and face `i` is
`(s[0], s[i+1], s[i+2])`; 4 vertices without indices give `(0,1,2)`,
`(0,2,3)`. -/
theorem C3_triangle_fan_faces (indices : Option Indexer) (mNumVertices : Nat)
    (h3 : 3 ≤ streamCount indices mNumVertices)
    (hlt : streamCount indices mNumVertices < UINT_MOD) :
    (∃ faces,
      assembleFaces indices PrimitiveMode_TRIANGLE_FAN mNumVertices = some faces ∧
      faces.size = streamCount indices mNumVertices - 2 ∧
      ∀ i, i < streamCount indices mNumVertices - 2 →
        faces.elems i =
          SetFace3 (stream indices 0) (stream indices (i + 1)) (stream indices (i + 2))) ∧
    (assembleFaces none PrimitiveMode_TRIANGLE_FAN 4).map FaceArray.toList
      = some [SetFace3 0 1 2, SetFace3 0 2 3] := by
  refine ⟨?_, by decide⟩
  obtain ⟨rd, heq, hrd⟩ :=
    assembleFaces_eq_facesWith indices PrimitiveMode_TRIANGLE_FAN mNumVertices
  rw [heq]
  exact facesWith_triangle_fan rd (stream indices) _ hrd h3 hlt

/-- Witness for C3: the index stream 5, 6, 7, 8, 9. -/
theorem C3_triangle_fan_faces_witness :
    ∃ faces,
      assembleFaces (some { count := 5, values := fun k => 5 + k })
        PrimitiveMode_TRIANGLE_FAN 10 = some faces ∧
      faces.size = 3 ∧ faces.elems 2 = SetFace3 5 8 9 := by
  obtain ⟨faces, h, hsize, hel⟩ :=
    (C3_triangle_fan_faces (some { count := 5, values := fun k => 5 + k }) 10
      (by decide) (by decide)).1
  exact ⟨faces, h, hsize, hel 2 (by decide)⟩

/-- Claim C4: for `count ≥ 2`, face `i` of a LINE_STRIP or LINE_LOOP primitive
is `(s[i], s[i+1])` for every `i < count - 1`; LINE_STRIP has exactly
`count - 1` faces, LINE_LOOP has exactly `count` faces, the last one being the
closing edge `(s[count-1], s[0])`.  LINE_LOOP with indices `[7,8,9]` gives
`(7,8)`, `(8,9)`, `(9,7)`. -/
theorem C4_line_strip_loop_faces (indices : Option Indexer) (mNumVertices : Nat)
    (h2 : 2 ≤ streamCount indices mNumVertices)
    (hlt : streamCount indices mNumVertices < UINT_MOD) :
    (∃ faces,
      assembleFaces indices PrimitiveMode_LINE_STRIP mNumVertices = some faces ∧
      faces.size = streamCount indices mNumVertices - 1 ∧
      ∀ i, i < streamCount indices mNumVertices - 1 →
        faces.elems i = SetFace2 (stream indices i) (stream indices (i + 1))) ∧
    (∃ faces,
      assembleFaces indices PrimitiveMode_LINE_LOOP mNumVertices = some faces ∧
      faces.size = streamCount indices mNumVertices ∧
      (∀ i, i < streamCount indices mNumVertices - 1 →
        faces.elems i = SetFace2 (stream indices i) (stream indices (i + 1))) ∧
      faces.elems (streamCount indices mNumVertices - 1) =
        SetFace2 (stream indices (streamCount indices mNumVertices - 1)) (stream indices 0)) ∧
    (assembleFaces (some { count := 3, values := fun k => [7, 8, 9].getD k 0 })
        PrimitiveMode_LINE_LOOP 10).map FaceArray.toList
      = some [SetFace2 7 8, SetFace2 8 9, SetFace2 9 7] := by
  refine ⟨?_, ?_, by decide⟩
  · obtain ⟨rd, heq, hrd⟩ :=
      assembleFaces_eq_facesWith indices PrimitiveMode_LINE_STRIP mNumVertices
    rw [heq]
    exact facesWith_line_strip rd (stream indices) _ hrd h2 hlt
  · obtain ⟨rd, heq, hrd⟩ :=
      assembleFaces_eq_facesWith indices PrimitiveMode_LINE_LOOP mNumVertices
    rw [heq]
    exact facesWith_line_loop rd (stream indices) _ hrd h2 hlt

/-- Witness for C4: five vertices without an index accessor. -/
theorem C4_line_strip_loop_faces_witness :
    (∃ faces,
      assembleFaces none PrimitiveMode_LINE_STRIP 5 = some faces ∧
      faces.size = 4 ∧ faces.elems 3 = SetFace2 3 4) ∧
    (∃ faces,
      assembleFaces none PrimitiveMode_LINE_LOOP 5 = some faces ∧
      faces.size = 5 ∧ faces.elems 3 = SetFace2 3 4 ∧ faces.elems 4 = SetFace2 4 0) := by
  have h := C4_line_strip_loop_faces none 5 (by decide) (by decide)
  obtain ⟨⟨f1, h1, hs1, he1⟩, ⟨f2, h2, hs2, he2, hl2⟩, -⟩ := h
  exact ⟨⟨f1, h1, hs1, he1 3 (by decide)⟩, ⟨f2, h2, hs2, he2 3 (by decide), hl2⟩⟩

/-- Claim C5: a TRIANGLES primitive whose count is a multiple of 3 gets
`count / 3` faces with face `i = (s[3i], s[3i+1], s[3i+2])`; a LINES primitive
whose count is a multiple of 2 gets `count / 2` faces with face
`i = (s[2i], s[2i+1])`.  Three vertices without indices in mode TRIANGLES give
the single face `(0,1,2)`. -/
theorem C5_triangles_lines_faces (indices : Option Indexer) (mNumVertices : Nat)
    (hlt : streamCount indices mNumVertices < UINT_MOD) :
    (streamCount indices mNumVertices % 3 = 0 →
      ∃ faces,
        assembleFaces indices PrimitiveMode_TRIANGLES mNumVertices = some faces ∧
        faces.size = streamCount indices mNumVertices / 3 ∧
        ∀ i, i < streamCount indices mNumVertices / 3 →
          faces.elems i =
            SetFace3 (stream indices (3 * i)) (stream indices (3 * i + 1))
              (stream indices (3 * i + 2))) ∧
    (streamCount indices mNumVertices % 2 = 0 →
      ∃ faces,
        assembleFaces indices PrimitiveMode_LINES mNumVertices = some faces ∧
        faces.size = streamCount indices mNumVertices / 2 ∧
        ∀ i, i < streamCount indices mNumVertices / 2 →
          faces.elems i = SetFace2 (stream indices (2 * i)) (stream indices (2 * i + 1))) ∧
    (assembleFaces none PrimitiveMode_TRIANGLES 3).map FaceArray.toList
      = some [SetFace3 0 1 2] := by
  refine ⟨fun h3 => ?_, fun h2 => ?_, by decide⟩
  · obtain ⟨rd, heq, hrd⟩ :=
      assembleFaces_eq_facesWith indices PrimitiveMode_TRIANGLES mNumVertices
    rw [heq]
    exact facesWith_triangles rd (stream indices) _ hrd h3 hlt
  · obtain ⟨rd, heq, hrd⟩ :=
      assembleFaces_eq_facesWith indices PrimitiveMode_LINES mNumVertices
    rw [heq]
    exact facesWith_lines rd (stream indices) _ hrd h2 hlt

/-- Witness for C5: the index stream 20, 21, ..., 25. -/
theorem C5_triangles_lines_faces_witness :
    (∃ faces,
      assembleFaces (some { count := 6, values := fun k => 20 + k })
        PrimitiveMode_TRIANGLES 30 = some faces ∧
      faces.size = 2 ∧ faces.elems 1 = SetFace3 23 24 25) ∧
    (∃ faces,
      assembleFaces (some { count := 6, values := fun k => 20 + k })
        PrimitiveMode_LINES 30 = some faces ∧
      faces.size = 3 ∧ faces.elems 2 = SetFace2 24 25) := by
  have h := C5_triangles_lines_faces (some { count := 6, values := fun k => 20 + k }) 30
    (by decide)
  obtain ⟨f1, h1, hs1, he1⟩ := h.1 (by decide)
  obtain ⟨f2, h2, hs2, he2⟩ := h.2.1 (by decide)
  exact ⟨⟨f1, h1, hs1, he1 1 (by decide)⟩, ⟨f2, h2, hs2, he2 2 (by decide)⟩⟩

/-- Claim C6, the code at the failing input: for the index stream 0, 1, 5 of a
mesh with 3 vertices in mode TRIANGLES, the stored face is `(0,1,5)`, whose
last index is not smaller than the vertex count, and `CheckValidFacesIndices`
is false on the stored faces. -/
theorem C6_face_index_out_of_range :
    (assembleFaces (some { count := 3, values := fun k => [0, 1, 5].getD k 0 })
        PrimitiveMode_TRIANGLES 3).map
        (fun faces => (faces.toList, CheckValidFacesIndices faces faces.size 3))
      = some ([SetFace3 0 1 5], false) := by
  decide

/-! ## Bone weight transposition -/

theorem i32_of_lt {n : Nat} (h : n < 2147483648) : i32 n = (n : Int) := by
  have h1 : n % UINT_MOD = n := Nat.mod_eq_of_lt (by simp only [UINT_MOD]; omega)
  simp only [i32, h1, h, if_true]

theorem emplaceBack_length {W : Type} (map : List (List (aiVertexWeight W))) (bone : Nat)
    (vw : aiVertexWeight W) : (emplaceBack map bone vw).length = map.length := by
  simp only [emplaceBack, List.length_set]

theorem emplaceBack_getD {W : Type} (map : List (List (aiVertexWeight W))) (bone b : Nat)
    (vw : aiVertexWeight W) (hb : bone < map.length) :
    (emplaceBack map bone vw).getD b [] =
      if b = bone then map.getD b [] ++ [vw] else map.getD b [] := by
  simp only [emplaceBack, List.getD_eq_getElem?_getD, List.getElem?_set]
  by_cases h : bone = b
  · subst h; simp [hb]
  · have h' : ¬ b = bone := fun e => h e.symm
    simp [h, h']

/-- The loop over the four slots of vertex `i` (lines 806-813) appends to bone
`b` the influences of vertex `i` on `b`, in slot order. -/
theorem weightSlots_spec {W : Type} [Zero W] [LT W] [DecidableRel (α := W) (· < ·)]
    (wv : Nat → Nat → W) (jv : Nat → Nat → Nat) (i : Nat) :
    ∀ (js : List Nat) (map : List (List (aiVertexWeight W))),
      ∃ map',
        List.foldlM
          (fun map j => do
            let y ← some (jv i j)
            let weight ← some (wv i j)
            if weight > 0 ∧ y < map.length then
              pure (emplaceBack map y { mVertexId := i, mWeight := weight })
            else pure map)
          map js = some map' ∧
        map'.length = map.length ∧
        ∀ b, b < map.length →
          map'.getD b [] = map.getD b [] ++
            js.filterMap fun j =>
              if wv i j > 0 ∧ jv i j = b then
                some { mVertexId := i, mWeight := wv i j }
              else none := by
  intro js
  induction js with
  | nil =>
    intro map
    exact ⟨map, rfl, rfl, fun b _ => by simp⟩
  | cons j js ih =>
    intro map
    rw [List.foldlM_cons, some_bind_eq, some_bind_eq]
    by_cases hc : wv i j > 0 ∧ jv i j < map.length
    · obtain ⟨map', hrun, hlen, hget⟩ :=
        ih (emplaceBack map (jv i j) { mVertexId := i, mWeight := wv i j })
      rw [emplaceBack_length] at hlen
      refine ⟨map', ?_, hlen, fun b hb => ?_⟩
      · rw [if_pos hc]
        exact hrun
      · rw [hget b (by rw [emplaceBack_length]; exact hb), emplaceBack_getD _ _ _ _ hc.2]
        by_cases hbj : b = jv i j
        · have hsel : wv i j > 0 ∧ jv i j = b := ⟨hc.1, hbj.symm⟩
          simp [hbj, hc.1]
        · have hsel : ¬ (wv i j > 0 ∧ jv i j = b) := fun h => hbj h.2.symm
          simp [hbj, hsel]
    · obtain ⟨map', hrun, hlen, hget⟩ := ih map
      refine ⟨map', ?_, hlen, fun b hb => ?_⟩
      · rw [if_neg hc]
        exact hrun
      · rw [hget b hb]
        have hsel : ¬ (wv i j > 0 ∧ jv i j = b) := fun h => hc ⟨h.1, by rw [h.2]; exact hb⟩
        simp [hsel]

/-- The loop over the vertices (lines 805-814) appends to bone `b` the
influences of the vertices on `b`, vertex by vertex. -/
theorem weightVertices_spec {W : Type} [Zero W] [LT W] [DecidableRel (α := W) (· < ·)]
    (wv : Nat → Nat → W) (jv : Nat → Nat → Nat) :
    ∀ (vs : List Nat) (map : List (List (aiVertexWeight W))),
      ∃ map',
        List.foldlM
          (fun map i =>
            List.foldlM
              (fun map j => do
                let y ← some (jv i j)
                let weight ← some (wv i j)
                if weight > 0 ∧ y < map.length then
                  pure (emplaceBack map y { mVertexId := i, mWeight := weight })
                else pure map)
              map (List.range 4))
          map vs = some map' ∧
        map'.length = map.length ∧
        ∀ b, b < map.length →
          map'.getD b [] = map.getD b [] ++
            vs.flatMap fun v =>
              (List.range 4).filterMap fun j =>
                if wv v j > 0 ∧ jv v j = b then
                  some { mVertexId := v, mWeight := wv v j }
                else none := by
  intro vs
  induction vs with
  | nil =>
    intro map
    exact ⟨map, rfl, rfl, fun b _ => by simp⟩
  | cons v vs ih =>
    intro map
    obtain ⟨map1, hrun1, hlen1, hget1⟩ := weightSlots_spec wv jv v (List.range 4) map
    obtain ⟨map', hrun, hlen, hget⟩ := ih map1
    refine ⟨map', ?_, by rw [hlen, hlen1], fun b hb => ?_⟩
    · rw [List.foldlM_cons, hrun1, some_bind_eq]
      exact hrun
    · rw [hget b (by rw [hlen1]; exact hb), hget1 b hb, List.flatMap_cons, List.append_assoc]

/-- Claim C7: called with `numBones` empty lists on a primitive whose WEIGHTS_0
and JOINTS_0 accessors have the same count, `BuildVertexWeightMapping` returns
lists in which bone `b < numBones` has exactly the pairs `(v, weights[v][j])`
with `weights[v][j] > 0` and `joints[v][j] = b`, in order of increasing `v` and
then increasing `j`; so an influence whose weight is not positive or whose
joint is not below `numBones` is in no list.  The count fits the `int`
`num_vertices`. -/
theorem C7_weight_transposition {W : Type} [Zero W] [LT W] [DecidableRel (α := W) (· < ·)]
    (primitive : Primitive W) (weight0 joint0 : Accessor W) (ws js : List (Accessor W))
    (wv : Nat → Nat → W) (jv : Nat → Nat → Nat) (numBones : Nat)
    (hw : primitive.attributes.weight = weight0 :: ws)
    (hj : primitive.attributes.joint = joint0 :: js)
    (hcount : weight0.count = joint0.count)
    (hfit : weight0.count < 2147483648)
    (hwv : weight0.weights = some wv)
    (hjv : jointValues joint0 = some jv) :
    ∃ map,
      BuildVertexWeightMapping primitive (List.replicate numBones []) = some map ∧
      map.length = numBones ∧
      (∀ b, b < numBones →
        map[b]? = some (transposedInfluences wv jv weight0.count b)) ∧
      (∀ b vw, vw ∈ map.getD b [] →
        ∃ v j, v < weight0.count ∧ j < 4 ∧ vw = { mVertexId := v, mWeight := wv v j } ∧
          wv v j > 0 ∧ jv v j = b ∧ b < numBones) := by
  obtain ⟨map, hrun, hlen, hget⟩ :=
    weightVertices_spec wv jv (List.range weight0.count)
      (List.replicate numBones ([] : List (aiVertexWeight W)))
  rw [List.length_replicate] at hlen hget
  have hget' : ∀ b, b < numBones →
      map.getD b [] = transposedInfluences wv jv weight0.count b := by
    intro b hb
    rw [hget b hb]
    simp [transposedInfluences, List.getD_eq_getElem?_getD, List.getElem?_replicate, hb]
  refine ⟨map, ?_, hlen, fun b hb => ?_, fun b vw hmem => ?_⟩
  · simp only [BuildVertexWeightMapping, hw, hj, hcount, ne_eq, not_true_eq_false, if_false]
    rw [← hcount, i32_of_lt hfit, Int.toNat_ofNat, hwv]
    simp only [jointValues] at hjv
    by_cases h4 : joint0.elementSize = 4
    · simp only [h4, if_true] at hjv ⊢
      simp only [hjv, Option.isNone_some, Option.isNone_none, Bool.false_and,
        Option.map_some']
      exact hrun
    · simp only [h4, if_false] at hjv ⊢
      simp only [hjv, Option.isNone_some, Option.isNone_none, Bool.and_false,
        Option.map_some']
      exact hrun
  · have hb' : b < map.length := by rw [hlen]; exact hb
    rw [← hget' b hb, List.getD_eq_getElem?_getD, List.getElem?_eq_getElem hb']
    rfl
  · by_cases hb : b < numBones
    · rw [hget' b hb] at hmem
      simp only [transposedInfluences, List.mem_flatMap, List.mem_filterMap,
        List.mem_range] at hmem
      obtain ⟨v, hv, j, hj4, hsel⟩ := hmem
      by_cases hc : wv v j > 0 ∧ jv v j = b
      · rw [if_pos hc] at hsel
        exact ⟨v, j, hv, hj4, (Option.some.inj hsel).symm, hc.1, hc.2, hb⟩
      · rw [if_neg hc] at hsel
        exact absurd hsel (by simp)
    · have hnone : map[b]? = none := List.getElem?_eq_none (by rw [hlen]; omega)
      rw [List.getD_eq_getElem?_getD, hnone] at hmem
      exact absurd hmem (by simp)

/-- Witness for C7: the example primitive and two bones. -/
theorem C7_weight_transposition_witness :
    ∃ map,
      BuildVertexWeightMapping examplePrimitive (List.replicate 2 []) = some map ∧
      map.length = 2 ∧
      (∀ b, b < 2 →
        map[b]? = some (transposedInfluences exampleWeightValues exampleJointValues 2 b)) ∧
      transposedInfluences exampleWeightValues exampleJointValues 2 1
        = [{ mVertexId := 0, mWeight := 3 }, { mVertexId := 1, mWeight := 2 }] := by
  obtain ⟨map, hrun, hlen, hget, -⟩ :=
    C7_weight_transposition examplePrimitive exampleWeights exampleJoints [] []
      exampleWeightValues exampleJointValues 2 rfl rfl rfl (by decide) rfl rfl
  exact ⟨map, hrun, hlen, hget, by decide⟩

/-! ## Skin binding -/

theorem mapM_option_spec {α β : Type} (f : α → Option β) :
    ∀ (l : List α) (out : List β), l.mapM f = some out →
      out.length = l.length ∧
      ∀ (i : Nat) (a : α), l[i]? = some a → ∃ b, out[i]? = some b ∧ f a = some b := by
  intro l
  induction l with
  | nil =>
    intro out h
    rw [List.mapM_nil] at h
    cases h
    exact ⟨rfl, fun i a hi => by simp at hi⟩
  | cons x xs ih =>
    intro out h
    rw [List.mapM_cons] at h
    cases hx : f x with
    | none => rw [hx] at h; cases h
    | some b =>
      rw [hx, some_bind_eq] at h
      cases hxs : xs.mapM f with
      | none => rw [hxs] at h; cases h
      | some bs =>
        rw [hxs, some_bind_eq] at h
        cases h
        obtain ⟨hlen, hel⟩ := ih bs hxs
        refine ⟨by simp [hlen], fun i a hi => ?_⟩
        cases i with
        | zero =>
          simp only [List.getElem?_cons_zero, Option.some.injEq] at hi
          subst hi
          exact ⟨b, by simp, hx⟩
        | succ i =>
          simp only [List.getElem?_cons_succ] at hi
          obtain ⟨b', hb', hf⟩ := hel i a hi
          exact ⟨b', by simpa using hb', hf⟩

theorem makeBone_spec {W : Type} [Zero W] (r : Asset W) (skin : Skin)
    (weighting : List (List (aiVertexWeight W))) (i : Nat) (bone : aiBone W)
    (h : makeBone r skin weighting i = some bone) :
    ∃ jointRef joint weights,
      skin.jointNames[i]? = some jointRef ∧ r.nodes[jointRef]? = some joint ∧
      weighting[i]? = some weights ∧
      bone.mName = (if joint.name ≠ "" then joint.name else "bone_" ++ ASSIMP_itoa10 i) ∧
      bone.mWeights =
        (if weights.length > 0 then weights else [{ mVertexId := 0, mWeight := 0 }]) := by
  unfold makeBone at h
  cases h1 : skin.jointNames[i]? with
  | none => rw [h1] at h; cases h
  | some jointRef =>
    rw [h1, some_bind_eq] at h
    cases h2 : r.nodes[jointRef]? with
    | none => rw [h2] at h; cases h
    | some joint =>
      rw [h2, some_bind_eq] at h
      cases h3 : weighting[i]? with
      | none => rw [h3] at h; cases h
      | some weights =>
        rw [h3, some_bind_eq] at h
        refine ⟨jointRef, joint, weights, rfl, h2, rfl, ?_⟩
        by_cases hlen : weights.length > 0
        · rw [if_pos hlen] at h
          cases h
          exact ⟨rfl, by rw [if_pos hlen]⟩
        · rw [if_neg hlen] at h
          cases h
          exact ⟨rfl, by rw [if_neg hlen]⟩

theorem skinPrimitive_spec {W : Type} [Zero W] [LT W] [DecidableRel (α := W) (· < ·)]
    (r : Asset W) (meshOffsets : List Nat) (mesh_idx : Nat) (node : Node) (skin : Skin)
    (primitiveNo : Nat) (sceneMeshes meshes' : List (aiMesh W))
    (h : skinPrimitive r meshOffsets mesh_idx node skin primitiveNo sceneMeshes
      = some meshes') :
    ∃ offset mesh primitive weighting mBones,
      meshOffsets[mesh_idx]? = some offset ∧
      sceneMeshes[u32 (offset + primitiveNo)]? = some mesh ∧
      primitiveOf r node primitiveNo = some primitive ∧
      BuildVertexWeightMapping primitive (List.replicate skin.jointNames.length [])
        = some weighting ∧
      (List.range skin.jointNames.length).mapM (makeBone r skin weighting) = some mBones ∧
      meshes' = sceneMeshes.set (u32 (offset + primitiveNo)) { mesh with mBones := mBones } := by
  unfold skinPrimitive at h
  cases h1 : meshOffsets[mesh_idx]? with
  | none => rw [h1] at h; cases h
  | some offset =>
    rw [h1, some_bind_eq] at h
    cases h2 : sceneMeshes[u32 (offset + primitiveNo)]? with
    | none => simp only [h2] at h; cases h
    | some mesh =>
      simp only [h2] at h
      rw [some_bind_eq] at h
      cases h3 : primitiveOf r node primitiveNo with
      | none => rw [h3] at h; cases h
      | some primitive =>
        rw [h3, some_bind_eq] at h
        cases h4 : BuildVertexWeightMapping primitive
            (List.replicate skin.jointNames.length []) with
        | none => rw [h4] at h; cases h
        | some weighting =>
          rw [h4, some_bind_eq] at h
          cases h5 : (List.range skin.jointNames.length).mapM (makeBone r skin weighting) with
          | none => rw [h5] at h; cases h
          | some mBones =>
            rw [h5, some_bind_eq] at h
            cases h
            exact ⟨offset, mesh, primitive, weighting, mBones, rfl, h2, rfl, h4, h5, rfl⟩

theorem u32_add_ne {offset p q : Nat} (hp : p < UINT_MOD) (hq : q < UINT_MOD) (hne : p ≠ q) :
    u32 (offset + p) ≠ u32 (offset + q) := by
  simp only [u32, UINT_MOD] at *
  omega

/-- After the rounds `0 .. k-1` of the loop over `primitiveNo`, the mesh at the
slot of every round `p < k` carries the bones built from primitive `p` of
`node.meshes[0]`. -/
theorem skinLoop_spec {W : Type} [Zero W] [LT W] [DecidableRel (α := W) (· < ·)]
    (r : Asset W) (meshOffsets : List Nat) (mesh_idx : Nat) (node : Node) (skin : Skin)
    (sceneMeshes : List (aiMesh W)) :
    ∀ (k : Nat) (meshes' : List (aiMesh W)), k ≤ UINT_MOD →
      (List.range k).foldlM
        (fun meshes primitiveNo =>
          skinPrimitive r meshOffsets mesh_idx node skin primitiveNo meshes)
        sceneMeshes = some meshes' →
      meshes'.length = sceneMeshes.length ∧
      ∀ p, p < k →
        ∃ offset primitive weighting mesh',
          meshOffsets[mesh_idx]? = some offset ∧
          primitiveOf r node p = some primitive ∧
          BuildVertexWeightMapping primitive (List.replicate skin.jointNames.length [])
            = some weighting ∧
          meshes'[u32 (offset + p)]? = some mesh' ∧
          (List.range skin.jointNames.length).mapM (makeBone r skin weighting)
            = some mesh'.mBones := by
  intro k
  induction k with
  | zero =>
    intro meshes' _ h
    simp only [List.range_zero, List.foldlM_nil] at h
    cases h
    exact ⟨rfl, fun p hp => by omega⟩
  | succ k ih =>
    intro meshes' hk h
    rw [List.range_succ, List.foldlM_append] at h
    cases hpre : (List.range k).foldlM
        (fun meshes primitiveNo =>
          skinPrimitive r meshOffsets mesh_idx node skin primitiveNo meshes)
        sceneMeshes with
    | none => rw [hpre] at h; cases h
    | some meshesK =>
      rw [hpre, some_bind_eq, List.foldlM_cons] at h
      cases hstep : skinPrimitive r meshOffsets mesh_idx node skin k meshesK with
      | none => rw [hstep] at h; cases h
      | some meshesK1 =>
        rw [hstep, some_bind_eq, List.foldlM_nil] at h
        have hmm : meshesK1 = meshes' := Option.some.inj h
        rw [← hmm]
        obtain ⟨hlenK, hK⟩ := ih meshesK (by omega) hpre
        obtain ⟨offset, mesh, primitive, weighting, mBones, ho, hm, hprim, hbuild, hbones,
          heq⟩ := skinPrimitive_spec r meshOffsets mesh_idx node skin k meshesK meshesK1 hstep
        have hslot : u32 (offset + k) < meshesK.length := by
          by_contra hcon
          rw [List.getElem?_eq_none (by omega)] at hm
          cases hm
        refine ⟨by rw [heq, List.length_set, hlenK], fun p hp => ?_⟩
        by_cases hpk : p = k
        · subst hpk
          refine ⟨offset, primitive, weighting, { mesh with mBones := mBones }, ho, hprim,
            hbuild, ?_, hbones⟩
          rw [heq, List.getElem?_set]
          simp [hslot]
        · obtain ⟨offset', primitive', weighting', mesh', ho', hprim', hbuild', hm', hbones'⟩ :=
            hK p (by omega)
          have hoo : offset' = offset := by
            rw [ho] at ho'
            exact (Option.some.inj ho').symm
          subst hoo
          refine ⟨offset', primitive', weighting', mesh', ho', hprim', hbuild', ?_, hbones'⟩
          have hne : u32 (offset' + k) ≠ u32 (offset' + p) :=
            u32_add_ne (by omega) (by omega) (fun e => hpk e.symm)
          rw [heq, List.getElem?_set]
          simp only [hne, if_false]
          exact hm'

/-- The bones that skin binding leaves on the output meshes of a skinned node:
round `p` puts, at slot `meshOffsets[mesh_idx] + p`, one bone per joint, bone
`i` being `makeBone` of joint `i` on the lists transposed from primitive `p`. -/
theorem bindSkin_spec {W : Type} [Zero W] [LT W] [DecidableRel (α := W) (· < ·)]
    (r : Asset W) (meshOffsets : List Nat) (mesh_idx : Nat) (node : Node) (count : Int)
    (sceneMeshes meshes' : List (aiMesh W)) (skinRef : Nat) (skin : Skin)
    (hskin : node.skin = some skinRef) (hs : r.skins[skinRef]? = some skin)
    (hcount : count < 2147483648)
    (hrun : bindSkin r meshOffsets mesh_idx node count sceneMeshes = some meshes') :
    ∀ p : Nat, (p : Int) < count →
      ∃ offset primitive weighting mesh',
        meshOffsets[mesh_idx]? = some offset ∧
        primitiveOf r node p = some primitive ∧
        BuildVertexWeightMapping primitive (List.replicate skin.jointNames.length [])
          = some weighting ∧
        meshes'[u32 (offset + p)]? = some mesh' ∧
        mesh'.mBones.length = skin.jointNames.length ∧
        ∀ i, i < skin.jointNames.length →
          ∃ bone, mesh'.mBones[i]? = some bone ∧ makeBone r skin weighting i = some bone := by
  intro p hp
  unfold bindSkin at hrun
  rw [hskin] at hrun
  simp only [hs] at hrun
  rw [some_bind_eq] at hrun
  have hk : count.toNat ≤ UINT_MOD := by
    simp only [UINT_MOD]
    omega
  obtain ⟨-, hall⟩ :=
    skinLoop_spec r meshOffsets mesh_idx node skin sceneMeshes count.toNat meshes' hk hrun
  obtain ⟨offset, primitive, weighting, mesh', ho, hprim, hbuild, hm, hbones⟩ :=
    hall p (by omega)
  obtain ⟨hlen, hel⟩ := mapM_option_spec _ _ _ hbones
  refine ⟨offset, primitive, weighting, mesh', ho, hprim, hbuild, hm, ?_, fun i hi => ?_⟩
  · rw [hlen, List.length_range]
  · exact hel i i (by simp [hi])

theorem BuildVertexWeightMapping_early {W : Type} [Zero W] [LT W]
    [DecidableRel (α := W) (· < ·)] (primitive : Primitive W)
    (map : List (List (aiVertexWeight W)))
    (hearly : ∀ weight0 joint0, primitive.attributes.weight.head? = some weight0 →
      primitive.attributes.joint.head? = some joint0 → weight0.count ≠ joint0.count) :
    BuildVertexWeightMapping primitive map = some map := by
  cases hw : primitive.attributes.weight with
  | nil => simp only [BuildVertexWeightMapping, hw]
  | cons weight0 ws =>
    cases hj : primitive.attributes.joint with
    | nil => simp only [BuildVertexWeightMapping, hw, hj]
    | cons joint0 js =>
      have hne : weight0.count ≠ joint0.count :=
        hearly weight0 joint0 (by rw [hw]; rfl) (by rw [hj]; rfl)
      simp only [BuildVertexWeightMapping, hw, hj, hne, ne_eq, not_false_eq_true, if_true]

/-- Claim C8: every bone that skin binding attaches has at least one vertex
weight: its weights are the list transposed for its joint when that list is
non-empty, and the single dummy weight (vertex 0, weight 0) otherwise - in
particular for every bone when the primitive lacks WEIGHTS_0 or JOINTS_0 or
their counts differ. -/
theorem C8_bone_weights {W : Type} [Zero W] [LT W] [DecidableRel (α := W) (· < ·)]
    (r : Asset W) (meshOffsets : List Nat) (mesh_idx : Nat) (node : Node) (count : Int)
    (sceneMeshes meshes' : List (aiMesh W)) (skinRef : Nat) (skin : Skin)
    (hskin : node.skin = some skinRef) (hs : r.skins[skinRef]? = some skin)
    (hcount : count < 2147483648)
    (hrun : bindSkin r meshOffsets mesh_idx node count sceneMeshes = some meshes') :
    ∀ p : Nat, (p : Int) < count →
      ∃ offset primitive weighting mesh',
        meshOffsets[mesh_idx]? = some offset ∧
        primitiveOf r node p = some primitive ∧
        BuildVertexWeightMapping primitive (List.replicate skin.jointNames.length [])
          = some weighting ∧
        meshes'[u32 (offset + p)]? = some mesh' ∧
        mesh'.mBones.length = skin.jointNames.length ∧
        ∀ i, i < skin.jointNames.length →
          ∃ bone weights,
            mesh'.mBones[i]? = some bone ∧ weighting[i]? = some weights ∧
            1 ≤ bone.mWeights.length ∧
            (weights ≠ [] → bone.mWeights = weights) ∧
            (weights = [] → bone.mWeights = [{ mVertexId := 0, mWeight := 0 }]) ∧
            ((∀ weight0 joint0, primitive.attributes.weight.head? = some weight0 →
                primitive.attributes.joint.head? = some joint0 →
                weight0.count ≠ joint0.count) →
              bone.mWeights = [{ mVertexId := 0, mWeight := 0 }]) := by
  intro p hp
  obtain ⟨offset, primitive, weighting, mesh', ho, hprim, hbuild, hm, hlen, hbone⟩ :=
    bindSkin_spec r meshOffsets mesh_idx node count sceneMeshes meshes' skinRef skin
      hskin hs hcount hrun p hp
  refine ⟨offset, primitive, weighting, mesh', ho, hprim, hbuild, hm, hlen, fun i hi => ?_⟩
  obtain ⟨bone, hb, hmake⟩ := hbone i hi
  obtain ⟨jointRef, joint, weights, -, -, hw, -, hweights⟩ :=
    makeBone_spec r skin weighting i bone hmake
  have hnonempty : weights ≠ [] → bone.mWeights = weights := by
    intro hne
    rw [hweights, if_pos (List.length_pos.mpr hne)]
  have hempty : weights = [] → bone.mWeights = [{ mVertexId := 0, mWeight := 0 }] := by
    intro he
    rw [hweights, he]
    rfl
  refine ⟨bone, weights, hb, hw, ?_, hnonempty, hempty, fun hearly => ?_⟩
  · by_cases he : weights = []
    · rw [hempty he]
      exact Nat.le_refl 1
    · rw [hnonempty he]
      exact List.length_pos.mpr he
  · apply hempty
    rw [BuildVertexWeightMapping_early primitive _ hearly] at hbuild
    have hw' := hw
    rw [← Option.some.inj hbuild, List.getElem?_replicate] at hw'
    simp only [hi, if_true] at hw'
    exact (Option.some.inj hw').symm

/-- Witness for C8: skin binding of the example node on a scene of three
meshes, round 1; the second primitive has no skin attributes, so both bones of
the mesh at slot 1 carry the dummy weight. -/
theorem C8_bone_weights_witness :
    bindSkin exampleAsset [0, 2, 3] 0 exampleNode 2 [{}, {}, {}] = some exampleSkinnedMeshes ∧
    ∃ offset primitive weighting mesh',
      [0, 2, 3][0]? = some offset ∧
      primitiveOf exampleAsset exampleNode 1 = some primitive ∧
      BuildVertexWeightMapping primitive (List.replicate 2 []) = some weighting ∧
      exampleSkinnedMeshes[u32 (offset + 1)]? = some mesh' ∧
      mesh'.mBones.length = 2 ∧
      ∀ i, i < 2 →
        ∃ bone weights,
          mesh'.mBones[i]? = some bone ∧ weighting[i]? = some weights ∧
          1 ≤ bone.mWeights.length ∧
          (weights ≠ [] → bone.mWeights = weights) ∧
          (weights = [] → bone.mWeights = [{ mVertexId := 0, mWeight := 0 }]) ∧
          ((∀ weight0 joint0, primitive.attributes.weight.head? = some weight0 →
              primitive.attributes.joint.head? = some joint0 →
              weight0.count ≠ joint0.count) →
            bone.mWeights = [{ mVertexId := 0, mWeight := 0 }]) :=
  ⟨by decide,
    C8_bone_weights exampleAsset [0, 2, 3] 0 exampleNode 2 [{}, {}, {}] exampleSkinnedMeshes
      0 { jointNames := [1, 2] } rfl rfl (by decide) (by decide) 1 (by decide)⟩

/-! ## Materials and mesh offsets -/

theorem ImportMaterials_spec {M A : Type} (ImportMaterial : M → A) (defaultMaterial : M)
    (materials : List M) (h : materials.length + 1 < UINT_MOD) :
    ImportMaterials ImportMaterial defaultMaterial materials
      = some (materials.map (fun mat => some (ImportMaterial mat))
          ++ [some (ImportMaterial defaultMaterial)]) := by
  have hn : u32 materials.length = materials.length := u32_of_lt (by omega)
  have hn1 : u32 (materials.length + 1) = materials.length + 1 := u32_of_lt h
  simp only [ImportMaterials, hn, hn1, List.length_replicate, Nat.lt_succ_self, if_true]
  obtain ⟨arr, hrun, hQ⟩ := forLoop_post
    (fun i (arr : List (Option A)) => i ≤ materials.length ∧
      arr.length = materials.length + 1 ∧
      (∀ j mat, j < i → materials[j]? = some mat → arr[j]? = some (some (ImportMaterial mat))) ∧
      arr[materials.length]? = some (some (ImportMaterial defaultMaterial)))
    (fun arr => arr = materials.map (fun mat => some (ImportMaterial mat))
          ++ [some (ImportMaterial defaultMaterial)])
    0 materials.length 1
    (fun i mMaterials => do
        let mat ← materials[i]?
        if i < mMaterials.length then
          some (mMaterials.set i (some (ImportMaterial mat)))
        else none)
    ((List.replicate (materials.length + 1) none).set materials.length
      (some (ImportMaterial defaultMaterial)))
    ⟨Nat.zero_le _, by simp, fun j mat hj => by omega, by simp [List.getElem?_set]⟩
    (by
      rintro i arr hi ⟨-, hlen, hP, hd⟩
      have hu : u32 (i + 1) = i + 1 := u32_of_lt (by omega)
      have hmat : materials[i]? = some materials[i] := List.getElem?_eq_getElem hi
      refine ⟨arr.set i (some (ImportMaterial materials[i])), ?_, by omega, by omega,
        by rw [List.length_set]; exact hlen, fun j mat hj hjm => ?_, ?_⟩
      · beta_reduce
        rw [hmat, some_bind_eq, if_pos (by omega)]
      · rw [hu] at hj
        rw [List.getElem?_set]
        by_cases hij : i = j
        · subst hij
          rw [hmat] at hjm
          have hm : materials[i] = mat := Option.some.inj hjm
          simp [hm, show i < arr.length by omega]
        · simp only [hij, if_false]
          exact hP j mat (by omega) hjm
      · rw [List.getElem?_set]
        have hne : ¬ i = materials.length := by omega
        simp only [hne, if_false]
        exact hd)
    (by
      rintro j arr hj ⟨hle, hlen, hP, hd⟩
      have hjn : j = materials.length := by omega
      subst hjn
      apply List.ext_getElem?
      intro i
      by_cases hi : i < materials.length
      · have hmat : materials[i]? = some materials[i] := List.getElem?_eq_getElem hi
        rw [hP i materials[i] hi hmat]
        simp [List.getElem?_append, hi]
      · by_cases hin : i = materials.length
        · subst hin
          rw [hd]
          simp [List.getElem?_append]
        · have h1 : arr[i]? = none := List.getElem?_eq_none (by omega)
          rw [h1]
          symm
          apply List.getElem?_eq_none
          simp
          omega)
  rw [hrun, hQ]

theorem primitiveCountBefore_succ {W : Type} (rmeshes : List (Mesh W)) (m : Nat)
    (mesh : Mesh W) (h : rmeshes[m]? = some mesh) :
    primitiveCountBefore rmeshes (m + 1)
      = primitiveCountBefore rmeshes m + mesh.primitives.length := by
  simp only [primitiveCountBefore, List.take_succ, h, Option.toList, List.map_append,
    List.map_cons, List.map_nil, List.sum_append, List.sum_cons, List.sum_nil, Nat.add_zero]

theorem primitiveCountBefore_le_succ {W : Type} (rmeshes : List (Mesh W)) (m : Nat) :
    primitiveCountBefore rmeshes m ≤ primitiveCountBefore rmeshes (m + 1) := by
  cases h : rmeshes[m]? with
  | some mesh =>
    rw [primitiveCountBefore_succ rmeshes m mesh h]
    exact Nat.le_add_right _ _
  | none =>
    have hlen : rmeshes.length ≤ m := by
      by_contra hcon
      rw [List.getElem?_eq_getElem (by omega)] at h
      cases h
    simp only [primitiveCountBefore, List.take_of_length_le hlen,
      List.take_of_length_le (Nat.le_succ_of_le hlen), Nat.le_refl]

theorem primitiveCountBefore_mono {W : Type} (rmeshes : List (Mesh W)) {j k : Nat}
    (h : j ≤ k) : primitiveCountBefore rmeshes j ≤ primitiveCountBefore rmeshes k := by
  induction k with
  | zero =>
    have hj : j = 0 := by omega
    subst hj
    exact Nat.le_refl _
  | succ k ih =>
    by_cases hjk : j = k + 1
    · subst hjk
      exact Nat.le_refl _
    · exact Nat.le_trans (ih (by omega)) (primitiveCountBefore_le_succ rmeshes k)

/-- The loop over the primitives of a mesh appends, in primitive order, the
output mesh of every primitive and leaves the earlier output meshes alone. -/
theorem importMeshPrimitives_spec {W : Type} [Zero W] [One W] [Add W] [Mul W] [Sub W]
    (mNumMaterials : Nat) (mesh : Mesh W)
    (meshes : List (aiMesh W)) (hn : mesh.primitives.length < UINT_MOD)
    (hok : ∀ (p : Nat) (prim : Primitive W), mesh.primitives[p]? = some prim →
      ∃ aim, importPrimitive mNumMaterials mesh p prim = some aim) :
    ∃ meshes', importMeshPrimitives mNumMaterials mesh meshes = some meshes' ∧
      meshes'.length = meshes.length + mesh.primitives.length ∧
      (∀ j : Nat, j < meshes.length → meshes'[j]? = meshes[j]?) ∧
      ∀ (p : Nat) (prim : Primitive W), mesh.primitives[p]? = some prim →
        ∃ aim, importPrimitive mNumMaterials mesh p prim = some aim ∧
          meshes'[meshes.length + p]? = some aim := by
  unfold importMeshPrimitives
  apply forLoop_post
    (fun i (out : List (aiMesh W)) => i ≤ mesh.primitives.length ∧
      out.length = meshes.length + i ∧
      (∀ j : Nat, j < meshes.length → out[j]? = meshes[j]?) ∧
      ∀ (p : Nat) (prim : Primitive W), p < i → mesh.primitives[p]? = some prim →
        ∃ aim, importPrimitive mNumMaterials mesh p prim = some aim ∧
          out[meshes.length + p]? = some aim)
  · exact ⟨Nat.zero_le _, rfl, fun j _ => rfl, fun p prim hp => by omega⟩
  · rintro i out hi ⟨-, hlen, hframe, hP⟩
    have hu : u32 (i + 1) = i + 1 := u32_of_lt (by omega)
    have hprim : mesh.primitives[i]? = some mesh.primitives[i] :=
      List.getElem?_eq_getElem hi
    obtain ⟨aim, haim⟩ := hok i mesh.primitives[i] hprim
    refine ⟨out ++ [aim], ?_, by omega, by omega, by simp [hlen]; omega,
      fun j hj => ?_, fun p prim hp hpp => ?_⟩
    · rw [hprim, some_bind_eq, haim, some_bind_eq]
      rfl
    · rw [List.getElem?_append_left (by omega)]
      exact hframe j hj
    · rw [hu] at hp
      by_cases hpi : p = i
      · subst hpi
        rw [hprim] at hpp
        have hpe : mesh.primitives[p] = prim := Option.some.inj hpp
        rw [← hpe]
        refine ⟨aim, haim, ?_⟩
        rw [List.getElem?_append_right (by omega)]
        simp [hlen]
      · obtain ⟨aim', h1, h2⟩ := hP p prim (by omega) hpp
        refine ⟨aim', h1, ?_⟩
        rw [List.getElem?_append_left (by omega)]
        exact h2
  · rintro j out hj ⟨hle, hlen, hframe, hP⟩
    have hjn : j = mesh.primitives.length := by omega
    subst hjn
    refine ⟨hlen, hframe, fun p prim hpp => ?_⟩
    have hp : p < mesh.primitives.length := by
      by_contra hcon
      rw [List.getElem?_eq_none (by omega)] at hpp
      cases hpp
    exact hP p prim hp hpp

/-- The normals, tangents and bitangents keep the vertex count. -/
theorem importNormals_numVertices {W : Type} [Mul W] [Sub W] (attr : Attributes W)
    (aim aim' : VertexData W) (h : importNormals attr aim = some aim') :
    aim'.mNumVertices = aim.mNumVertices := by
  unfold importNormals at h
  split at h
  · split at h
    · obtain ⟨tb, -, h⟩ := bind_eq_some_elim h
      cases h
      rfl
    · cases h
      rfl
  · cases h
    rfl

/-- The texture coordinate channels keep the vertex count. -/
theorem importTexCoords_numVertices {W : Type} [One W] [Sub W] (maxTC : Nat)
    (texcoord : List (Accessor W)) (aim aim' : VertexData W)
    (h : importTexCoords maxTC texcoord aim = some aim') :
    aim'.mNumVertices = aim.mNumVertices := by
  unfold importTexCoords at h
  refine foldlM_some_inv (fun s => s.mNumVertices = aim.mNumVertices) _ ?_ _ aim aim' rfl h
  intro s tc s' hP hf
  obtain ⟨t, -, hf⟩ := bind_eq_some_elim hf
  by_cases hc : t.count ≠ s.mNumVertices
  · rw [if_pos hc] at hf
    cases hf
    exact hP
  · rw [if_neg hc] at hf
    obtain ⟨values, -, hf⟩ := bind_eq_some_elim hf
    by_cases hb : tc < s.mTextureCoords.length ∧ tc < s.mNumUVComponents.length
    · rw [if_pos hb] at hf
      cases hf
      exact hP
    · rw [if_neg hb] at hf
      cases hf

/-- The vertex count of the vertex data of a primitive is the count of
`POSITION[0]`. -/
theorem importVertexData_numVertices {W : Type} [Zero W] [One W] [Add W] [Mul W] [Sub W]
    (maxTC : Nat) (mesh : Mesh W) (prim : Primitive W) (vertexData : VertexData W)
    (h : importVertexData maxTC mesh prim = some vertexData) :
    vertexData.mNumVertices = vertexCount prim := by
  unfold importVertexData at h
  dsimp only at h
  obtain ⟨a1, h1, h⟩ := bind_eq_some_elim h
  obtain ⟨a2, h2, h⟩ := bind_eq_some_elim h
  obtain ⟨a3, h3, h⟩ := bind_eq_some_elim h
  cases h
  show a2.mNumVertices = vertexCount prim
  rw [importTexCoords_numVertices _ _ _ _ h2, importNormals_numVertices _ _ _ h1]

/-- The result of `ImportMeshes`: the offsets table gets one entry per mesh
and the sentinel, entry `k` being the number of primitives of the meshes before
`k`, and primitive `p` of mesh `k` becomes the output mesh at slot
`primitiveCountBefore k + p`. -/
theorem ImportMeshes_spec {W : Type} [Zero W] [One W] [Add W] [Mul W] [Sub W]
    (mNumMaterials : Nat) (rmeshes : List (Mesh W))
    (meshOffsets : List Nat) (hN : rmeshes.length < UINT_MOD)
    (htotal : primitiveCountBefore rmeshes rmeshes.length < UINT_MOD)
    (hok : ∀ (k : Nat) (mesh : Mesh W), rmeshes[k]? = some mesh →
      ∀ (p : Nat) (prim : Primitive W), mesh.primitives[p]? = some prim →
        ∃ aim, importPrimitive mNumMaterials mesh p prim = some aim) :
    ∃ out,
      ImportMeshes mNumMaterials rmeshes meshOffsets
        = some (meshOffsets
            ++ (List.range (rmeshes.length + 1)).map (primitiveCountBefore rmeshes), out) ∧
      out.length = primitiveCountBefore rmeshes rmeshes.length ∧
      ∀ (k : Nat) (mesh : Mesh W), rmeshes[k]? = some mesh →
        ∀ (p : Nat) (prim : Primitive W), mesh.primitives[p]? = some prim →
          ∃ aim, importPrimitive mNumMaterials mesh p prim = some aim ∧
            out[primitiveCountBefore rmeshes k + p]? = some aim := by
  have hbound : ∀ m, m ≤ rmeshes.length → primitiveCountBefore rmeshes m < UINT_MOD :=
    fun m hm => Nat.lt_of_le_of_lt (primitiveCountBefore_mono rmeshes hm) htotal
  obtain ⟨st, hrun, hoffs, hk, hlen, hall⟩ := forLoop_post
    (fun m (st : MeshImportState W) => m ≤ rmeshes.length ∧
      st.meshOffsets = meshOffsets ++ (List.range m).map (primitiveCountBefore rmeshes) ∧
      st.k = primitiveCountBefore rmeshes m ∧
      st.meshes.length = primitiveCountBefore rmeshes m ∧
      ∀ (k : Nat) (mesh : Mesh W), k < m → rmeshes[k]? = some mesh →
        ∀ (p : Nat) (prim : Primitive W), mesh.primitives[p]? = some prim →
          ∃ aim, importPrimitive mNumMaterials mesh p prim = some aim ∧
            st.meshes[primitiveCountBefore rmeshes k + p]? = some aim)
    (fun st =>
      st.meshOffsets
        = meshOffsets ++ (List.range rmeshes.length).map (primitiveCountBefore rmeshes) ∧
      st.k = primitiveCountBefore rmeshes rmeshes.length ∧
      st.meshes.length = primitiveCountBefore rmeshes rmeshes.length ∧
      ∀ (k : Nat) (mesh : Mesh W), rmeshes[k]? = some mesh →
        ∀ (p : Nat) (prim : Primitive W), mesh.primitives[p]? = some prim →
          ∃ aim, importPrimitive mNumMaterials mesh p prim = some aim ∧
            st.meshes[primitiveCountBefore rmeshes k + p]? = some aim)
    0 rmeshes.length 1
    (fun m (st : MeshImportState W) => do
      let mesh ← rmeshes[m]?
      let meshes ← importMeshPrimitives mNumMaterials mesh st.meshes
      pure
        { meshOffsets := st.meshOffsets ++ [st.k]
          k := u32 (st.k + u32 mesh.primitives.length)
          meshes := meshes })
    { meshOffsets := meshOffsets, k := 0, meshes := [] }
    ⟨Nat.zero_le _, by simp, by simp [primitiveCountBefore], by simp [primitiveCountBefore],
      fun k mesh hk => by omega⟩
    (by
      rintro m st hm ⟨-, hoffs, hk, hlen, hall⟩
      have hu : u32 (m + 1) = m + 1 := u32_of_lt (by omega)
      have hmesh : rmeshes[m]? = some rmeshes[m] := List.getElem?_eq_getElem hm
      have hsucc := primitiveCountBefore_succ rmeshes m rmeshes[m] hmesh
      have hb1 := hbound (m + 1) (by omega)
      have hprims : u32 rmeshes[m].primitives.length = rmeshes[m].primitives.length :=
        u32_of_lt (by omega)
      have hk' : u32 (st.k + u32 rmeshes[m].primitives.length)
          = primitiveCountBefore rmeshes (m + 1) := by
        rw [hprims, hk, ← hsucc]
        exact u32_of_lt hb1
      obtain ⟨meshes', hrun, hlen', hframe, hnew⟩ :=
        importMeshPrimitives_spec mNumMaterials rmeshes[m] st.meshes (by omega)
          (hok m rmeshes[m] hmesh)
      refine ⟨{ meshOffsets := st.meshOffsets ++ [st.k]
                k := u32 (st.k + u32 rmeshes[m].primitives.length)
                meshes := meshes' }, ?_, by omega, by omega, ?_, ?_, ?_, ?_⟩
      · beta_reduce
        rw [hmesh, some_bind_eq, hrun, some_bind_eq]
        rfl
      · rw [hu]
        show st.meshOffsets ++ [st.k] = _
        rw [hoffs, hk, List.range_succ, List.map_append, List.append_assoc]
        rfl
      · rw [hu]
        exact hk'
      · rw [hu]
        show meshes'.length = _
        rw [hlen', hlen, hsucc]
      · rw [hu]
        intro k mesh hkm hkmesh p prim hpp
        show ∃ aim, _ ∧ meshes'[primitiveCountBefore rmeshes k + p]? = some aim
        by_cases hkeq : k = m
        · subst hkeq
          rw [hmesh] at hkmesh
          have hme : rmeshes[k] = mesh := Option.some.inj hkmesh
          rw [← hme] at hpp ⊢
          obtain ⟨aim, h1, h2⟩ := hnew p prim hpp
          rw [hlen] at h2
          exact ⟨aim, h1, h2⟩
        · obtain ⟨aim, h1, h2⟩ := hall k mesh (by omega) hkmesh p prim hpp
          refine ⟨aim, h1, ?_⟩
          have hp : p < mesh.primitives.length := by
            by_contra hcon
            rw [List.getElem?_eq_none (by omega)] at hpp
            cases hpp
          have hks := primitiveCountBefore_succ rmeshes k mesh hkmesh
          have hmono : primitiveCountBefore rmeshes (k + 1) ≤ primitiveCountBefore rmeshes m :=
            primitiveCountBefore_mono rmeshes (by omega)
          rw [hframe _ (by omega)]
          exact h2)
    (by
      rintro j st hj ⟨hle, hoffs, hk, hlen, hall⟩
      have hjn : j = rmeshes.length := by omega
      subst hjn
      refine ⟨hoffs, hk, hlen, fun k mesh hkmesh => ?_⟩
      have hk : k < rmeshes.length := by
        by_contra hcon
        rw [List.getElem?_eq_none (by omega)] at hkmesh
        cases hkmesh
      exact hall k mesh hk hkmesh)
  refine ⟨st.meshes, ?_, hlen, hall⟩
  unfold ImportMeshes
  rw [hrun, some_bind_eq, hoffs, hk, List.range_succ, List.map_append, List.append_assoc]
  rfl

theorem importPrimitive_fields {W : Type} [Zero W] [One W] [Add W] [Mul W] [Sub W]
    (mNumMaterials : Nat) (mesh : Mesh W) (p : Nat)
    (prim : Primitive W) (aim : aiMesh W)
    (h : importPrimitive mNumMaterials mesh p prim = some aim) :
    aim.mName = meshName mesh p ∧ aim.mMaterialIndex = materialIndex mNumMaterials prim ∧
    aim.mNumVertices = vertexCount prim ∧
    ∃ faces, assembleFaces prim.indices prim.mode (vertexCount prim) = some faces ∧
      aim.mFaces = faces.toList := by
  unfold importPrimitive at h
  obtain ⟨vertexData, hvd, h⟩ := bind_eq_some_elim h
  obtain ⟨mColors, -, h⟩ := bind_eq_some_elim h
  obtain ⟨faces, hf, h⟩ := bind_eq_some_elim h
  cases h
  have hn := importVertexData_numVertices _ _ _ _ hvd
  rw [hn] at hf
  exact ⟨rfl, rfl, hn, faces, hf, rfl⟩

/-- Every primitive of the example meshes is imported. -/
theorem exampleMeshes_imported (mNumMaterials : Nat) :
    ∀ (k : Nat) (mesh : Mesh Int), exampleMeshes[k]? = some mesh →
      ∀ (p : Nat) (prim : Primitive Int), mesh.primitives[p]? = some prim →
        ∃ aim, importPrimitive mNumMaterials mesh p prim = some aim := by
  intro k mesh hk p prim hp
  match k, hk with
  | 0, hk =>
    cases hk
    match p, hp with
    | 0, hp => cases hp; exact ⟨_, rfl⟩
    | 1, hp => cases hp; exact ⟨_, rfl⟩
    | p + 2, hp => cases hp
  | 1, hk =>
    cases hk
    match p, hp with
    | 0, hp => cases hp; exact ⟨_, rfl⟩
    | p + 1, hp => cases hp
  | k + 2, hk => cases hk

/-- Claim C11: for `n` input materials `ImportMaterials` produces `n + 1`
materials, material `i < n` being the translation of input material `i` and
material `n` the translation of the default material; the output mesh of a
primitive with an explicit material has that material's index, and the output
mesh of a primitive without one has index `n`. -/
theorem C11_materials {M A W : Type} [Zero W] [One W] [Add W] [Mul W] [Sub W]
    (ImportMaterial : M → A) (defaultMaterial : M)
    (materials : List M) (rmeshes : List (Mesh W)) (meshOffsets : List Nat)
    (hmat : materials.length + 1 < UINT_MOD) (hN : rmeshes.length < UINT_MOD)
    (htotal : primitiveCountBefore rmeshes rmeshes.length < UINT_MOD)
    (hok : ∀ (k : Nat) (mesh : Mesh W), rmeshes[k]? = some mesh →
      ∀ (p : Nat) (prim : Primitive W), mesh.primitives[p]? = some prim →
        ∃ aim, importPrimitive (materials.length + 1) mesh p prim = some aim) :
    ∃ mMaterials offsets out,
      ImportMaterials ImportMaterial defaultMaterial materials = some mMaterials ∧
      mMaterials.length = materials.length + 1 ∧
      (∀ (i : Nat) (mat : M), materials[i]? = some mat →
        mMaterials[i]? = some (some (ImportMaterial mat))) ∧
      mMaterials[materials.length]? = some (some (ImportMaterial defaultMaterial)) ∧
      ImportMeshes mMaterials.length rmeshes meshOffsets = some (offsets, out) ∧
      ∀ (k : Nat) (mesh : Mesh W), rmeshes[k]? = some mesh →
        ∀ (p : Nat) (prim : Primitive W), mesh.primitives[p]? = some prim →
          ∃ aim, out[primitiveCountBefore rmeshes k + p]? = some aim ∧
            (∀ index, prim.material = some index → aim.mMaterialIndex = index) ∧
            (prim.material = none → aim.mMaterialIndex = materials.length) := by
  obtain ⟨out, hrun, -, hall⟩ :=
    ImportMeshes_spec (materials.length + 1) rmeshes meshOffsets hN htotal hok
  have hlen : (materials.map (fun mat => some (ImportMaterial mat))
      ++ [some (ImportMaterial defaultMaterial)]).length = materials.length + 1 := by
    simp
  refine ⟨_, _, out, ImportMaterials_spec ImportMaterial defaultMaterial materials hmat,
    hlen, fun i mat hi => ?_, ?_, by rw [hlen]; exact hrun,
    fun k mesh hk p prim hp => ?_⟩
  · have hi' : i < materials.length := by
      by_contra hcon
      rw [List.getElem?_eq_none (by omega)] at hi
      cases hi
    rw [List.getElem?_append_left (by simpa using hi'), List.getElem?_map, hi]
    rfl
  · rw [List.getElem?_append_right (by simp)]
    simp
  · obtain ⟨aim, himp, hslot⟩ := hall k mesh hk p prim hp
    obtain ⟨-, hmi, -, -⟩ := importPrimitive_fields _ mesh p prim aim himp
    refine ⟨aim, hslot, fun index hidx => ?_, fun hnone => ?_⟩
    · rw [hmi, materialIndex, hidx]
    · rw [hmi, materialIndex, hnone]
      show u32sub (materials.length + 1) 1 = materials.length
      rw [u32sub_of_le (by omega) hmat]
      omega

/-- Witness for C11: two input materials and the example meshes. -/
theorem C11_materials_witness :
    ∃ mMaterials offsets out,
      ImportMaterials (fun name : String => name ++ "!") "default" ["wood", "iron"]
        = some mMaterials ∧
      mMaterials.length = 2 + 1 ∧
      (∀ (i : Nat) (mat : String), ["wood", "iron"][i]? = some mat →
        mMaterials[i]? = some (some (mat ++ "!"))) ∧
      mMaterials[2]? = some (some ("default" ++ "!")) ∧
      ImportMeshes mMaterials.length exampleMeshes [] = some (offsets, out) ∧
      ∀ (k : Nat) (mesh : Mesh Int), exampleMeshes[k]? = some mesh →
        ∀ (p : Nat) (prim : Primitive Int), mesh.primitives[p]? = some prim →
          ∃ aim, out[primitiveCountBefore exampleMeshes k + p]? = some aim ∧
            (∀ index, prim.material = some index → aim.mMaterialIndex = index) ∧
            (prim.material = none → aim.mMaterialIndex = 2) :=
  C11_materials (fun name : String => name ++ "!") "default" ["wood", "iron"] exampleMeshes []
    (by decide) (by decide) (by decide) (exampleMeshes_imported 3)

/-- Claim C12: after `ImportMeshes` on an empty offsets table, for `N` meshes
the table has `N + 1` entries, entry `k` is the sum of the primitive counts of
the meshes before `k` (so the table is non-decreasing and entry `N` is the
number of output meshes), and the output meshes of mesh `k` are the slots
`meshOffsets[k] + p`, one per primitive `p` in primitive order, up to
`meshOffsets[k + 1]`. -/
theorem C12_mesh_offsets {W : Type} [Zero W] [One W] [Add W] [Mul W] [Sub W]
    (mNumMaterials : Nat) (rmeshes : List (Mesh W))
    (hN : rmeshes.length < UINT_MOD)
    (htotal : primitiveCountBefore rmeshes rmeshes.length < UINT_MOD)
    (hok : ∀ (k : Nat) (mesh : Mesh W), rmeshes[k]? = some mesh →
      ∀ (p : Nat) (prim : Primitive W), mesh.primitives[p]? = some prim →
        ∃ aim, importPrimitive mNumMaterials mesh p prim = some aim) :
    ∃ meshOffsets out,
      ImportMeshes mNumMaterials rmeshes [] = some (meshOffsets, out) ∧
      meshOffsets.length = rmeshes.length + 1 ∧
      (∀ k, k ≤ rmeshes.length →
        meshOffsets[k]? = some (primitiveCountBefore rmeshes k)) ∧
      (∀ j k a b : Nat, j ≤ k → meshOffsets[j]? = some a → meshOffsets[k]? = some b → a ≤ b) ∧
      meshOffsets[rmeshes.length]? = some out.length ∧
      ∀ (k : Nat) (mesh : Mesh W), rmeshes[k]? = some mesh →
        ∃ lo hi, meshOffsets[k]? = some lo ∧ meshOffsets[k + 1]? = some hi ∧
          hi = lo + mesh.primitives.length ∧
          ∀ (p : Nat) (prim : Primitive W), mesh.primitives[p]? = some prim →
            ∃ aim, importPrimitive mNumMaterials mesh p prim = some aim ∧
              out[lo + p]? = some aim := by
  obtain ⟨out, hrun, hlen, hall⟩ :=
    ImportMeshes_spec mNumMaterials rmeshes [] hN htotal hok
  have hget : ∀ k, k ≤ rmeshes.length →
      ((List.range (rmeshes.length + 1)).map (primitiveCountBefore rmeshes))[k]?
        = some (primitiveCountBefore rmeshes k) := by
    intro k hk
    rw [List.getElem?_map, List.getElem?_range (by omega)]
    rfl
  rw [List.nil_append] at hrun
  refine ⟨_, out, hrun, by simp, hget, fun j k a b hjk ha hb => ?_, ?_,
    fun k mesh hk => ?_⟩
  · have hk : k ≤ rmeshes.length := by
      by_contra hcon
      rw [List.getElem?_eq_none (by simp; omega)] at hb
      cases hb
    rw [hget j (by omega)] at ha
    rw [hget k hk] at hb
    rw [← Option.some.inj ha, ← Option.some.inj hb]
    exact primitiveCountBefore_mono rmeshes hjk
  · rw [hget _ (Nat.le_refl _), hlen]
  · have hk' : k < rmeshes.length := by
      by_contra hcon
      rw [List.getElem?_eq_none (by omega)] at hk
      cases hk
    exact ⟨_, _, hget k (by omega), hget (k + 1) (by omega),
      primitiveCountBefore_succ rmeshes k mesh hk, hall k mesh hk⟩

/-- Witness for C12: the example meshes give the table `[0, 2, 3]` and three
output meshes. -/
theorem C12_mesh_offsets_witness :
    ImportMeshes 3 exampleMeshes [] = some ([0, 2, 3], exampleOutputMeshes) ∧
    ∃ meshOffsets out,
      ImportMeshes 3 exampleMeshes [] = some (meshOffsets, out) ∧
      meshOffsets.length = 2 + 1 ∧
      (∀ k, k ≤ 2 → meshOffsets[k]? = some (primitiveCountBefore exampleMeshes k)) ∧
      (∀ j k a b : Nat, j ≤ k → meshOffsets[j]? = some a → meshOffsets[k]? = some b → a ≤ b) ∧
      meshOffsets[2]? = some out.length ∧
      ∀ (k : Nat) (mesh : Mesh Int), exampleMeshes[k]? = some mesh →
        ∃ lo hi, meshOffsets[k]? = some lo ∧ meshOffsets[k + 1]? = some hi ∧
          hi = lo + mesh.primitives.length ∧
          ∀ (p : Nat) (prim : Primitive Int), mesh.primitives[p]? = some prim →
            ∃ aim, importPrimitive 3 mesh p prim = some aim ∧ out[lo + p]? = some aim :=
  ⟨by decide,
    C12_mesh_offsets 3 exampleMeshes (by decide) (by decide) (exampleMeshes_imported 3)⟩

/-- Claim C14: the output mesh of primitive `p` of a mesh is named with the
mesh's name (its id when the name is empty), followed by `-` and the decimal
representation of `p` exactly when the mesh has more than one primitive. -/
theorem C14_mesh_names {W : Type} [Zero W] [One W] [Add W] [Mul W] [Sub W]
    (mNumMaterials : Nat) (rmeshes : List (Mesh W))
    (meshOffsets : List Nat) (hN : rmeshes.length < UINT_MOD)
    (htotal : primitiveCountBefore rmeshes rmeshes.length < UINT_MOD)
    (hok : ∀ (k : Nat) (mesh : Mesh W), rmeshes[k]? = some mesh →
      ∀ (p : Nat) (prim : Primitive W), mesh.primitives[p]? = some prim →
        ∃ aim, importPrimitive mNumMaterials mesh p prim = some aim) :
    ∃ offsets out,
      ImportMeshes mNumMaterials rmeshes meshOffsets = some (offsets, out) ∧
      ∀ (k : Nat) (mesh : Mesh W), rmeshes[k]? = some mesh →
        ∀ (p : Nat) (prim : Primitive W), mesh.primitives[p]? = some prim →
          ∃ aim, out[primitiveCountBefore rmeshes k + p]? = some aim ∧
            (mesh.primitives.length > 1 →
              aim.mName = (if mesh.name = "" then mesh.id else mesh.name) ++ "-"
                ++ ASSIMP_itoa10 p) ∧
            (mesh.primitives.length ≤ 1 →
              aim.mName = if mesh.name = "" then mesh.id else mesh.name) := by
  obtain ⟨out, hrun, -, hall⟩ :=
    ImportMeshes_spec mNumMaterials rmeshes meshOffsets hN htotal hok
  refine ⟨_, out, hrun, fun k mesh hk p prim hp => ?_⟩
  obtain ⟨aim, himp, hslot⟩ := hall k mesh hk p prim hp
  obtain ⟨hname, -, -, -⟩ := importPrimitive_fields _ mesh p prim aim himp
  refine ⟨aim, hslot, fun hgt => ?_, fun hle => ?_⟩
  · rw [hname, meshName]
    simp only [hgt, if_true]
  · rw [hname, meshName]
    have hng : ¬ mesh.primitives.length > 1 := by omega
    simp only [hng, if_false]

/-- Witness for C14: the example meshes are named `quad-0`, `quad-1` and
`mesh1`. -/
theorem C14_mesh_names_witness :
    (exampleOutputMeshes.map fun aim => aim.mName) = ["quad-0", "quad-1", "mesh1"] ∧
    ∃ offsets out,
      ImportMeshes 3 exampleMeshes [] = some (offsets, out) ∧
      ∀ (k : Nat) (mesh : Mesh Int), exampleMeshes[k]? = some mesh →
        ∀ (p : Nat) (prim : Primitive Int), mesh.primitives[p]? = some prim →
          ∃ aim, out[primitiveCountBefore exampleMeshes k + p]? = some aim ∧
            (mesh.primitives.length > 1 →
              aim.mName = (if mesh.name = "" then mesh.id else mesh.name) ++ "-"
                ++ ASSIMP_itoa10 p) ∧
            (mesh.primitives.length ≤ 1 →
              aim.mName = if mesh.name = "" then mesh.id else mesh.name) :=
  ⟨by decide,
    C14_mesh_names 3 exampleMeshes [] (by decide) (by decide) (exampleMeshes_imported 3)⟩

/-! ## The output-mesh list of a node -/

/-- The loop `for (j = lo; j < hi; ++j, ++k) mMeshes[k] = j` writes `lo`,
`lo + 1`, ... at the positions `k`, `k + 1`, ... and nothing else. -/
theorem fillRange_spec (lo hi : Nat) (arr : List Nat) (k : Nat) (hhi : hi < UINT_MOD)
    (hk : k + (hi - lo) ≤ arr.length) :
    ∃ st, fillRange lo hi (arr, k) = some st ∧ st.2 = k + (hi - lo) ∧
      st.1.length = arr.length ∧
      ∀ i : Nat, st.1[i]? =
        if k ≤ i ∧ i < k + (hi - lo) then some (lo + (i - k)) else arr[i]? := by
  unfold fillRange
  apply forLoop_post
    (fun j (st : List Nat × Nat) => lo ≤ j ∧ (lo ≤ hi → j ≤ hi) ∧ (hi ≤ lo → j = lo) ∧
      st.2 = k + (j - lo) ∧ st.1.length = arr.length ∧
      ∀ i : Nat, st.1[i]? =
        if k ≤ i ∧ i < k + (j - lo) then some (lo + (i - k)) else arr[i]?)
  · refine ⟨Nat.le_refl _, fun h => h, fun _ => rfl, by simp, rfl, fun i => ?_⟩
    have hc : ¬ (k ≤ i ∧ i < k + (lo - lo)) := by omega
    simp only [hc, if_false]
  · rintro j st hj ⟨hlo, -, -, hk2, hlen, hP⟩
    have hu : u32 (j + 1) = j + 1 := u32_of_lt (by omega)
    have hin : st.2 < st.1.length := by omega
    refine ⟨(st.1.set st.2 j, st.2 + 1), by simp only [hin, if_true], by omega, by omega,
      fun _ => by omega, fun _ => by omega, ?_, ?_, fun i => ?_⟩
    · show st.2 + 1 = k + (u32 (j + 1) - lo)
      rw [hu]
      omega
    · show (st.1.set st.2 j).length = arr.length
      rw [List.length_set]
      exact hlen
    · show (st.1.set st.2 j)[i]? = _
      rw [hu, List.getElem?_set]
      by_cases h1 : st.2 = i
      · have hc : k ≤ i ∧ i < k + (j + 1 - lo) := by omega
        have hv : lo + (i - k) = j := by omega
        simp only [h1, if_true, hc, and_self, hv]
        have hin' : i < st.1.length := by omega
        simp only [hin', if_true]
      · simp only [h1, if_false]
        rw [hP i]
        by_cases hc : k ≤ i ∧ i < k + (j - lo)
        · have hc' : k ≤ i ∧ i < k + (j + 1 - lo) := by omega
          simp only [hc, hc', and_self, if_true]
        · have hc' : ¬ (k ≤ i ∧ i < k + (j + 1 - lo)) := by omega
          simp only [hc, hc', if_false]
  · rintro j st hj ⟨hlo, hle, heq, hk2, hlen, hP⟩
    have hjl : j - lo = hi - lo := by
      by_cases h : lo ≤ hi
      · have := hle h
        omega
      · have := heq (by omega)
        omega
    rw [hjl] at hk2 hP
    exact ⟨hk2, hlen, hP⟩

theorem nodeMeshRanges_cons (meshOffsets : List Nat) (idx : Nat) (meshes : List Nat)
    (lo hi : Nat) (hlo : meshOffsets[idx]? = some lo) (hhi : meshOffsets[idx + 1]? = some hi) :
    nodeMeshRanges meshOffsets (idx :: meshes)
      = List.range' lo (hi - lo) ++ nodeMeshRanges meshOffsets meshes := by
  simp only [nodeMeshRanges, List.flatMap_cons, List.getD_eq_getElem?_getD, hlo, hhi,
    Option.getD_some]

/-- The fill loops over the meshes of a node write the concatenated ranges
from position `k` on and nothing else. -/
theorem fillMeshes_spec (meshOffsets : List Nat) :
    ∀ (meshes : List Nat) (arr : List Nat) (k : Nat),
      (∀ idx, idx ∈ meshes → ∃ lo hi, meshOffsets[idx]? = some lo ∧
        meshOffsets[idx + 1]? = some hi ∧ lo ≤ hi ∧ hi < UINT_MOD) →
      k + (nodeMeshRanges meshOffsets meshes).length ≤ arr.length →
      ∃ st,
        meshes.foldlM
          (fun st idx => do
            let lo ← meshOffsets[idx]?
            let hi ← meshOffsets[idx + 1]?
            fillRange lo hi st)
          (arr, k) = some st ∧
        st.2 = k + (nodeMeshRanges meshOffsets meshes).length ∧
        st.1.length = arr.length ∧
        ∀ i : Nat, st.1[i]? =
          if k ≤ i ∧ i < k + (nodeMeshRanges meshOffsets meshes).length then
            (nodeMeshRanges meshOffsets meshes)[i - k]?
          else arr[i]? := by
  intro meshes
  induction meshes with
  | nil =>
    intro arr k _ _
    refine ⟨(arr, k), rfl, rfl, rfl, fun i => ?_⟩
    have hc : ¬ (k ≤ i ∧ i < k + (nodeMeshRanges meshOffsets []).length) := by
      simp [nodeMeshRanges]
    simp only [hc, if_false]
  | cons idx meshes ih =>
    intro arr k hvalid hfit
    obtain ⟨lo, hi, hlo, hhi, hle, hbound⟩ := hvalid idx (List.mem_cons_self _ _)
    have hcons := nodeMeshRanges_cons meshOffsets idx meshes lo hi hlo hhi
    rw [hcons, List.length_append, List.length_range'] at hfit
    obtain ⟨st1, hrun1, hk1, hlen1, hP1⟩ := fillRange_spec lo hi arr k hbound (by omega)
    obtain ⟨st, hrun, hk2, hlen, hP⟩ := ih st1.1 st1.2
      (fun j hj => hvalid j (List.mem_cons_of_mem _ hj)) (by rw [hk1, hlen1]; omega)
    refine ⟨st, ?_, ?_, by rw [hlen, hlen1], fun i => ?_⟩
    · rw [List.foldlM_cons, hlo, some_bind_eq, hhi, some_bind_eq, hrun1, some_bind_eq]
      exact hrun
    · rw [hk2, hk1, hcons, List.length_append, List.length_range']
      omega
    · rw [hP i, hcons, List.length_append, List.length_range', hk1]
      by_cases hc2 : k + (hi - lo) ≤ i ∧
          i < k + (hi - lo) + (nodeMeshRanges meshOffsets meshes).length
      · have hc : k ≤ i ∧ i < k + (hi - lo + (nodeMeshRanges meshOffsets meshes).length) := by
          omega
        simp only [hc2, hc, and_self, if_true]
        rw [List.getElem?_append_right (by rw [List.length_range']; omega),
          List.length_range']
        congr 1
        omega
      · simp only [hc2, if_false]
        rw [hP1 i]
        by_cases hc1 : k ≤ i ∧ i < k + (hi - lo)
        · have hc : k ≤ i ∧ i < k + (hi - lo + (nodeMeshRanges meshOffsets meshes).length) := by
            omega
          simp only [hc1, hc, and_self, if_true]
          rw [List.getElem?_append_left (by rw [List.length_range']; omega),
            List.getElem?_range' lo 1 (by omega)]
          congr 1
          omega
        · have hc : ¬ (k ≤ i ∧
              i < k + (hi - lo + (nodeMeshRanges meshOffsets meshes).length)) := by
            omega
          simp only [hc1, hc, if_false]

/-- The count loop of lines 843-847 adds up the lengths of the ranges. -/
theorem countMeshes_spec (meshOffsets : List Nat) :
    ∀ (meshes : List Nat) (count : Nat),
      (∀ idx, idx ∈ meshes → ∃ lo hi, meshOffsets[idx]? = some lo ∧
        meshOffsets[idx + 1]? = some hi ∧ lo ≤ hi ∧ hi < UINT_MOD) →
      count + (nodeMeshRanges meshOffsets meshes).length < UINT_MOD →
      meshes.foldlM
        (fun count idx => do
          let hi ← meshOffsets[idx + 1]?
          let lo ← meshOffsets[idx]?
          pure (u32 (count + u32sub hi lo)))
        count = some (count + (nodeMeshRanges meshOffsets meshes).length) := by
  intro meshes
  induction meshes with
  | nil =>
    intro count _ _
    simp [nodeMeshRanges]
  | cons idx meshes ih =>
    intro count hvalid hfit
    obtain ⟨lo, hi, hlo, hhi, hle, hbound⟩ := hvalid idx (List.mem_cons_self _ _)
    have hcons := nodeMeshRanges_cons meshOffsets idx meshes lo hi hlo hhi
    rw [hcons, List.length_append, List.length_range'] at hfit ⊢
    have hsub : u32sub hi lo = hi - lo := u32sub_of_le hle hbound
    have hu : u32 (count + (hi - lo)) = count + (hi - lo) := u32_of_lt (by omega)
    rw [List.foldlM_cons, hhi, some_bind_eq, hlo, some_bind_eq, hsub]
    show (some (u32 (count + (hi - lo))) >>= _) = _
    rw [some_bind_eq, hu, ih (count + (hi - lo))
      (fun j hj => hvalid j (List.mem_cons_of_mem _ hj)) (by omega)]
    congr 1
    omega

/-- The count and the output-mesh list of a node, lines 842-859: the list is
the concatenation of the ranges and the count its length. -/
theorem nodeMeshList_spec (meshOffsets : List Nat) (meshes : List Nat)
    (hvalid : ∀ idx, idx ∈ meshes → ∃ lo hi, meshOffsets[idx]? = some lo ∧
      meshOffsets[idx + 1]? = some hi ∧ lo ≤ hi ∧ hi < UINT_MOD)
    (hfit : (nodeMeshRanges meshOffsets meshes).length < 2147483648) :
    nodeMeshCount meshOffsets meshes
      = some ((nodeMeshRanges meshOffsets meshes).length : Int) ∧
    nodeMeshList meshOffsets meshes = some (nodeMeshRanges meshOffsets meshes) := by
  have hcount : nodeMeshCount meshOffsets meshes
      = some ((nodeMeshRanges meshOffsets meshes).length : Int) := by
    unfold nodeMeshCount
    rw [countMeshes_spec meshOffsets meshes 0 hvalid (by simp only [UINT_MOD]; omega)]
    simp only [Nat.zero_add, Option.map_some', i32_of_lt hfit]
  refine ⟨hcount, ?_⟩
  obtain ⟨st, hrun, -, hlen, hP⟩ := fillMeshes_spec meshOffsets meshes
    (List.replicate (nodeMeshRanges meshOffsets meshes).length 0) 0 hvalid
    (by simp)
  have hst : st.1 = nodeMeshRanges meshOffsets meshes := by
    apply List.ext_getElem?
    intro i
    rw [hP i]
    by_cases hc : i < (nodeMeshRanges meshOffsets meshes).length
    · have hc' : 0 ≤ i ∧ i < 0 + (nodeMeshRanges meshOffsets meshes).length := by omega
      simp only [hc', and_self, if_true, Nat.sub_zero]
    · have hc' : ¬ (0 ≤ i ∧ i < 0 + (nodeMeshRanges meshOffsets meshes).length) := by omega
      simp only [hc', if_false]
      rw [List.getElem?_eq_none (by simp; omega), List.getElem?_eq_none (by omega)]
  unfold nodeMeshList
  rw [hcount, some_bind_eq]
  have hneg : ¬ ((nodeMeshRanges meshOffsets meshes).length : Int) < 0 := by omega
  simp only [hneg, if_false, Int.toNat_ofNat]
  rw [hrun, some_bind_eq, hst]
  rfl

theorem nodeMeshRanges_length (meshOffsets : List Nat) (meshes : List Nat) :
    (nodeMeshRanges meshOffsets meshes).length
      = (meshes.map fun idx =>
          meshOffsets.getD (idx + 1) 0 - meshOffsets.getD idx 0).sum := by
  induction meshes with
  | nil => rfl
  | cons idx meshes ih =>
    simp only [nodeMeshRanges, List.flatMap_cons, List.length_append, List.length_range',
      List.map_cons, List.sum_cons] at ih ⊢
    rw [ih]

/-- The fill loop of lines 1029-1032 run with `mesh_idx = node.meshes[0]`
rewrites the first range of the list with the same values. -/
theorem fillRange_first (meshOffsets : List Nat) (idx : Nat) (meshes : List Nat) (lo hi : Nat)
    (hlo : meshOffsets[idx]? = some lo) (hhi : meshOffsets[idx + 1]? = some hi)
    (hbound : hi < UINT_MOD) :
    ∃ k, fillRange lo hi (nodeMeshRanges meshOffsets (idx :: meshes), 0)
      = some (nodeMeshRanges meshOffsets (idx :: meshes), k) := by
  have hcons := nodeMeshRanges_cons meshOffsets idx meshes lo hi hlo hhi
  obtain ⟨st, hrun, hk, hlen, hP⟩ :=
    fillRange_spec lo hi (nodeMeshRanges meshOffsets (idx :: meshes)) 0 hbound
      (by rw [hcons, List.length_append, List.length_range']; omega)
  have hst : st.1 = nodeMeshRanges meshOffsets (idx :: meshes) := by
    apply List.ext_getElem?
    intro i
    rw [hP i]
    by_cases hc : i < hi - lo
    · have hc' : 0 ≤ i ∧ i < 0 + (hi - lo) := by omega
      simp only [hc', and_self, if_true, Nat.sub_zero]
      rw [hcons, List.getElem?_append_left (by rw [List.length_range']; exact hc),
        List.getElem?_range' lo 1 hc]
      congr 1
      omega
    · have hc' : ¬ (0 ≤ i ∧ i < 0 + (hi - lo)) := by omega
      simp only [hc', if_false]
  refine ⟨st.2, ?_⟩
  rw [hrun, ← hst]

/-- Claim C13: for a node that references the meshes `m_0, ..., m_(r-1)`, the
output-mesh list built by `ImportNode` is the concatenation, in that order, of
the ranges `meshOffsets[m_i] .. meshOffsets[m_i + 1] - 1`; its length is the
sum of the range lengths, which is the sum of the primitive counts of the
referenced meshes when the table is the one of `ImportMeshes`.  The list stays
so to the end of the mesh binding when `mesh_idx` is `node.meshes[0]`. -/
theorem C13_node_mesh_list {W : Type} [Zero W] [LT W] [DecidableRel (α := W) (· < ·)]
    (r : Asset W) (meshOffsets : List Nat) (node : Node)
    (hvalid : ∀ idx, idx ∈ node.meshes → ∃ lo hi, meshOffsets[idx]? = some lo ∧
      meshOffsets[idx + 1]? = some hi ∧ lo ≤ hi ∧ hi < UINT_MOD)
    (hfit : (nodeMeshRanges meshOffsets node.meshes).length < 2147483648) :
    nodeMeshList meshOffsets node.meshes = some (nodeMeshRanges meshOffsets node.meshes) ∧
    nodeMeshCount meshOffsets node.meshes
      = some ((nodeMeshRanges meshOffsets node.meshes).length : Int) ∧
    (nodeMeshRanges meshOffsets node.meshes).length
      = (node.meshes.map fun idx =>
          meshOffsets.getD (idx + 1) 0 - meshOffsets.getD idx 0).sum ∧
    ((∀ idx, idx ∈ node.meshes → ∃ mesh, r.meshes[idx]? = some mesh ∧
        meshOffsets.getD (idx + 1) 0 = meshOffsets.getD idx 0 + mesh.primitives.length) →
      (nodeMeshRanges meshOffsets node.meshes).length
        = (node.meshes.map fun idx => (r.meshes.getD idx {}).primitives.length).sum) ∧
    ∀ (mesh_idx : Nat) (sceneMeshes sceneMeshes' : List (aiMesh W)),
      node.meshes.head? = some mesh_idx →
      bindSkin r meshOffsets mesh_idx node
        ((nodeMeshRanges meshOffsets node.meshes).length : Int) sceneMeshes
        = some sceneMeshes' →
      ImportNode_meshes r meshOffsets mesh_idx node sceneMeshes
        = some (nodeMeshRanges meshOffsets node.meshes, sceneMeshes') := by
  obtain ⟨hcount, hlist⟩ := nodeMeshList_spec meshOffsets node.meshes hvalid hfit
  refine ⟨hlist, hcount, nodeMeshRanges_length meshOffsets node.meshes, fun hlink => ?_,
    fun mesh_idx sceneMeshes sceneMeshes' hhead hbind => ?_⟩
  · rw [nodeMeshRanges_length]
    congr 1
    apply List.map_congr_left
    intro idx hidx
    obtain ⟨mesh, hmesh, heq⟩ := hlink idx hidx
    rw [heq]
    simp [List.getD_eq_getElem?_getD, hmesh]
  · cases hm : node.meshes with
    | nil => rw [hm] at hhead; cases hhead
    | cons idx meshes =>
      rw [hm] at hhead
      have hidx : idx = mesh_idx := Option.some.inj hhead
      subst hidx
      obtain ⟨lo, hi, hlo, hhi, -, hbound⟩ := hvalid idx (by rw [hm]; exact List.mem_cons_self _ _)
      obtain ⟨k, hfill⟩ := fillRange_first meshOffsets idx meshes lo hi hlo hhi hbound
      unfold ImportNode_meshes
      have hne : node.meshes.isEmpty = false := by rw [hm]; rfl
      simp only [hne, hcount, hlist, Bool.false_eq_true, if_false]
      rw [some_bind_eq, some_bind_eq, hbind, some_bind_eq, hlo, some_bind_eq, hhi,
        some_bind_eq, hm, hfill]
      rfl

/-- Witness for C13: with the table `[0, 2, 3]` of the example meshes, a node
that references mesh 1 and then mesh 0 gets the list `[2, 0, 1]`. -/
theorem C13_node_mesh_list_witness :
    nodeMeshRanges [0, 2, 3] exampleMeshNode.meshes = [2, 0, 1] ∧
    nodeMeshList [0, 2, 3] exampleMeshNode.meshes
      = some (nodeMeshRanges [0, 2, 3] exampleMeshNode.meshes) ∧
    (nodeMeshRanges [0, 2, 3] exampleMeshNode.meshes).length
      = (exampleMeshNode.meshes.map fun idx =>
          (exampleMeshAsset.meshes.getD idx {}).primitives.length).sum ∧
    ImportNode_meshes exampleMeshAsset [0, 2, 3] 1 exampleMeshNode [{}, {}, {}]
      = some (nodeMeshRanges [0, 2, 3] exampleMeshNode.meshes, [{}, {}, {}]) := by
  have hvalid : ∀ idx, idx ∈ exampleMeshNode.meshes → ∃ lo hi, [0, 2, 3][idx]? = some lo ∧
      [0, 2, 3][idx + 1]? = some hi ∧ lo ≤ hi ∧ hi < UINT_MOD := by
    intro idx hidx
    have h : idx = 1 ∨ idx = 0 := by simpa [exampleMeshNode] using hidx
    rcases h with h | h
    · subst h; exact ⟨2, 3, rfl, rfl, by decide, by decide⟩
    · subst h; exact ⟨0, 2, rfl, rfl, by decide, by decide⟩
  have hlink : ∀ idx, idx ∈ exampleMeshNode.meshes → ∃ mesh,
      exampleMeshAsset.meshes[idx]? = some mesh ∧
      [0, 2, 3].getD (idx + 1) 0 = [0, 2, 3].getD idx 0 + mesh.primitives.length := by
    intro idx hidx
    have h : idx = 1 ∨ idx = 0 := by simpa [exampleMeshNode] using hidx
    rcases h with h | h
    · subst h; exact ⟨_, rfl, rfl⟩
    · subst h; exact ⟨_, rfl, rfl⟩
  obtain ⟨h1, -, -, h4, h5⟩ :=
    C13_node_mesh_list exampleMeshAsset [0, 2, 3] exampleMeshNode hvalid (by decide)
  exact ⟨by decide, h1, h4 hlink, h5 1 [{}, {}, {}] [{}, {}, {}] rfl rfl⟩

/-! ## The node tree -/

theorem getElem?_modify_ne {α : Type} (f : α → α) (l : List α) {n m : Nat} (h : n ≠ m) :
    (l.modify f n)[m]? = l[m]? := by
  rw [List.getElem?_modify]
  cases l[m]? with
  | none => rfl
  | some a => simp [h]

theorem getElem?_modify_eq {α : Type} (f : α → α) (l : List α) (n : Nat) (a : α)
    (h : l[n]? = some a) : (l.modify f n)[n]? = some (f a) := by
  rw [List.getElem?_modify, h]
  simp

theorem attachChild_length (nodes : List aiNode) (parent child : Nat) :
    (attachChild nodes parent child).length = nodes.length := by
  simp only [attachChild, List.length_modify]

theorem attachChild_other (nodes : List aiNode) (parent child i : Nat) (hp : i ≠ parent)
    (hc : i ≠ child) : (attachChild nodes parent child)[i]? = nodes[i]? := by
  simp only [attachChild]
  rw [getElem?_modify_ne _ _ (fun e => hp e.symm), getElem?_modify_ne _ _ (fun e => hc e.symm)]

theorem attachChild_child (nodes : List aiNode) (parent child : Nat) (cn : aiNode)
    (hne : parent ≠ child) (h : nodes[child]? = some cn) :
    (attachChild nodes parent child)[child]? = some { cn with mParent := some parent } := by
  simp only [attachChild]
  rw [getElem?_modify_ne _ _ hne, getElem?_modify_eq _ _ _ _ h]

theorem attachChild_parent (nodes : List aiNode) (parent child : Nat) (pn : aiNode)
    (hne : parent ≠ child) (h : nodes[parent]? = some pn) :
    (attachChild nodes parent child)[parent]?
      = some { pn with mChildren := pn.mChildren ++ [child] } := by
  simp only [attachChild]
  have h' : (nodes.modify (fun n => { n with mParent := some parent }) child)[parent]?
      = some pn := by
    rw [getElem?_modify_ne _ _ (fun e => hne e.symm), h]
  rw [getElem?_modify_eq _ _ _ _ h']

theorem NodesKept_refl (a : Nat) (nodes : List aiNode) : NodesKept a nodes nodes :=
  fun _ n _ h => ⟨n, h, rfl, rfl, fun _ => rfl⟩

theorem NodesKept_trans {a : Nat} {n1 n2 n3 : List aiNode} (h12 : NodesKept a n1 n2)
    (h23 : NodesKept a n2 n3) : NodesKept a n1 n3 := by
  intro i n hi hn
  obtain ⟨n', hn', e1, e2, e3⟩ := h12 i n hi hn
  obtain ⟨n'', hn'', f1, f2, f3⟩ := h23 i n' hi hn'
  exact ⟨n'', hn'', f1.trans e1, f2.trans e2, fun h => (f3 h).trans (e3 h)⟩

theorem NodesKept_mono {a b : Nat} {n1 n2 : List aiNode} (hab : a ≤ b)
    (h : NodesKept a n1 n2) : NodesKept b n1 n2 := by
  intro i n hi hn
  obtain ⟨n', hn', e1, e2, e3⟩ := h i n (by omega) hn
  exact ⟨n', hn', e1, e2, fun hbi => e3 (by omega)⟩

/-- Entries that are equal from `a` on are kept. -/
theorem NodesKept_of_eq (a : Nat) (nodes nodes' : List aiNode)
    (h : ∀ i : Nat, a ≤ i → i < nodes.length → nodes'[i]? = nodes[i]?) :
    NodesKept a nodes nodes' := by
  intro i n hi hn
  have hlt : i < nodes.length := by
    by_contra hcon
    rw [List.getElem?_eq_none (by omega)] at hn
    cases hn
  exact ⟨n, by rw [h i hi hlt, hn], rfl, rfl, fun _ => rfl⟩

/-- Attaching the node `c` to a parent before it keeps the nodes from `c` on. -/
theorem NodesKept_attachChild (nodes : List aiNode) (parent c : Nat) (h : parent < c) :
    NodesKept c nodes (attachChild nodes parent c) := by
  intro i n hi hn
  by_cases hic : i = c
  · subst hic
    rw [attachChild_child nodes parent i n (by omega) hn]
    exact ⟨_, rfl, rfl, rfl, fun hlt => absurd hlt (Nat.lt_irrefl _)⟩
  · rw [attachChild_other nodes parent c i (by omega) hic]
    exact ⟨n, hn, rfl, rfl, fun _ => rfl⟩

/-- The import relation between an output node and an input node survives
every change of the memory that keeps the nodes from the output node on. -/
theorem ImportedNode_kept (rnodes : List Node) :
    ∀ (fuel : Nat) (nodes nodes' : List aiNode) (a ptr : Nat),
      ImportedNode rnodes fuel nodes a ptr → NodesKept a nodes nodes' →
      ImportedNode rnodes fuel nodes' a ptr := by
  intro fuel
  induction fuel with
  | zero => intro nodes nodes' a ptr h _; exact h
  | succ fuel ih =>
    intro nodes nodes' a ptr h hkept
    obtain ⟨node, anode, hnode, hanode, hname, hlen, hch⟩ := h
    obtain ⟨anode', hanode', e1, e2, -⟩ := hkept a anode (Nat.le_refl _) hanode
    refine ⟨node, anode', hnode, hanode', by rw [e1, hname], by rw [e2, hlen],
      fun i cref hi => ?_⟩
    obtain ⟨c, cnode, hc, hac, hcn, hpar, himp⟩ := hch i cref hi
    obtain ⟨cnode', hcn', -, -, f3⟩ := hkept c cnode (by omega) hcn
    exact ⟨c, cnode', by rw [e2]; exact hc, hac, hcn', by rw [f3 hac, hpar],
      ih nodes nodes' c cref himp (NodesKept_mono (by omega) hkept)⟩

theorem replayCameraWrites_append (ws1 ws2 : List (Nat × String)) (cams : List aiCamera) :
    replayCameraWrites (ws1 ++ ws2) cams
      = replayCameraWrites ws2 (replayCameraWrites ws1 cams) := by
  simp only [replayCameraWrites, List.foldl_append]

theorem replayCameraWrites_length (ws : List (Nat × String)) :
    ∀ cams : List aiCamera, (replayCameraWrites ws cams).length = cams.length := by
  induction ws with
  | nil => intro cams; rfl
  | cons w ws ih =>
    intro cams
    simp only [replayCameraWrites, List.foldl_cons] at ih ⊢
    rw [ih, List.length_modify]

/-- The children loop of `ImportNode` (and of `ImportNodes`): the nodes other
than the parent that existed before are left alone, the parent gains one child
per reference, in order, each a later node with the parent as its parent and
the import of its reference, and the cameras are those after the camera
assignments of the references in order. -/
theorem importChildren_spec {W : Type} (rnodes : List Node) (fuel : Nat)
    (imp : Nat → aiScene W → Option (Nat × aiScene W))
    (hc : ImportContract rnodes fuel imp) (a : Nat) :
    ∀ (refs : List Nat) (s s' : aiScene W) (an0 : aiNode),
      s.nodes[a]? = some an0 → importChildren imp a refs s = some s' →
      s.nodes.length ≤ s'.nodes.length ∧
      (∀ i : Nat, i < s.nodes.length → i ≠ a → s'.nodes[i]? = s.nodes[i]?) ∧
      (∃ cs : List Nat,
        s'.nodes[a]? = some { an0 with mChildren := an0.mChildren ++ cs } ∧
        cs.length = refs.length ∧
        ∀ (j ref : Nat), refs[j]? = some ref →
          ∃ c cn, cs[j]? = some c ∧ a < c ∧ s'.nodes[c]? = some cn ∧
            cn.mParent = some a ∧ ImportedNode rnodes fuel s'.nodes c ref) ∧
      s'.mCameras = replayCameraWrites (refs.flatMap (cameraWrites rnodes fuel)) s.mCameras ∧
      s'.mRootNode = s.mRootNode := by
  intro refs
  induction refs with
  | nil =>
    intro s s' an0 ha h
    simp only [importChildren, List.foldlM_nil] at h
    cases h
    refine ⟨Nat.le_refl _, fun _ _ _ => rfl, ⟨[], by simpa using ha, rfl, ?_⟩, rfl, rfl⟩
    intro j ref hj
    simp at hj
  | cons ref rest ih =>
    intro s s' an0 ha h
    have hlt : a < s.nodes.length := by
      by_contra hcon
      rw [List.getElem?_eq_none (by omega)] at ha
      cases ha
    simp only [importChildren, List.foldlM_cons] at h
    cases himp : imp ref s with
    | none => rw [himp] at h; cases h
    | some res =>
      obtain ⟨c, s1⟩ := res
      rw [himp, some_bind_eq] at h
      have h : importChildren imp a rest { s1 with nodes := attachChild s1.nodes a c }
          = some s' := h
      obtain ⟨hceq, hlen1, hframe1, himported, ⟨cn, hcn, hcnpar⟩, hcam1, hroot1⟩ :=
        hc ref s c s1 himp
      have hac : a < c := by omega
      have ha1 : s1.nodes[a]? = some an0 := by rw [hframe1 a hlt, ha]
      have ha2 : (attachChild s1.nodes a c)[a]?
          = some { an0 with mChildren := an0.mChildren ++ [c] } :=
        attachChild_parent s1.nodes a c an0 (by omega) ha1
      have hc2 : (attachChild s1.nodes a c)[c]? = some { cn with mParent := some a } :=
        attachChild_child s1.nodes a c cn (by omega) hcn
      obtain ⟨hlen2, hframe2, ⟨cs, hcs, hcslen, hcsall⟩, hcam2, hroot2⟩ :=
        ih { s1 with nodes := attachChild s1.nodes a c } s'
          { an0 with mChildren := an0.mChildren ++ [c] } ha2 h
      simp only [attachChild_length] at hlen2 hframe2
      refine ⟨by omega, ?_, ⟨c :: cs, ?_, by simp [hcslen], ?_⟩, ?_, ?_⟩
      · intro i hi hia
        rw [hframe2 i (by omega) hia, attachChild_other s1.nodes a c i hia (by omega),
          hframe1 i hi]
      · rw [hcs]
        simp
      · intro j ref' hj
        cases j with
        | zero =>
          simp only [List.getElem?_cons_zero, Option.some.injEq] at hj
          subst hj
          refine ⟨c, { cn with mParent := some a }, List.getElem?_cons_zero, hac, ?_, rfl, ?_⟩
          · rw [hframe2 c (by omega) (by omega), hc2]
          · refine ImportedNode_kept rnodes fuel s1.nodes s'.nodes c ref himported
              (NodesKept_trans (NodesKept_attachChild s1.nodes a c hac)
                (NodesKept_of_eq c _ _ ?_))
            intro i hi hilt
            rw [attachChild_length] at hilt
            exact hframe2 i hilt (by omega)
        | succ j =>
          simp only [List.getElem?_cons_succ] at hj
          obtain ⟨c', cn', h1, h2, h3, h4, h5⟩ := hcsall j ref' hj
          exact ⟨c', cn', by simpa using h1, h2, h3, h4, h5⟩
      · rw [hcam2, List.flatMap_cons, replayCameraWrites_append]
        simp only [hcam1]
      · rw [hroot2]
        exact hroot1

/-- Every successful call of `ImportNode` keeps the import contract. -/
theorem ImportNode_contract {W : Type} [Zero W] [LT W] [DecidableRel (α := W) (· < ·)]
    (r : Asset W) (meshOffsets : List Nat) (mesh_idx : Node → Nat)
    (hch : ∀ (ptr : Nat) (node : Node), r.nodes[ptr]? = some node →
      node.children.length < UINT_MOD) :
    ∀ fuel : Nat, ImportContract r.nodes fuel (ImportNode r meshOffsets mesh_idx fuel) := by
  intro fuel
  induction fuel with
  | zero =>
    intro ptr s c s' h
    simp only [ImportNode] at h
    cases h
  | succ fuel ih =>
    intro ptr s c s' h
    rw [ImportNode] at h
    cases hnode : r.nodes[ptr]? with
    | none => rw [hnode] at h; cases h
    | some node =>
      rw [hnode, some_bind_eq] at h
      rw [u32_of_lt (hch ptr node hnode), List.take_of_length_le (Nat.le_refl _)] at h
      dsimp only at h
      obtain ⟨s1, hkids, h⟩ := bind_eq_some_elim h
      obtain ⟨res, hmeshes, h⟩ := bind_eq_some_elim h
      have hnew : (s.nodes ++ [({ mName := nameOrId node } : aiNode)])[s.nodes.length]?
          = some { mName := nameOrId node } := by
        rw [List.getElem?_append_right (Nat.le_refl _)]
        simp
      obtain ⟨hlen1, hframe1, ⟨cs, hcs, hcslen, hcsall⟩, hcam1, hroot1⟩ :=
        importChildren_spec r.nodes fuel _ ih s.nodes.length node.children _ s1 _ hnew hkids
      simp only [List.length_append, List.length_singleton, List.nil_append] at hlen1 hframe1 hcs
      -- the state after the mesh list of the node is stored
      have hnodes2 : ∀ nodes2 : List aiNode,
          nodes2 = s1.nodes.modify (fun n => { n with mMeshes := res.1 }) s.nodes.length →
          nodes2.length = s1.nodes.length ∧
          (∀ i : Nat, i < s.nodes.length → nodes2[i]? = s.nodes[i]?) ∧
          ImportedNode r.nodes (fuel + 1) nodes2 s.nodes.length ptr ∧
          ∃ cn, nodes2[s.nodes.length]? = some cn ∧ cn.mParent = none := by
        intro nodes2 h2
        have hkept : NodesKept s.nodes.length s1.nodes nodes2 := by
          intro i n _ hn
          by_cases hia : i = s.nodes.length
          · subst hia
            rw [h2, getElem?_modify_eq _ _ _ _ hn]
            exact ⟨_, rfl, rfl, rfl, fun _ => rfl⟩
          · rw [h2, getElem?_modify_ne _ _ (fun e => hia e.symm)]
            exact ⟨n, hn, rfl, rfl, fun _ => rfl⟩
        have hself : nodes2[s.nodes.length]?
            = some { mName := nameOrId node, mChildren := cs, mMeshes := res.1 } := by
          rw [h2, getElem?_modify_eq _ _ _ _ hcs]
        refine ⟨by rw [h2, List.length_modify], ?_, ?_, ⟨_, hself, rfl⟩⟩
        · intro i hi
          rw [h2, getElem?_modify_ne _ _ (by omega), hframe1 i (by omega) (by omega),
            List.getElem?_append_left hi]
        · refine ⟨node, _, hnode, hself, rfl, hcslen, fun i cref hi => ?_⟩
          obtain ⟨c', cn', h1, h2', h3, h4, h5⟩ := hcsall i cref hi
          obtain ⟨cn'', hcn'', -, -, hpar⟩ := hkept c' cn' (by omega) h3
          exact ⟨c', cn'', h1, h2', hcn'', by rw [hpar (by omega), h4],
            ImportedNode_kept r.nodes fuel s1.nodes nodes2 c' cref h5
              (NodesKept_mono (by omega) hkept)⟩
      obtain ⟨hl2, hf2, hi2, hp2⟩ := hnodes2 _ rfl
      have hwrites : cameraWrites r.nodes (fuel + 1) ptr
          = node.children.flatMap (cameraWrites r.nodes fuel) ++
            match node.camera with
            | some camera => [(camera, nameOrId node)]
            | none => [] := by
        rw [cameraWrites]
        simp only [hnode]
      rw [hwrites, replayCameraWrites_append, ← hcam1]
      cases hcamera : node.camera with
      | none =>
        rw [hcamera] at h
        simp only [pure, Option.some.injEq, Prod.mk.injEq] at h
        obtain ⟨hc, hs⟩ := h
        subst hc
        subst hs
        exact ⟨rfl, by simp only; omega, hf2, hi2, hp2, rfl, hroot1⟩
      | some camera =>
        rw [hcamera] at h
        by_cases hin : camera < s1.mCameras.length
        · simp only [hin, if_true, pure, Option.some.injEq, Prod.mk.injEq] at h
          obtain ⟨hc, hs⟩ := h
          subst hc
          subst hs
          exact ⟨rfl, by simp only; omega, hf2, hi2, hp2, rfl, hroot1⟩
        · simp only [hin, if_false] at h
          cases h

/-- The children loop returns when each import in it returns. -/
theorem importChildren_total {W : Type} (imp : Nat → aiScene W → Option (Nat × aiScene W))
    (a numMeshes numCameras : Nat) :
    ∀ (refs : List Nat),
      (∀ ref, ref ∈ refs → ∀ s : aiScene W, s.mMeshes.length = numMeshes →
        s.mCameras.length = numCameras →
        ∃ c s', imp ref s = some (c, s') ∧ s'.mMeshes.length = numMeshes ∧
          s'.mCameras.length = numCameras) →
      ∀ s : aiScene W, s.mMeshes.length = numMeshes → s.mCameras.length = numCameras →
        ∃ s', importChildren imp a refs s = some s' ∧ s'.mMeshes.length = numMeshes ∧
          s'.mCameras.length = numCameras := by
  intro refs
  induction refs with
  | nil =>
    intro _ s hM hC
    exact ⟨s, rfl, hM, hC⟩
  | cons ref rest ih =>
    intro himp s hM hC
    obtain ⟨c, s1, h1, hM1, hC1⟩ := himp ref (List.mem_cons_self _ _) s hM hC
    obtain ⟨s', h', hM', hC'⟩ :=
      ih (fun ref' hr => himp ref' (List.mem_cons_of_mem _ hr))
        { s1 with nodes := attachChild s1.nodes a c } hM1 hC1
    refine ⟨s', ?_, hM', hC'⟩
    simp only [importChildren, List.foldlM_cons]
    rw [h1, some_bind_eq]
    exact h'

/-- With enough fuel `ImportNode` returns: an importable node is imported, and
the numbers of meshes and cameras of the scene stay as they are. -/
theorem ImportNode_total {W : Type} [Zero W] [LT W] [DecidableRel (α := W) (· < ·)]
    (r : Asset W) (meshOffsets : List Nat) (mesh_idx : Node → Nat)
    (numMeshes numCameras : Nat) :
    ∀ (fuel ptr : Nat) (s : aiScene W),
      Importable r meshOffsets mesh_idx numMeshes numCameras fuel ptr →
      s.mMeshes.length = numMeshes → s.mCameras.length = numCameras →
      ∃ c s', ImportNode r meshOffsets mesh_idx fuel ptr s = some (c, s') ∧
        s'.mMeshes.length = numMeshes ∧ s'.mCameras.length = numCameras := by
  intro fuel
  induction fuel with
  | zero => intro ptr s h; exact False.elim h
  | succ fuel ih =>
    intro ptr s h hM hC
    obtain ⟨node, hnode, hlen, hkids, hmesh, hcam⟩ := h
    obtain ⟨s1, hs1, hM1, hC1⟩ :=
      importChildren_total (ImportNode r meshOffsets mesh_idx fuel) s.nodes.length
        numMeshes numCameras node.children
        (fun ref hr s0 h0 h0' => ih ref s0 (hkids ref hr) h0 h0')
        { s with nodes := s.nodes ++ [{ mName := nameOrId node }] } hM hC
    obtain ⟨res, hres, hreslen⟩ := hmesh s1.mMeshes hM1
    rw [ImportNode, hnode, some_bind_eq, u32_of_lt hlen,
      List.take_of_length_le (Nat.le_refl _)]
    dsimp only
    rw [hs1, some_bind_eq, hres, some_bind_eq]
    cases hcamera : node.camera with
    | none => exact ⟨_, _, rfl, hreslen, hC1⟩
    | some camera =>
      have hin : camera < s1.mCameras.length := by
        rw [hC1]
        exact hcam camera hcamera
      simp only [hin, if_true]
      exact ⟨_, _, rfl, hreslen, by simp only [List.length_modify]; exact hC1⟩

/-- After the assignments `ws`, a camera has the name given by the last
assignment to it, and its old name when there is none. -/
theorem replayCameraWrites_name :
    ∀ (ws : List (Nat × String)) (cams : List aiCamera) (k : Nat) (cam0 : aiCamera),
      cams[k]? = some cam0 →
      ∃ cam, (replayCameraWrites ws cams)[k]? = some cam ∧
        cam.mName = match (ws.filter (fun w => w.1 = k)).getLast? with
          | some w => w.2
          | none => cam0.mName := by
  intro ws
  induction ws with
  | nil =>
    intro cams k cam0 h
    exact ⟨cam0, h, rfl⟩
  | cons w ws ih =>
    intro cams k cam0 h
    have hstep : replayCameraWrites (w :: ws) cams
        = replayCameraWrites ws (cams.modify (fun c => { c with mName := w.2 }) w.1) := rfl
    rw [hstep]
    by_cases hk : w.1 = k
    · have h' : (cams.modify (fun c => { c with mName := w.2 }) w.1)[k]?
          = some { cam0 with mName := w.2 } := by
        rw [← hk] at h ⊢
        exact getElem?_modify_eq _ _ _ _ h
      obtain ⟨cam, hcam, hname⟩ := ih _ k _ h'
      refine ⟨cam, hcam, ?_⟩
      rw [hname, List.filter_cons_of_pos (by simpa using hk)]
      cases hf : ws.filter (fun w => w.1 = k) with
      | nil => rfl
      | cons x xs =>
        rw [List.getLast?_cons_cons]
        cases hl : (x :: xs).getLast? with
        | none => simp at hl
        | some y => rfl
    · have h' : (cams.modify (fun c => { c with mName := w.2 }) w.1)[k]? = some cam0 := by
        rw [getElem?_modify_ne _ _ hk, h]
      obtain ⟨cam, hcam, hname⟩ := ih _ k _ h'
      refine ⟨cam, hcam, ?_⟩
      rw [hname, List.filter_cons_of_neg (by simpa using hk)]

theorem cameraWrites_succ (rnodes : List Node) (fuel ptr : Nat) (node : Node)
    (hnode : rnodes[ptr]? = some node) :
    cameraWrites rnodes (fuel + 1) ptr
      = node.children.flatMap (cameraWrites rnodes fuel) ++
        match node.camera with
        | some camera => [(camera, nameOrId node)]
        | none => [] := by
  rw [cameraWrites]
  simp only [hnode]

theorem exampleTree_children (ptr : Nat) (node : Node)
    (h : exampleTreeAsset.nodes[ptr]? = some node) : node.children.length < UINT_MOD := by
  have hlen : exampleTreeAsset.nodes.length = 4 := rfl
  have hlt : ptr < 4 := by
    by_contra hcon
    rw [List.getElem?_eq_none (by omega)] at h
    cases h
  have hcases : ptr = 0 ∨ ptr = 1 ∨ ptr = 2 ∨ ptr = 3 := by omega
  rcases hcases with h0 | h0 | h0 | h0 <;> subst h0 <;>
    simp only [exampleTreeAsset, List.getElem?_cons_zero, List.getElem?_cons_succ,
      Option.some.injEq] at h <;> subst h <;> decide

theorem exampleTree_importable_leaf (fuel ptr : Nat) (node : Node)
    (hnode : exampleTreeAsset.nodes[ptr]? = some node) (hkids : node.children = [])
    (hmeshes : node.meshes = []) (hcam : ∀ camera, node.camera = some camera → camera < 2) :
    Importable exampleTreeAsset [] (fun _ => 0) 0 2 (fuel + 1) ptr := by
  refine ⟨node, hnode, by rw [hkids]; decide, ?_, ?_, hcam⟩
  · intro cref hc
    rw [hkids] at hc
    cases hc
  · intro meshes hm
    refine ⟨([], meshes), ?_, hm⟩
    simp only [ImportNode_meshes, hmeshes, List.isEmpty_nil, if_true]

theorem exampleTree_importable_1 (fuel : Nat) :
    Importable exampleTreeAsset [] (fun _ => 0) 0 2 (fuel + 2) 1 := by
  refine ⟨{ id := "n1", children := [3], camera := some 0 }, rfl, by decide, ?_, ?_, ?_⟩
  · intro cref hc
    change cref ∈ [3] at hc
    simp only [List.mem_singleton] at hc
    subst hc
    exact exampleTree_importable_leaf fuel 3 _ rfl rfl rfl
      (fun camera h => by cases h; decide)
  · intro meshes hm
    exact ⟨([], meshes), rfl, hm⟩
  · intro camera h
    cases h
    decide

theorem exampleTree_importable_2 (fuel : Nat) :
    Importable exampleTreeAsset [] (fun _ => 0) 0 2 (fuel + 1) 2 :=
  exampleTree_importable_leaf fuel 2 _ rfl rfl rfl (fun camera h => by cases h; decide)

theorem exampleTree_importable_0 :
    Importable exampleTreeAsset [] (fun _ => 0) 0 2 3 0 := by
  refine ⟨{ id := "n0", name := "A", children := [1, 2], camera := some 0 }, rfl,
    by decide, ?_, ?_, ?_⟩
  · intro cref hc
    change cref ∈ [1, 2] at hc
    simp only [List.mem_cons, List.mem_singleton, List.not_mem_nil, or_false] at hc
    rcases hc with hc | hc
    · subst hc
      exact exampleTree_importable_1 0
    · subst hc
      exact exampleTree_importable_2 1
  · intro meshes hm
    exact ⟨([], meshes), rfl, hm⟩
  · intro camera h
    cases h
    decide

/-- The example tree imported from node 0: the nodes are allocated parent
first, the children lists and parents mirror the input, and the cameras end
with the names "A" (node 0 after its descendant node 1) and "C" (node 2 after
node 3, which is imported earlier as a descendant of node 1). -/
theorem exampleTree_imported :
    ImportNode exampleTreeAsset [] (fun _ => 0) 3 0 exampleTreeScene
      = some (0,
          { nodes :=
              [ { mName := "A", mChildren := [1, 3] },
                { mName := "n1", mParent := some 0, mChildren := [2] },
                { mName := "D", mParent := some 1 },
                { mName := "C", mParent := some 0 } ]
            mCameras := [{ mName := "A" }, { mName := "C" }] }) := by
  decide

/-- Claim C16.  For an input node `ptr` whose subtree can be imported within
the depth `fuel + 1` (the children relation below it is acyclic), `ImportNode`
returns a node `a` whose name is the input name, or the input id when the name
is empty, with as many children as the input node; child `i` of `a` has `a` as
its parent and is the import of the `i`-th input child. -/
theorem C16_import_node {W : Type} [Zero W] [LT W] [DecidableRel (α := W) (· < ·)]
    (r : Asset W) (meshOffsets : List Nat) (mesh_idx : Node → Nat)
    (numMeshes numCameras fuel ptr : Nat) (s : aiScene W)
    (hch : ∀ (p : Nat) (node : Node), r.nodes[p]? = some node →
      node.children.length < UINT_MOD)
    (himp : Importable r meshOffsets mesh_idx numMeshes numCameras (fuel + 1) ptr)
    (hM : s.mMeshes.length = numMeshes) (hC : s.mCameras.length = numCameras) :
    ∃ a s' node anode,
      ImportNode r meshOffsets mesh_idx (fuel + 1) ptr s = some (a, s') ∧
      r.nodes[ptr]? = some node ∧ s'.nodes[a]? = some anode ∧
      anode.mName = (if node.name = "" then node.id else node.name) ∧
      anode.mChildren.length = node.children.length ∧
      ∀ (i cref : Nat), node.children[i]? = some cref →
        ∃ c cnode, anode.mChildren[i]? = some c ∧ s'.nodes[c]? = some cnode ∧
          cnode.mParent = some a ∧ ImportedNode r.nodes fuel s'.nodes c cref := by
  obtain ⟨a, s', hrun, -, -⟩ :=
    ImportNode_total r meshOffsets mesh_idx numMeshes numCameras (fuel + 1) ptr s himp hM hC
  obtain ⟨-, -, -, ⟨node, anode, hnode, hanode, hname, hlen, hkids⟩, -, -, -⟩ :=
    ImportNode_contract r meshOffsets mesh_idx hch (fuel + 1) ptr s a s' hrun
  refine ⟨a, s', node, anode, hrun, hnode, hanode, hname, hlen, fun i cref hi => ?_⟩
  obtain ⟨c, cnode, h1, -, h3, h4, h5⟩ := hkids i cref hi
  exact ⟨c, cnode, h1, h3, h4, h5⟩

/-- Claim C16 on the example tree, imported from node 0. -/
theorem C16_import_node_witness :
    ∃ a s' node anode,
      ImportNode exampleTreeAsset [] (fun _ => 0) 3 0 exampleTreeScene = some (a, s') ∧
      exampleTreeAsset.nodes[0]? = some node ∧ s'.nodes[a]? = some anode ∧
      anode.mName = (if node.name = "" then node.id else node.name) ∧
      anode.mChildren.length = node.children.length ∧
      ∀ (i cref : Nat), node.children[i]? = some cref →
        ∃ c cnode, anode.mChildren[i]? = some c ∧ s'.nodes[c]? = some cnode ∧
          cnode.mParent = some a ∧ ImportedNode exampleTreeAsset.nodes 2 s'.nodes c cref :=
  C16_import_node exampleTreeAsset [] (fun _ => 0) 0 2 2 0 exampleTreeScene
    exampleTree_children exampleTree_importable_0 rfl rfl

/-- Claim C15.  `ImportNodes` on a scene `s`: without a scene in the asset, or
with a scene without root nodes, `s` is returned as it is (its root stays as it
was, absent for a new scene); with exactly one root node the output root is
the import of that node and has no parent; with `k > 1` root nodes the output
root is a new node named "ROOT" with `k` children, child `j` being the import
of the `j`-th root and having the new node as its parent. -/
theorem C15_import_nodes {W : Type} [Zero W] [LT W] [DecidableRel (α := W) (· < ·)]
    (r : Asset W) (meshOffsets : List Nat) (mesh_idx : Node → Nat)
    (numMeshes numCameras fuel : Nat) (s : aiScene W)
    (hch : ∀ (p : Nat) (node : Node), r.nodes[p]? = some node →
      node.children.length < UINT_MOD)
    (hM : s.mMeshes.length = numMeshes) (hC : s.mCameras.length = numCameras) :
    (r.scene = none → ImportNodes r meshOffsets mesh_idx fuel s = some s) ∧
    (∀ scene, r.scene = some scene → scene.nodes = [] →
      ImportNodes r meshOffsets mesh_idx fuel s = some s) ∧
    (∀ scene root0, r.scene = some scene → scene.nodes = [root0] →
      Importable r meshOffsets mesh_idx numMeshes numCameras fuel root0 →
      ∃ a s' anode, ImportNodes r meshOffsets mesh_idx fuel s = some s' ∧
        s'.mRootNode = some a ∧ s'.nodes[a]? = some anode ∧ anode.mParent = none ∧
        ImportedNode r.nodes fuel s'.nodes a root0) ∧
    (∀ scene, r.scene = some scene → 1 < scene.nodes.length →
      scene.nodes.length < UINT_MOD →
      (∀ ref, ref ∈ scene.nodes →
        Importable r meshOffsets mesh_idx numMeshes numCameras fuel ref) →
      ∃ root s' rootNode, ImportNodes r meshOffsets mesh_idx fuel s = some s' ∧
        s'.mRootNode = some root ∧ s'.nodes[root]? = some rootNode ∧
        rootNode.mName = "ROOT" ∧ rootNode.mParent = none ∧
        rootNode.mChildren.length = scene.nodes.length ∧
        ∀ (j ref : Nat), scene.nodes[j]? = some ref →
          ∃ c cnode, rootNode.mChildren[j]? = some c ∧ s'.nodes[c]? = some cnode ∧
            cnode.mParent = some root ∧ ImportedNode r.nodes fuel s'.nodes c ref) := by
  refine ⟨?_, ?_, ?_, ?_⟩
  · intro hs
    simp only [ImportNodes, hs]
  · intro scene hs hroots
    simp only [ImportNodes, hs, hroots, List.length_nil]
    rfl
  · intro scene root0 hs hroots himp
    obtain ⟨a, s', hrun, -, -⟩ :=
      ImportNode_total r meshOffsets mesh_idx numMeshes numCameras fuel root0 s himp hM hC
    obtain ⟨-, -, -, himported, ⟨cn, hcn, hpar⟩, -, -⟩ :=
      ImportNode_contract r meshOffsets mesh_idx hch fuel root0 s a s' hrun
    refine ⟨a, { s' with mRootNode := some a }, cn, ?_, rfl, hcn, hpar, himported⟩
    have h1 : u32 1 = 1 := rfl
    simp only [ImportNodes, hs, hroots, List.length_singleton, h1, if_true,
      List.getElem?_cons_zero]
    rw [some_bind_eq, hrun, some_bind_eq]
    rfl
  · intro scene hs hk hfit himp
    have hu : u32 scene.nodes.length = scene.nodes.length := u32_of_lt hfit
    have hne : ¬ scene.nodes.length = 1 := by omega
    have hnew : (s.nodes ++ [({ mName := "ROOT" } : aiNode)])[s.nodes.length]?
        = some { mName := "ROOT" } := by
      rw [List.getElem?_append_right (Nat.le_refl _)]
      simp
    obtain ⟨s1, hs1, -, -⟩ :=
      importChildren_total (ImportNode r meshOffsets mesh_idx fuel) s.nodes.length
        numMeshes numCameras scene.nodes
        (fun ref hr s0 h0 h0' =>
          ImportNode_total r meshOffsets mesh_idx numMeshes numCameras fuel ref s0
            (himp ref hr) h0 h0')
        { s with nodes := s.nodes ++ [{ mName := "ROOT" }] } hM hC
    obtain ⟨-, -, ⟨cs, hcs, hcslen, hcsall⟩, -, -⟩ :=
      importChildren_spec r.nodes fuel _
        (ImportNode_contract r meshOffsets mesh_idx hch fuel) s.nodes.length scene.nodes
        _ s1 _ hnew hs1
    refine ⟨s.nodes.length, { s1 with mRootNode := some s.nodes.length }, _, ?_, rfl, hcs,
      rfl, rfl, by simpa using hcslen, fun j ref hj => ?_⟩
    · simp only [ImportNodes, hs, hu, hne, hk, if_true, if_false,
        List.take_of_length_le (Nat.le_refl _), gt_iff_lt]
      rw [hs1, some_bind_eq]
      rfl
    · obtain ⟨c, cnode, h1, -, h3, h4, h5⟩ := hcsall j ref hj
      exact ⟨c, cnode, by simpa using h1, h3, h4, h5⟩

/-- Claim C15 on the example tree (one root), on the same nodes with the two
roots 1 and 2, and on the same nodes without a scene. -/
theorem C15_import_nodes_witness :
    (∃ a s' anode,
      ImportNodes exampleTreeAsset [] (fun _ => 0) 3 exampleTreeScene = some s' ∧
      s'.mRootNode = some a ∧ s'.nodes[a]? = some anode ∧ anode.mParent = none ∧
      ImportedNode exampleTreeAsset.nodes 3 s'.nodes a 0) ∧
    (∃ root s' rootNode,
      ImportNodes exampleForestAsset [] (fun _ => 0) 2 exampleTreeScene = some s' ∧
      s'.mRootNode = some root ∧ s'.nodes[root]? = some rootNode ∧
      rootNode.mName = "ROOT" ∧ rootNode.mParent = none ∧
      rootNode.mChildren.length = 2 ∧
      ∀ (j ref : Nat), [1, 2][j]? = some ref →
        ∃ c cnode, rootNode.mChildren[j]? = some c ∧ s'.nodes[c]? = some cnode ∧
          cnode.mParent = some root ∧
          ImportedNode exampleForestAsset.nodes 2 s'.nodes c ref) ∧
    ImportNodes { exampleTreeAsset with scene := none } [] (fun _ => 0) 3 exampleTreeScene
      = some exampleTreeScene :=
  ⟨(C15_import_nodes exampleTreeAsset [] (fun _ => 0) 0 2 3 exampleTreeScene
      exampleTree_children rfl rfl).2.2.1 { nodes := [0] } 0 rfl rfl
      exampleTree_importable_0,
    (C15_import_nodes exampleForestAsset [] (fun _ => 0) 0 2 2 exampleTreeScene
      exampleTree_children rfl rfl).2.2.2 { nodes := [1, 2] } rfl (by decide) (by decide)
      (fun ref hr => by
        change ref ∈ [1, 2] at hr
        simp only [List.mem_cons, List.mem_singleton, List.not_mem_nil, or_false] at hr
        rcases hr with hr | hr
        · subst hr
          exact exampleTree_importable_1 0
        · subst hr
          exact exampleTree_importable_2 1),
    (C15_import_nodes { exampleTreeAsset with scene := none } [] (fun _ => 0) 0 2 3
      exampleTreeScene exampleTree_children rfl rfl).1 rfl⟩

/-- Claim C18.  After the import of the node `ptr` the cameras are those after
the camera assignments of the call, made in order: the assignments of the
children, child by child in list order, come first, and the assignment of the
node's own output name to the node's camera comes last.  So the camera of the
node carries the node's output name, and every camera carries the name of the
last assignment to it (its old name when no node of the subtree references
it). -/
theorem C18_camera_names {W : Type} [Zero W] [LT W] [DecidableRel (α := W) (· < ·)]
    (r : Asset W) (meshOffsets : List Nat) (mesh_idx : Node → Nat)
    (numMeshes numCameras fuel ptr : Nat) (s : aiScene W)
    (hch : ∀ (p : Nat) (node : Node), r.nodes[p]? = some node →
      node.children.length < UINT_MOD)
    (himp : Importable r meshOffsets mesh_idx numMeshes numCameras (fuel + 1) ptr)
    (hM : s.mMeshes.length = numMeshes) (hC : s.mCameras.length = numCameras) :
    ∃ a s' node,
      ImportNode r meshOffsets mesh_idx (fuel + 1) ptr s = some (a, s') ∧
      r.nodes[ptr]? = some node ∧
      s'.mCameras = replayCameraWrites (cameraWrites r.nodes (fuel + 1) ptr) s.mCameras ∧
      cameraWrites r.nodes (fuel + 1) ptr
        = node.children.flatMap (cameraWrites r.nodes fuel) ++
          (match node.camera with
          | some camera => [(camera, if node.name = "" then node.id else node.name)]
          | none => []) ∧
      (∀ camera, node.camera = some camera →
        ∃ cam, s'.mCameras[camera]? = some cam ∧
          cam.mName = (if node.name = "" then node.id else node.name)) ∧
      ∀ (k : Nat) (cam0 : aiCamera), s.mCameras[k]? = some cam0 →
        ∃ cam, s'.mCameras[k]? = some cam ∧
          cam.mName =
            match ((cameraWrites r.nodes (fuel + 1) ptr).filter (fun w => w.1 = k)).getLast? with
            | some w => w.2
            | none => cam0.mName := by
  obtain ⟨a, s', hrun, -, -⟩ :=
    ImportNode_total r meshOffsets mesh_idx numMeshes numCameras (fuel + 1) ptr s himp hM hC
  obtain ⟨-, -, -, -, -, hcams, -⟩ :=
    ImportNode_contract r meshOffsets mesh_idx hch (fuel + 1) ptr s a s' hrun
  obtain ⟨node, hnode, -, -, -, hcam⟩ := himp
  have hall : ∀ (k : Nat) (cam0 : aiCamera), s.mCameras[k]? = some cam0 →
      ∃ cam, s'.mCameras[k]? = some cam ∧
        cam.mName =
          match ((cameraWrites r.nodes (fuel + 1) ptr).filter (fun w => w.1 = k)).getLast? with
          | some w => w.2
          | none => cam0.mName := by
    intro k cam0 hk
    rw [hcams]
    exact replayCameraWrites_name _ _ k cam0 hk
  refine ⟨a, s', node, hrun, hnode, hcams, cameraWrites_succ r.nodes fuel ptr node hnode,
    fun camera hcamera => ?_, hall⟩
  have hlt : camera < s.mCameras.length := by
    rw [hC]
    exact hcam camera hcamera
  obtain ⟨cam, h1, h2⟩ := hall camera (s.mCameras[camera]) (List.getElem?_eq_getElem hlt)
  refine ⟨cam, h1, ?_⟩
  rw [h2, cameraWrites_succ r.nodes fuel ptr node hnode, hcamera, List.filter_append]
  simp [nameOrId]

/-- Claim C18 on the example tree: camera 0, referenced by the nodes 0 and 1,
ends with the name of the ancestor, node 0. -/
theorem C18_camera_names_witness :
    ∃ a s' node,
      ImportNode exampleTreeAsset [] (fun _ => 0) 3 0 exampleTreeScene = some (a, s') ∧
      exampleTreeAsset.nodes[0]? = some node ∧
      s'.mCameras = replayCameraWrites (cameraWrites exampleTreeAsset.nodes 3 0)
        exampleTreeScene.mCameras ∧
      cameraWrites exampleTreeAsset.nodes 3 0
        = node.children.flatMap (cameraWrites exampleTreeAsset.nodes 2) ++
          (match node.camera with
          | some camera => [(camera, if node.name = "" then node.id else node.name)]
          | none => []) ∧
      (∀ camera, node.camera = some camera →
        ∃ cam, s'.mCameras[camera]? = some cam ∧
          cam.mName = (if node.name = "" then node.id else node.name)) ∧
      ∀ (k : Nat) (cam0 : aiCamera), exampleTreeScene.mCameras[k]? = some cam0 →
        ∃ cam, s'.mCameras[k]? = some cam ∧
          cam.mName =
            match ((cameraWrites exampleTreeAsset.nodes 3 0).filter
              (fun w => w.1 = k)).getLast? with
            | some w => w.2
            | none => cam0.mName :=
  C18_camera_names exampleTreeAsset [] (fun _ => 0) 0 2 2 0 exampleTreeScene
    exampleTree_children exampleTree_importable_0 rfl rfl

/-! ## Node transforms -/

theorem mat4_index (r c : Fin 4) : 4 * c.val + r.val < 16 := by
  have hr := r.isLt
  have hc := c.isLt
  omega

/-- Claim C17.  `GetNodeTransform` on a node whose matrix is present returns
that matrix, whatever translation, rotation and scale the node carries and
whatever transform is passed in: the entry in row `r`, column `c` is element
`4 c + r` of the array.  On a node with none of matrix, translation, rotation
and scale it returns the transform passed in. -/
theorem C17_node_transform {W : Type} (ops : MatrixOps W) (matrix : aiMatrix4x4 W) :
    (∀ (value : Fin 16 → W) (translation : Option (Fin 3 → W))
        (rotation : Option (Fin 4 → W)) (scale : Option (Fin 3 → W)) (r c : Fin 4),
      (GetNodeTransform ops matrix
        { matrix := some value, translation := translation, rotation := rotation,
          scale := scale }).entry r c = value ⟨4 * c.val + r.val, mat4_index r c⟩) ∧
    GetNodeTransform ops matrix
      { matrix := none, translation := none, rotation := none, scale := none } = matrix := by
  refine ⟨?_, rfl⟩
  intro value translation rotation scale r c
  fin_cases r <;> fin_cases c <;> rfl

/-! ## Animations -/

/-- With fewer than `2^32` channels the loop of `GatherSamplers` visits the
channels in order and returns. -/
theorem GatherSamplers_eq_foldl {S : Type} (anim : Animation S)
    (h : anim.channels.length < UINT_MOD) :
    GatherSamplers anim
      = some (anim.channels.foldl (gatherChannel (i32 anim.samplers.length)) []) := by
  obtain ⟨m, hrun, hm⟩ := forLoop_post
    (fun i m => i ≤ anim.channels.length ∧
      m = (anim.channels.take i).foldl (gatherChannel (i32 anim.samplers.length)) [])
    (fun m => m = anim.channels.foldl (gatherChannel (i32 anim.samplers.length)) [])
    0 anim.channels.length 1
    (fun c samplers => do
      let channel ← anim.channels[c]?
      pure (gatherChannel (i32 anim.samplers.length) samplers channel))
    [] ⟨Nat.zero_le _, rfl⟩
    (fun i m hi hP => by
      obtain ⟨-, hm⟩ := hP
      have hu : u32 (i + 1) = i + 1 := u32_of_lt (by omega)
      refine ⟨gatherChannel (i32 anim.samplers.length) m (anim.channels[i]), ?_, ?_, ?_, ?_⟩
      · beta_reduce
        rw [List.getElem?_eq_getElem hi, some_bind_eq]
        rfl
      · omega
      · omega
      · rw [hu, List.take_succ, List.foldl_append, ← hm, List.getElem?_eq_getElem hi]
        rfl)
    (fun j m hj hP => by
      obtain ⟨hle, hm⟩ := hP
      rw [hm, List.take_of_length_le (by omega)])
  unfold GatherSamplers
  rw [hrun, hm]

theorem lastSampler_concat (numSamplers : Int) (channels : List Channel) (ch : Channel)
    (node : Nat) (path : AnimationPath) :
    lastSampler numSamplers (channels ++ [ch]) node path
      = if ch.sampler < numSamplers ∧ ch.target.node = node ∧ ch.target.path = path
        then some ch.sampler
        else lastSampler numSamplers channels node path := by
  simp only [lastSampler, List.filter_append, List.filter_singleton]
  by_cases hc : ch.sampler < numSamplers ∧ ch.target.node = node ∧ ch.target.path = path
  · obtain ⟨h1, h2, h3⟩ := hc
    simp [h1, h2, h3]
  · rw [if_neg hc]
    have hb : (decide (ch.sampler < numSamplers) && decide (ch.target.node = node) &&
        decide (ch.target.path = path)) = false := by
      simpa [and_assoc] using hc
    rw [hb]
    simp

theorem gatheredEntry_concat_other (numSamplers : Int) (channels : List Channel)
    (ch : Channel) (node : Nat)
    (h : ¬ (ch.sampler < numSamplers ∧ ch.target.node = node)) :
    gatheredEntry numSamplers (channels ++ [ch]) node
      = gatheredEntry numSamplers channels node := by
  have hc : ∀ path, ¬ (ch.sampler < numSamplers ∧ ch.target.node = node ∧
      ch.target.path = path) := fun path hp => h ⟨hp.1, hp.2.1⟩
  simp only [gatheredEntry, lastSampler_concat, hc, if_false]

theorem gatheredEntry_concat_same (numSamplers : Int) (channels : List Channel)
    (ch : Channel) (h : ch.sampler < numSamplers) :
    gatheredEntry numSamplers (channels ++ [ch]) ch.target.node
      = assignSampler ch.target.path ch.sampler
          (gatheredEntry numSamplers channels ch.target.node) := by
  cases hp : ch.target.path <;>
    simp [gatheredEntry, lastSampler_concat, assignSampler, h, hp]

theorem gatheredEntry_absent (numSamplers : Int) (channels : List Channel) (node : Nat)
    (h : ∀ ch, ch ∈ channels → ch.sampler < numSamplers → ch.target.node ≠ node) :
    gatheredEntry numSamplers channels node = {} := by
  have hnil : ∀ path, lastSampler numSamplers channels node path = none := by
    intro path
    have hf : channels.filter
        (fun ch => decide (ch.sampler < numSamplers) && decide (ch.target.node = node) &&
          decide (ch.target.path = path)) = [] := by
      rw [List.filter_eq_nil_iff]
      intro ch hch hp
      simp only [Bool.and_eq_true, decide_eq_true_eq] at hp
      exact h ch hch hp.1.1 hp.1.2
    simp only [lastSampler, hf, List.getLast?_nil, Option.map_none']
  simp only [gatheredEntry, hnil]

theorem mapUpdate_of_mem (m : List (Nat × AnimationSamplers)) (key : Nat)
    (f : AnimationSamplers → AnimationSamplers) (h : key ∈ m.map Prod.fst) :
    mapUpdate m key f = m.map (fun e => if e.1 = key then (e.1, f e.2) else e) := by
  have hany : m.any (fun e => decide (e.1 = key)) = true := by
    rw [List.any_eq_true]
    obtain ⟨e, he, hk⟩ := List.mem_map.mp h
    exact ⟨e, he, by simpa using hk⟩
  simp only [mapUpdate, hany, if_true]

theorem mapUpdate_of_not_mem (m : List (Nat × AnimationSamplers)) (key : Nat)
    (f : AnimationSamplers → AnimationSamplers) (h : key ∉ m.map Prod.fst) :
    mapUpdate m key f = m ++ [(key, f {})] := by
  have hany : ¬ m.any (fun e => decide (e.1 = key)) = true := by
    rw [List.any_eq_true]
    rintro ⟨e, he, hk⟩
    exact h (List.mem_map.mpr ⟨e, he, by simpa using hk⟩)
  simp only [mapUpdate, hany, if_false]
  rfl

/-- The map after the channels `channels`: the keys are distinct, they are the
target nodes of the channels with a sampler index below `numSamplers`, and the
entry of a node is the one that these channels determine. -/
theorem gather_spec (numSamplers : Int) (channels : List Channel) :
    ((channels.foldl (gatherChannel numSamplers) []).map Prod.fst).Nodup ∧
    (∀ k : Nat, k ∈ (channels.foldl (gatherChannel numSamplers) []).map Prod.fst ↔
      ∃ ch, ch ∈ channels ∧ ch.sampler < numSamplers ∧ ch.target.node = k) ∧
    (∀ (k : Nat) (e : AnimationSamplers),
      (k, e) ∈ channels.foldl (gatherChannel numSamplers) [] →
      e = gatheredEntry numSamplers channels k) ∧
    (channels.foldl (gatherChannel numSamplers) []).length ≤ channels.length := by
  induction channels using List.reverseRecOn with
  | nil =>
    refine ⟨List.nodup_nil, fun k => ?_, fun k e h => ?_, Nat.le_refl _⟩
    · simp
    · simp at h
  | append_singleton chs ch ih =>
    obtain ⟨hnd, hkeys, hentries, hlen⟩ := ih
    rw [List.foldl_append, List.foldl_cons, List.foldl_nil]
    generalize hm : chs.foldl (gatherChannel numSamplers) [] = m at hnd hkeys hentries hlen
    by_cases hvalid : ch.sampler < numSamplers
    · have hstep : gatherChannel numSamplers m ch
          = mapUpdate m ch.target.node (assignSampler ch.target.path ch.sampler) := by
        have hge : ¬ ch.sampler ≥ numSamplers := by omega
        simp only [gatherChannel, hge, if_false]
      rw [hstep]
      by_cases hmem : ch.target.node ∈ m.map Prod.fst
      · rw [mapUpdate_of_mem m _ _ hmem]
        have hfst : (m.map (fun e => if e.1 = ch.target.node
            then (e.1, assignSampler ch.target.path ch.sampler e.2) else e)).map Prod.fst
            = m.map Prod.fst := by
          rw [List.map_map]
          apply List.map_congr_left
          intro e _
          simp only [Function.comp]
          split <;> rfl
        refine ⟨by rw [hfst]; exact hnd, fun k => ?_, fun k e he => ?_, ?_⟩
        · rw [hfst, hkeys k]
          constructor
          · rintro ⟨c, hc, h1, h2⟩
            exact ⟨c, List.mem_append_left _ hc, h1, h2⟩
          · rintro ⟨c, hc, h1, h2⟩
            rcases List.mem_append.mp hc with hc | hc
            · exact ⟨c, hc, h1, h2⟩
            · simp only [List.mem_singleton] at hc
              subst hc
              rw [← h2]
              exact (hkeys _).mp hmem
        · obtain ⟨e0, he0, heq⟩ := List.mem_map.mp he
          by_cases hk : e0.1 = ch.target.node
          · rw [if_pos hk] at heq
            simp only [Prod.mk.injEq] at heq
            obtain ⟨h1, h2⟩ := heq
            have h0 : e0.2 = gatheredEntry numSamplers chs e0.1 := hentries e0.1 e0.2 he0
            rw [← h1, ← h2, hk, gatheredEntry_concat_same numSamplers chs ch hvalid, h0, hk]
          · rw [if_neg hk] at heq
            subst heq
            rw [gatheredEntry_concat_other numSamplers chs ch _ (fun hc => hk hc.2.symm)]
            exact hentries _ _ he0
        · rw [List.length_map, List.length_append, List.length_singleton]
          omega
      · rw [mapUpdate_of_not_mem m _ _ hmem]
        have habsent : ∀ c, c ∈ chs → c.sampler < numSamplers →
            c.target.node ≠ ch.target.node := by
          intro c hc h1 h2
          exact hmem ((hkeys _).mpr ⟨c, hc, h1, h2⟩)
        refine ⟨?_, fun k => ?_, fun k e he => ?_, ?_⟩
        · rw [List.map_append, List.nodup_append]
          refine ⟨hnd, List.nodup_singleton _, ?_⟩
          intro k hk1 hk2
          simp only [List.map_cons, List.map_nil, List.mem_singleton] at hk2
          subst hk2
          exact hmem hk1
        · rw [List.map_append, List.mem_append, hkeys k]
          simp only [List.map_cons, List.map_nil, List.mem_singleton]
          constructor
          · rintro (⟨c, hc, h1, h2⟩ | hk)
            · exact ⟨c, List.mem_append_left _ hc, h1, h2⟩
            · exact ⟨ch, List.mem_append_right _ (List.mem_singleton_self _), hvalid, hk.symm⟩
          · rintro ⟨c, hc, h1, h2⟩
            rcases List.mem_append.mp hc with hc | hc
            · exact Or.inl ⟨c, hc, h1, h2⟩
            · simp only [List.mem_singleton] at hc
              subst hc
              exact Or.inr h2.symm
        · rcases List.mem_append.mp he with he | he
          · have hk : ¬ (ch.sampler < numSamplers ∧ ch.target.node = k) := by
              rintro ⟨-, h2⟩
              apply hmem
              rw [h2]
              exact List.mem_map.mpr ⟨(k, e), he, rfl⟩
            rw [gatheredEntry_concat_other numSamplers chs ch k hk]
            exact hentries k e he
          · simp only [List.mem_singleton, Prod.mk.injEq] at he
            obtain ⟨h1, h2⟩ := he
            rw [h1, h2, gatheredEntry_concat_same numSamplers chs ch hvalid,
              gatheredEntry_absent numSamplers chs ch.target.node habsent]
        · rw [List.length_append, List.length_append, List.length_singleton,
            List.length_singleton]
          omega
    · have hstep : gatherChannel numSamplers m ch = m := by
        have hge : ch.sampler ≥ numSamplers := by omega
        simp only [gatherChannel, hge, if_true]
      rw [hstep]
      refine ⟨hnd, fun k => ?_, fun k e he => ?_, ?_⟩
      · rw [hkeys k]
        constructor
        · rintro ⟨c, hc, h1, h2⟩
          exact ⟨c, List.mem_append_left _ hc, h1, h2⟩
        · rintro ⟨c, hc, h1, h2⟩
          rcases List.mem_append.mp hc with hc | hc
          · exact ⟨c, hc, h1, h2⟩
          · simp only [List.mem_singleton] at hc
            subst hc
            exact absurd h1 hvalid
      · rw [gatheredEntry_concat_other numSamplers chs ch k (fun hc => hvalid hc.1)]
        exact hentries k e he
      · rw [List.length_append, List.length_singleton]
        omega

theorem mapM_option_total {α β : Type} (f : α → Option β) :
    ∀ (l : List α), (∀ a, a ∈ l → ∃ b, f a = some b) → ∃ out, l.mapM f = some out := by
  intro l
  induction l with
  | nil => intro _; exact ⟨[], rfl⟩
  | cons x xs ih =>
    intro h
    obtain ⟨b, hb⟩ := h x (List.mem_cons_self _ _)
    obtain ⟨bs, hbs⟩ := ih (fun a ha => h a (List.mem_cons_of_mem _ ha))
    refine ⟨b :: bs, ?_⟩
    rw [List.mapM_cons, hb, some_bind_eq, hbs, some_bind_eq]
    rfl

/-- Channels with a sampler index at or above `numSamplers` do not change the
map. -/
theorem gather_filter (numSamplers : Int) :
    ∀ (channels : List Channel) (m : List (Nat × AnimationSamplers)),
      (channels.filter (fun ch => decide (ch.sampler < numSamplers))).foldl
        (gatherChannel numSamplers) m
      = channels.foldl (gatherChannel numSamplers) m := by
  intro channels
  induction channels with
  | nil => intro m; rfl
  | cons ch chs ih =>
    intro m
    by_cases hv : ch.sampler < numSamplers
    · rw [List.filter_cons_of_pos (by simpa using hv), List.foldl_cons, List.foldl_cons, ih]
    · have hstep : gatherChannel numSamplers m ch = m := by
        have hge : ch.sampler ≥ numSamplers := by omega
        simp only [gatherChannel, hge, if_true]
      rw [List.filter_cons_of_neg (by simpa using hv), List.foldl_cons, hstep, ih]

/-- Claim C19.  For an animation with fewer than `2^32` channels and fewer
than `2^31` samplers `GatherSamplers` returns a map with distinct keys; the
keys are the target nodes of the channels whose sampler index is below the
number of samplers (one entry per distinct such node); the channels with a
sampler index at or above that number can be removed without changing the
result; the entry of a node records, for each of translation, rotation and
scale, the sampler of the last such channel of the node with that path, and
nothing when there is none.  `ImportAnimations` then makes one output channel
per entry, from the node and the samplers of the entry. -/
theorem C19_gather_samplers {S CH : Type}
    (CreateNodeAnim : Node → AnimationSamplers → Option CH) (rnodes : List Node)
    (anim : Animation S) (hch : anim.channels.length < UINT_MOD)
    (hs : anim.samplers.length < 2147483648)
    (hcreate : ∀ ch, ch ∈ anim.channels → ch.sampler < (anim.samplers.length : Int) →
      ∃ node, rnodes[ch.target.node]? = some node ∧
        ∀ e, ∃ c, CreateNodeAnim node e = some c) :
    ∃ samplers,
      GatherSamplers anim = some samplers ∧
      (samplers.map Prod.fst).Nodup ∧
      (∀ k : Nat, k ∈ samplers.map Prod.fst ↔
        ∃ ch, ch ∈ anim.channels ∧ ch.sampler < (anim.samplers.length : Int) ∧
          ch.target.node = k) ∧
      (samplers.map Prod.fst).Perm
        (((anim.channels.filter
          (fun ch => decide (ch.sampler < (anim.samplers.length : Int)))).map
            (fun ch => ch.target.node)).dedup) ∧
      GatherSamplers
        { anim with
          channels := anim.channels.filter
            (fun ch => decide (ch.sampler < (anim.samplers.length : Int))) }
        = some samplers ∧
      (∀ (k : Nat) (e : AnimationSamplers), (k, e) ∈ samplers →
        e.translation = lastSampler anim.samplers.length anim.channels k
          AnimationPath.AnimationPath_TRANSLATION ∧
        e.rotation = lastSampler anim.samplers.length anim.channels k
          AnimationPath.AnimationPath_ROTATION ∧
        e.scale = lastSampler anim.samplers.length anim.channels k
          AnimationPath.AnimationPath_SCALE) ∧
      ∃ mChannels,
        importAnimationChannels CreateNodeAnim rnodes anim
          = some (samplers.length, mChannels) ∧
        mChannels.length = samplers.length ∧
        ∀ (j k : Nat) (e : AnimationSamplers), samplers[j]? = some (k, e) →
          ∃ node c, rnodes[k]? = some node ∧ CreateNodeAnim node e = some c ∧
            mChannels[j]? = some c := by
  have hn : i32 anim.samplers.length = (anim.samplers.length : Int) := i32_of_lt hs
  have hrun := GatherSamplers_eq_foldl anim hch
  rw [hn] at hrun
  obtain ⟨hnd, hkeys, hentries, hlen⟩ := gather_spec (anim.samplers.length : Int) anim.channels
  generalize hm : anim.channels.foldl (gatherChannel (anim.samplers.length : Int)) [] = m
    at hrun hnd hkeys hentries hlen
  have hfilter : GatherSamplers
      { anim with
        channels := anim.channels.filter
          (fun ch => decide (ch.sampler < (anim.samplers.length : Int))) } = some m := by
    have hlen' : (anim.channels.filter
        (fun ch => decide (ch.sampler < (anim.samplers.length : Int)))).length < UINT_MOD :=
      Nat.lt_of_le_of_lt (List.length_filter_le _ _) hch
    rw [GatherSamplers_eq_foldl _ hlen']
    simp only
    rw [hn, gather_filter, hm]
  have hperm : (m.map Prod.fst).Perm
      (((anim.channels.filter
        (fun ch => decide (ch.sampler < (anim.samplers.length : Int)))).map
          (fun ch => ch.target.node)).dedup) := by
    rw [List.perm_ext_iff_of_nodup hnd (List.nodup_dedup _)]
    intro k
    rw [hkeys k, List.mem_dedup, List.mem_map]
    constructor
    · rintro ⟨c, hc, h1, h2⟩
      exact ⟨c, List.mem_filter.mpr ⟨hc, by simpa using h1⟩, h2⟩
    · rintro ⟨c, hc, h2⟩
      obtain ⟨hc1, hc2⟩ := List.mem_filter.mp hc
      exact ⟨c, hc1, by simpa using hc2, h2⟩
  have hall : ∀ iter, iter ∈ m →
      ∃ c, (do
        let node ← rnodes[iter.1]?
        CreateNodeAnim node iter.2) = some c := by
    intro iter hiter
    obtain ⟨c, hc, h1, h2⟩ := (hkeys iter.1).mp (List.mem_map.mpr ⟨iter, hiter, rfl⟩)
    obtain ⟨node, hnode, hmk⟩ := hcreate c hc h1
    obtain ⟨out, hout⟩ := hmk iter.2
    refine ⟨out, ?_⟩
    rw [← h2, hnode, some_bind_eq, hout]
  obtain ⟨mChannels, hmap⟩ := mapM_option_total _ m hall
  obtain ⟨hmlen, hmel⟩ := mapM_option_spec _ m mChannels hmap
  have hu : u32 m.length = m.length := u32_of_lt (by omega)
  refine ⟨m, hrun, hnd, hkeys, hperm, hfilter, fun k e he => ?_, ?_⟩
  · have h := hentries k e he
    rw [h]
    exact ⟨rfl, rfl, rfl⟩
  · by_cases hpos : m.length > 0
    · refine ⟨mChannels, ?_, hmlen, fun j k e hj => ?_⟩
      · unfold importAnimationChannels
        rw [hrun, some_bind_eq]
        simp only [hu, hpos, if_true, Nat.le_refl]
        rw [hmap, some_bind_eq]
        rfl
      · obtain ⟨c, hc, hf⟩ := hmel j (k, e) hj
        obtain ⟨node, hnode, hmk⟩ := bind_eq_some_elim hf
        exact ⟨node, c, hnode, hmk, hc⟩
    · have hnil : m = [] := List.eq_nil_of_length_eq_zero (by omega)
      subst hnil
      refine ⟨[], ?_, rfl, fun j k e hj => ?_⟩
      · unfold importAnimationChannels
        rw [hrun, some_bind_eq]
        rfl
      · simp at hj

/-- Claim C19 on the example animation: the map has the two entries of the
nodes 2 and 3, and two channels are made. -/
theorem C19_gather_samplers_witness :
    ∃ samplers,
      GatherSamplers exampleAnimation = some samplers ∧
      (samplers.map Prod.fst).Nodup ∧
      (∀ k : Nat, k ∈ samplers.map Prod.fst ↔
        ∃ ch, ch ∈ exampleAnimation.channels ∧
          ch.sampler < (exampleAnimation.samplers.length : Int) ∧ ch.target.node = k) ∧
      (samplers.map Prod.fst).Perm
        (((exampleAnimation.channels.filter
          (fun ch => decide (ch.sampler < (exampleAnimation.samplers.length : Int)))).map
            (fun ch => ch.target.node)).dedup) ∧
      GatherSamplers
        { exampleAnimation with
          channels := exampleAnimation.channels.filter
            (fun ch => decide (ch.sampler < (exampleAnimation.samplers.length : Int))) }
        = some samplers ∧
      (∀ (k : Nat) (e : AnimationSamplers), (k, e) ∈ samplers →
        e.translation = lastSampler exampleAnimation.samplers.length
          exampleAnimation.channels k AnimationPath.AnimationPath_TRANSLATION ∧
        e.rotation = lastSampler exampleAnimation.samplers.length
          exampleAnimation.channels k AnimationPath.AnimationPath_ROTATION ∧
        e.scale = lastSampler exampleAnimation.samplers.length
          exampleAnimation.channels k AnimationPath.AnimationPath_SCALE) ∧
      ∃ mChannels,
        importAnimationChannels exampleCreateNodeAnim exampleTreeAsset.nodes exampleAnimation
          = some (samplers.length, mChannels) ∧
        mChannels.length = samplers.length ∧
        ∀ (j k : Nat) (e : AnimationSamplers), samplers[j]? = some (k, e) →
          ∃ node c, exampleTreeAsset.nodes[k]? = some node ∧
            exampleCreateNodeAnim node e = some c ∧ mChannels[j]? = some c :=
  C19_gather_samplers exampleCreateNodeAnim exampleTreeAsset.nodes exampleAnimation
    (by decide) (by decide)
    (fun ch hch _ => by
      have hlt : ch.target.node < exampleTreeAsset.nodes.length := by
        revert ch
        decide
      exact ⟨exampleTreeAsset.nodes[ch.target.node], List.getElem?_eq_getElem hlt,
        fun e => ⟨_, rfl⟩⟩)

/-- The example animation evaluated: the channel with the sampler index 2 is
skipped, node 2 records the last translation and the rotation, and the
`weights` channel of node 3 makes an entry without samplers. -/
theorem exampleAnimation_gathered :
    GatherSamplers exampleAnimation
      = some [(2, { translation := some 1, rotation := some 1 }), (3, {})] := by
  decide

/-! ## Animation channels and durations -/

/-- A counted loop that reads the elements of a list in order is the fold of
its body over the list. -/
theorem forLoop_foldl {α σ : Type} (l : List α) (f : σ → α → σ) (s0 : σ) (n : Nat)
    (hn : n ≤ l.length) (hfit : n < UINT_MOD) :
    forLoop 0 n 1
      (fun i s => do
        let x ← l[i]?
        pure (f s x))
      s0 = some ((l.take n).foldl f s0) := by
  obtain ⟨s, hrun, hs⟩ := forLoop_post
    (fun i s => i ≤ n ∧ s = (l.take i).foldl f s0)
    (fun s => s = (l.take n).foldl f s0)
    0 n 1
    (fun i s => do
      let x ← l[i]?
      pure (f s x))
    s0 ⟨Nat.zero_le _, rfl⟩
    (fun i s hi hP => by
      obtain ⟨-, hs⟩ := hP
      have hil : i < l.length := by omega
      have hu : u32 (i + 1) = i + 1 := u32_of_lt (by omega)
      refine ⟨f s (l[i]), ?_, ?_, ?_, ?_⟩
      · beta_reduce
        rw [List.getElem?_eq_getElem hil, some_bind_eq]
        rfl
      · omega
      · omega
      · rw [hu, List.take_succ, List.foldl_append, ← hs, List.getElem?_eq_getElem hil]
        rfl)
    (fun j s hj hP => by
      obtain ⟨hle, hs⟩ := hP
      have hjn : j = n := by omega
      rw [hs, hjn])
  rw [hrun, hs]

/-- A successful `mapM` over the indices below `n`. -/
theorem mapM_range_spec {β : Type} (g : Nat → Option β) (n : Nat) (out : List β)
    (h : (List.range n).mapM g = some out) :
    out.length = n ∧ ∀ i : Nat, i < n → ∃ b, out[i]? = some b ∧ g i = some b := by
  obtain ⟨hlen, hel⟩ := mapM_option_spec g (List.range n) out h
  refine ⟨by rw [hlen, List.length_range], fun i hi => ?_⟩
  exact hel i i (by rw [List.getElem?_range hi])

theorem mapM_range_total {β : Type} (g : Nat → Option β) (n : Nat)
    (h : ∀ i : Nat, i < n → ∃ b, g i = some b) : ∃ out, (List.range n).mapM g = some out :=
  mapM_option_total g (List.range n) (fun a ha => h a (List.mem_range.mp ha))

/-- The keys made from a sampler with vector values. -/
theorem vectorKeys_spec {W : Type} [Mul W] [NatCast W] (sampler : Animation.Sampler W)
    (keys : List (aiVectorKey W)) (h : vectorKeys sampler = some keys) :
    keys.length = sampler.inputCount ∧
    ∀ i : Nat, i < sampler.inputCount →
      ∃ time value, sampler.times[i]? = some time ∧ sampler.vec3Values[i]? = some value ∧
        keys[i]? = some { mTime := time * ((1000 : Nat) : W), mValue := value } := by
  obtain ⟨hlen, hel⟩ := mapM_range_spec _ sampler.inputCount keys h
  refine ⟨hlen, fun i hi => ?_⟩
  obtain ⟨b, hb, hg⟩ := hel i hi
  obtain ⟨time, htime, hg⟩ := bind_eq_some_elim hg
  obtain ⟨value, hvalue, hg⟩ := bind_eq_some_elim hg
  cases hg
  exact ⟨time, value, htime, hvalue, hb⟩

theorem vectorKeys_total {W : Type} [Mul W] [NatCast W] (sampler : Animation.Sampler W)
    (ht : sampler.inputCount ≤ sampler.times.length)
    (hv : sampler.inputCount ≤ sampler.vec3Values.length) :
    ∃ keys, vectorKeys sampler = some keys := by
  apply mapM_range_total
  intro i hi
  rw [List.getElem?_eq_getElem (by omega : i < sampler.times.length), some_bind_eq,
    List.getElem?_eq_getElem (by omega : i < sampler.vec3Values.length), some_bind_eq]
  exact ⟨_, rfl⟩

/-- The keys made from a sampler with quaternion values. -/
theorem quatKeys_spec {W : Type} [Mul W] [NatCast W] (sampler : Animation.Sampler W)
    (keys : List (aiQuatKey W)) (h : quatKeys sampler = some keys) :
    keys.length = sampler.inputCount ∧
    ∀ i : Nat, i < sampler.inputCount →
      ∃ time value, sampler.times[i]? = some time ∧ sampler.quatValues[i]? = some value ∧
        keys[i]? = some { mTime := time * ((1000 : Nat) : W), mValue := rotationValue value } := by
  obtain ⟨hlen, hel⟩ := mapM_range_spec _ sampler.inputCount keys h
  refine ⟨hlen, fun i hi => ?_⟩
  obtain ⟨b, hb, hg⟩ := hel i hi
  obtain ⟨time, htime, hg⟩ := bind_eq_some_elim hg
  obtain ⟨value, hvalue, hg⟩ := bind_eq_some_elim hg
  cases hg
  exact ⟨time, value, htime, hvalue, hb⟩

theorem quatKeys_total {W : Type} [Mul W] [NatCast W] (sampler : Animation.Sampler W)
    (ht : sampler.inputCount ≤ sampler.times.length)
    (hv : sampler.inputCount ≤ sampler.quatValues.length) :
    ∃ keys, quatKeys sampler = some keys := by
  apply mapM_range_total
  intro i hi
  rw [List.getElem?_eq_getElem (by omega : i < sampler.times.length), some_bind_eq,
    List.getElem?_eq_getElem (by omega : i < sampler.quatValues.length), some_bind_eq]
  exact ⟨_, rfl⟩

/-- A channel is made exactly when its three key arrays are made, and it holds
them. -/
theorem CreateNodeAnim_eq_some {W : Type} [Zero W] [Mul W] [NatCast W]
    (animSamplers : List (Animation.Sampler W)) (node : Node × NodeTransform W)
    (samplers : AnimationSamplers) (anim : aiNodeAnim W) :
    CreateNodeAnim animSamplers node samplers = some anim ↔
      anim.mNodeName = node.1.name ∧
      positionKeys animSamplers node.2 samplers = some anim.mPositionKeys ∧
      rotationKeys animSamplers node.2 samplers = some anim.mRotationKeys ∧
      scalingKeys animSamplers node.2 samplers = some anim.mScalingKeys := by
  constructor
  · intro h
    unfold CreateNodeAnim at h
    obtain ⟨p, hp, h⟩ := bind_eq_some_elim h
    obtain ⟨q, hq, h⟩ := bind_eq_some_elim h
    obtain ⟨s, hs, h⟩ := bind_eq_some_elim h
    cases h
    exact ⟨rfl, hp, hq, hs⟩
  · rintro ⟨hn, hp, hq, hs⟩
    unfold CreateNodeAnim
    rw [hp, some_bind_eq, hq, some_bind_eq, hs, some_bind_eq, ← hn]
    rfl

theorem positionKeys_of_sampler {W : Type} [Zero W] [Mul W] [NatCast W]
    (animSamplers : List (Animation.Sampler W)) (node : NodeTransform W)
    (samplers : AnimationSamplers) (index : Int) (sampler : Animation.Sampler W)
    (hs : samplers.translation = some index)
    (hd : derefSampler animSamplers index = some sampler) :
    positionKeys animSamplers node samplers = vectorKeys sampler := by
  simp only [positionKeys, hs]
  rw [hd, some_bind_eq]

theorem rotationKeys_of_sampler {W : Type} [Zero W] [Mul W] [NatCast W]
    (animSamplers : List (Animation.Sampler W)) (node : NodeTransform W)
    (samplers : AnimationSamplers) (index : Int) (sampler : Animation.Sampler W)
    (hs : samplers.rotation = some index)
    (hd : derefSampler animSamplers index = some sampler) :
    rotationKeys animSamplers node samplers = quatKeys sampler := by
  simp only [rotationKeys, hs]
  rw [hd, some_bind_eq]

theorem scalingKeys_of_sampler {W : Type} [Zero W] [Mul W] [NatCast W]
    (animSamplers : List (Animation.Sampler W)) (node : NodeTransform W)
    (samplers : AnimationSamplers) (index : Int) (sampler : Animation.Sampler W)
    (hs : samplers.scale = some index)
    (hd : derefSampler animSamplers index = some sampler) :
    scalingKeys animSamplers node samplers = vectorKeys sampler := by
  simp only [scalingKeys, hs]
  rw [hd, some_bind_eq]

/-- Claim C21.  The position keys of a channel, and likewise its scaling keys:
with a sampler for the path, whose extracted arrays have at least
`input->count` elements, there are exactly `input->count` keys and key `i` is
`(times[i] * 1000, values[i])`; without a sampler but with a static value of
the node there is exactly one key, at time 0, with that value; with neither
there is no key.  The channel that `CreateNodeAnim` returns holds these
arrays. -/
theorem C21_translation_scale_keys {W : Type} [Zero W] [Mul W] [NatCast W]
    (animSamplers : List (Animation.Sampler W)) (node : NodeTransform W)
    (samplers : AnimationSamplers) :
    (∀ (index : Int) (sampler : Animation.Sampler W),
      samplers.translation = some index → derefSampler animSamplers index = some sampler →
      sampler.inputCount ≤ sampler.times.length →
      sampler.inputCount ≤ sampler.vec3Values.length →
      ∃ keys, positionKeys animSamplers node samplers = some keys ∧
        keys.length = sampler.inputCount ∧
        ∀ i : Nat, i < sampler.inputCount →
          ∃ time value, sampler.times[i]? = some time ∧
            sampler.vec3Values[i]? = some value ∧
            keys[i]? = some { mTime := time * ((1000 : Nat) : W), mValue := value }) ∧
    (∀ value : Fin 3 → W, samplers.translation = none → node.translation = some value →
      positionKeys animSamplers node samplers
        = some [{ mTime := 0, mValue := { x := value 0, y := value 1, z := value 2 } }]) ∧
    (samplers.translation = none → node.translation = none →
      positionKeys animSamplers node samplers = some []) ∧
    (∀ (index : Int) (sampler : Animation.Sampler W),
      samplers.scale = some index → derefSampler animSamplers index = some sampler →
      sampler.inputCount ≤ sampler.times.length →
      sampler.inputCount ≤ sampler.vec3Values.length →
      ∃ keys, scalingKeys animSamplers node samplers = some keys ∧
        keys.length = sampler.inputCount ∧
        ∀ i : Nat, i < sampler.inputCount →
          ∃ time value, sampler.times[i]? = some time ∧
            sampler.vec3Values[i]? = some value ∧
            keys[i]? = some { mTime := time * ((1000 : Nat) : W), mValue := value }) ∧
    (∀ value : Fin 3 → W, samplers.scale = none → node.scale = some value →
      scalingKeys animSamplers node samplers
        = some [{ mTime := 0, mValue := { x := value 0, y := value 1, z := value 2 } }]) ∧
    (samplers.scale = none → node.scale = none →
      scalingKeys animSamplers node samplers = some []) ∧
    ∀ (n : Node) (anim : aiNodeAnim W),
      CreateNodeAnim animSamplers (n, node) samplers = some anim →
      positionKeys animSamplers node samplers = some anim.mPositionKeys ∧
      scalingKeys animSamplers node samplers = some anim.mScalingKeys := by
  refine ⟨?_, ?_, ?_, ?_, ?_, ?_, ?_⟩
  · intro index sampler hs hd ht hv
    obtain ⟨keys, hkeys⟩ := vectorKeys_total sampler ht hv
    obtain ⟨hlen, hel⟩ := vectorKeys_spec sampler keys hkeys
    exact ⟨keys, by rw [positionKeys_of_sampler animSamplers node samplers index sampler hs hd,
      hkeys], hlen, hel⟩
  · intro value hs hn
    simp only [positionKeys, hs, hn]
  · intro hs hn
    simp only [positionKeys, hs, hn]
  · intro index sampler hs hd ht hv
    obtain ⟨keys, hkeys⟩ := vectorKeys_total sampler ht hv
    obtain ⟨hlen, hel⟩ := vectorKeys_spec sampler keys hkeys
    exact ⟨keys, by rw [scalingKeys_of_sampler animSamplers node samplers index sampler hs hd,
      hkeys], hlen, hel⟩
  · intro value hs hn
    simp only [scalingKeys, hs, hn]
  · intro hs hn
    simp only [scalingKeys, hs, hn]
  · intro n anim h
    obtain ⟨-, hp, -, hs⟩ := (CreateNodeAnim_eq_some animSamplers (n, node) samplers anim).mp h
    exact ⟨hp, hs⟩

/-- Claim C21 on the channel of node 0 of the example animation: three
position keys from sampler 0, and one scaling key from the static scale. -/
theorem C21_translation_scale_keys_witness :
    (∃ keys : List (aiVectorKey Int),
      positionKeys exampleKeySamplers { scale := some (fun _ => 2) }
        { translation := some 0, rotation := some 1 } = some keys ∧
      keys.length = 3 ∧
      ∀ i : Nat, i < 3 →
        ∃ time value, [(0 : Int), 1, 2][i]? = some time ∧
          [(⟨1, 2, 3⟩ : aiVector3D Int), ⟨4, 5, 6⟩, ⟨7, 8, 9⟩][i]? = some value ∧
          keys[i]? = some { mTime := time * ((1000 : Nat) : Int), mValue := value }) ∧
    scalingKeys exampleKeySamplers { scale := some (fun _ => 2) }
        { translation := some 0, rotation := some 1 }
      = some [{ mTime := 0, mValue := { x := 2, y := 2, z := 2 } }] :=
  ⟨(C21_translation_scale_keys exampleKeySamplers { scale := some (fun _ => 2) }
      { translation := some 0, rotation := some 1 }).1 0
      { inputCount := 3
        times := [0, 1, 2]
        vec3Values := [⟨1, 2, 3⟩, ⟨4, 5, 6⟩, ⟨7, 8, 9⟩]
        quatValues := [⟨1, 2, 3, 4⟩, ⟨5, 6, 7, 8⟩, ⟨9, 10, 11, 12⟩] }
      rfl rfl (by decide) (by decide),
    (C21_translation_scale_keys exampleKeySamplers { scale := some (fun _ => 2) }
      { translation := some 0, rotation := some 1 }).2.2.2.2.1 (fun _ => 2) rfl rfl⟩

theorem rotationValue_four {W : Type} (value : aiQuaternion W) :
    rotationValue (rotationValue (rotationValue (rotationValue value))) = value := by
  cases value
  rfl

/-- Claim C22.  The rotation keys of a channel with a rotation sampler, whose
extracted arrays have at least `input->count` elements: key `i` has the time
`times[i] * 1000`, and the fields (x, y, z, w) of its value are
(src.w, src.x, src.y, src.z) for the `i`-th source quaternion `src`.  This map
of quaternions is a bijection, and applying it four times gives back the
source. -/
theorem C22_rotation_keys {W : Type} [Zero W] [Mul W] [NatCast W]
    (animSamplers : List (Animation.Sampler W)) (node : NodeTransform W)
    (samplers : AnimationSamplers) :
    (∀ (index : Int) (sampler : Animation.Sampler W),
      samplers.rotation = some index → derefSampler animSamplers index = some sampler →
      sampler.inputCount ≤ sampler.times.length →
      sampler.inputCount ≤ sampler.quatValues.length →
      ∃ keys, rotationKeys animSamplers node samplers = some keys ∧
        keys.length = sampler.inputCount ∧
        (∀ (n : Node) (anim : aiNodeAnim W),
          CreateNodeAnim animSamplers (n, node) samplers = some anim →
          anim.mRotationKeys = keys) ∧
        ∀ i : Nat, i < sampler.inputCount →
          ∃ time src, sampler.times[i]? = some time ∧
            sampler.quatValues[i]? = some src ∧
            keys[i]? = some
              { mTime := time * ((1000 : Nat) : W),
                mValue := { x := src.w, y := src.x, z := src.y, w := src.z } }) ∧
    Function.Bijective (rotationValue : aiQuaternion W → aiQuaternion W) ∧
    (∀ src : aiQuaternion W, rotationValue src
      = { x := src.w, y := src.x, z := src.y, w := src.z }) ∧
    ∀ src : aiQuaternion W,
      rotationValue (rotationValue (rotationValue (rotationValue src))) = src := by
  refine ⟨?_, ?_, fun _ => rfl, rotationValue_four⟩
  · intro index sampler hs hd ht hv
    obtain ⟨keys, hkeys⟩ := quatKeys_total sampler ht hv
    obtain ⟨hlen, hel⟩ := quatKeys_spec sampler keys hkeys
    have hrot : rotationKeys animSamplers node samplers = some keys := by
      rw [rotationKeys_of_sampler animSamplers node samplers index sampler hs hd, hkeys]
    refine ⟨keys, hrot, hlen, fun n anim h => ?_, hel⟩
    obtain ⟨-, -, hq, -⟩ := (CreateNodeAnim_eq_some animSamplers (n, node) samplers anim).mp h
    rw [hrot] at hq
    exact (Option.some.inj hq).symm
  · rw [Function.bijective_iff_has_inverse]
    exact ⟨fun q => rotationValue (rotationValue (rotationValue q)),
      fun q => rotationValue_four q, fun q => rotationValue_four q⟩

/-- Claim C22 on the channel of node 0 of the example animation: two rotation
keys from sampler 1. -/
theorem C22_rotation_keys_witness :
    ∃ keys : List (aiQuatKey Int),
      rotationKeys exampleKeySamplers { scale := some (fun _ => 2) }
        { translation := some 0, rotation := some 1 } = some keys ∧
      keys.length = 2 ∧
      (∀ (n : Node) (anim : aiNodeAnim Int),
        CreateNodeAnim exampleKeySamplers (n, { scale := some (fun _ => 2) })
          { translation := some 0, rotation := some 1 } = some anim →
        anim.mRotationKeys = keys) ∧
      ∀ i : Nat, i < 2 →
        ∃ time src, [(1 : Int), 3][i]? = some time ∧
          [(⟨0, 0, 0, 1⟩ : aiQuaternion Int), ⟨0, 0, 1, 0⟩][i]? = some src ∧
          keys[i]? = some
            { mTime := time * ((1000 : Nat) : Int),
              mValue := { x := src.w, y := src.x, z := src.y, w := src.z } } :=
  (C22_rotation_keys exampleKeySamplers { scale := some (fun _ => 2) }
    { translation := some 0, rotation := some 1 }).1 1
    { inputCount := 2
      times := [1, 3]
      vec3Values := [⟨1, 1, 1⟩, ⟨2, 2, 2⟩]
      quatValues := [⟨0, 0, 0, 1⟩, ⟨0, 0, 1, 0⟩] }
    rfl rfl (by decide) (by decide)

/-- The channel array that `importAnimationChannels` returns has
`mNumChannels` elements. -/
theorem importAnimationChannels_length {S CH N : Type}
    (create : N → AnimationSamplers → Option CH) (rnodes : List N) (anim : Animation S)
    (n : Nat) (chans : List CH)
    (h : importAnimationChannels create rnodes anim = some (n, chans)) :
    chans.length = n ∧ n < UINT_MOD := by
  unfold importAnimationChannels at h
  obtain ⟨m, -, h⟩ := bind_eq_some_elim h
  have hlt : u32 m.length < UINT_MOD := Nat.mod_lt _ (by decide)
  have hle : u32 m.length ≤ m.length := Nat.mod_le _ _
  by_cases hpos : u32 m.length > 0
  · simp only [hpos, if_true] at h
    by_cases hfit : m.length ≤ u32 m.length
    · simp only [hfit, if_true] at h
      obtain ⟨out, hout, h⟩ := bind_eq_some_elim h
      obtain ⟨hlen, -⟩ := mapM_option_spec _ m out hout
      cases h
      exact ⟨by omega, hlt⟩
    · simp only [hfit, if_false] at h
      cases h
  · simp only [hpos, if_false] at h
    cases h
    exact ⟨by simp only [List.length_nil]; omega, hlt⟩

theorem channelDuration_foldl {W : Type} [LT W] [DecidableRel (α := W) (· < ·)] :
    ∀ (chans : List (aiNodeAnim W)) (d : W),
      chans.foldl channelDuration d
        = (lastKeyTimes chans).foldl (fun d t => if t > d then t else d) d := by
  intro chans
  induction chans with
  | nil => intro d; rfl
  | cons chan rest ih =>
    intro d
    rw [List.foldl_cons, ih]
    simp only [lastKeyTimes, List.flatMap_cons, List.foldl_append]
    congr 1
    simp only [channelDuration, lastKeyDuration]
    cases chan.mPositionKeys.getLast? <;> cases chan.mRotationKeys.getLast? <;>
      cases chan.mScalingKeys.getLast? <;> rfl

/-- The running maximum of a list, started at `d`: it is at least `d` and at
least every element, and it is `d` or an element. -/
theorem foldl_max_spec {W : Type} [LinearOrder W] :
    ∀ (l : List W) (d : W),
      d ≤ l.foldl (fun d t => if t > d then t else d) d ∧
      (∀ t, t ∈ l → t ≤ l.foldl (fun d t => if t > d then t else d) d) ∧
      (l.foldl (fun d t => if t > d then t else d) d = d ∨
        l.foldl (fun d t => if t > d then t else d) d ∈ l) := by
  intro l
  induction l with
  | nil =>
    intro d
    exact ⟨le_refl _, fun t ht => (by cases ht), Or.inl rfl⟩
  | cons a rest ih =>
    intro d
    rw [List.foldl_cons]
    obtain ⟨h1, h2, h3⟩ := ih (if a > d then a else d)
    have hd : d ≤ (if a > d then a else d) := by
      split
      · exact le_of_lt ‹a > d›
      · exact le_refl _
    have ha : a ≤ (if a > d then a else d) := by
      split
      · exact le_refl _
      · exact le_of_not_lt ‹¬ a > d›
    refine ⟨le_trans hd h1, fun t ht => ?_, ?_⟩
    · rcases List.mem_cons.mp ht with ht | ht
      · rw [ht]
        exact le_trans ha h1
      · exact h2 t ht
    · rcases h3 with h3 | h3
      · rw [h3]
        by_cases hgt : a > d
        · rw [if_pos hgt]
          exact Or.inr (List.mem_cons_self _ _)
        · rw [if_neg hgt]
          exact Or.inl rfl
      · exact Or.inr (List.mem_cons_of_mem _ h3)

/-- Claim C23.  An animation whose channels are made is imported, with
`mTicksPerSecond = 0` and a duration that is at least the time of the last key
of every non-empty key array of its channels; the duration is the greatest of
these times when one of them is not negative, and it is 0 when all of them are
negative or there is none. -/
theorem C23_animation_duration {W : Type} [LinearOrder W] [Zero W] [Mul W] [NatCast W]
    (rnodes : List (Node × NodeTransform W)) (anim : Animation (Animation.Sampler W))
    (n : Nat) (chans : List (aiNodeAnim W))
    (h : importAnimationChannels (CreateNodeAnim anim.samplers) rnodes anim
      = some (n, chans)) :
    ∃ ai, ImportAnimation rnodes anim = some ai ∧
      ai.mChannels = chans ∧ ai.mNumChannels = n ∧ ai.mTicksPerSecond = 0 ∧
      0 ≤ ai.mDuration ∧
      (∀ t, t ∈ lastKeyTimes chans → t ≤ ai.mDuration) ∧
      ((∃ t, t ∈ lastKeyTimes chans ∧ 0 ≤ t) → ai.mDuration ∈ lastKeyTimes chans) ∧
      ((∀ t, t ∈ lastKeyTimes chans → t < 0) → ai.mDuration = 0) := by
  obtain ⟨hlen, hfit⟩ := importAnimationChannels_length _ rnodes anim n chans h
  have hdur : animationDuration n chans
      = some ((lastKeyTimes chans).foldl (fun d t => if t > d then t else d) 0) := by
    unfold animationDuration
    rw [forLoop_foldl chans channelDuration 0 n (by omega) hfit,
      List.take_of_length_le (by omega), channelDuration_foldl]
  obtain ⟨h1, h2, h3⟩ := foldl_max_spec (lastKeyTimes chans) (0 : W)
  refine ⟨{ mName := anim.name
            mDuration := (lastKeyTimes chans).foldl (fun d t => if t > d then t else d) 0
            mTicksPerSecond := 0
            mNumChannels := n
            mChannels := chans }, ?_, rfl, rfl, rfl, h1, h2, ?_, ?_⟩
  · unfold ImportAnimation
    rw [h, some_bind_eq]
    simp only
    rw [hdur, some_bind_eq]
    rfl
  · rintro ⟨t, ht, hpos⟩
    rcases h3 with h3 | h3
    · have hle : t ≤ 0 := by
        have := h2 t ht
        rw [h3] at this
        exact this
      have ht0 : t = 0 := le_antisymm hle hpos
      show (lastKeyTimes chans).foldl (fun d t => if t > d then t else d) 0 ∈ lastKeyTimes chans
      rw [h3, ← ht0]
      exact ht
    · exact h3
  · intro hneg
    rcases h3 with h3 | h3
    · exact h3
    · exact absurd (hneg _ h3) (not_lt.mpr h1)

/-- Claim C23 on the example animation: the last keys have the times 2000,
3000, 0, 0 and 3000, and the duration is 3000. -/
theorem C23_animation_duration_witness :
    ∃ ai, ImportAnimation exampleKeyNodes exampleKeyAnimation = some ai ∧
      ai.mChannels = exampleKeyChannels ∧ ai.mNumChannels = 2 ∧ ai.mTicksPerSecond = 0 ∧
      0 ≤ ai.mDuration ∧
      (∀ t, t ∈ lastKeyTimes exampleKeyChannels → t ≤ ai.mDuration) ∧
      ((∃ t, t ∈ lastKeyTimes exampleKeyChannels ∧ 0 ≤ t) →
        ai.mDuration ∈ lastKeyTimes exampleKeyChannels) ∧
      ((∀ t, t ∈ lastKeyTimes exampleKeyChannels → t < 0) → ai.mDuration = 0) :=
  C23_animation_duration exampleKeyNodes exampleKeyAnimation 2 exampleKeyChannels (by decide)

/-- The example animation imported: its duration is 3000. -/
theorem exampleKeyAnimation_imported :
    ImportAnimation exampleKeyNodes exampleKeyAnimation
      = some { mName := "keys", mDuration := 3000, mTicksPerSecond := 0, mNumChannels := 2,
               mChannels := exampleKeyChannels } := by
  decide

/-- The key times of an array made from a sampler are the first `count` times
of the sampler, each multiplied by 1000. -/
theorem vectorKeys_times {W : Type} [Mul W] [NatCast W] (sampler : Animation.Sampler W)
    (keys : List (aiVectorKey W)) (h : vectorKeys sampler = some keys) :
    keys.map (fun key => key.mTime)
      = (sampler.times.take sampler.inputCount).map (fun t => t * ((1000 : Nat) : W)) := by
  obtain ⟨hlen, hel⟩ := vectorKeys_spec sampler keys h
  apply List.ext_getElem?
  intro i
  rw [List.getElem?_map, List.getElem?_map, List.getElem?_take]
  by_cases hi : i < sampler.inputCount
  · obtain ⟨time, value, ht, -, hk⟩ := hel i hi
    rw [if_pos hi, hk, ht]
    rfl
  · rw [if_neg hi, List.getElem?_eq_none (by omega)]
    rfl

theorem quatKeys_times {W : Type} [Mul W] [NatCast W] (sampler : Animation.Sampler W)
    (keys : List (aiQuatKey W)) (h : quatKeys sampler = some keys) :
    keys.map (fun key => key.mTime)
      = (sampler.times.take sampler.inputCount).map (fun t => t * ((1000 : Nat) : W)) := by
  obtain ⟨hlen, hel⟩ := quatKeys_spec sampler keys h
  apply List.ext_getElem?
  intro i
  rw [List.getElem?_map, List.getElem?_map, List.getElem?_take]
  by_cases hi : i < sampler.inputCount
  · obtain ⟨time, value, ht, -, hk⟩ := hel i hi
    rw [if_pos hi, hk, ht]
    rfl
  · rw [if_neg hi, List.getElem?_eq_none (by omega)]
    rfl

theorem scaled_times_sorted {W : Type} [OrderedSemiring W] (times : List W)
    (h : times.Pairwise (· ≤ ·)) :
    (times.map (fun t => t * ((1000 : Nat) : W))).Pairwise (· ≤ ·) :=
  List.Pairwise.map _ (fun _ _ hab => mul_le_mul_of_nonneg_right hab (Nat.cast_nonneg _)) h

theorem derefSampler_mem {S : Type} (samplers : List S) (index : Int) (sampler : S)
    (h : derefSampler samplers index = some sampler) : sampler ∈ samplers := by
  unfold derefSampler at h
  split at h
  · cases h
  · exact List.getElem?_mem h

/-- The key arrays of a channel are non-decreasing in time when the times of
the samplers of the animation are. -/
theorem CreateNodeAnim_sorted {W : Type} [OrderedSemiring W]
    (animSamplers : List (Animation.Sampler W)) (node : Node × NodeTransform W)
    (samplers : AnimationSamplers) (anim : aiNodeAnim W)
    (h : CreateNodeAnim animSamplers node samplers = some anim)
    (hsorted : ∀ sampler, sampler ∈ animSamplers →
      (sampler.times.take sampler.inputCount).Pairwise (· ≤ ·)) :
    (anim.mPositionKeys.map (fun key => key.mTime)).Pairwise (· ≤ ·) ∧
    (anim.mRotationKeys.map (fun key => key.mTime)).Pairwise (· ≤ ·) ∧
    (anim.mScalingKeys.map (fun key => key.mTime)).Pairwise (· ≤ ·) := by
  obtain ⟨-, hp, hq, hs⟩ := (CreateNodeAnim_eq_some animSamplers node samplers anim).mp h
  refine ⟨?_, ?_, ?_⟩
  · unfold positionKeys at hp
    cases ht : samplers.translation with
    | some index =>
      rw [ht] at hp
      obtain ⟨sampler, hd, hk⟩ := bind_eq_some_elim hp
      rw [vectorKeys_times sampler _ hk]
      exact scaled_times_sorted _ (hsorted sampler (derefSampler_mem _ _ _ hd))
    | none =>
      rw [ht] at hp
      cases hn : node.2.translation with
      | some value =>
        rw [hn] at hp
        rw [← Option.some.inj hp]
        exact List.pairwise_singleton _ _
      | none =>
        rw [hn] at hp
        rw [← Option.some.inj hp]
        exact List.Pairwise.nil
  · unfold rotationKeys at hq
    cases ht : samplers.rotation with
    | some index =>
      rw [ht] at hq
      obtain ⟨sampler, hd, hk⟩ := bind_eq_some_elim hq
      rw [quatKeys_times sampler _ hk]
      exact scaled_times_sorted _ (hsorted sampler (derefSampler_mem _ _ _ hd))
    | none =>
      rw [ht] at hq
      cases hn : node.2.rotation with
      | some value =>
        rw [hn] at hq
        rw [← Option.some.inj hq]
        exact List.pairwise_singleton _ _
      | none =>
        rw [hn] at hq
        rw [← Option.some.inj hq]
        exact List.Pairwise.nil
  · unfold scalingKeys at hs
    cases ht : samplers.scale with
    | some index =>
      rw [ht] at hs
      obtain ⟨sampler, hd, hk⟩ := bind_eq_some_elim hs
      rw [vectorKeys_times sampler _ hk]
      exact scaled_times_sorted _ (hsorted sampler (derefSampler_mem _ _ _ hd))
    | none =>
      rw [ht] at hs
      cases hn : node.2.scale with
      | some value =>
        rw [hn] at hs
        rw [← Option.some.inj hs]
        exact List.pairwise_singleton _ _
      | none =>
        rw [hn] at hs
        rw [← Option.some.inj hs]
        exact List.Pairwise.nil

/-- Every channel of the array that `importAnimationChannels` returns is made
by `CreateNodeAnim` from a node of the asset and an entry of the map. -/
theorem importAnimationChannels_mem {S CH N : Type}
    (create : N → AnimationSamplers → Option CH) (rnodes : List N) (anim : Animation S)
    (n : Nat) (chans : List CH)
    (h : importAnimationChannels create rnodes anim = some (n, chans)) :
    ∀ chan, chan ∈ chans →
      ∃ samplers k e node, GatherSamplers anim = some samplers ∧ (k, e) ∈ samplers ∧
        rnodes[k]? = some node ∧ create node e = some chan := by
  intro chan hchan
  unfold importAnimationChannels at h
  obtain ⟨m, hm, h⟩ := bind_eq_some_elim h
  by_cases hpos : u32 m.length > 0
  · simp only [hpos, if_true] at h
    by_cases hfit : m.length ≤ u32 m.length
    · simp only [hfit, if_true] at h
      obtain ⟨out, hout, h⟩ := bind_eq_some_elim h
      obtain ⟨hlen, hel⟩ := mapM_option_spec _ m out hout
      cases h
      obtain ⟨j, hj⟩ := List.mem_iff_getElem?.mp hchan
      have hjlt : j < m.length := by
        by_contra hcon
        rw [List.getElem?_eq_none (by omega)] at hj
        cases hj
      obtain ⟨b, hb, hf⟩ := hel j (m[j]) (List.getElem?_eq_getElem hjlt)
      rw [hj] at hb
      cases hb
      obtain ⟨node, hnode, hmk⟩ := bind_eq_some_elim hf
      exact ⟨m, (m[j]).1, (m[j]).2, node, hm, List.getElem_mem _, hnode, hmk⟩
    · simp only [hfit, if_false] at h
      cases h
  · simp only [hpos, if_false] at h
    cases h
    cases hchan

/-- The claim C24 refuted as it stands: the channel of the animation whose
sampler has the times 1 and 0 has the position keys at the times 1000 and 0. -/
theorem C24_key_times_counterexample :
    ∃ ai chan, ImportAnimation exampleKeyNodes exampleUnsortedAnimation = some ai ∧
      chan ∈ ai.mChannels ∧
      chan.mPositionKeys.map (fun key => key.mTime) = [1000, 0] ∧
      ¬ (chan.mPositionKeys.map (fun key => key.mTime)).Pairwise (· ≤ ·) :=
  ⟨{ mName := "unsorted", mDuration := 0, mTicksPerSecond := 0, mNumChannels := 1,
     mChannels :=
      [ { mNodeName := "A"
          mPositionKeys :=
            [{ mTime := 1000, mValue := ⟨1, 1, 1⟩ }, { mTime := 0, mValue := ⟨2, 2, 2⟩ }]
          mScalingKeys := [{ mTime := 0, mValue := ⟨2, 2, 2⟩ }] } ] },
    { mNodeName := "A"
      mPositionKeys :=
        [{ mTime := 1000, mValue := ⟨1, 1, 1⟩ }, { mTime := 0, mValue := ⟨2, 2, 2⟩ }]
      mScalingKeys := [{ mTime := 0, mValue := ⟨2, 2, 2⟩ }] },
    by decide, by decide, by decide, by decide⟩

/-- Claim C24, amended.  When the first `input->count` extracted times of every
sampler of an animation are non-decreasing, the position, rotation and scaling
key arrays of every channel of the imported animation are non-decreasing in
key time. -/
theorem C24_key_times_sorted {W : Type} [LinearOrderedRing W]
    (rnodes : List (Node × NodeTransform W)) (anim : Animation (Animation.Sampler W))
    (ai : aiAnimation W) (h : ImportAnimation rnodes anim = some ai)
    (hsorted : ∀ sampler, sampler ∈ anim.samplers →
      (sampler.times.take sampler.inputCount).Pairwise (· ≤ ·)) :
    ∀ chan, chan ∈ ai.mChannels →
      (chan.mPositionKeys.map (fun key => key.mTime)).Pairwise (· ≤ ·) ∧
      (chan.mRotationKeys.map (fun key => key.mTime)).Pairwise (· ≤ ·) ∧
      (chan.mScalingKeys.map (fun key => key.mTime)).Pairwise (· ≤ ·) := by
  intro chan hchan
  unfold ImportAnimation at h
  obtain ⟨channels, hchannels, h⟩ := bind_eq_some_elim h
  obtain ⟨d, -, h⟩ := bind_eq_some_elim h
  cases h
  obtain ⟨-, k, e, node, -, -, -, hmk⟩ :=
    importAnimationChannels_mem _ rnodes anim channels.1 channels.2 hchannels chan hchan
  exact CreateNodeAnim_sorted anim.samplers node e chan hmk hsorted

/-- Claim C24, amended, on the first channel of the example animation with
non-decreasing times. -/
theorem C24_key_times_sorted_witness :
    ImportAnimation exampleKeyNodes exampleKeyAnimation
      = some { mName := "keys", mDuration := 3000, mTicksPerSecond := 0, mNumChannels := 2,
               mChannels := exampleKeyChannels } ∧
    ∃ chan, exampleKeyChannels[0]? = some chan ∧
      (chan.mPositionKeys.map (fun key => key.mTime)).Pairwise (· ≤ ·) ∧
      (chan.mRotationKeys.map (fun key => key.mTime)).Pairwise (· ≤ ·) ∧
      (chan.mScalingKeys.map (fun key => key.mTime)).Pairwise (· ≤ ·) :=
  ⟨by decide,
    { mNodeName := "A"
      mPositionKeys :=
        [ { mTime := 0, mValue := ⟨1, 2, 3⟩ }, { mTime := 1000, mValue := ⟨4, 5, 6⟩ },
          { mTime := 2000, mValue := ⟨7, 8, 9⟩ } ]
      mRotationKeys :=
        [ { mTime := 1000, mValue := { x := 0, y := 0, z := 0, w := 1 } },
          { mTime := 3000, mValue := { x := 0, y := 0, z := 1, w := 0 } } ]
      mScalingKeys := [{ mTime := 0, mValue := ⟨2, 2, 2⟩ }] },
    rfl,
    C24_key_times_sorted exampleKeyNodes exampleKeyAnimation
      { mName := "keys", mDuration := 3000, mTicksPerSecond := 0, mNumChannels := 2,
        mChannels := exampleKeyChannels }
      (by decide) (by decide) _ (by decide)⟩

/-! ## Embedded textures -/

theorem addEmbeddedTextures_skip (i : Nat) (img : Image) (images : List Image)
    (st : TextureState) (h : img.hasData = false) :
    addEmbeddedTextures i (img :: images) st = addEmbeddedTextures (i + 1) images st := by
  rw [addEmbeddedTextures]
  simp only [h, Bool.not_false, if_true]

theorem addEmbeddedTextures_add (i : Nat) (img : Image) (images : List Image)
    (st : TextureState) (hint : String) (h : img.hasData = true)
    (hi : i < st.embeddedTexIdxs.length) (hn : st.mNumTextures < st.mTextures.length)
    (hfit : st.mTextures.length < 2147483648)
    (hhint : formatHint img.mimeType "" = some hint) :
    addEmbeddedTextures i (img :: images) st
      = addEmbeddedTextures (i + 1) images
          { embeddedTexIdxs := st.embeddedTexIdxs.set i (st.mNumTextures : Int)
            mNumTextures := st.mNumTextures + 1
            mTextures := st.mTextures.set st.mNumTextures
              (some { mWidth := u32 img.dataLength, mHeight := 0, achFormatHint := hint }) } := by
  have hidx : i32 st.mNumTextures = (st.mNumTextures : Int) := i32_of_lt (by omega)
  have hu : u32 (st.mNumTextures + 1) = st.mNumTextures + 1 :=
    u32_of_lt (by simp only [UINT_MOD]; omega)
  have hw : (0 : Int) ≤ (st.mNumTextures : Int) ∧
      ((st.mNumTextures : Int)).toNat < st.mTextures.length := by
    rw [Int.toNat_natCast]
    exact ⟨by omega, hn⟩
  rw [addEmbeddedTextures]
  simp only [h, Bool.not_true, Bool.false_eq_true, if_false, hidx, hu, hi, if_true]
  rw [some_bind_eq, hhint, some_bind_eq]
  simp only [hw, and_self, if_true, Int.toNat_natCast]
  rw [if_pos ⟨trivial, hn⟩]
  rfl

/-- The second loop of `ImportEmbeddedTextures` from a state whose table and
texture array are long enough: the entries before `i` and the textures
before `mNumTextures` stay, an image with data gets the next slot and a
texture in that slot, an image without data keeps its entry. -/
theorem addEmbeddedTextures_spec :
    ∀ (images : List Image) (i : Nat) (st : TextureState),
      i + images.length ≤ st.embeddedTexIdxs.length →
      st.mNumTextures + images.countP (fun img => img.hasData) ≤ st.mTextures.length →
      st.mTextures.length < 2147483648 →
      (∀ img, img ∈ images → img.hasData = true →
        ∃ hint, formatHint img.mimeType "" = some hint) →
      ∃ st', addEmbeddedTextures i images st = some st' ∧
        st'.embeddedTexIdxs.length = st.embeddedTexIdxs.length ∧
        st'.mNumTextures = st.mNumTextures + images.countP (fun img => img.hasData) ∧
        st'.mTextures.length = st.mTextures.length ∧
        (∀ k : Nat, k < i → st'.embeddedTexIdxs[k]? = st.embeddedTexIdxs[k]?) ∧
        (∀ (j : Nat) (img : Image), images[j]? = some img →
          st'.embeddedTexIdxs[i + j]?
            = if img.hasData then
                some (((st.mNumTextures +
                  (images.take j).countP (fun img => img.hasData) : Nat) : Int))
              else st.embeddedTexIdxs[i + j]?) ∧
        (∀ k : Nat, k < st.mNumTextures → st'.mTextures[k]? = st.mTextures[k]?) ∧
        ∀ (j : Nat) (img : Image), images[j]? = some img → img.hasData = true →
          ∃ hint, formatHint img.mimeType "" = some hint ∧
            st'.mTextures[st.mNumTextures + (images.take j).countP (fun img => img.hasData)]?
              = some (some { mWidth := u32 img.dataLength, mHeight := 0,
                             achFormatHint := hint }) := by
  intro images
  induction images with
  | nil =>
    intro i st _ _ _ _
    refine ⟨st, rfl, rfl, rfl, rfl, fun _ _ => rfl, fun j img hj => ?_, fun _ _ => rfl,
      fun j img hj => ?_⟩
    · simp at hj
    · simp at hj
  | cons img0 rest ih =>
    intro i st hlen hN hfit hmime
    have hmime' : ∀ img, img ∈ rest → img.hasData = true →
        ∃ hint, formatHint img.mimeType "" = some hint :=
      fun img hm => hmime img (List.mem_cons_of_mem _ hm)
    simp only [List.length_cons] at hlen
    cases hd : img0.hasData with
    | false =>
      have hcount : (img0 :: rest).countP (fun img => img.hasData)
          = rest.countP (fun img => img.hasData) :=
        List.countP_cons_of_neg _ _ (by simp [hd])
      rw [hcount] at hN
      obtain ⟨st', hrun, h1, h2, h3, h4, h5, h6, h7⟩ :=
        ih (i + 1) st (by omega) hN hfit hmime'
      refine ⟨st', by rw [addEmbeddedTextures_skip i img0 rest st hd, hrun], h1,
        by rw [h2, hcount], h3, fun k hk => h4 k (by omega), fun j img hj => ?_, h6,
        fun j img hj hdata => ?_⟩
      · cases j with
        | zero =>
          simp only [List.getElem?_cons_zero, Option.some.injEq] at hj
          subst hj
          simp only [hd, Bool.false_eq_true, if_false, Nat.add_zero]
          exact h4 i (by omega)
        | succ j =>
          simp only [List.getElem?_cons_succ] at hj
          have := h5 j img hj
          rw [show i + (j + 1) = i + 1 + j by omega, this, List.take_succ_cons,
            List.countP_cons_of_neg _ _ (by simp [hd])]
      · cases j with
        | zero =>
          simp only [List.getElem?_cons_zero, Option.some.injEq] at hj
          subst hj
          rw [hd] at hdata
          cases hdata
        | succ j =>
          simp only [List.getElem?_cons_succ] at hj
          obtain ⟨hint, hh, ht⟩ := h7 j img hj hdata
          refine ⟨hint, hh, ?_⟩
          rw [List.take_succ_cons, List.countP_cons_of_neg _ _ (by simp [hd])]
          exact ht
    | true =>
      have hcount : (img0 :: rest).countP (fun img => img.hasData)
          = rest.countP (fun img => img.hasData) + 1 :=
        List.countP_cons_of_pos _ _ (by simp [hd])
      rw [hcount] at hN
      obtain ⟨hint0, hhint0⟩ := hmime img0 (List.mem_cons_self _ _) hd
      have hstep := addEmbeddedTextures_add i img0 rest st hint0 hd (by omega) (by omega)
        hfit hhint0
      obtain ⟨st', hrun, h1, h2, h3, h4, h5, h6, h7⟩ :=
        ih (i + 1)
          { embeddedTexIdxs := st.embeddedTexIdxs.set i (st.mNumTextures : Int)
            mNumTextures := st.mNumTextures + 1
            mTextures := st.mTextures.set st.mNumTextures
              (some { mWidth := u32 img0.dataLength, mHeight := 0,
                      achFormatHint := hint0 }) }
          (by simp only [List.length_set]; omega)
          (by simp only [List.length_set]; omega)
          (by simp only [List.length_set]; exact hfit) hmime'
      simp only [List.length_set] at h1 h3
      dsimp only at h2 h4 h5 h6 h7
      refine ⟨st', by rw [hstep, hrun], h1, by rw [h2, hcount]; omega, h3,
        fun k hk => ?_, fun j img hj => ?_, fun k hk => ?_, fun j img hj hdata => ?_⟩
      · rw [h4 k (by omega)]
        exact List.getElem?_set_ne (by omega)
      · cases j with
        | zero =>
          simp only [List.getElem?_cons_zero, Option.some.injEq] at hj
          subst hj
          simp only [hd, if_true, Nat.add_zero, List.take_zero, List.countP_nil]
          rw [h4 i (by omega)]
          exact List.getElem?_set_self (by omega)
        | succ j =>
          simp only [List.getElem?_cons_succ] at hj
          have := h5 j img hj
          rw [show i + (j + 1) = i + 1 + j by omega, this, List.take_succ_cons,
            List.countP_cons_of_pos _ _ (by simp [hd])]
          have hset : (st.embeddedTexIdxs.set i (st.mNumTextures : Int))[i + 1 + j]?
              = st.embeddedTexIdxs[i + 1 + j]? := List.getElem?_set_ne (by omega)
          simp only [hset]
          cases img.hasData with
          | false => rfl
          | true =>
            simp only [if_true]
            congr 2
            omega
      · rw [h6 k (by omega)]
        exact List.getElem?_set_ne (by omega)
      · cases j with
        | zero =>
          simp only [List.getElem?_cons_zero, Option.some.injEq] at hj
          subst hj
          refine ⟨hint0, hhint0, ?_⟩
          simp only [List.take_zero, List.countP_nil, Nat.add_zero]
          rw [h6 st.mNumTextures (by omega)]
          exact List.getElem?_set_self (by omega)
        | succ j =>
          simp only [List.getElem?_cons_succ] at hj
          obtain ⟨hint, hh, ht⟩ := h7 j img hj hdata
          refine ⟨hint, hh, ?_⟩
          rw [List.take_succ_cons, List.countP_cons_of_pos _ _ (by simp [hd])]
          rw [show st.mNumTextures + ((rest.take j).countP (fun img => img.hasData) + 1)
            = st.mNumTextures + 1 + (rest.take j).countP (fun img => img.hasData) by omega]
          exact ht

theorem afterSlash_of_mem (mimeType : String) (h : '/' ∈ mimeType.data) :
    ∃ ext, afterSlash mimeType = some ext := by
  unfold afterSlash
  cases hd : mimeType.data.dropWhile (fun c => c != '/') with
  | nil =>
    rw [List.dropWhile_eq_nil_iff] at hd
    have := hd '/' h
    simp at this
  | cons c ext => exact ⟨String.mk ext, rfl⟩

/-- The format hint is computed for an image without MIME type and for an
image whose MIME type has a slash. -/
theorem formatHint_total (mimeType achFormatHint : String)
    (h : mimeType = "" ∨ '/' ∈ mimeType.data) :
    ∃ hint, formatHint mimeType achFormatHint = some hint := by
  unfold formatHint
  by_cases he : mimeType = ""
  · simp only [he, ne_eq, not_true_eq_false, if_false]
    exact ⟨_, rfl⟩
  · rcases h with h | h
    · exact absurd h he
    · obtain ⟨ext, hext⟩ := afterSlash_of_mem mimeType h
      simp only [ne_eq, he, not_false_eq_true, if_true]
      rw [hext, some_bind_eq]
      have key : ∀ e : String, ∃ hint,
          (if e.length ≤ 3 then (pure e : Option String) else pure achFormatHint)
            = some hint := by
        intro e
        by_cases hl : e.length ≤ 3
        · exact ⟨e, if_pos hl⟩
        · exact ⟨achFormatHint, if_neg hl⟩
      exact key _

theorem countP_take_le {α : Type} (p : α → Bool) (l : List α) (i j : Nat) (h : i ≤ j) :
    (l.take i).countP p ≤ (l.take j).countP p := by
  have : l.take i = (l.take j).take i := by
    rw [List.take_take, Nat.min_eq_left h]
  rw [this]
  exact List.Sublist.countP_le p (List.take_sublist _ _)

/-- The number of earlier elements with the property grows strictly from an
element with the property to any later index. -/
theorem countP_take_lt {α : Type} (p : α → Bool) (l : List α) (i j : Nat) (a : α)
    (hij : i < j) (ha : l[i]? = some a) (hp : p a = true) :
    (l.take i).countP p < (l.take j).countP p := by
  have h1 : (l.take (i + 1)).countP p = (l.take i).countP p + 1 := by
    rw [List.take_succ, ha, List.countP_append]
    simp [hp]
  have h2 := countP_take_le p l (i + 1) j (by omega)
  omega

/-- Every number below the count of the elements with the property is the
number of earlier such elements of one element with the property. -/
theorem exists_countP_take {α : Type} (p : α → Bool) :
    ∀ (l : List α) (k : Nat), k < l.countP p →
      ∃ i a, l[i]? = some a ∧ p a = true ∧ (l.take i).countP p = k := by
  intro l
  induction l with
  | nil => intro k hk; simp at hk
  | cons a rest ih =>
    intro k hk
    by_cases hp : p a = true
    · rw [List.countP_cons_of_pos _ _ hp] at hk
      cases k with
      | zero => exact ⟨0, a, List.getElem?_cons_zero, hp, rfl⟩
      | succ k =>
        obtain ⟨i, b, hb, hpb, hc⟩ := ih k (by omega)
        refine ⟨i + 1, b, by simpa using hb, hpb, ?_⟩
        rw [List.take_succ_cons, List.countP_cons_of_pos _ _ hp, hc]
    · rw [List.countP_cons_of_neg _ _ hp] at hk
      obtain ⟨i, b, hb, hpb, hc⟩ := ih k hk
      refine ⟨i + 1, b, by simpa using hb, hpb, ?_⟩
      rw [List.take_succ_cons, List.countP_cons_of_neg _ _ hp, hc]

/-- The function `ImportEmbeddedTextures` on a new importer and an empty
scene, for fewer than `2^31` images: it returns, the table has one entry per
image, an image with data has the number of earlier images with data as its
entry and a texture in that slot, and an image without data has the entry
`-1`. -/
theorem ImportEmbeddedTextures_fresh (images : List Image)
    (hlen : images.length < 2147483648)
    (hmime : ∀ img, img ∈ images → img.hasData = true →
      img.mimeType = "" ∨ '/' ∈ img.mimeType.data) :
    ∃ st', ImportEmbeddedTextures images {} = some st' ∧
      st'.embeddedTexIdxs.length = images.length ∧
      st'.mNumTextures = images.countP (fun img => img.hasData) ∧
      st'.mTextures.length = images.countP (fun img => img.hasData) ∧
      (∀ (i : Nat) (img : Image), images[i]? = some img →
        st'.embeddedTexIdxs[i]?
          = some (if img.hasData then
              ((((images.take i).countP (fun img => img.hasData) : Nat)) : Int)
            else -1)) ∧
      ∀ (i : Nat) (img : Image), images[i]? = some img → img.hasData = true →
        ∃ hint, formatHint img.mimeType "" = some hint ∧
          st'.mTextures[(images.take i).countP (fun img => img.hasData)]?
            = some (some { mWidth := u32 img.dataLength, mHeight := 0,
                           achFormatHint := hint }) := by
  have hu : u32 images.length = images.length :=
    u32_of_lt (by simp only [UINT_MOD]; omega)
  have hcle : images.countP (fun img => img.hasData) ≤ images.length := List.countP_le_length _
  have hi32 : i32 (images.countP (fun img => img.hasData))
      = ((images.countP (fun img => img.hasData) : Nat) : Int) := i32_of_lt (by omega)
  have hres : resize ([] : List Int) images.length (-1) = List.replicate images.length (-1) := by
    simp [resize]
  have hrep : ∀ i : Nat, i < images.length →
      (List.replicate images.length (-1 : Int))[i]? = some (-1) := by
    intro i hi
    rw [List.getElem?_replicate, if_pos hi]
  unfold ImportEmbeddedTextures
  simp only [hu, List.take_of_length_le (Nat.le_refl _), hi32]
  rw [hres]
  by_cases hc : images.countP (fun img => img.hasData) = 0
  · have hnone : ∀ img, img ∈ images → img.hasData = false := by
      intro img hmem
      have := (List.countP_eq_zero.mp hc) img hmem
      simpa using this
    simp only [hc, Nat.cast_zero, if_true]
    refine ⟨_, rfl, by simp, rfl, rfl, fun i img hi => ?_, fun i img hi hd => ?_⟩
    · have hilt : i < images.length := by
        by_contra hcon
        rw [List.getElem?_eq_none (by omega)] at hi
        cases hi
      simp only [hnone img (List.getElem?_mem hi), Bool.false_eq_true, if_false]
      exact hrep i hilt
    · rw [hnone img (List.getElem?_mem hi)] at hd
      cases hd
  · have hne : ¬ ((images.countP (fun img => img.hasData) : Nat) : Int) = 0 := by omega
    have hnn : ¬ ((images.countP (fun img => img.hasData) : Nat) : Int) < 0 := by omega
    simp only [hne, hnn, if_false, Int.toNat_natCast]
    obtain ⟨st', hrun, h1, h2, h3, -, h5, -, h7⟩ :=
      addEmbeddedTextures_spec images 0
        { embeddedTexIdxs := List.replicate images.length (-1)
          mNumTextures := 0
          mTextures := List.replicate (images.countP (fun img => img.hasData)) none }
        (by simp) (by simp)
        (by simp only [List.length_replicate]; omega)
        (fun img hmem hd => formatHint_total _ _ (hmime img hmem hd))
    simp only [List.length_replicate, Nat.zero_add] at h1 h2 h3 h5 h7
    refine ⟨st', hrun, h1, h2, h3, fun i img hi => ?_, h7⟩
    have hilt : i < images.length := by
      by_contra hcon
      rw [List.getElem?_eq_none (by omega)] at hi
      cases hi
    rw [h5 i img hi, hrep i hilt]
    cases img.hasData <;> rfl

/-- Claim C25.  After `ImportEmbeddedTextures` on a new importer and an empty
scene, for fewer than `2^31` images whose MIME types, where the image has data
and a MIME type, have a slash: the table has one entry per image; the entry of
an image with data is the number of earlier images with data, the entry of an
image without data is `-1`; the slots of the images with data grow strictly
with the image index (so they are pairwise distinct), lie below
`mNumTextures`, the number of images with data, and every number below
`mNumTextures` is the slot of an image with data. -/
theorem C25_embedded_texture_slots (images : List Image)
    (hlen : images.length < 2147483648)
    (hmime : ∀ img, img ∈ images → img.hasData = true →
      img.mimeType = "" ∨ '/' ∈ img.mimeType.data) :
    ∃ st', ImportEmbeddedTextures images {} = some st' ∧
      st'.embeddedTexIdxs.length = images.length ∧
      st'.mNumTextures = images.countP (fun img => img.hasData) ∧
      (∀ (i : Nat) (img : Image), images[i]? = some img →
        st'.embeddedTexIdxs[i]?
          = some (if img.hasData then
              ((((images.take i).countP (fun img => img.hasData) : Nat)) : Int)
            else -1)) ∧
      (∀ (i j : Nat) (a b : Image) (si sj : Int), i < j →
        images[i]? = some a → images[j]? = some b → a.hasData = true → b.hasData = true →
        st'.embeddedTexIdxs[i]? = some si → st'.embeddedTexIdxs[j]? = some sj → si < sj) ∧
      (∀ (i : Nat) (a : Image) (si : Int), images[i]? = some a → a.hasData = true →
        st'.embeddedTexIdxs[i]? = some si → 0 ≤ si ∧ si < (st'.mNumTextures : Int)) ∧
      ∀ k : Nat, k < st'.mNumTextures →
        ∃ (i : Nat) (a : Image), images[i]? = some a ∧ a.hasData = true ∧
          st'.embeddedTexIdxs[i]? = some (k : Int) := by
  obtain ⟨st', hrun, h1, h2, -, h4, -⟩ := ImportEmbeddedTextures_fresh images hlen hmime
  refine ⟨st', hrun, h1, h2, h4, ?_, ?_, ?_⟩
  · intro i j a b si sj hij ha hb hda hdb hsi hsj
    rw [h4 i a ha, hda] at hsi
    rw [h4 j b hb, hdb] at hsj
    simp only [if_true, Option.some.injEq] at hsi hsj
    have := countP_take_lt (fun img : Image => img.hasData) images i j a hij ha hda
    omega
  · intro i a si ha hda hsi
    rw [h4 i a ha, hda] at hsi
    simp only [if_true, Option.some.injEq] at hsi
    have hilt : i < images.length := by
      by_contra hcon
      rw [List.getElem?_eq_none (by omega)] at ha
      cases ha
    have := countP_take_lt (fun img : Image => img.hasData) images i images.length a hilt ha hda
    rw [List.take_of_length_le (Nat.le_refl _)] at this
    omega
  · intro k hk
    rw [h2] at hk
    obtain ⟨i, a, ha, hda, hc⟩ := exists_countP_take (fun img : Image => img.hasData) images k hk
    refine ⟨i, a, ha, hda, ?_⟩
    rw [h4 i a ha, hda, if_pos rfl, hc]

/-- Claim C25 on the four example images: the table is 0, -1, 1, 2. -/
theorem C25_embedded_texture_slots_witness :
    ∃ st', ImportEmbeddedTextures exampleImages {} = some st' ∧
      st'.embeddedTexIdxs.length = exampleImages.length ∧
      st'.mNumTextures = exampleImages.countP (fun img => img.hasData) ∧
      (∀ (i : Nat) (img : Image), exampleImages[i]? = some img →
        st'.embeddedTexIdxs[i]?
          = some (if img.hasData then
              ((((exampleImages.take i).countP (fun img => img.hasData) : Nat)) : Int)
            else -1)) ∧
      (∀ (i j : Nat) (a b : Image) (si sj : Int), i < j →
        exampleImages[i]? = some a → exampleImages[j]? = some b →
        a.hasData = true → b.hasData = true →
        st'.embeddedTexIdxs[i]? = some si → st'.embeddedTexIdxs[j]? = some sj → si < sj) ∧
      (∀ (i : Nat) (a : Image) (si : Int), exampleImages[i]? = some a → a.hasData = true →
        st'.embeddedTexIdxs[i]? = some si → 0 ≤ si ∧ si < (st'.mNumTextures : Int)) ∧
      ∀ k : Nat, k < st'.mNumTextures →
        ∃ (i : Nat) (a : Image), exampleImages[i]? = some a ∧ a.hasData = true ∧
          st'.embeddedTexIdxs[i]? = some (k : Int) :=
  C25_embedded_texture_slots exampleImages (by decide) (by decide)

/-- The example images imported. -/
theorem exampleImages_imported :
    ImportEmbeddedTextures exampleImages {}
      = some { embeddedTexIdxs := [0, -1, 1, 2]
               mNumTextures := 3
               mTextures :=
                [ some { mWidth := 100, mHeight := 0, achFormatHint := "png" },
                  some { mWidth := 200, mHeight := 0, achFormatHint := "jpg" },
                  some { mWidth := 300, mHeight := 0, achFormatHint := "" } ] } := by
  decide

/-- Claim C28.  `ConvertWrappingMode` maps `Mirrored_Repeat` to `Mirror`,
`Clamp_To_Edge` to `Clamp`, and every other value, `UNSET` and `Repeat` among
them, to `Wrap`. -/
theorem C28_wrapping_mode :
    ConvertWrappingMode SamplerWrap.Mirrored_Repeat = aiTextureMapMode.aiTextureMapMode_Mirror ∧
    ConvertWrappingMode SamplerWrap.Clamp_To_Edge = aiTextureMapMode.aiTextureMapMode_Clamp ∧
    ConvertWrappingMode SamplerWrap.UNSET = aiTextureMapMode.aiTextureMapMode_Wrap ∧
    ConvertWrappingMode SamplerWrap.Repeat = aiTextureMapMode.aiTextureMapMode_Wrap ∧
    ∀ gltfWrapMode : SamplerWrap,
      ConvertWrappingMode gltfWrapMode
        = if gltfWrapMode = SamplerWrap.Mirrored_Repeat then
            aiTextureMapMode.aiTextureMapMode_Mirror
          else if gltfWrapMode = SamplerWrap.Clamp_To_Edge then
            aiTextureMapMode.aiTextureMapMode_Clamp
          else aiTextureMapMode.aiTextureMapMode_Wrap := by
  refine ⟨rfl, rfl, rfl, rfl, fun gltfWrapMode => ?_⟩
  cases gltfWrapMode <;> simp [ConvertWrappingMode]

theorem digitChar_value : ∀ k : Nat, k < 10 → (Nat.digitChar k).toNat - 48 = k := by
  decide

/-- Reading the digits that `Nat.toDigitsCore` puts before `ds` continues from
the number they denote. -/
theorem readDecimal_toDigitsCore :
    ∀ (fuel n : Nat) (ds : List Char), n < fuel →
      (Nat.toDigitsCore 10 fuel n ds).foldl (fun acc c => acc * 10 + (c.toNat - 48)) 0
        = ds.foldl (fun acc c => acc * 10 + (c.toNat - 48)) n := by
  intro fuel
  induction fuel with
  | zero => intro n ds h; omega
  | succ fuel ih =>
    intro n ds h
    rw [Nat.toDigitsCore]
    by_cases hz : n / 10 = 0
    · simp only [hz, if_true, List.foldl_cons]
      have hn : n < 10 := by omega
      rw [Nat.mod_eq_of_lt hn, digitChar_value n hn]
      simp
    · simp only [hz, if_false]
      rw [ih (n / 10) _ (by omega), List.foldl_cons,
        digitChar_value (n % 10) (Nat.mod_lt _ (by decide))]
      congr 1
      omega

/-- Reading the decimal representation of a number gives the number. -/
theorem readDecimal_itoa10 (n : Nat) : readDecimal (ASSIMP_itoa10 n).data = n := by
  have h : (ASSIMP_itoa10 n).data = Nat.toDigitsCore 10 (n + 1) n [] := rfl
  rw [h, readDecimal, readDecimal_toDigitsCore (n + 1) n [] (by omega)]
  rfl

/-- The texture reference string of an embedded image names its slot. -/
theorem readTextureSlot_textureUri (uri : String) (slot : Nat) :
    textureUri uri (slot : Int) = "*" ++ ASSIMP_itoa10 slot ∧
    readTextureSlot (textureUri uri (slot : Int)) = some slot := by
  have hne : (slot : Int) ≠ -1 := by omega
  have hnn : ¬ (slot : Int) < 0 := by omega
  have huri : textureUri uri (slot : Int) = "*" ++ ASSIMP_itoa10 slot := by
    simp only [textureUri, ASSIMP_itoa10_int, hne, ne_eq, not_false_eq_true, if_true, hnn,
      if_false, Int.toNat_natCast]
  refine ⟨huri, ?_⟩
  have hdata : ("*" ++ ASSIMP_itoa10 slot).data = '*' :: (ASSIMP_itoa10 slot).data := by
    rw [String.data_append]
    rfl
  rw [huri, readTextureSlot, hdata]
  simp only [readDecimal_itoa10]

theorem samplerProperties_append {W : Type} (sampler : Sampler)
    (mat : List (aiMaterialProperty W)) (texType : aiTextureType) (texSlot : Nat) :
    samplerProperties sampler mat texType texSlot
      = mat ++ samplerProperties sampler [] texType texSlot := by
  cases hmag : sampler.magFilter <;> cases hmin : sampler.minFilter <;>
    simp [samplerProperties, AddProperty, hmag, hmin]

theorem samplerProperties_keys {W : Type} (sampler : Sampler) (texType : aiTextureType)
    (texSlot : Nat) :
    ∀ p, p ∈ (samplerProperties sampler [] texType texSlot : List (aiMaterialProperty W)) →
      isTextureKey p.mKey = true ∧ p.mKey ≠ MatKey.AI_MATKEY_TEXTURE := by
  have hall : (samplerProperties sampler [] texType texSlot : List (aiMaterialProperty W)).all
      (fun p => isTextureKey p.mKey && decide (p.mKey ≠ MatKey.AI_MATKEY_TEXTURE)) = true := by
    cases hmag : sampler.magFilter <;> cases hmin : sampler.minFilter <;>
      simp [samplerProperties, AddProperty, hmag, hmin, isTextureKey]
  intro p hp
  have := List.all_eq_true.mp hall p hp
  simpa using this

/-- The call `SetMaterialTextureProperty` for a texture with a source image:
the URI property and the texture coordinate property are added, and after
them the properties of the sampler. -/
theorem SetMaterialTextureProperty_source {W : Type} (embeddedTexIdxs : List Int)
    (r : TextureAsset) (prop : TextureInfo) (mat : List (aiMaterialProperty W))
    (texType : aiTextureType) (texSlot : Nat) (textureRef : Nat) (texture : Texture)
    (sourceRef : Nat) (source : Image) (texIdx : Int)
    (h1 : prop.texture = some textureRef) (h2 : r.textures[textureRef]? = some texture)
    (h3 : texture.source = some sourceRef) (h4 : r.images[sourceRef]? = some source)
    (h5 : embeddedTexIdxs[sourceRef]? = some texIdx) :
    (texture.sampler = none →
      SetMaterialTextureProperty embeddedTexIdxs r prop mat texType texSlot
        = some (mat ++
          [ { mKey := MatKey.AI_MATKEY_TEXTURE, mSemantic := texType, mIndex := texSlot,
              value := aiPropertyValue.aiString (textureUri source.uri texIdx) },
            { mKey := MatKey.AI_MATKEY_GLTF_TEXTURE_TEXCOORD, mSemantic := texType,
              mIndex := texSlot, value := aiPropertyValue.unsigned prop.texCoord } ])) ∧
    ∀ (samplerRef : Nat) (sampler : Sampler), texture.sampler = some samplerRef →
      r.samplers[samplerRef]? = some sampler →
      SetMaterialTextureProperty embeddedTexIdxs r prop mat texType texSlot
        = some (mat ++
          [ { mKey := MatKey.AI_MATKEY_TEXTURE, mSemantic := texType, mIndex := texSlot,
              value := aiPropertyValue.aiString (textureUri source.uri texIdx) },
            { mKey := MatKey.AI_MATKEY_GLTF_TEXTURE_TEXCOORD, mSemantic := texType,
              mIndex := texSlot, value := aiPropertyValue.unsigned prop.texCoord } ] ++
          samplerProperties sampler [] texType texSlot) := by
  constructor
  · intro hs
    unfold SetMaterialTextureProperty
    simp only [h1]
    rw [h2, some_bind_eq]
    simp only [h3]
    rw [h4, some_bind_eq, h5, some_bind_eq]
    simp only [hs, AddProperty, List.append_assoc, List.singleton_append]
  · intro samplerRef sampler hs hsampler
    unfold SetMaterialTextureProperty
    simp only [h1]
    rw [h2, some_bind_eq]
    simp only [h3]
    rw [h4, some_bind_eq, h5, some_bind_eq]
    simp only [hs]
    rw [hsampler, some_bind_eq, samplerProperties_append]
    simp only [AddProperty, List.append_assoc, List.singleton_append]

/-- A call of `SetMaterialTextureProperty` that returns has added properties
with texture keys only. -/
theorem SetMaterialTextureProperty_some {W : Type} (embeddedTexIdxs : List Int)
    (r : TextureAsset) (prop : TextureInfo) (mat mat' : List (aiMaterialProperty W))
    (texType : aiTextureType) (texSlot : Nat)
    (h : SetMaterialTextureProperty embeddedTexIdxs r prop mat texType texSlot = some mat') :
    ∃ props, mat' = mat ++ props ∧ ∀ p, p ∈ props → isTextureKey p.mKey = true := by
  cases h1 : prop.texture with
  | none =>
    simp only [SetMaterialTextureProperty, h1] at h
    cases h
    exact ⟨[], by simp, fun p hp => by cases hp⟩
  | some textureRef =>
    cases h2 : r.textures[textureRef]? with
    | none =>
      simp only [SetMaterialTextureProperty, h1] at h
      rw [h2] at h
      cases h
    | some texture =>
      cases h3 : texture.source with
      | none =>
        simp only [SetMaterialTextureProperty, h1] at h
        rw [h2, some_bind_eq] at h
        simp only [h3] at h
        cases h
        exact ⟨[], by simp, fun p hp => by cases hp⟩
      | some sourceRef =>
        cases h4 : r.images[sourceRef]? with
        | none =>
          simp only [SetMaterialTextureProperty, h1] at h
          rw [h2, some_bind_eq] at h
          simp only [h3] at h
          rw [h4] at h
          cases h
        | some source =>
          cases h5 : embeddedTexIdxs[sourceRef]? with
          | none =>
            simp only [SetMaterialTextureProperty, h1] at h
            rw [h2, some_bind_eq] at h
            simp only [h3] at h
            rw [h4, some_bind_eq, h5] at h
            cases h
          | some texIdx =>
            obtain ⟨hnone, hsome⟩ := SetMaterialTextureProperty_source embeddedTexIdxs r prop
              mat texType texSlot textureRef texture sourceRef source texIdx h1 h2 h3 h4 h5
            cases h6 : texture.sampler with
            | none =>
              rw [hnone h6] at h
              cases h
              refine ⟨_, rfl, fun p hp => ?_⟩
              simp only [List.mem_cons, List.mem_singleton, List.not_mem_nil, or_false] at hp
              rcases hp with hp | hp <;> rw [hp] <;> rfl
            | some samplerRef =>
              cases h7 : r.samplers[samplerRef]? with
              | none =>
                simp only [SetMaterialTextureProperty, h1] at h
                rw [h2, some_bind_eq] at h
                simp only [h3] at h
                rw [h4, some_bind_eq, h5, some_bind_eq] at h
                simp only [h6] at h
                rw [h7] at h
                cases h
              | some sampler =>
                rw [hsome samplerRef sampler h6 h7] at h
                cases h
                refine ⟨_, by rw [List.append_assoc], fun p hp => ?_⟩
                rcases List.mem_append.mp hp with hp | hp
                · simp only [List.mem_cons, List.mem_singleton, List.not_mem_nil,
                    or_false] at hp
                  rcases hp with hp | hp <;> rw [hp] <;> rfl
                · exact (samplerProperties_keys sampler texType texSlot p hp).1

/-- A texture reference that can be followed makes `SetMaterialTextureProperty`
return. -/
theorem SetMaterialTextureProperty_total {W : Type} (embeddedTexIdxs : List Int)
    (r : TextureAsset) (prop : TextureInfo) (mat : List (aiMaterialProperty W))
    (texType : aiTextureType) (texSlot : Nat)
    (h : textureResolves embeddedTexIdxs.length r prop = true) :
    ∃ mat', SetMaterialTextureProperty embeddedTexIdxs r prop mat texType texSlot
      = some mat' := by
  unfold textureResolves at h
  cases h1 : prop.texture with
  | none => exact ⟨mat, by simp only [SetMaterialTextureProperty, h1]⟩
  | some textureRef =>
    simp only [h1] at h
    cases h2 : r.textures[textureRef]? with
    | none => simp [h2] at h
    | some texture =>
      simp only [h2] at h
      cases h3 : texture.source with
      | none =>
        refine ⟨mat, ?_⟩
        simp only [SetMaterialTextureProperty, h1]
        rw [h2, some_bind_eq]
        simp only [h3]
      | some sourceRef =>
        simp only [h3, Bool.and_eq_true, decide_eq_true_eq] at h
        obtain ⟨⟨hi, ht⟩, hs⟩ := h
        obtain ⟨hnone, hsome⟩ := SetMaterialTextureProperty_source embeddedTexIdxs r prop
          mat texType texSlot textureRef texture sourceRef (r.images[sourceRef])
          (embeddedTexIdxs[sourceRef]) h1 h2 h3 (List.getElem?_eq_getElem hi)
          (List.getElem?_eq_getElem ht)
        cases h6 : texture.sampler with
        | none => exact ⟨_, hnone h6⟩
        | some samplerRef =>
          rw [h6] at hs
          simp only [decide_eq_true_eq] at hs
          exact ⟨_, hsome samplerRef (r.samplers[samplerRef]) h6 (List.getElem?_eq_getElem hs)⟩

theorem propertyValues_append {W : Type} (l1 l2 : List (aiMaterialProperty W))
    (key : MatKey) :
    propertyValues (l1 ++ l2) key = propertyValues l1 key ++ propertyValues l2 key := by
  simp only [propertyValues, List.filter_append, List.map_append]

theorem propertyValues_samplerProperties {W : Type} (sampler : Sampler)
    (texType : aiTextureType) (texSlot : Nat) :
    propertyValues (samplerProperties sampler [] texType texSlot : List (aiMaterialProperty W))
      MatKey.AI_MATKEY_TEXTURE = [] := by
  have hnil : (samplerProperties sampler [] texType texSlot : List (aiMaterialProperty W)).filter
      (fun p => decide (p.mKey = MatKey.AI_MATKEY_TEXTURE)) = [] := by
    rw [List.filter_eq_nil_iff]
    intro p hp
    simp only [decide_eq_true_eq]
    exact (samplerProperties_keys sampler texType texSlot p hp).2
  simp only [propertyValues, hnil, List.map_nil]

/-- Claim C26.  `SetMaterialTextureProperty` adds nothing for a reference
without a texture or to a texture without a source image.  For a texture with
a source image it adds exactly one URI property: the string `*` followed by
the decimal representation of the lookup entry of the image when the entry is
not `-1`, so that reading the digits after `*` gives the slot back, and the
URI of the image when the entry is `-1`. -/
theorem C26_texture_uri {W : Type} (embeddedTexIdxs : List Int) (r : TextureAsset)
    (prop : TextureInfo) (mat : List (aiMaterialProperty W)) (texType : aiTextureType)
    (texSlot : Nat) :
    (prop.texture = none →
      SetMaterialTextureProperty embeddedTexIdxs r prop mat texType texSlot = some mat) ∧
    (∀ (textureRef : Nat) (texture : Texture), prop.texture = some textureRef →
      r.textures[textureRef]? = some texture → texture.source = none →
      SetMaterialTextureProperty embeddedTexIdxs r prop mat texType texSlot = some mat) ∧
    ∀ (textureRef : Nat) (texture : Texture) (sourceRef : Nat) (source : Image)
      (texIdx : Int),
      prop.texture = some textureRef → r.textures[textureRef]? = some texture →
      texture.source = some sourceRef → r.images[sourceRef]? = some source →
      embeddedTexIdxs[sourceRef]? = some texIdx →
      (∀ samplerRef : Nat, texture.sampler = some samplerRef →
        samplerRef < r.samplers.length) →
      ∃ props,
        SetMaterialTextureProperty embeddedTexIdxs r prop mat texType texSlot
          = some (mat ++ props) ∧
        props.head? = some
          { mKey := MatKey.AI_MATKEY_TEXTURE, mSemantic := texType, mIndex := texSlot,
            value := aiPropertyValue.aiString (textureUri source.uri texIdx) } ∧
        propertyValues props MatKey.AI_MATKEY_TEXTURE
          = [aiPropertyValue.aiString (textureUri source.uri texIdx)] ∧
        (texIdx = -1 → textureUri source.uri texIdx = source.uri) ∧
        ∀ slot : Nat, texIdx = (slot : Int) →
          textureUri source.uri texIdx = "*" ++ ASSIMP_itoa10 slot ∧
          readTextureSlot (textureUri source.uri texIdx) = some slot := by
  refine ⟨?_, ?_, ?_⟩
  · intro h1
    simp only [SetMaterialTextureProperty, h1]
  · intro textureRef texture h1 h2 h3
    simp only [SetMaterialTextureProperty, h1]
    rw [h2, some_bind_eq]
    simp only [h3]
  · intro textureRef texture sourceRef source texIdx h1 h2 h3 h4 h5 hsampler
    obtain ⟨hnone, hsome⟩ := SetMaterialTextureProperty_source embeddedTexIdxs r prop mat
      texType texSlot textureRef texture sourceRef source texIdx h1 h2 h3 h4 h5
    have huri : (texIdx = -1 → textureUri source.uri texIdx = source.uri) ∧
        ∀ slot : Nat, texIdx = (slot : Int) →
          textureUri source.uri texIdx = "*" ++ ASSIMP_itoa10 slot ∧
          readTextureSlot (textureUri source.uri texIdx) = some slot := by
      refine ⟨fun he => ?_, fun slot he => ?_⟩
      · simp only [textureUri, he, ne_eq, not_true_eq_false, if_false]
      · rw [he]
        exact readTextureSlot_textureUri source.uri slot
    cases h6 : texture.sampler with
    | none =>
      refine ⟨_, hnone h6, rfl, ?_, huri⟩
      simp [propertyValues]
    | some samplerRef =>
      have hlt : samplerRef < r.samplers.length := hsampler samplerRef h6
      refine ⟨[ { mKey := MatKey.AI_MATKEY_TEXTURE, mSemantic := texType, mIndex := texSlot,
                  value := aiPropertyValue.aiString (textureUri source.uri texIdx) },
                { mKey := MatKey.AI_MATKEY_GLTF_TEXTURE_TEXCOORD, mSemantic := texType,
                  mIndex := texSlot, value := aiPropertyValue.unsigned prop.texCoord } ] ++
          samplerProperties (r.samplers[samplerRef]) [] texType texSlot, ?_, ?_, ?_, huri⟩
      · rw [hsome samplerRef (r.samplers[samplerRef]) h6 (List.getElem?_eq_getElem hlt),
          List.append_assoc]
      · rfl
      · rw [propertyValues_append, propertyValues_samplerProperties]
        simp [propertyValues]

/-- Claim C26 on the example textures: texture 0 shows the embedded image 2,
whose lookup entry is 1, and gets the URI `*1`. -/
theorem C26_texture_uri_witness :
    ∃ props : List (aiMaterialProperty Int),
      SetMaterialTextureProperty exampleTexIdxs exampleTextureAsset { texture := some 0 } []
          aiTextureType.aiTextureType_DIFFUSE 0
        = some ([] ++ props) ∧
      props.head? = some
        { mKey := MatKey.AI_MATKEY_TEXTURE, mSemantic := aiTextureType.aiTextureType_DIFFUSE,
          mIndex := 0, value := aiPropertyValue.aiString (textureUri "" 1) } ∧
      propertyValues props MatKey.AI_MATKEY_TEXTURE
        = [aiPropertyValue.aiString (textureUri "" 1)] ∧
      ((1 : Int) = -1 → textureUri "" 1 = "") ∧
      ∀ slot : Nat, (1 : Int) = (slot : Int) →
        textureUri "" 1 = "*" ++ ASSIMP_itoa10 slot ∧
        readTextureSlot (textureUri "" 1) = some slot :=
  (C26_texture_uri exampleTexIdxs exampleTextureAsset { texture := some 0 } []
    aiTextureType.aiTextureType_DIFFUSE 0).2.2 0 { source := some 2, sampler := some 0 } 2
    { mimeType := "image/jpeg", hasData := true, dataLength := 200 } 1 rfl rfl rfl rfl rfl
    (fun samplerRef h => by
      cases h
      decide)

/-- The URI properties of the example textures: `*1` for the embedded image
and the URI itself for the other image. -/
theorem exampleTextures_uri :
    (SetMaterialTextureProperty exampleTexIdxs exampleTextureAsset { texture := some 0 }
        ([] : List (aiMaterialProperty Int)) aiTextureType.aiTextureType_DIFFUSE 0).map
      (fun m => propertyValues m MatKey.AI_MATKEY_TEXTURE)
      = some [aiPropertyValue.aiString "*1"] ∧
    (SetMaterialTextureProperty exampleTexIdxs exampleTextureAsset { texture := some 1 }
        ([] : List (aiMaterialProperty Int)) aiTextureType.aiTextureType_NORMALS 0).map
      (fun m => propertyValues m MatKey.AI_MATKEY_TEXTURE)
      = some [aiPropertyValue.aiString "wood.png"] := by
  constructor <;> decide

theorem nonTextureProperties_append {W : Type} (l1 l2 : List (aiMaterialProperty W)) :
    nonTextureProperties (l1 ++ l2) = nonTextureProperties l1 ++ nonTextureProperties l2 := by
  simp only [nonTextureProperties, List.filter_append]

theorem nonTextureProperties_texture {W : Type} (props : List (aiMaterialProperty W))
    (h : ∀ p, p ∈ props → isTextureKey p.mKey = true) : nonTextureProperties props = [] := by
  rw [nonTextureProperties, List.filter_eq_nil_iff]
  intro p hp
  simp [h p hp]

theorem nonTextureProperties_AddProperty {W : Type} (mat : List (aiMaterialProperty W))
    (value : aiPropertyValue W) (key : MatKey) (type : aiTextureType) (idx : Nat) :
    nonTextureProperties (AddProperty mat value key type idx)
      = nonTextureProperties mat ++
        if isTextureKey key = true then []
        else [{ mKey := key, mSemantic := type, mIndex := idx, value := value }] := by
  cases h : isTextureKey key <;>
    simp [AddProperty, nonTextureProperties, List.filter_append, h]

theorem nonTextureProperties_SetMaterialTextureProperty {W : Type}
    (embeddedTexIdxs : List Int) (r : TextureAsset) (prop : TextureInfo)
    (mat mat' : List (aiMaterialProperty W)) (texType : aiTextureType) (texSlot : Nat)
    (h : SetMaterialTextureProperty embeddedTexIdxs r prop mat texType texSlot = some mat') :
    nonTextureProperties mat' = nonTextureProperties mat := by
  obtain ⟨props, hm, hkeys⟩ :=
    SetMaterialTextureProperty_some embeddedTexIdxs r prop mat mat' texType texSlot h
  rw [hm, nonTextureProperties_append, nonTextureProperties_texture props hkeys,
    List.append_nil]

theorem nonTextureProperties_normal {W : Type}
    (embeddedTexIdxs : List Int) (r : TextureAsset) (prop : NormalTextureInfo W)
    (mat mat' : List (aiMaterialProperty W)) (texType : aiTextureType) (texSlot : Nat)
    (h : SetMaterialTextureProperty_normal embeddedTexIdxs r prop mat texType texSlot
      = some mat') :
    nonTextureProperties mat' = nonTextureProperties mat := by
  unfold SetMaterialTextureProperty_normal at h
  obtain ⟨m1, h1, h⟩ := bind_eq_some_elim h
  obtain ⟨present, -, h⟩ := bind_eq_some_elim h
  have hm1 := nonTextureProperties_SetMaterialTextureProperty _ _ _ _ _ _ _ h1
  cases present with
  | false =>
    simp only [Bool.false_eq_true, if_false, Option.some.injEq] at h
    rw [← h, hm1]
  | true =>
    simp only [if_true, Option.some.injEq] at h
    rw [← h, nonTextureProperties_AddProperty, hm1]
    simp only [isTextureKey, if_true, List.append_nil]

theorem nonTextureProperties_occlusion {W : Type}
    (embeddedTexIdxs : List Int) (r : TextureAsset) (prop : OcclusionTextureInfo W)
    (mat mat' : List (aiMaterialProperty W)) (texType : aiTextureType) (texSlot : Nat)
    (h : SetMaterialTextureProperty_occlusion embeddedTexIdxs r prop mat texType texSlot
      = some mat') :
    nonTextureProperties mat' = nonTextureProperties mat := by
  unfold SetMaterialTextureProperty_occlusion at h
  obtain ⟨m1, h1, h⟩ := bind_eq_some_elim h
  obtain ⟨present, -, h⟩ := bind_eq_some_elim h
  have hm1 := nonTextureProperties_SetMaterialTextureProperty _ _ _ _ _ _ _ h1
  cases present with
  | false =>
    simp only [Bool.false_eq_true, if_false, Option.some.injEq] at h
    rw [← h, hm1]
  | true =>
    simp only [if_true, Option.some.injEq] at h
    rw [← h, nonTextureProperties_AddProperty, hm1]
    simp only [isTextureKey, if_true, List.append_nil]

theorem nonTextureProperties_specularGlossiness {W : Type} [One W] [Mul W] [NatCast W]
    (embeddedTexIdxs : List Int) (r : TextureAsset) (pbrSG : PbrSpecularGlossiness W)
    (aimat aimat' : List (aiMaterialProperty W))
    (h : specularGlossinessProperties embeddedTexIdxs r pbrSG aimat = some aimat') :
    nonTextureProperties aimat' = nonTextureProperties aimat ++ specularGlossinessPlain pbrSG := by
  unfold specularGlossinessProperties at h
  dsimp only at h
  obtain ⟨m1, h1, h⟩ := bind_eq_some_elim h
  rw [nonTextureProperties_SetMaterialTextureProperty _ _ _ _ _ _ _ h,
    nonTextureProperties_SetMaterialTextureProperty _ _ _ _ _ _ _ h1]
  simp only [SetMaterialColorProperty4, SetMaterialColorProperty3,
    nonTextureProperties_AddProperty, isTextureKey, Bool.false_eq_true, if_false,
    specularGlossinessPlain, plainProperty, List.append_assoc, List.singleton_append,
    List.cons_append, List.nil_append]

/-- The properties of an imported material under other than texture keys. -/
theorem ImportMaterial_plain {W : Type} [One W] [Sub W] [Mul W] [NatCast W]
    (slots : PbrTextureSlots) (embeddedTexIdxs : List Int) (r : TextureAsset)
    (mat : Material W) (aimat : List (aiMaterialProperty W))
    (h : ImportMaterial slots embeddedTexIdxs r mat = some aimat) :
    nonTextureProperties aimat = materialPlain mat := by
  unfold ImportMaterial at h
  dsimp only at h
  obtain ⟨m1, h1, h⟩ := bind_eq_some_elim h
  obtain ⟨m2, h2, h⟩ := bind_eq_some_elim h
  obtain ⟨m3, h3, h⟩ := bind_eq_some_elim h
  obtain ⟨m4, h4, h⟩ := bind_eq_some_elim h
  obtain ⟨m5, h5, h⟩ := bind_eq_some_elim h
  obtain ⟨m6, h6, h⟩ := bind_eq_some_elim h
  have e1 := nonTextureProperties_SetMaterialTextureProperty _ _ _ _ _ _ _ h1
  have e2 := nonTextureProperties_SetMaterialTextureProperty _ _ _ _ _ _ _ h2
  have e3 := nonTextureProperties_SetMaterialTextureProperty _ _ _ _ _ _ _ h3
  have e4 := nonTextureProperties_normal _ _ _ _ _ _ _ h4
  have e5 := nonTextureProperties_occlusion _ _ _ _ _ _ _ h5
  have e6 := nonTextureProperties_SetMaterialTextureProperty _ _ _ _ _ _ _ h6
  have key : ∃ m7 : List (aiMaterialProperty W),
      nonTextureProperties m7
        = nonTextureProperties m6 ++
          [ plainProperty MatKey.AI_MATKEY_COLOR_EMISSIVE
              (aiPropertyValue.color (CopyValue_color3 mat.emissiveFactor)),
            plainProperty MatKey.AI_MATKEY_TWOSIDED (aiPropertyValue.bool mat.doubleSided),
            plainProperty MatKey.AI_MATKEY_GLTF_ALPHAMODE
              (aiPropertyValue.aiString mat.alphaMode),
            plainProperty MatKey.AI_MATKEY_GLTF_ALPHACUTOFF
              (aiPropertyValue.float mat.alphaCutoff) ] ++
          (match mat.pbrSpecularGlossiness with
          | some pbrSG => specularGlossinessPlain pbrSG
          | none => []) ∧
      some (if mat.unlit = true then
          AddProperty m7 (aiPropertyValue.bool mat.unlit) MatKey.AI_MATKEY_GLTF_UNLIT
            aiTextureType.aiTextureType_NONE 0
        else m7) = some aimat := by
    cases hext : mat.pbrSpecularGlossiness with
    | none =>
      rw [hext] at h
      dsimp only at h
      obtain ⟨m7, h7, h⟩ := bind_eq_some_elim h
      refine ⟨m7, ?_, h⟩
      rw [← Option.some.inj h7]
      simp only [SetMaterialColorProperty3, nonTextureProperties_AddProperty, isTextureKey,
        Bool.false_eq_true, if_false, plainProperty, List.append_assoc, List.singleton_append,
        List.cons_append, List.nil_append, List.append_nil]
    | some pbrSG =>
      rw [hext] at h
      dsimp only at h
      obtain ⟨m7, h7, h⟩ := bind_eq_some_elim h
      refine ⟨m7, ?_, h⟩
      rw [nonTextureProperties_specularGlossiness _ _ _ _ _ h7]
      simp only [SetMaterialColorProperty3, nonTextureProperties_AddProperty, isTextureKey,
        Bool.false_eq_true, if_false, plainProperty, List.append_assoc, List.singleton_append,
        List.cons_append, List.nil_append, List.append_nil]
  obtain ⟨m7, e7, h⟩ := key
  have e0 : nonTextureProperties aimat
      = nonTextureProperties m7 ++
        if mat.unlit then
          [plainProperty MatKey.AI_MATKEY_GLTF_UNLIT (aiPropertyValue.bool mat.unlit)]
        else [] := by
    rw [← Option.some.inj h]
    cases mat.unlit with
    | false => simp
    | true =>
      simp only [if_true, nonTextureProperties_AddProperty, isTextureKey, Bool.false_eq_true,
        if_false, plainProperty]
  rw [e0, e7, e6, e5, e4]
  simp only [nonTextureProperties_AddProperty, isTextureKey, Bool.false_eq_true, if_false]
  rw [e3, e2, e1]
  simp only [SetMaterialColorProperty4, nonTextureProperties_AddProperty, isTextureKey,
    Bool.false_eq_true, if_false]
  have hname : nonTextureProperties
      (if mat.name ≠ "" then
        AddProperty ([] : List (aiMaterialProperty W)) (aiPropertyValue.aiString mat.name)
          MatKey.AI_MATKEY_NAME aiTextureType.aiTextureType_NONE 0
      else [])
      = if mat.name ≠ "" then
          [plainProperty MatKey.AI_MATKEY_NAME (aiPropertyValue.aiString mat.name)]
        else [] := by
    by_cases hn : mat.name ≠ ""
    · rw [if_pos hn, if_pos hn]
      rfl
    · rw [if_neg hn, if_neg hn]
      rfl
  rw [hname]
  simp only [materialPlain, plainProperty, List.append_assoc, List.singleton_append,
    List.cons_append, List.nil_append]

theorem hasSource_total (tableSize : Nat) (r : TextureAsset) (prop : TextureInfo)
    (h : textureResolves tableSize r prop = true) : ∃ present, hasSource r prop = some present := by
  unfold textureResolves at h
  cases h1 : prop.texture with
  | none => exact ⟨false, by simp only [hasSource, h1]⟩
  | some textureRef =>
    simp only [h1] at h
    cases h2 : r.textures[textureRef]? with
    | none => simp [h2] at h
    | some texture =>
      refine ⟨texture.source.isSome, ?_⟩
      simp only [hasSource, h1]
      rw [h2, some_bind_eq]

theorem SetMaterialTextureProperty_normal_total {W : Type} (embeddedTexIdxs : List Int)
    (r : TextureAsset) (prop : NormalTextureInfo W) (mat : List (aiMaterialProperty W))
    (texType : aiTextureType) (texSlot : Nat)
    (h : textureResolves embeddedTexIdxs.length r prop.toTextureInfo = true) :
    ∃ mat', SetMaterialTextureProperty_normal embeddedTexIdxs r prop mat texType texSlot
      = some mat' := by
  obtain ⟨m1, h1⟩ := SetMaterialTextureProperty_total embeddedTexIdxs r prop.toTextureInfo mat
    texType texSlot h
  obtain ⟨present, hp⟩ := hasSource_total _ r prop.toTextureInfo h
  unfold SetMaterialTextureProperty_normal
  rw [h1, some_bind_eq, hp, some_bind_eq]
  cases present with
  | false => exact ⟨_, rfl⟩
  | true => exact ⟨_, rfl⟩

theorem SetMaterialTextureProperty_occlusion_total {W : Type} (embeddedTexIdxs : List Int)
    (r : TextureAsset) (prop : OcclusionTextureInfo W) (mat : List (aiMaterialProperty W))
    (texType : aiTextureType) (texSlot : Nat)
    (h : textureResolves embeddedTexIdxs.length r prop.toTextureInfo = true) :
    ∃ mat', SetMaterialTextureProperty_occlusion embeddedTexIdxs r prop mat texType texSlot
      = some mat' := by
  obtain ⟨m1, h1⟩ := SetMaterialTextureProperty_total embeddedTexIdxs r prop.toTextureInfo mat
    texType texSlot h
  obtain ⟨present, hp⟩ := hasSource_total _ r prop.toTextureInfo h
  unfold SetMaterialTextureProperty_occlusion
  rw [h1, some_bind_eq, hp, some_bind_eq]
  cases present with
  | false => exact ⟨_, rfl⟩
  | true => exact ⟨_, rfl⟩

/-- A material whose texture references can all be followed is imported. -/
theorem ImportMaterial_total {W : Type} [One W] [Sub W] [Mul W] [NatCast W]
    (slots : PbrTextureSlots) (embeddedTexIdxs : List Int) (r : TextureAsset)
    (mat : Material W) (h : materialResolves embeddedTexIdxs.length r mat = true) :
    ∃ aimat, ImportMaterial slots embeddedTexIdxs r mat = some aimat := by
  simp only [materialResolves, Bool.and_eq_true] at h
  obtain ⟨⟨⟨⟨⟨r1, r2⟩, r3⟩, r4⟩, r5⟩, r6⟩ := h
  unfold ImportMaterial
  dsimp only
  obtain ⟨m1, h1⟩ := SetMaterialTextureProperty_total embeddedTexIdxs r
    mat.pbrMetallicRoughness.baseColorTexture
    (SetMaterialColorProperty4 mat.pbrMetallicRoughness.baseColorFactor
      (SetMaterialColorProperty4 mat.pbrMetallicRoughness.baseColorFactor
        (if mat.name ≠ "" then
          AddProperty [] (aiPropertyValue.aiString mat.name) MatKey.AI_MATKEY_NAME
            aiTextureType.aiTextureType_NONE 0
        else [])
        MatKey.AI_MATKEY_COLOR_DIFFUSE aiTextureType.aiTextureType_NONE 0)
      MatKey.AI_MATKEY_GLTF_PBRMETALLICROUGHNESS_BASE_COLOR_FACTOR
      aiTextureType.aiTextureType_NONE 0)
    aiTextureType.aiTextureType_DIFFUSE 0 r1
  rw [h1, some_bind_eq]
  obtain ⟨m2, h2⟩ := SetMaterialTextureProperty_total embeddedTexIdxs r
    mat.pbrMetallicRoughness.baseColorTexture m1 slots.baseColorTexture.1
    slots.baseColorTexture.2 r1
  rw [h2, some_bind_eq]
  obtain ⟨m3, h3⟩ := SetMaterialTextureProperty_total embeddedTexIdxs r
    mat.pbrMetallicRoughness.metallicRoughnessTexture m2 slots.metallicRoughnessTexture.1
    slots.metallicRoughnessTexture.2 r2
  rw [h3, some_bind_eq]
  obtain ⟨m4, h4⟩ := SetMaterialTextureProperty_normal_total embeddedTexIdxs r
    mat.normalTexture
    (AddProperty
      (AddProperty
        (AddProperty m3 (aiPropertyValue.float mat.pbrMetallicRoughness.metallicFactor)
          MatKey.AI_MATKEY_GLTF_PBRMETALLICROUGHNESS_METALLIC_FACTOR
          aiTextureType.aiTextureType_NONE 0)
        (aiPropertyValue.float mat.pbrMetallicRoughness.roughnessFactor)
        MatKey.AI_MATKEY_GLTF_PBRMETALLICROUGHNESS_ROUGHNESS_FACTOR
        aiTextureType.aiTextureType_NONE 0)
      (aiPropertyValue.float
        ((1 - mat.pbrMetallicRoughness.roughnessFactor) *
          ((1 - mat.pbrMetallicRoughness.roughnessFactor) * ((1000 : Nat) : W))))
      MatKey.AI_MATKEY_SHININESS aiTextureType.aiTextureType_NONE 0)
    aiTextureType.aiTextureType_NORMALS 0 r3
  rw [h4, some_bind_eq]
  obtain ⟨m5, h5⟩ := SetMaterialTextureProperty_occlusion_total embeddedTexIdxs r
    mat.occlusionTexture m4 aiTextureType.aiTextureType_LIGHTMAP 0 r4
  rw [h5, some_bind_eq]
  obtain ⟨m6, h6⟩ := SetMaterialTextureProperty_total embeddedTexIdxs r mat.emissiveTexture m5
    aiTextureType.aiTextureType_EMISSIVE 0 r5
  rw [h6, some_bind_eq]
  cases hext : mat.pbrSpecularGlossiness with
  | none => exact ⟨_, rfl⟩
  | some pbrSG =>
    rw [hext] at r6
    simp only [Bool.and_eq_true] at r6
    dsimp only
    unfold specularGlossinessProperties
    dsimp only
    obtain ⟨n1, g1⟩ := SetMaterialTextureProperty_total embeddedTexIdxs r pbrSG.diffuseTexture
      (AddProperty
        (AddProperty
          (SetMaterialColorProperty3 pbrSG.specularFactor
            (SetMaterialColorProperty4 pbrSG.diffuseFactor
              (AddProperty
                (AddProperty
                  (AddProperty
                    (AddProperty
                      (SetMaterialColorProperty3 mat.emissiveFactor m6
                        MatKey.AI_MATKEY_COLOR_EMISSIVE aiTextureType.aiTextureType_NONE 0)
                      (aiPropertyValue.bool mat.doubleSided) MatKey.AI_MATKEY_TWOSIDED
                      aiTextureType.aiTextureType_NONE 0)
                    (aiPropertyValue.aiString mat.alphaMode) MatKey.AI_MATKEY_GLTF_ALPHAMODE
                    aiTextureType.aiTextureType_NONE 0)
                  (aiPropertyValue.float mat.alphaCutoff) MatKey.AI_MATKEY_GLTF_ALPHACUTOFF
                  aiTextureType.aiTextureType_NONE 0)
                (aiPropertyValue.bool true) MatKey.AI_MATKEY_GLTF_PBRSPECULARGLOSSINESS
                aiTextureType.aiTextureType_NONE 0)
              MatKey.AI_MATKEY_COLOR_DIFFUSE aiTextureType.aiTextureType_NONE 0)
            MatKey.AI_MATKEY_COLOR_SPECULAR aiTextureType.aiTextureType_NONE 0)
          (aiPropertyValue.float (pbrSG.glossinessFactor * ((1000 : Nat) : W)))
          MatKey.AI_MATKEY_SHININESS aiTextureType.aiTextureType_NONE 0)
        (aiPropertyValue.float pbrSG.glossinessFactor)
        MatKey.AI_MATKEY_GLTF_PBRSPECULARGLOSSINESS_GLOSSINESS_FACTOR
        aiTextureType.aiTextureType_NONE 0)
      aiTextureType.aiTextureType_DIFFUSE 0 r6.1
    rw [g1, some_bind_eq]
    obtain ⟨n2, g2⟩ := SetMaterialTextureProperty_total embeddedTexIdxs r
      pbrSG.specularGlossinessTexture n1 aiTextureType.aiTextureType_SPECULAR 0 r6.2
    rw [g2, some_bind_eq]
    exact ⟨_, rfl⟩

/-- The values under a key that is not a texture key are found among the
properties with other than texture keys. -/
theorem propertyValues_nonTexture {W : Type} (aimat : List (aiMaterialProperty W))
    (key : MatKey) (h : isTextureKey key = false) :
    propertyValues aimat key = propertyValues (nonTextureProperties aimat) key := by
  simp only [propertyValues, nonTextureProperties, List.filter_filter]
  congr 1
  apply List.filter_congr
  intro p _
  by_cases hk : p.mKey = key
  · simp [hk, h]
  · simp [hk]

/-- Claim C29.  A material without the extension `pbrSpecularGlossiness`, whose
texture references can be followed, is imported with exactly one shininess
property, and its value is `(1 - roughnessFactor)^2 * 1000`; it is 0 for the
roughness 1 and 1000 for the roughness 0. -/
theorem C29_roughness_as_shininess {W : Type} [CommRing W]
    (slots : PbrTextureSlots) (embeddedTexIdxs : List Int) (r : TextureAsset)
    (mat : Material W) (hext : mat.pbrSpecularGlossiness = none)
    (hres : materialResolves embeddedTexIdxs.length r mat = true) :
    ∃ aimat, ImportMaterial slots embeddedTexIdxs r mat = some aimat ∧
      propertyValues aimat MatKey.AI_MATKEY_SHININESS
        = [aiPropertyValue.float ((1 - mat.pbrMetallicRoughness.roughnessFactor) ^ 2 * 1000)] ∧
      (mat.pbrMetallicRoughness.roughnessFactor = 1 →
        propertyValues aimat MatKey.AI_MATKEY_SHININESS = [aiPropertyValue.float 0]) ∧
      (mat.pbrMetallicRoughness.roughnessFactor = 0 →
        propertyValues aimat MatKey.AI_MATKEY_SHININESS = [aiPropertyValue.float 1000]) := by
  obtain ⟨aimat, hrun⟩ := ImportMaterial_total slots embeddedTexIdxs r mat hres
  have hplain := ImportMaterial_plain slots embeddedTexIdxs r mat aimat hrun
  have hval : propertyValues aimat MatKey.AI_MATKEY_SHININESS
      = [aiPropertyValue.float
          ((1 - mat.pbrMetallicRoughness.roughnessFactor) ^ 2 * 1000)] := by
    rw [propertyValues_nonTexture aimat MatKey.AI_MATKEY_SHININESS rfl, hplain]
    have harith : (1 - mat.pbrMetallicRoughness.roughnessFactor) *
        ((1 - mat.pbrMetallicRoughness.roughnessFactor) * ((1000 : Nat) : W))
        = (1 - mat.pbrMetallicRoughness.roughnessFactor) ^ 2 * 1000 := by
      push_cast
      ring
    rw [← harith]
    by_cases hn : mat.name ≠ "" <;> cases hu : mat.unlit <;>
      simp [materialPlain, propertyValues, plainProperty, hext, hn, hu]
  refine ⟨aimat, hrun, hval, fun h1 => ?_, fun h0 => ?_⟩
  · rw [hval, h1]
    simp
  · rw [hval, h0]
    simp

/-- Claim C29 on the example material, whose roughness is 3: the shininess is
`(1 - 3)^2 * 1000 = 4000`. -/
theorem C29_roughness_as_shininess_witness :
    ∃ aimat, ImportMaterial exampleSlots exampleTexIdxs exampleTextureAsset exampleMaterial
        = some aimat ∧
      propertyValues aimat MatKey.AI_MATKEY_SHININESS
        = [aiPropertyValue.float
            ((1 - exampleMaterial.pbrMetallicRoughness.roughnessFactor) ^ 2 * 1000)] ∧
      (exampleMaterial.pbrMetallicRoughness.roughnessFactor = 1 →
        propertyValues aimat MatKey.AI_MATKEY_SHININESS = [aiPropertyValue.float 0]) ∧
      (exampleMaterial.pbrMetallicRoughness.roughnessFactor = 0 →
        propertyValues aimat MatKey.AI_MATKEY_SHININESS = [aiPropertyValue.float 1000]) :=
  C29_roughness_as_shininess exampleSlots exampleTexIdxs exampleTextureAsset exampleMaterial
    rfl (by decide)

/-- Claim C30.  A material whose texture references can be followed is
imported.  With the extension `pbrSpecularGlossiness`: the value added last
under the diffuse colour key is the `diffuseFactor` of the extension, the value
added last under the shininess key is `glossinessFactor * 1000`, and the
is-present flag, the specular colour and the glossiness factor are added.
Without the extension: none of these three is added, and the only diffuse
colour is `baseColorFactor`, equal to the only base colour factor property. -/
theorem C30_specular_glossiness {W : Type} [CommRing W]
    (slots : PbrTextureSlots) (embeddedTexIdxs : List Int) (r : TextureAsset)
    (mat : Material W) (hres : materialResolves embeddedTexIdxs.length r mat = true) :
    ∃ aimat, ImportMaterial slots embeddedTexIdxs r mat = some aimat ∧
      (∀ pbrSG, mat.pbrSpecularGlossiness = some pbrSG →
        (propertyValues aimat MatKey.AI_MATKEY_COLOR_DIFFUSE).getLast?
          = some (aiPropertyValue.color
              { r := pbrSG.diffuseFactor 0, g := pbrSG.diffuseFactor 1,
                b := pbrSG.diffuseFactor 2, a := pbrSG.diffuseFactor 3 }) ∧
        (propertyValues aimat MatKey.AI_MATKEY_SHININESS).getLast?
          = some (aiPropertyValue.float (pbrSG.glossinessFactor * 1000)) ∧
        propertyValues aimat MatKey.AI_MATKEY_GLTF_PBRSPECULARGLOSSINESS
          = [aiPropertyValue.bool true] ∧
        propertyValues aimat MatKey.AI_MATKEY_COLOR_SPECULAR
          = [aiPropertyValue.color
              { r := pbrSG.specularFactor 0, g := pbrSG.specularFactor 1,
                b := pbrSG.specularFactor 2, a := 1 }] ∧
        propertyValues aimat MatKey.AI_MATKEY_GLTF_PBRSPECULARGLOSSINESS_GLOSSINESS_FACTOR
          = [aiPropertyValue.float pbrSG.glossinessFactor]) ∧
      (mat.pbrSpecularGlossiness = none →
        propertyValues aimat MatKey.AI_MATKEY_GLTF_PBRSPECULARGLOSSINESS = [] ∧
        propertyValues aimat MatKey.AI_MATKEY_COLOR_SPECULAR = [] ∧
        propertyValues aimat MatKey.AI_MATKEY_GLTF_PBRSPECULARGLOSSINESS_GLOSSINESS_FACTOR = [] ∧
        propertyValues aimat MatKey.AI_MATKEY_COLOR_DIFFUSE
          = [aiPropertyValue.color
              { r := mat.pbrMetallicRoughness.baseColorFactor 0,
                g := mat.pbrMetallicRoughness.baseColorFactor 1,
                b := mat.pbrMetallicRoughness.baseColorFactor 2,
                a := mat.pbrMetallicRoughness.baseColorFactor 3 }] ∧
        propertyValues aimat MatKey.AI_MATKEY_GLTF_PBRMETALLICROUGHNESS_BASE_COLOR_FACTOR
          = propertyValues aimat MatKey.AI_MATKEY_COLOR_DIFFUSE) := by
  obtain ⟨aimat, hrun⟩ := ImportMaterial_total slots embeddedTexIdxs r mat hres
  have hplain := ImportMaterial_plain slots embeddedTexIdxs r mat aimat hrun
  have hcast : ((1000 : Nat) : W) = 1000 := by push_cast; rfl
  refine ⟨aimat, hrun, fun pbrSG hext => ?_, fun hext => ?_⟩
  · rw [propertyValues_nonTexture aimat MatKey.AI_MATKEY_COLOR_DIFFUSE rfl,
      propertyValues_nonTexture aimat MatKey.AI_MATKEY_SHININESS rfl,
      propertyValues_nonTexture aimat MatKey.AI_MATKEY_GLTF_PBRSPECULARGLOSSINESS rfl,
      propertyValues_nonTexture aimat MatKey.AI_MATKEY_COLOR_SPECULAR rfl,
      propertyValues_nonTexture aimat
        MatKey.AI_MATKEY_GLTF_PBRSPECULARGLOSSINESS_GLOSSINESS_FACTOR rfl, hplain, ← hcast]
    by_cases hn : mat.name ≠ "" <;> cases hu : mat.unlit <;>
      simp [materialPlain, specularGlossinessPlain, propertyValues, plainProperty, hext, hn,
        hu, CopyValue_color4, CopyValue_color3]
  · rw [propertyValues_nonTexture aimat MatKey.AI_MATKEY_COLOR_DIFFUSE rfl,
      propertyValues_nonTexture aimat MatKey.AI_MATKEY_GLTF_PBRSPECULARGLOSSINESS rfl,
      propertyValues_nonTexture aimat MatKey.AI_MATKEY_COLOR_SPECULAR rfl,
      propertyValues_nonTexture aimat
        MatKey.AI_MATKEY_GLTF_PBRSPECULARGLOSSINESS_GLOSSINESS_FACTOR rfl,
      propertyValues_nonTexture aimat
        MatKey.AI_MATKEY_GLTF_PBRMETALLICROUGHNESS_BASE_COLOR_FACTOR rfl, hplain]
    by_cases hn : mat.name ≠ "" <;> cases hu : mat.unlit <;>
      simp [materialPlain, propertyValues, plainProperty, hext, hn, hu, CopyValue_color4]

/-- Claim C30 on the example material with the extension. -/
theorem C30_specular_glossiness_witness :
    ∃ aimat, ImportMaterial exampleSlots exampleTexIdxs exampleTextureAsset
        exampleGlossyMaterial = some aimat ∧
      (propertyValues aimat MatKey.AI_MATKEY_COLOR_DIFFUSE).getLast?
        = some (aiPropertyValue.color ({ r := 7, g := 8, b := 9, a := 1 } : aiColor4D Int)) ∧
      (propertyValues aimat MatKey.AI_MATKEY_SHININESS).getLast?
        = some (aiPropertyValue.float (4 * 1000)) ∧
      propertyValues aimat MatKey.AI_MATKEY_GLTF_PBRSPECULARGLOSSINESS
        = [aiPropertyValue.bool true] ∧
      propertyValues aimat MatKey.AI_MATKEY_COLOR_SPECULAR
        = [aiPropertyValue.color ({ r := 1, g := 2, b := 3, a := 1 } : aiColor4D Int)] ∧
      propertyValues aimat MatKey.AI_MATKEY_GLTF_PBRSPECULARGLOSSINESS_GLOSSINESS_FACTOR
        = [aiPropertyValue.float 4] :=
  (C30_specular_glossiness exampleSlots exampleTexIdxs exampleTextureAsset
    exampleGlossyMaterial (by decide)).elim
    (fun aimat h => ⟨aimat, h.1,
      h.2.1 { diffuseFactor := fun i => [7, 8, 9, 1].getD i.val 0
              specularFactor := fun i => [1, 2, 3].getD i.val 0
              glossinessFactor := 4 } rfl⟩)

/-- The example materials evaluated: diffuse colours and shininess values in
the order in which they are added. -/
theorem exampleMaterials_imported :
    (ImportMaterial exampleSlots exampleTexIdxs exampleTextureAsset exampleMaterial).map
      (fun aimat => (propertyValues aimat MatKey.AI_MATKEY_COLOR_DIFFUSE,
        propertyValues aimat MatKey.AI_MATKEY_SHININESS))
      = some ([aiPropertyValue.color ({ r := 5, g := 0, b := 0, a := 1 } : aiColor4D Int)],
              [aiPropertyValue.float 4000]) ∧
    (ImportMaterial exampleSlots exampleTexIdxs exampleTextureAsset exampleGlossyMaterial).map
      (fun aimat => (propertyValues aimat MatKey.AI_MATKEY_COLOR_DIFFUSE,
        propertyValues aimat MatKey.AI_MATKEY_SHININESS))
      = some ([aiPropertyValue.color ({ r := 5, g := 0, b := 0, a := 1 } : aiColor4D Int),
               aiPropertyValue.color { r := 7, g := 8, b := 9, a := 1 }],
              [aiPropertyValue.float 4000, aiPropertyValue.float 4000]) := by
  constructor <;> decide

/-! ## The two face-assembly paths -/

/-- Transfer rule for `forLoopAux`: when, under an invariant on the counter and
the state, every round of the first body that succeeds is also a round of the
second body, a run of the first loop is a run of the second. -/
theorem forLoopAux_transfer {σ : Type} (I : Nat → σ → Prop) (n step : Nat)
    (body1 body2 : Nat → σ → Option σ)
    (h : ∀ i s s', I i s → i < n → body1 i s = some s' →
      body2 i s = some s' ∧ I (u32 (i + step)) s') :
    ∀ fuel i s s', I i s → forLoopAux n step body1 fuel i s = some s' →
      forLoopAux n step body2 fuel i s = some s' := by
  intro fuel
  induction fuel with
  | zero => intro i s s' _ hrun; simp [forLoopAux] at hrun
  | succ fuel ih =>
    intro i s s' hI hrun
    by_cases hi : i < n
    · simp only [forLoopAux, hi, if_true] at hrun ⊢
      cases hb : body1 i s with
      | none => rw [hb] at hrun; simp at hrun
      | some t =>
        rw [hb] at hrun
        obtain ⟨hb2, hI'⟩ := h i s t hI hi hb
        rw [hb2]
        exact ih _ _ _ hI' hrun
    · simp only [forLoopAux, hi, if_false] at hrun ⊢
      exact hrun

/-- Transfer rule for `forLoop`. -/
theorem forLoop_transfer {σ : Type} (I : Nat → σ → Prop) (a n step : Nat)
    (body1 body2 : Nat → σ → Option σ) (s s' : σ) (h0 : I a s)
    (h : ∀ i s s', I i s → i < n → body1 i s = some s' →
      body2 i s = some s' ∧ I (u32 (i + step)) s')
    (hrun : forLoop a n step body1 s = some s') :
    forLoop a n step body2 s = some s' :=
  forLoopAux_transfer I n step body1 body2 h (n + 1) a s s' h0 hrun

/-- The switch over the mode is monotone in the reader: a reader that yields
at least what another one yields assembles the same faces. -/
theorem facesWith_mono (rd1 rd2 : Nat → Option Nat) (count : Nat) (mode : PrimitiveMode)
    (h : ∀ k v, rd1 k = some v → rd2 k = some v) (faces : FaceArray)
    (hrun : facesWith rd1 count mode = some faces) :
    facesWith rd2 count mode = some faces := by
  cases mode
  · simp only [facesWith] at hrun ⊢
    refine forLoop_transfer (fun _ _ => True) _ _ _ _ _ _ _ trivial ?_ hrun
    intro i s s' _ _ hb
    refine ⟨?_, trivial⟩
    obtain ⟨a, ha, hb⟩ := bind_eq_some_elim hb
    rw [h _ _ ha]; exact hb
  · simp only [facesWith] at hrun ⊢
    refine forLoop_transfer (fun _ _ => True) _ _ _ _ _ _ _ trivial ?_ hrun
    intro i s s' _ _ hb
    refine ⟨?_, trivial⟩
    obtain ⟨a, ha, hb⟩ := bind_eq_some_elim hb
    obtain ⟨b, hb1, hb⟩ := bind_eq_some_elim hb
    rw [h _ _ ha, some_bind_eq, h _ _ hb1]; exact hb
  · simp only [facesWith] at hrun ⊢
    obtain ⟨a, ha, hrun⟩ := bind_eq_some_elim hrun
    obtain ⟨b, hb1, hrun⟩ := bind_eq_some_elim hrun
    obtain ⟨f0, hf0, hrun⟩ := bind_eq_some_elim hrun
    obtain ⟨f1, hf1, hrun⟩ := bind_eq_some_elim hrun
    rw [h _ _ ha, some_bind_eq, h _ _ hb1, some_bind_eq, hf0, some_bind_eq]
    have hloop := forLoop_transfer (fun _ _ => True) _ _ _ _
      (fun i (faces : FaceArray) => do
        let p ← faces.index (u32sub i 2) 1
        let c ← rd2 i
        faces.write (u32sub i 1) (SetFace2 p c)) _ _ trivial ?_ hf1
    · rw [hloop, some_bind_eq]; exact hrun
    · intro i s s' _ _ hb
      refine ⟨?_, trivial⟩
      beta_reduce at hb ⊢
      obtain ⟨p, hp, hb⟩ := bind_eq_some_elim hb
      obtain ⟨c, hc, hb⟩ := bind_eq_some_elim hb
      rw [hp, some_bind_eq, h _ _ hc]; exact hb
  · simp only [facesWith] at hrun ⊢
    obtain ⟨a, ha, hrun⟩ := bind_eq_some_elim hrun
    obtain ⟨b, hb1, hrun⟩ := bind_eq_some_elim hrun
    obtain ⟨f0, hf0, hrun⟩ := bind_eq_some_elim hrun
    rw [h _ _ ha, some_bind_eq, h _ _ hb1, some_bind_eq, hf0, some_bind_eq]
    refine forLoop_transfer (fun _ _ => True) _ _ _ _ _ _ _ trivial ?_ hrun
    intro i s s' _ _ hb
    refine ⟨?_, trivial⟩
    obtain ⟨p, hp, hb⟩ := bind_eq_some_elim hb
    obtain ⟨c, hc, hb⟩ := bind_eq_some_elim hb
    rw [hp, some_bind_eq, h _ _ hc]; exact hb
  · simp only [facesWith] at hrun ⊢
    refine forLoop_transfer (fun _ _ => True) _ _ _ _ _ _ _ trivial ?_ hrun
    intro i s s' _ _ hb
    refine ⟨?_, trivial⟩
    obtain ⟨a, ha, hb⟩ := bind_eq_some_elim hb
    obtain ⟨b, hb1, hb⟩ := bind_eq_some_elim hb
    obtain ⟨c, hc, hb⟩ := bind_eq_some_elim hb
    rw [h _ _ ha, some_bind_eq, h _ _ hb1, some_bind_eq, h _ _ hc]; exact hb
  · simp only [facesWith] at hrun ⊢
    refine forLoop_transfer (fun _ _ => True) _ _ _ _ _ _ _ trivial ?_ hrun
    intro i s s' _ _ hb
    refine ⟨?_, trivial⟩
    by_cases hpar : u32 (i + 1) % 2 = 0
    · simp only [hpar, if_true] at hb ⊢
      obtain ⟨a, ha, hb⟩ := bind_eq_some_elim hb
      obtain ⟨b, hb1, hb⟩ := bind_eq_some_elim hb
      obtain ⟨c, hc, hb⟩ := bind_eq_some_elim hb
      rw [h _ _ ha, some_bind_eq, h _ _ hb1, some_bind_eq, h _ _ hc]; exact hb
    · simp only [hpar, if_false] at hb ⊢
      obtain ⟨a, ha, hb⟩ := bind_eq_some_elim hb
      obtain ⟨b, hb1, hb⟩ := bind_eq_some_elim hb
      obtain ⟨c, hc, hb⟩ := bind_eq_some_elim hb
      rw [h _ _ ha, some_bind_eq, h _ _ hb1, some_bind_eq, h _ _ hc]; exact hb
  · simp only [facesWith] at hrun ⊢
    obtain ⟨a, ha, hrun⟩ := bind_eq_some_elim hrun
    obtain ⟨b, hb1, hrun⟩ := bind_eq_some_elim hrun
    obtain ⟨c, hc, hrun⟩ := bind_eq_some_elim hrun
    obtain ⟨f0, hf0, hrun⟩ := bind_eq_some_elim hrun
    rw [h _ _ ha, some_bind_eq, h _ _ hb1, some_bind_eq, h _ _ hc, some_bind_eq, hf0,
      some_bind_eq]
    refine forLoop_transfer (fun _ _ => True) _ _ _ _ _ _ _ trivial ?_ hrun
    intro i s s' _ _ hb
    refine ⟨?_, trivial⟩
    obtain ⟨p, hp, hb⟩ := bind_eq_some_elim hb
    obtain ⟨q, hq, hb⟩ := bind_eq_some_elim hb
    obtain ⟨r, hr, hb⟩ := bind_eq_some_elim hb
    rw [hp, some_bind_eq, hq, some_bind_eq, h _ _ hr]; exact hb

theorem FaceArray.write_some (faces faces' : FaceArray) (i : Nat) (f : aiFace)
    (h : faces.write i f = some faces') : i < faces.size ∧ faces'.size = faces.size := by
  unfold FaceArray.write at h
  by_cases hi : i < faces.size
  · rw [if_pos hi] at h
    exact ⟨hi, by rw [← Option.some.inj h]⟩
  · rw [if_neg hi] at h
    exact absurd h (by simp)

/-- The index accessor that holds the identity sequence `0, 1, ..., count - 1`. -/
theorem identity_GetUInt (count k : Nat) (hk : k < count) :
    Indexer.GetUInt { count := count, values := fun k => k } k = some k := by
  simp only [Indexer.GetUInt, hk, if_true]

/-- From two positions on, a run of the path without indices reads only
positions that the identity index accessor has. -/
theorem facesWith_identity (count : Nat) (mode : PrimitiveMode) (h2 : 2 ≤ count)
    (hlt : count < UINT_MOD) (faces : FaceArray)
    (hrun : facesWith some count mode = some faces) :
    facesWith (Indexer.GetUInt { count := count, values := fun k => k }) count mode
      = some faces := by
  have hid := identity_GetUInt count
  cases mode
  · simp only [facesWith] at hrun ⊢
    refine forLoop_transfer (fun _ _ => True) _ _ _ _ _ _ _ trivial ?_ hrun
    intro i s s' _ hi hb
    refine ⟨?_, trivial⟩
    beta_reduce at hb ⊢
    rw [some_bind_eq] at hb
    rw [hid i hi, some_bind_eq]; exact hb
  · simp only [facesWith] at hrun ⊢
    refine forLoop_transfer (fun i (s : FaceArray) => i % 2 = 0 ∧ s.size = count / 2)
      _ _ _ _ _ _ _ ⟨rfl, rfl⟩ ?_ hrun
    intro i s s' hI hi hb
    beta_reduce at hb ⊢
    rw [some_bind_eq, some_bind_eq] at hb
    obtain ⟨hw, hs⟩ := FaceArray.write_some _ _ _ _ hb
    have h1 : u32 (i + 1) = i + 1 := u32_of_lt (by omega)
    have h2 : u32 (i + 2) = i + 2 := u32_of_lt (by omega)
    rw [h1] at hb ⊢
    rw [h2]
    refine ⟨?_, by omega, by omega⟩
    rw [hid i hi, some_bind_eq, hid (i + 1) (by omega), some_bind_eq]; exact hb
  · simp only [facesWith] at hrun ⊢
    rw [some_bind_eq, some_bind_eq] at hrun
    obtain ⟨f0, hf0, hrun⟩ := bind_eq_some_elim hrun
    obtain ⟨f1, hf1, hrun⟩ := bind_eq_some_elim hrun
    rw [hid 0 (by omega), some_bind_eq, hid 1 (by omega), some_bind_eq, hf0, some_bind_eq]
    have hloop := forLoop_transfer (fun _ _ => True) _ _ _ _
      (fun i (faces : FaceArray) => do
        let p ← faces.index (u32sub i 2) 1
        let c ← Indexer.GetUInt { count := count, values := fun k => k } i
        faces.write (u32sub i 1) (SetFace2 p c)) _ _ trivial ?_ hf1
    · rw [hloop, some_bind_eq]; exact hrun
    · intro i s s' _ hi hb
      refine ⟨?_, trivial⟩
      beta_reduce at hb ⊢
      obtain ⟨p, hp, hb⟩ := bind_eq_some_elim hb
      rw [some_bind_eq] at hb
      rw [hp, some_bind_eq, hid i hi, some_bind_eq]; exact hb
  · simp only [facesWith] at hrun ⊢
    rw [some_bind_eq, some_bind_eq] at hrun
    obtain ⟨f0, hf0, hrun⟩ := bind_eq_some_elim hrun
    rw [hid 0 (by omega), some_bind_eq, hid 1 (by omega), some_bind_eq, hf0, some_bind_eq]
    refine forLoop_transfer (fun _ _ => True) _ _ _ _ _ _ _ trivial ?_ hrun
    intro i s s' _ hi hb
    refine ⟨?_, trivial⟩
    beta_reduce at hb ⊢
    obtain ⟨p, hp, hb⟩ := bind_eq_some_elim hb
    rw [some_bind_eq] at hb
    rw [hp, some_bind_eq, hid i hi, some_bind_eq]; exact hb
  · simp only [facesWith] at hrun ⊢
    refine forLoop_transfer (fun i (s : FaceArray) => i % 3 = 0 ∧ s.size = count / 3)
      _ _ _ _ _ _ _ ⟨rfl, rfl⟩ ?_ hrun
    intro i s s' hI hi hb
    beta_reduce at hb ⊢
    rw [some_bind_eq, some_bind_eq, some_bind_eq] at hb
    obtain ⟨hw, hs⟩ := FaceArray.write_some _ _ _ _ hb
    have h1 : u32 (i + 1) = i + 1 := u32_of_lt (by omega)
    have h2 : u32 (i + 2) = i + 2 := u32_of_lt (by omega)
    have h3 : u32 (i + 3) = i + 3 := u32_of_lt (by omega)
    rw [h1, h2] at hb ⊢
    rw [h3]
    refine ⟨?_, by omega, by omega⟩
    rw [hid i hi, some_bind_eq, hid (i + 1) (by omega), some_bind_eq,
      hid (i + 2) (by omega), some_bind_eq]; exact hb
  · have hn : u32sub count 2 = count - 2 := u32sub_of_le h2 hlt
    simp only [facesWith, hn] at hrun ⊢
    refine forLoop_transfer (fun _ _ => True) _ _ _ _ _ _ _ trivial ?_ hrun
    intro i s s' _ hi hb
    refine ⟨?_, trivial⟩
    beta_reduce at hb ⊢
    have h1 : u32 (i + 1) = i + 1 := u32_of_lt (by omega)
    have h2 : u32 (i + 2) = i + 2 := u32_of_lt (by omega)
    rw [h1, h2] at hb ⊢
    by_cases hpar : (i + 1) % 2 = 0
    · simp only [hpar, if_true] at hb ⊢
      rw [some_bind_eq, some_bind_eq, some_bind_eq] at hb
      rw [hid i (by omega), hid (i + 1) (by omega), some_bind_eq, some_bind_eq,
        hid (i + 2) (by omega), some_bind_eq]; exact hb
    · simp only [hpar, if_false] at hb ⊢
      rw [some_bind_eq, some_bind_eq, some_bind_eq] at hb
      rw [hid i (by omega), hid (i + 1) (by omega), some_bind_eq, some_bind_eq,
        hid (i + 2) (by omega), some_bind_eq]; exact hb
  · have hn : u32sub count 2 = count - 2 := u32sub_of_le h2 hlt
    simp only [facesWith, hn] at hrun ⊢
    rw [some_bind_eq, some_bind_eq, some_bind_eq] at hrun
    obtain ⟨f0, hf0, hrun⟩ := bind_eq_some_elim hrun
    obtain ⟨hw, hs⟩ := FaceArray.write_some _ _ _ _ hf0
    have hw : 0 < count - 2 := hw
    rw [hid 0 (by omega), some_bind_eq, hid 1 (by omega), some_bind_eq,
      hid 2 (by omega), some_bind_eq, hf0, some_bind_eq]
    refine forLoop_transfer (fun _ _ => True) _ _ _ _ _ _ _ trivial ?_ hrun
    intro i s s' _ hi hb
    refine ⟨?_, trivial⟩
    beta_reduce at hb ⊢
    have h2 : u32 (i + 2) = i + 2 := u32_of_lt (by omega)
    rw [h2] at hb ⊢
    obtain ⟨p, hp, hb⟩ := bind_eq_some_elim hb
    obtain ⟨q, hq, hb⟩ := bind_eq_some_elim hb
    rw [some_bind_eq] at hb
    rw [hp, some_bind_eq, hq, some_bind_eq, hid (i + 2) (by omega), some_bind_eq]; exact hb

/-- Claim C37: the two face-assembly paths agree.  Whenever assembly from an
index accessor that holds the identity sequence `0, 1, ..., count - 1`
succeeds, the path without indices run with the vertex count `count` yields
exactly the same faces; and from `count = 2` on the two paths have the same
outcome altogether, so that neither succeeds where the other one does not. -/
theorem C37_paths_agree (mode : PrimitiveMode) (count mNumVertices : Nat) :
    (∀ faces,
      assembleFaces (some { count := count, values := fun k => k }) mode mNumVertices
        = some faces →
      assembleFaces none mode count = some faces) ∧
    (2 ≤ count → count < UINT_MOD →
      assembleFaces (some { count := count, values := fun k => k }) mode mNumVertices
        = assembleFaces none mode count) := by
  have ha : ∀ faces,
      assembleFaces (some { count := count, values := fun k => k }) mode mNumVertices
        = some faces →
      assembleFaces none mode count = some faces := by
    intro faces h
    simp only [assembleFaces] at h ⊢
    rw [facesIndexed_eq_facesWith] at h
    rw [facesNoIndices_eq_facesWith]
    refine facesWith_mono _ _ _ _ ?_ _ h
    intro k v hk
    simp only [Indexer.GetUInt] at hk
    by_cases hlt : k < count
    · rw [if_pos hlt] at hk; exact hk
    · rw [if_neg hlt] at hk; exact absurd hk (by simp)
  refine ⟨ha, fun h2 hlt => ?_⟩
  cases hn : assembleFaces none mode count with
  | some faces =>
    simp only [assembleFaces] at hn ⊢
    rw [facesNoIndices_eq_facesWith] at hn
    rw [facesIndexed_eq_facesWith]
    exact facesWith_identity count mode h2 hlt faces hn
  | none =>
    cases hi : assembleFaces (some { count := count, values := fun k => k }) mode
        mNumVertices with
    | none => rfl
    | some faces => rw [ha faces hi] at hn; exact absurd hn (by simp)

/-- Witness for C37: seven positions in mode TRIANGLE_FAN, where both paths
give five faces. -/
theorem C37_paths_agree_witness :
    assembleFaces (some { count := 7, values := fun k => k }) PrimitiveMode_TRIANGLE_FAN 7
        = assembleFaces none PrimitiveMode_TRIANGLE_FAN 7 ∧
    (assembleFaces none PrimitiveMode_TRIANGLE_FAN 7).map FaceArray.toList
      = some [SetFace3 0 1 2, SetFace3 0 2 3, SetFace3 0 3 4, SetFace3 0 4 5,
          SetFace3 0 5 6] :=
  ⟨(C37_paths_agree PrimitiveMode_TRIANGLE_FAN 7 7).2 (by decide) (by decide), by decide⟩

/-! ## Bounds of the face assembly -/

/-- Claim C38, the code at failing inputs.  In mode LINES with the count 3 the
face count is `3 / 2 = 1`, and the round `i = 2` of the loop reads the stream
position 3, which is not below the count, and writes the face `2 / 2 = 1`,
which is not below the face count: both paths leave the bounds.  In mode
LINE_STRIP with the count 0 the face count `count - 1` wraps around to
`4294967295`, and face 0 is written with the indices 0 and 1. -/
theorem C38_face_assembly_leaves_bounds :
    assembleFaces (some { count := 3, values := fun k => k }) PrimitiveMode_LINES 3 = none ∧
    assembleFaces none PrimitiveMode_LINES 3 = none ∧
    Indexer.GetUInt { count := 3, values := fun k => k } (u32 (2 + 1)) = none ∧
    (newFaces (3 / 2)).write (2 / 2) (SetFace2 2 (u32 (2 + 1))) = none ∧
    (assembleFaces none PrimitiveMode_LINE_STRIP 0).map
        (fun faces => (faces.size, faces.elems 0))
      = some (4294967295, SetFace2 0 1) :=
  ⟨rfl, rfl, rfl, rfl, rfl⟩

/-! ## Texture coordinates -/

/-- A loop over `0 .. n - 1` followed by round `n` is the loop over `0 .. n`. -/
theorem foldlM_range_succ {σ : Type} (f : σ → Nat → Option σ) (s : σ) (n : Nat) :
    (List.range (n + 1)).foldlM f s = ((List.range n).foldlM f s >>= fun t => f t n) := by
  rw [List.range_succ, List.foldlM_append]
  congr 1
  funext t
  simp [List.foldlM_cons, List.foldlM_nil]

/-- The flip of the second coordinate, line 485. -/
theorem flipTexCoords_spec {W : Type} [One W] [Sub W] (values : List (aiVector3D W)) :
    ∀ n, n ≤ values.length →
      ∃ out, flipTexCoords n (some values) = some (some out) ∧ out.length = values.length ∧
        ∀ i, out[i]? =
          (values[i]?).map (fun value => if i < n then { value with y := 1 - value.y } else value) := by
  intro n
  induction n with
  | zero =>
    intro _
    refine ⟨values, rfl, rfl, fun i => ?_⟩
    cases values[i]? <;> simp
  | succ n ih =>
    intro hn
    obtain ⟨out, hrun, hlen, hel⟩ := ih (by omega)
    have hn' : n < out.length := by omega
    have hget : out[n]? = some values[n] := by
      rw [hel n, List.getElem?_eq_getElem (by omega)]
      simp
    refine ⟨out.set n { values[n] with y := 1 - values[n].y }, ?_, ?_, fun i => ?_⟩
    · unfold flipTexCoords at hrun ⊢
      rw [foldlM_range_succ, hrun, some_bind_eq, some_bind_eq, hget, some_bind_eq]
      rfl
    · rw [List.length_set, hlen]
    · rw [List.getElem?_set]
      by_cases hi : n = i
      · subst hi
        rw [if_pos rfl, if_pos hn', List.getElem?_eq_getElem (by omega)]
        simp
      · rw [if_neg hi, hel i]
        cases values[i]? with
        | none => rfl
        | some value =>
          simp only [Option.map_some']
          by_cases h1 : i < n
          · rw [if_pos h1, if_pos (by omega)]
          · rw [if_neg h1, if_neg (by omega)]

/-- The extracted texture coordinates of an accessor with flipped second
coordinates. -/
theorem flipTexCoords_extracted {W : Type} [One W] [Sub W] (acc : Accessor W)
    (values : Nat → aiVector3D W) (h : acc.vec3 = some values) :
    flipTexCoords acc.count acc.ExtractData_vec3 =
      some (some ((List.range acc.count).map
        (fun i => { x := (values i).x, y := 1 - (values i).y, z := (values i).z }))) := by
  have hex : acc.ExtractData_vec3 = some ((List.range acc.count).map values) := by
    simp only [Accessor.ExtractData_vec3, h, Option.map_some']
  obtain ⟨out, hrun, hlen, hel⟩ :=
    flipTexCoords_spec ((List.range acc.count).map values) acc.count (by simp)
  rw [hex, hrun]
  congr 2
  apply List.ext_getElem?
  intro i
  rw [hel i]
  by_cases hi : i < acc.count
  · simp [List.getElem?_map, List.getElem?_range hi, hi]
  · have h1 : (List.range acc.count)[i]? = none := by
      rw [List.getElem?_eq_none_iff]; simp; omega
    simp [List.getElem?_map, h1]

/-- The state of the loop over the texture coordinate channels after `k`
rounds. -/
theorem importTexCoords_rounds {W : Type} [One W] [Sub W] (maxTC : Nat)
    (texcoord : List (Accessor W)) (aim : VertexData W)
    (hslots : aim.mTextureCoords.length = maxTC)
    (hcomps : aim.mNumUVComponents.length = maxTC)
    (hdata : ∀ tc acc, tc < maxTC → texcoord[tc]? = some acc →
      acc.count = aim.mNumVertices → ∃ values, acc.vec3 = some values) :
    ∀ k, k ≤ min texcoord.length maxTC →
      ∃ aim',
        (List.range k).foldlM
          (fun (aim : VertexData W) tc => do
            let texcoord_tc ← texcoord[tc]?
            if texcoord_tc.count ≠ aim.mNumVertices then some aim
            else do
              let values ← flipTexCoords aim.mNumVertices texcoord_tc.ExtractData_vec3
              if tc < aim.mTextureCoords.length ∧ tc < aim.mNumUVComponents.length then
                pure
                  { aim with
                    mTextureCoords := aim.mTextureCoords.set tc values
                    mNumUVComponents :=
                      aim.mNumUVComponents.set tc texcoord_tc.numComponents }
              else none)
          aim = some aim' ∧
        aim'.mNumVertices = aim.mNumVertices ∧
        aim'.mTextureCoords.length = maxTC ∧
        aim'.mNumUVComponents.length = maxTC ∧
        (∀ tc, k ≤ tc → aim'.mTextureCoords[tc]? = aim.mTextureCoords[tc]?) ∧
        ∀ tc acc, tc < k → texcoord[tc]? = some acc →
          (acc.count ≠ aim.mNumVertices →
            aim'.mTextureCoords[tc]? = aim.mTextureCoords[tc]?) ∧
          (acc.count = aim.mNumVertices → ∀ values, acc.vec3 = some values →
            aim'.mTextureCoords[tc]? =
              some (some ((List.range aim.mNumVertices).map
                (fun i =>
                  { x := (values i).x, y := 1 - (values i).y, z := (values i).z })))) := by
  intro k
  induction k with
  | zero =>
    intro _
    exact ⟨aim, rfl, rfl, hslots, hcomps, fun _ _ => rfl, fun tc acc h => by omega⟩
  | succ k ih =>
    intro hk
    obtain ⟨aim1, hrun, hn, hs, hc, hrest, hdone⟩ := ih (by omega)
    have hk1 : k < texcoord.length := by omega
    have hk2 : k < maxTC := by omega
    have hacc : texcoord[k]? = some texcoord[k] := List.getElem?_eq_getElem hk1
    rw [foldlM_range_succ, hrun, some_bind_eq, hacc, some_bind_eq]
    by_cases hcount : texcoord[k].count = aim.mNumVertices
    · obtain ⟨values, hvalues⟩ := hdata k texcoord[k] hk2 hacc hcount
      have hflip := flipTexCoords_extracted texcoord[k] values hvalues
      rw [hcount, ← hn] at hflip
      rw [if_neg (by rw [hn]; exact fun h => h hcount), hflip, some_bind_eq,
        if_pos ⟨by omega, by omega⟩]
      refine ⟨_, rfl, hn, ?_, ?_, fun tc htc => ?_, fun tc acc htc hget => ?_⟩
      · simp only [List.length_set]; exact hs
      · simp only [List.length_set]; exact hc
      · simp only
        rw [List.getElem?_set_ne (by omega)]
        exact hrest tc (by omega)
      · simp only
        by_cases htk : tc = k
        · subst htk
          rw [hacc] at hget
          cases hget
          refine ⟨fun hne => absurd hcount hne, fun _ values' hv' => ?_⟩
          rw [hvalues] at hv'
          cases hv'
          rw [List.getElem?_set_self (by omega), hn]
        · rw [List.getElem?_set_ne (fun h => htk h.symm)]
          exact hdone tc acc (by omega) hget
    · rw [if_pos (by rw [hn]; exact hcount)]
      refine ⟨aim1, rfl, hn, hs, hc, fun tc htc => hrest tc (by omega),
        fun tc acc htc hget => ?_⟩
      by_cases htk : tc = k
      · subst htk
        rw [hacc] at hget
        cases hget
        exact ⟨fun _ => hrest tc (le_refl _), fun heq => absurd heq hcount⟩
      · exact hdone tc acc (by omega) hget

/-- Claim C31: on a mesh whose texture coordinate slots are empty, every
channel TEXCOORD_n below the maximum number of UV sets whose accessor count
equals the vertex count is stored with `u` unchanged and `v = 1 - v_src` for
every vertex; a channel whose count differs is skipped, its slot stays empty,
and the channels after it are imported all the same.  The loop runs to its end
when every channel with a matching count has data to extract. -/
theorem C31_texture_coordinates {W : Type} [One W] [Sub W] (maxTC : Nat)
    (texcoord : List (Accessor W)) (aim : VertexData W)
    (hslots : aim.mTextureCoords = List.replicate maxTC none)
    (hcomps : aim.mNumUVComponents.length = maxTC)
    (hdata : ∀ tc acc, tc < maxTC → texcoord[tc]? = some acc →
      acc.count = aim.mNumVertices → ∃ values, acc.vec3 = some values) :
    ∃ aim', importTexCoords maxTC texcoord aim = some aim' ∧
      ∀ tc acc, tc < maxTC → texcoord[tc]? = some acc →
        (acc.count ≠ aim.mNumVertices → aim'.mTextureCoords[tc]? = some none) ∧
        (acc.count = aim.mNumVertices → ∀ values, acc.vec3 = some values →
          aim'.mTextureCoords[tc]? =
            some (some ((List.range aim.mNumVertices).map
              (fun i =>
                { x := (values i).x, y := 1 - (values i).y, z := (values i).z })))) := by
  obtain ⟨aim', hrun, -, -, -, -, hdone⟩ :=
    importTexCoords_rounds maxTC texcoord aim (by rw [hslots, List.length_replicate]) hcomps
      hdata (min texcoord.length maxTC) (le_refl _)
  refine ⟨aim', hrun, fun tc acc htc hget => ?_⟩
  have hlt : tc < texcoord.length := by
    by_contra hc
    rw [List.getElem?_eq_none (by omega)] at hget
    exact absurd hget (by simp)
  obtain ⟨h1, h2⟩ := hdone tc acc (by omega) hget
  refine ⟨fun hne => ?_, h2⟩
  rw [h1 hne, hslots, List.getElem?_replicate, if_pos htc]

/-- Witness for C31: the three channels of `exampleVertexPrimitive` on a mesh
with three vertices; the channel with two elements is skipped and the one
after it is imported. -/
theorem C31_texture_coordinates_witness :
    ∃ aim',
      importTexCoords 8 exampleVertexPrimitive.attributes.texcoord
        { mNumVertices := 3, mTextureCoords := List.replicate 8 none,
          mNumUVComponents := List.replicate 8 0 } = some aim' ∧
      aim'.mTextureCoords[0]? = some (some [⟨0, 1, 0⟩, ⟨1, -9, 0⟩, ⟨2, -19, 0⟩]) ∧
      aim'.mTextureCoords[1]? = some none ∧
      aim'.mTextureCoords[2]? = some (some [⟨5, 1, 0⟩, ⟨5, 0, 0⟩, ⟨5, -1, 0⟩]) := by
  obtain ⟨aim', hrun, h⟩ :=
    C31_texture_coordinates 8 exampleVertexPrimitive.attributes.texcoord
      { mNumVertices := 3, mTextureCoords := List.replicate 8 none,
        mNumUVComponents := List.replicate 8 0 } rfl rfl
      (by
        intro tc acc htc hget hcount
        have h3 : tc < 3 := by
          by_contra hc
          rw [List.getElem?_eq_none (by simp [exampleVertexPrimitive]; omega)] at hget
          exact absurd hget (by simp)
        interval_cases tc
        · cases hget; exact ⟨_, rfl⟩
        · cases hget; exact absurd hcount (by decide)
        · cases hget; exact ⟨_, rfl⟩)
  refine ⟨aim', hrun, ?_, ?_, ?_⟩
  · exact (h 0 _ (by decide) rfl).2 rfl _ rfl
  · exact (h 1 _ (by decide) rfl).1 (by decide)
  · exact (h 2 _ (by decide) rfl).2 rfl _ rfl

/-! ## Morph targets -/

/-- The loop that adds a delta to an array. -/
theorem addDiff_spec {W : Type} [Add W] (diff values : List (aiVector3D W)) :
    ∀ n, n ≤ values.length → n ≤ diff.length →
      ∃ out, addDiff n (some diff) (some values) = some (some out) ∧
        out.length = values.length ∧
        (∀ v, n ≤ v → out[v]? = values[v]?) ∧
        ∀ v, v < n → ∀ (h1 : v < values.length) (h2 : v < diff.length),
          out[v]? = some (values[v].add diff[v]) := by
  intro n
  induction n with
  | zero =>
    intro _ _
    exact ⟨values, rfl, rfl, fun _ _ => rfl, fun v hv => by omega⟩
  | succ n ih =>
    intro hn1 hn2
    obtain ⟨out, hrun, hlen, hrest, hdone⟩ := ih (by omega) (by omega)
    have hget : out[n]? = some values[n] := by
      rw [hrest n (le_refl _), List.getElem?_eq_getElem (by omega)]
    have hd : diff[n]? = some diff[n] := List.getElem?_eq_getElem (by omega)
    refine ⟨out.set n (values[n].add diff[n]), ?_, ?_, fun v hv => ?_,
      fun v hv h1 h2 => ?_⟩
    · unfold addDiff at hrun ⊢
      rw [foldlM_range_succ, hrun, some_bind_eq, some_bind_eq, hget, some_bind_eq,
        some_bind_eq, hd, some_bind_eq]
      rfl
    · rw [List.length_set, hlen]
    · rw [List.getElem?_set_ne (by omega)]
      exact hrest v (by omega)
    · by_cases hvn : v = n
      · subst hvn
        rw [List.getElem?_set_self (by omega)]
      · rw [List.getElem?_set_ne (fun h => hvn h.symm)]
        exact hdone v (by omega) h1 h2

/-- A delta that fits is applied. -/
theorem addDiff_applied {W : Type} [Add W] (n : Nat) (acc : Accessor W)
    (rest : List (Accessor W)) (values : Option (List (aiVector3D W)))
    (hfit : DeltaFits n (acc :: rest) values) :
    ∃ result, addDiff n acc.ExtractData_vec3 values = some result ∧
      DeltaApplied n (acc :: rest) values result ∧
      (∀ array, values = some array →
        ∃ resultArray, result = some resultArray ∧ resultArray.length = array.length) := by
  obtain ⟨⟨diff, hdiff⟩, hcount, array, harray, hlen⟩ := hfit acc rest rfl
  have hex : acc.ExtractData_vec3 = some ((List.range acc.count).map diff) := by
    simp only [Accessor.ExtractData_vec3, hdiff, Option.map_some']
  obtain ⟨out, hrun, hlen', -, hdone⟩ :=
    addDiff_spec ((List.range acc.count).map diff) array n hlen (by simp; exact hcount)
  rw [hex, harray]
  refine ⟨some out, hrun, ⟨fun h => (by cases h), ?_⟩, ?_⟩
  · intro acc' rest' diff' hcons hdiff'
    cases hcons
    rw [hdiff] at hdiff'
    cases hdiff'
    refine ⟨array, out, rfl, rfl, hlen', fun v hv => ?_⟩
    have hv1 : v < array.length := by omega
    refine ⟨array[v], List.getElem?_eq_getElem hv1, ?_⟩
    rw [hdone v hv hv1 (by simp; omega)]
    simp
  · intro array' h'
    cases h'
    exact ⟨out, rfl, hlen'⟩

/-- Without a delta accessor nothing is applied. -/
theorem DeltaApplied_nil {W : Type} [Add W] (n : Nat) (base : Option (List (aiVector3D W))) :
    DeltaApplied n [] base base :=
  ⟨fun _ => rfl, fun acc rest diff h => (by cases h)⟩

/-- The POSITION delta of a target that fits changes the positions only. -/
theorem targetPosition_spec {W : Type} [Add W] (n : Nat) (target : Primitive.Target W)
    (animMesh : aiAnimMesh W) (hfit : DeltaFits n target.position animMesh.mVertices) :
    ∃ result, targetPosition n target animMesh = some result ∧
      DeltaApplied n target.position animMesh.mVertices result.mVertices ∧
      result.mNormals = animMesh.mNormals ∧ result.mTangents = animMesh.mTangents ∧
      result.mBitangents = animMesh.mBitangents ∧ result.mWeight = animMesh.mWeight := by
  unfold targetPosition
  cases hp : target.position with
  | nil => exact ⟨animMesh, rfl, DeltaApplied_nil n _, rfl, rfl, rfl, rfl⟩
  | cons acc rest =>
    rw [hp] at hfit
    obtain ⟨result, hrun, happ, -⟩ := addDiff_applied n acc rest _ hfit
    refine ⟨{ animMesh with mVertices := result }, ?_, happ, rfl, rfl, rfl, rfl⟩
    rw [if_pos (by simp), List.getElem?_cons_zero, some_bind_eq, hrun, some_bind_eq]
    rfl

/-- The NORMAL delta of a target that fits changes the normals only, and an
array of normals keeps its length. -/
theorem targetNormal_spec {W : Type} [Add W] (n : Nat) (target : Primitive.Target W)
    (animMesh : aiAnimMesh W) (hfit : DeltaFits n target.normal animMesh.mNormals) :
    ∃ result, targetNormal n target animMesh = some result ∧
      DeltaApplied n target.normal animMesh.mNormals result.mNormals ∧
      (∀ array, animMesh.mNormals = some array →
        ∃ resultArray, result.mNormals = some resultArray ∧
          resultArray.length = array.length) ∧
      result.mVertices = animMesh.mVertices ∧ result.mTangents = animMesh.mTangents ∧
      result.mBitangents = animMesh.mBitangents ∧ result.mWeight = animMesh.mWeight := by
  unfold targetNormal
  cases hp : target.normal with
  | nil =>
    exact ⟨animMesh, rfl, DeltaApplied_nil n _, fun array h => ⟨array, h, rfl⟩, rfl, rfl, rfl,
      rfl⟩
  | cons acc rest =>
    rw [hp] at hfit
    obtain ⟨result, hrun, happ, hlen⟩ := addDiff_applied n acc rest _ hfit
    refine ⟨{ animMesh with mNormals := result }, ?_, happ, hlen, rfl, rfl, rfl, rfl⟩
    rw [if_pos (by simp), List.getElem?_cons_zero, some_bind_eq, hrun, some_bind_eq]
    rfl

/-- The loop of the TANGENT delta runs to its end on arrays that have an
element for every vertex. -/
theorem addTangentDiff_total {W : Type} [Add W] [Mul W] [Sub W]
    (tangent : List (Tangent W)) (tangentDiff mNormals : List (aiVector3D W)) :
    ∀ n (mTangents mBitangents : List (aiVector3D W)), n ≤ tangent.length →
      n ≤ tangentDiff.length → n ≤ mNormals.length → n ≤ mTangents.length →
      n ≤ mBitangents.length →
      ∃ tangents' bitangents',
        addTangentDiff n (some tangent) (some tangentDiff) (some mNormals)
          (some mTangents, some mBitangents) = some (some tangents', some bitangents') ∧
        tangents'.length = mTangents.length ∧ bitangents'.length = mBitangents.length := by
  intro n
  induction n with
  | zero =>
    intro mTangents mBitangents _ _ _ _ _
    exact ⟨mTangents, mBitangents, rfl, rfl, rfl⟩
  | succ n ih =>
    intro mTangents mBitangents h1 h2 h3 h4 h5
    obtain ⟨ts, bs, hrun, hts, hbs⟩ :=
      ih mTangents mBitangents (by omega) (by omega) (by omega) (by omega) (by omega)
    have g1 : tangent[n]? = some tangent[n] := List.getElem?_eq_getElem (by omega)
    have g2 : tangentDiff[n]? = some tangentDiff[n] := List.getElem?_eq_getElem (by omega)
    have g3 : mNormals[n]? = some mNormals[n] := List.getElem?_eq_getElem (by omega)
    refine ⟨ts.set n (tangent[n].xyz.add tangentDiff[n]),
      bs.set n ((mNormals[n].cross (tangent[n].xyz.add tangentDiff[n])).scale tangent[n].w),
      ?_, by rw [List.length_set, hts], by rw [List.length_set, hbs]⟩
    unfold addTangentDiff at hrun ⊢
    rw [foldlM_range_succ, hrun, some_bind_eq, some_bind_eq, g1, some_bind_eq, some_bind_eq,
      g2, some_bind_eq]
    dsimp only
    rw [some_bind_eq, if_pos (by omega), some_bind_eq, g3, some_bind_eq, some_bind_eq,
      if_pos (by omega)]
    rfl

/-- The TANGENT delta of a target that fits changes the tangents and the
bitangents only. -/
theorem targetTangent_spec {W : Type} [Add W] [Mul W] [Sub W] (n : Nat) (attr : Attributes W)
    (target : Primitive.Target W) (animMesh : aiAnimMesh W)
    (hfit : ∀ acc rest, target.tangent = acc :: rest →
      (∃ diff, acc.vec3 = some diff) ∧ n ≤ acc.count ∧
      (∃ tangent0 others values, attr.tangent = some tangent0 :: others ∧
        tangent0.tangents = some values ∧ n ≤ tangent0.count) ∧
      (∃ array, animMesh.mNormals = some array ∧ n ≤ array.length) ∧
      (∃ array, animMesh.mTangents = some array ∧ n ≤ array.length) ∧
      (∃ array, animMesh.mBitangents = some array ∧ n ≤ array.length)) :
    ∃ result, targetTangent n attr target animMesh = some result ∧
      result.mVertices = animMesh.mVertices ∧ result.mNormals = animMesh.mNormals ∧
      result.mWeight = animMesh.mWeight := by
  unfold targetTangent
  cases hp : target.tangent with
  | nil => exact ⟨animMesh, rfl, rfl, rfl, rfl⟩
  | cons acc rest =>
    obtain ⟨⟨diff, hdiff⟩, hcount, ⟨tangent0, others, values, hattr, hvalues, hcount0⟩,
      ⟨ns, hns, hnsl⟩, ⟨ts, hts, htsl⟩, ⟨bs, hbs, hbsl⟩⟩ := hfit acc rest hp
    obtain ⟨ts', bs', hrun, -, -⟩ :=
      addTangentDiff_total ((List.range tangent0.count).map values)
        ((List.range acc.count).map diff) ns n ts bs (by simp; exact hcount0)
        (by simp; exact hcount) hnsl htsl hbsl
    refine ⟨{ animMesh with mTangents := some ts', mBitangents := some bs' }, ?_, rfl, rfl,
      rfl⟩
    rw [if_pos (by simp), hattr, List.getElem?_cons_zero, some_bind_eq, some_bind_eq,
      List.getElem?_cons_zero, some_bind_eq]
    simp only [Accessor.ExtractData_tangent, Accessor.ExtractData_vec3, hvalues, hdiff,
      Option.map_some', hns, hts, hbs, hrun]
    rfl

/-- The weight of the animated mesh of target `i`. -/
theorem targetWeight_spec {W : Type} (weights : List W) (i : Nat) (animMesh : aiAnimMesh W) :
    ∃ result, targetWeight weights i animMesh = some result ∧
      result.mVertices = animMesh.mVertices ∧ result.mNormals = animMesh.mNormals ∧
      (i < weights.length → weights[i]? = some result.mWeight) ∧
      (weights.length ≤ i → result.mWeight = animMesh.mWeight) := by
  unfold targetWeight
  by_cases hi : weights.length > i
  · refine ⟨{ animMesh with mWeight := weights[i] }, ?_, rfl, rfl,
      fun _ => List.getElem?_eq_getElem hi, fun h => (by omega)⟩
    rw [if_pos hi, List.getElem?_eq_getElem hi, some_bind_eq]
    rfl
  · exact ⟨animMesh, by rw [if_neg hi], rfl, rfl, fun h => (by omega), fun _ => rfl⟩

/-- The animated mesh of a morph target that fits the base mesh. -/
theorem importTarget_spec {W : Type} [Zero W] [Add W] [Mul W] [Sub W] (weights : List W)
    (attr : Attributes W) (aim : VertexData W) (i : Nat) (target : Primitive.Target W)
    (hfit : TargetFits attr aim target) :
    ∃ animMesh, importTarget weights attr aim i target = some animMesh ∧
      DeltaApplied aim.mNumVertices target.position aim.mVertices animMesh.mVertices ∧
      DeltaApplied aim.mNumVertices target.normal aim.mNormals animMesh.mNormals ∧
      (i < weights.length → weights[i]? = some animMesh.mWeight) ∧
      (weights.length ≤ i → animMesh.mWeight = 0) := by
  obtain ⟨hpos, hnorm, htan⟩ := hfit
  obtain ⟨a1, h1, happ1, hn1, ht1, hb1, hw1⟩ :=
    targetPosition_spec aim.mNumVertices target (aiCreateAnimMesh aim) hpos
  obtain ⟨a2, h2, happ2, hlen2, hv2, ht2, hb2, hw2⟩ :=
    targetNormal_spec aim.mNumVertices target a1 (by rw [hn1]; exact hnorm)
  obtain ⟨a3, h3, hv3, hn3, hw3⟩ :=
    targetTangent_spec aim.mNumVertices attr target a2
      (by
        intro acc rest hcons
        obtain ⟨hd, hc, ht, ⟨ns, hns, hnsl⟩, hts, hbs⟩ := htan acc rest hcons
        obtain ⟨ns', hns', hlen'⟩ := hlen2 ns (by rw [hn1]; exact hns)
        refine ⟨hd, hc, ht, ⟨ns', hns', by rw [hlen']; exact hnsl⟩, ?_, ?_⟩
        · rw [ht2, ht1]; exact hts
        · rw [hb2, hb1]; exact hbs)
  obtain ⟨a4, h4, hv4, hn4, hw4, hw4'⟩ := targetWeight_spec weights i a3
  refine ⟨a4, ?_, ?_, ?_, hw4, fun h => ?_⟩
  · unfold importTarget
    dsimp only
    rw [h1, some_bind_eq, h2, some_bind_eq, h3, some_bind_eq]
    exact h4
  · rw [hv4, hv3, hv2]; exact happ1
  · rw [hn4, hn3]; rw [hn1] at happ2; exact happ2
  · rw [hw4' h, hw3, hw2, hw1]; rfl

/-- Claim C32: a primitive with `k` morph targets that fit its base mesh gets
exactly `k` animated meshes.  For target `i` with a POSITION delta the
position of every vertex `v` of the animated mesh is the base position of `v`
plus the delta of `v`, and likewise for a NORMAL delta; without a delta for an
attribute, the attribute of the animated mesh is the one of the base mesh.
Target `i` carries the weight `mesh.weights[i]` when the mesh has more than
`i` weights, and the weight 0 of a new animated mesh otherwise. -/
theorem C32_morph_targets {W : Type} [Zero W] [Add W] [Mul W] [Sub W] (weights : List W)
    (attr : Attributes W) (targets : List (Primitive.Target W)) (aim : VertexData W)
    (hk : targets.length < UINT_MOD)
    (hfit : ∀ target, target ∈ targets → TargetFits attr aim target) :
    ∃ mAnimMeshes, importTargets weights attr targets aim = some mAnimMeshes ∧
      mAnimMeshes.length = targets.length ∧
      ∀ i target, targets[i]? = some target →
        ∃ animMesh, mAnimMeshes[i]? = some animMesh ∧
          DeltaApplied aim.mNumVertices target.position aim.mVertices animMesh.mVertices ∧
          DeltaApplied aim.mNumVertices target.normal aim.mNormals animMesh.mNormals ∧
          (i < weights.length → weights[i]? = some animMesh.mWeight) ∧
          (weights.length ≤ i → animMesh.mWeight = 0) := by
  unfold importTargets
  rw [u32_of_lt hk]
  dsimp only
  by_cases hpos : targets.length > 0
  · rw [if_pos hpos]
    obtain ⟨out, hout⟩ := mapM_range_total
      (fun i => do
        let target ← targets[i]?
        importTarget weights attr aim i target) targets.length
      (by
        intro i hi
        obtain ⟨animMesh, h, -⟩ :=
          importTarget_spec weights attr aim i targets[i] (hfit _ (List.getElem_mem hi))
        refine ⟨animMesh, ?_⟩
        beta_reduce
        rw [List.getElem?_eq_getElem hi, some_bind_eq]
        exact h)
    obtain ⟨hlen, hel⟩ := mapM_range_spec _ _ _ hout
    refine ⟨out, hout, hlen, fun i target hget => ?_⟩
    have hi : i < targets.length := by
      by_contra hc
      rw [List.getElem?_eq_none (by omega)] at hget
      exact absurd hget (by simp)
    obtain ⟨animMesh, hget', hrun⟩ := hel i hi
    rw [hget, some_bind_eq] at hrun
    obtain ⟨animMesh', hrun', hspec⟩ :=
      importTarget_spec weights attr aim i target (hfit _ (List.mem_iff_getElem?.mpr ⟨i, hget⟩))
    rw [hrun] at hrun'
    cases hrun'
    exact ⟨animMesh, hget', hspec⟩
  · rw [if_neg hpos]
    have hnil : targets = [] := List.eq_nil_of_length_eq_zero (by omega)
    subst hnil
    exact ⟨[], rfl, rfl, fun i target hget => by simp at hget⟩


/-- Witness for C32: the two morph targets of `exampleVertexPrimitive` on its
base mesh, with the one weight 7 of the mesh. -/
theorem C32_morph_targets_witness :
    ∃ mAnimMeshes,
      importTargets exampleVertexMesh.weights exampleVertexPrimitive.attributes
        exampleVertexPrimitive.targets exampleVertexBase = some mAnimMeshes ∧
      mAnimMeshes.length = 2 ∧
      (∃ animMesh, mAnimMeshes[0]? = some animMesh ∧ animMesh.mWeight = 7 ∧
        animMesh.mNormals = exampleVertexBase.mNormals) ∧
      ∃ animMesh, mAnimMeshes[1]? = some animMesh ∧ animMesh.mWeight = 0 ∧
        animMesh.mVertices = exampleVertexBase.mVertices := by
  obtain ⟨mAnimMeshes, hrun, hlen, h⟩ :=
    C32_morph_targets exampleVertexMesh.weights exampleVertexPrimitive.attributes
      exampleVertexPrimitive.targets exampleVertexBase (by decide)
      (by
        intro target hmem
        simp only [exampleVertexPrimitive, List.mem_cons, List.mem_singleton,
          List.not_mem_nil, or_false] at hmem
        rcases hmem with rfl | rfl
        · refine ⟨fun acc rest hcons => ?_, fun acc rest hcons => (by cases hcons),
            fun acc rest hcons => (by cases hcons)⟩
          cases hcons
          exact ⟨⟨_, rfl⟩, by decide, _, rfl, by decide⟩
        · refine ⟨fun acc rest hcons => (by cases hcons), fun acc rest hcons => ?_,
            fun acc rest hcons => (by cases hcons)⟩
          cases hcons
          exact ⟨⟨_, rfl⟩, by decide, _, rfl, by decide⟩)
  obtain ⟨a0, hget0, -, hn0, hw0, -⟩ := h 0 _ rfl
  obtain ⟨a1, hget1, hp1, -, -, hw1⟩ := h 1 _ rfl
  refine ⟨mAnimMeshes, hrun, hlen, ⟨a0, hget0, ?_, hn0.1 rfl⟩, a1, hget1, hw1 (by decide),
    hp1.1 rfl⟩
  have h7 := hw0 (by decide)
  exact (Option.some.inj h7).symm

/-- Claim C33, the code at failing inputs.  A primitive with one vertex and
without normals whose morph target has a NORMAL delta adds the delta to the
null array of normals of the animated mesh; a primitive without tangents whose
morph target has a TANGENT delta reads `attr.tangent[0]` of an empty vector.
Either way no mesh is produced, while the same primitives without their morph
targets are imported. -/
theorem C33_morph_target_faults :
    importVertexData 8 exampleDeltaMesh exampleNormalDeltaPrimitive = none ∧
    importVertexData 8 exampleDeltaMesh exampleTangentDeltaPrimitive = none ∧
    (importVertexData 8 exampleDeltaMesh
      { exampleNormalDeltaPrimitive with targets := [] }).isSome = true ∧
    (importVertexData 8 exampleDeltaMesh
      { exampleTangentDeltaPrimitive with targets := [] }).isSome = true := by
  decide

/-- The fault of a morph target is a fault of the mesh import: for a mesh whose
only primitive is the POINTS primitive with one vertex, without normals and
with a NORMAL delta, `ImportMeshes` produces no meshes, and for the same mesh
without the morph target it produces one. -/
theorem ImportMeshes_morph_target_fault :
    importPrimitive 1 { id := "mesh1" } 0
      { exampleNormalDeltaPrimitive with mode := PrimitiveMode_POINTS } = none ∧
    ImportMeshes 1
      [{ id := "mesh1",
         primitives := [{ exampleNormalDeltaPrimitive with mode := PrimitiveMode_POINTS }] }]
      [] = none ∧
    (ImportMeshes 1
      [{ id := "mesh1",
         primitives :=
           [{ exampleNormalDeltaPrimitive with mode := PrimitiveMode_POINTS, targets := [] }] }]
      []).map (fun res => (res.1, res.2.length)) = some ([0, 1], 1) := by
  decide

/-- Invariant rule for a run of `forLoopAux` that has returned: an invariant
that every successful round keeps holds at the end. -/
theorem forLoopAux_some_inv {σ : Type} (P : Nat → σ → Prop) (n step : Nat)
    (body : Nat → σ → Option σ)
    (h : ∀ i s s', P i s → i < n → body i s = some s' → P (u32 (i + step)) s') :
    ∀ fuel i s s', P i s → forLoopAux n step body fuel i s = some s' →
      ∃ j, n ≤ j ∧ P j s' := by
  intro fuel
  induction fuel with
  | zero => intro i s s' _ hrun; simp [forLoopAux] at hrun
  | succ fuel ih =>
    intro i s s' hP hrun
    by_cases hi : i < n
    · simp only [forLoopAux, hi, if_true] at hrun
      cases hb : body i s with
      | none => rw [hb] at hrun; simp at hrun
      | some t =>
        rw [hb] at hrun
        exact ih _ _ _ (h i s t hP hi hb) hrun
    · simp only [forLoopAux, hi, if_false] at hrun
      cases hrun
      exact ⟨i, by omega, hP⟩

/-- Simulation rule for `forLoopAux`: when every successful round of the first
body on related states is matched by a round of the second body, a run of the
first loop is matched by a run of the second. -/
theorem forLoopAux_sim {σ τ : Type} (R : σ → τ → Prop) (n step : Nat)
    (body1 : Nat → σ → Option σ) (body2 : Nat → τ → Option τ)
    (h : ∀ i s t s', R s t → i < n → body1 i s = some s' →
      ∃ t', body2 i t = some t' ∧ R s' t') :
    ∀ fuel i s t s', R s t → forLoopAux n step body1 fuel i s = some s' →
      ∃ t', forLoopAux n step body2 fuel i t = some t' ∧ R s' t' := by
  intro fuel
  induction fuel with
  | zero => intro i s t s' _ hrun; simp [forLoopAux] at hrun
  | succ fuel ih =>
    intro i s t s' hR hrun
    by_cases hi : i < n
    · simp only [forLoopAux, hi, if_true] at hrun ⊢
      cases hb : body1 i s with
      | none => rw [hb] at hrun; simp at hrun
      | some s1 =>
        rw [hb] at hrun
        obtain ⟨t1, hb2, hR1⟩ := h i s t s1 hR hi hb
        rw [hb2]
        exact ih _ _ _ _ hR1 hrun
    · simp only [forLoopAux, hi, if_false] at hrun ⊢
      cases hrun
      exact ⟨t, rfl, hR⟩

/-- Transfer rule for a fold: when every successful round of the first body
is a round of the second, a run of the first fold is a run of the second. -/
theorem foldlM_transfer {α σ : Type} (f g : σ → α → Option σ) (l : List α)
    (h : ∀ s x s', x ∈ l → f s x = some s' → g s x = some s') :
    ∀ (s s' : σ), l.foldlM f s = some s' → l.foldlM g s = some s' := by
  induction l with
  | nil => intro s s' hrun; exact hrun
  | cons x xs ih =>
    intro s s' hrun
    rw [List.foldlM_cons] at hrun ⊢
    obtain ⟨s1, h1, hrun⟩ := bind_eq_some_elim hrun
    rw [h s x s1 (List.mem_cons_self _ _) h1, some_bind_eq]
    exact ih (fun s x s' hx hf => h s x s' (List.mem_cons_of_mem _ hx) hf) s1 s' hrun

/-- Skin binding of one primitive keeps the number of meshes of the scene. -/
theorem skinPrimitive_length {W : Type} [Zero W] [LT W] [DecidableRel (α := W) (· < ·)]
    (r : Asset W) (meshOffsets : List Nat) (mesh_idx : Nat) (node : Node) (skin : Skin)
    (primitiveNo : Nat) (sceneMeshes out : List (aiMesh W))
    (h : skinPrimitive r meshOffsets mesh_idx node skin primitiveNo sceneMeshes = some out) :
    out.length = sceneMeshes.length := by
  unfold skinPrimitive at h
  obtain ⟨offset, -, h⟩ := bind_eq_some_elim h
  dsimp only at h
  obtain ⟨mesh, -, h⟩ := bind_eq_some_elim h
  obtain ⟨primitive, -, h⟩ := bind_eq_some_elim h
  obtain ⟨weighting, -, h⟩ := bind_eq_some_elim h
  obtain ⟨mBones, -, h⟩ := bind_eq_some_elim h
  cases h
  rw [List.length_set]

/-- Mesh and skin binding of a node keeps the number of meshes of the scene. -/
theorem ImportNode_meshes_length {W : Type} [Zero W] [LT W] [DecidableRel (α := W) (· < ·)]
    (r : Asset W) (meshOffsets : List Nat) (mesh_idx : Nat) (node : Node)
    (sceneMeshes : List (aiMesh W)) (res : List Nat × List (aiMesh W))
    (h : ImportNode_meshes r meshOffsets mesh_idx node sceneMeshes = some res) :
    res.2.length = sceneMeshes.length := by
  unfold ImportNode_meshes at h
  by_cases hempty : node.meshes.isEmpty = true
  · rw [if_pos hempty] at h
    cases h
    rfl
  · rw [if_neg hempty] at h
    obtain ⟨count, -, h⟩ := bind_eq_some_elim h
    obtain ⟨mMeshes, -, h⟩ := bind_eq_some_elim h
    obtain ⟨sceneMeshes', hbind, h⟩ := bind_eq_some_elim h
    obtain ⟨lo, -, h⟩ := bind_eq_some_elim h
    obtain ⟨hi, -, h⟩ := bind_eq_some_elim h
    obtain ⟨st, -, h⟩ := bind_eq_some_elim h
    cases h
    show sceneMeshes'.length = sceneMeshes.length
    unfold bindSkin at hbind
    cases hskin : node.skin with
    | none =>
      rw [hskin] at hbind
      cases hbind
      rfl
    | some skinRef =>
      rw [hskin] at hbind
      obtain ⟨skin, -, hbind⟩ := bind_eq_some_elim hbind
      exact foldlM_some_inv (fun meshes => meshes.length = sceneMeshes.length) _
        (fun s x s' hs hf => (skinPrimitive_length r _ _ _ _ _ _ _ hf).trans hs)
        _ _ _ rfl hbind

/-- The import of a list of nodes keeps the number of meshes of the scene when
the import of one node does. -/
theorem importChildren_length {W : Type}
    (importNode : Nat → aiScene W → Option (Nat × aiScene W))
    (himp : ∀ ref s res, importNode ref s = some res →
      res.2.mMeshes.length = s.mMeshes.length)
    (parent : Nat) (refs : List Nat) (pScene pScene' : aiScene W)
    (h : importChildren importNode parent refs pScene = some pScene') :
    pScene'.mMeshes.length = pScene.mMeshes.length := by
  unfold importChildren at h
  refine foldlM_some_inv (fun (s : aiScene W) => s.mMeshes.length = pScene.mMeshes.length) _
    ?_ _ _ _ rfl h
  intro s x s' hs hf
  obtain ⟨res, hres, hf⟩ := bind_eq_some_elim hf
  cases hf
  show res.2.mMeshes.length = pScene.mMeshes.length
  rw [himp x s res hres]
  exact hs

/-- The import of a node keeps the number of meshes of the scene. -/
theorem ImportNode_length {W : Type} [Zero W] [LT W] [DecidableRel (α := W) (· < ·)]
    (r : Asset W) (meshOffsets : List Nat) (mesh_idx : Node → Nat) :
    ∀ (fuel ptr : Nat) (pScene : aiScene W) (res : Nat × aiScene W),
      ImportNode r meshOffsets mesh_idx fuel ptr pScene = some res →
      res.2.mMeshes.length = pScene.mMeshes.length := by
  intro fuel
  induction fuel with
  | zero =>
    intro ptr pScene res h
    simp only [ImportNode] at h
    cases h
  | succ fuel ih =>
    intro ptr pScene res h
    rw [ImportNode] at h
    obtain ⟨node, -, h⟩ := bind_eq_some_elim h
    dsimp only at h
    obtain ⟨s1, hch, h⟩ := bind_eq_some_elim h
    obtain ⟨res1, hmeshes, h⟩ := bind_eq_some_elim h
    have h1 := importChildren_length _ (fun ref s res => ih ref s res) _ _ _ _ hch
    have h2 := ImportNode_meshes_length _ _ _ _ _ _ hmeshes
    have h1 : s1.mMeshes.length = pScene.mMeshes.length := h1
    cases hcam : node.camera with
    | none =>
      rw [hcam] at h
      cases h
      show res1.2.length = pScene.mMeshes.length
      rw [h2, h1]
    | some camera =>
      rw [hcam] at h
      dsimp only at h
      split at h
      · cases h
        show res1.2.length = pScene.mMeshes.length
        rw [h2, h1]
      · cases h

/-- The function `ImportNodes` keeps the number of meshes of the scene. -/
theorem ImportNodes_length {W : Type} [Zero W] [LT W] [DecidableRel (α := W) (· < ·)]
    (r : Asset W) (meshOffsets : List Nat) (mesh_idx : Node → Nat) (fuel : Nat)
    (pScene pScene' : aiScene W)
    (h : ImportNodes r meshOffsets mesh_idx fuel pScene = some pScene') :
    pScene'.mMeshes.length = pScene.mMeshes.length := by
  unfold ImportNodes at h
  cases hscene : r.scene with
  | none =>
    rw [hscene] at h
    cases h
    rfl
  | some scene =>
    rw [hscene] at h
    dsimp only at h
    split at h
    · obtain ⟨rootRef, -, h⟩ := bind_eq_some_elim h
      obtain ⟨res, hres, h⟩ := bind_eq_some_elim h
      cases h
      exact ImportNode_length r meshOffsets mesh_idx fuel _ _ _ hres
    · split at h
      · obtain ⟨s1, hch, h⟩ := bind_eq_some_elim h
        cases h
        have hlen := importChildren_length _
          (fun ref s res => ImportNode_length r meshOffsets mesh_idx fuel ref s res) _ _ _ _ hch
        exact hlen
      · cases h
        rfl

/-- The loop over the primitives of a mesh adds one output mesh for each
primitive. -/
theorem importMeshPrimitives_length {W : Type} [Zero W] [One W] [Add W] [Mul W] [Sub W]
    (mNumMaterials : Nat) (mesh : Mesh W)
    (meshes meshes' : List (aiMesh W)) (hn : mesh.primitives.length < UINT_MOD)
    (h : importMeshPrimitives mNumMaterials mesh meshes = some meshes') :
    meshes'.length = meshes.length + mesh.primitives.length := by
  unfold importMeshPrimitives forLoop at h
  obtain ⟨j, hj, hle, hlen⟩ := forLoopAux_some_inv
    (fun p (out : List (aiMesh W)) =>
      p ≤ mesh.primitives.length ∧ out.length = meshes.length + p)
    _ _ _
    (by
      intro i s s' hP hi hb
      obtain ⟨prim, -, hb⟩ := bind_eq_some_elim hb
      obtain ⟨aim, -, hb⟩ := bind_eq_some_elim hb
      cases hb
      rw [u32_of_lt (by omega)]
      refine ⟨by omega, ?_⟩
      rw [List.length_append, hP.2]
      rfl)
    _ _ _ _ ⟨Nat.zero_le _, rfl⟩ h
  have hjn : j = mesh.primitives.length := by omega
  rw [hlen, hjn]

/-- The function `ImportMeshes` makes one output mesh for each primitive of the
asset. -/
theorem ImportMeshes_length {W : Type} [Zero W] [One W] [Add W] [Mul W] [Sub W]
    (mNumMaterials : Nat) (rmeshes : List (Mesh W))
    (meshOffsets : List Nat) (res : List Nat × List (aiMesh W))
    (hN : rmeshes.length < UINT_MOD)
    (htotal : primitiveCountBefore rmeshes rmeshes.length < UINT_MOD)
    (h : ImportMeshes mNumMaterials rmeshes meshOffsets = some res) :
    res.2.length = primitiveCountBefore rmeshes rmeshes.length := by
  unfold ImportMeshes at h
  obtain ⟨st, hloop, h⟩ := bind_eq_some_elim h
  cases h
  unfold forLoop at hloop
  obtain ⟨j, hj, hle, hlen⟩ := forLoopAux_some_inv
    (fun m (st : MeshImportState W) =>
      m ≤ rmeshes.length ∧ st.meshes.length = primitiveCountBefore rmeshes m)
    _ _ _
    (by
      intro i s s' hP hi hb
      obtain ⟨mesh, hmesh, hb⟩ := bind_eq_some_elim hb
      obtain ⟨meshes, hprims, hb⟩ := bind_eq_some_elim hb
      cases hb
      rw [u32_of_lt (by omega)]
      have hsucc := primitiveCountBefore_succ rmeshes i mesh hmesh
      have hmono : primitiveCountBefore rmeshes (i + 1)
          ≤ primitiveCountBefore rmeshes rmeshes.length :=
        primitiveCountBefore_mono rmeshes (Nat.succ_le_of_lt hi)
      have hlen := importMeshPrimitives_length mNumMaterials mesh s.meshes meshes (by omega)
        hprims
      refine ⟨by omega, ?_⟩
      show meshes.length = _
      rw [hlen, hsucc, hP.2])
    _ _ _ _ ⟨Nat.zero_le _, by simp [primitiveCountBefore]⟩ hloop
  have hjn : j = rmeshes.length := by omega
  show st.meshes.length = _
  rw [hlen, hjn]

/-- The asset has no primitive at all exactly when the primitive count of all
its meshes is 0. -/
theorem primitiveCountBefore_eq_zero {W : Type} (rmeshes : List (Mesh W)) :
    primitiveCountBefore rmeshes rmeshes.length = 0 ↔
      ∀ mesh, mesh ∈ rmeshes → mesh.primitives = [] := by
  simp only [primitiveCountBefore, List.take_length]
  induction rmeshes with
  | nil => simp
  | cons mesh rest ih =>
    simp only [List.map_cons, List.sum_cons, Nat.add_eq_zero, List.length_eq_zero, ih,
      List.mem_cons, forall_eq_or_imp]

/-- Claim C34: after `InternReadFile` on a scene whose flags are clear, the
flag `INCOMPLETE` is set if and only if the scene has no mesh, and that is if
and only if no mesh of the asset has a primitive. -/
theorem C34_incomplete_flag {W : Type} [Zero W] [One W] [Add W] [Sub W] [Mul W] [NatCast W]
    [LT W]
    [DecidableRel (α := W) (· < ·)]
    (slots : PbrTextureSlots) (defaultMaterial : Material W) (mesh_idx : Node → Nat)
    (fuel : Nat) (self self' : Importer) (asset : LoadedAsset W)
    (pScene pScene' : ImportedScene W)
    (hN : asset.core.meshes.length < UINT_MOD)
    (htotal : primitiveCountBefore asset.core.meshes asset.core.meshes.length < UINT_MOD)
    (hflags : pScene.mFlags = 0)
    (h : InternReadFile slots defaultMaterial mesh_idx fuel self asset pScene
      = some (self', pScene')) :
    (pScene'.mFlags &&& AI_SCENE_FLAGS_INCOMPLETE ≠ 0 ↔ pScene'.graph.mMeshes = []) ∧
    (pScene'.graph.mMeshes = [] ↔
      ∀ mesh, mesh ∈ asset.core.meshes → mesh.primitives = []) := by
  unfold InternReadFile at h
  obtain ⟨textures, -, h⟩ := bind_eq_some_elim h
  obtain ⟨mats, -, h⟩ := bind_eq_some_elim h
  obtain ⟨mMaterials, -, h⟩ := bind_eq_some_elim h
  obtain ⟨meshes, hmeshes, h⟩ := bind_eq_some_elim h
  dsimp only at h
  obtain ⟨graph, hgraph, h⟩ := bind_eq_some_elim h
  obtain ⟨mAnimations, -, h⟩ := bind_eq_some_elim h
  have hlen := ImportMeshes_length _ _ _ _ hN htotal hmeshes
  have hglen : graph.mMeshes.length = meshes.2.length :=
    ImportNodes_length _ _ _ _ _ _ hgraph
  obtain ⟨-, hres⟩ := Prod.mk.inj (Option.some.inj h)
  have hflag : pScene'.mFlags =
      if u32 meshes.2.length = 0 then pScene.mFlags ||| AI_SCENE_FLAGS_INCOMPLETE
      else pScene.mFlags := by
    rw [← hres]
  have hg : pScene'.graph = graph := by rw [← hres]
  have hu : u32 meshes.2.length = meshes.2.length := u32_of_lt (by omega)
  rw [hg, hflag, hu, hflags]
  have hnil : graph.mMeshes = [] ↔ meshes.2.length = 0 := by
    rw [← hglen, List.length_eq_zero]
  refine ⟨?_, ?_⟩
  · rw [hnil]
    by_cases hz : meshes.2.length = 0
    · rw [if_pos hz]
      exact ⟨fun _ => hz, fun _ => (by decide)⟩
    · rw [if_neg hz]
      exact ⟨fun hc => absurd rfl hc, fun hc => absurd hc hz⟩
  · rw [hnil, hlen]
    exact primitiveCountBefore_eq_zero _

/-- Witness for C34: asset `A` has two primitives and its scene is complete;
the asset without meshes gets the flag. -/
theorem C34_incomplete_flag_witness :
    (∃ self' pScene',
      InternReadFile exampleSlots exampleDefaultMaterial (fun _ => 0) 3 {} exampleAssetA {}
        = some (self', pScene') ∧
      pScene'.mFlags = 0 ∧ pScene'.graph.mMeshes.length = 2 ∧
      (pScene'.mFlags &&& AI_SCENE_FLAGS_INCOMPLETE ≠ 0 ↔ pScene'.graph.mMeshes = [])) ∧
    ∃ self' pScene',
      InternReadFile exampleSlots exampleDefaultMaterial (fun _ => 0) 3 {} exampleAssetEmpty {}
        = some (self', pScene') ∧
      pScene'.mFlags = 1 ∧ pScene'.graph.mMeshes = [] ∧
      (pScene'.mFlags &&& AI_SCENE_FLAGS_INCOMPLETE ≠ 0 ↔ pScene'.graph.mMeshes = []) := by
  have hA : ∃ res,
      InternReadFile exampleSlots exampleDefaultMaterial (fun _ => 0) 3 {} exampleAssetA {}
        = some res ∧ res.2.mFlags = 0 ∧ res.2.graph.mMeshes.length = 2 := by decide
  have hE : ∃ res,
      InternReadFile exampleSlots exampleDefaultMaterial (fun _ => 0) 3 {} exampleAssetEmpty {}
        = some res ∧ res.2.mFlags = 1 ∧ res.2.graph.mMeshes = [] := by decide
  obtain ⟨⟨selfA, sceneA⟩, hrunA, hfA, hlA⟩ := hA
  obtain ⟨⟨selfE, sceneE⟩, hrunE, hfE, hlE⟩ := hE
  exact ⟨⟨selfA, sceneA, hrunA, hfA, hlA,
      (C34_incomplete_flag _ _ _ _ _ _ _ _ _ (by decide) (by decide) rfl hrunA).1⟩,
    selfE, sceneE, hrunE, hfE, hlE,
      (C34_incomplete_flag _ _ _ _ _ _ _ _ _ (by decide) (by decide) rfl hrunE).1⟩

/-- A table `meshOffsets'` has the entries of the table `meshOffsets`: every
read that is inside `meshOffsets` gives the same value in `meshOffsets'`. -/
theorem getElem?_append_of_some {α : Type} (l l' : List α) (i : Nat) (v : α)
    (h : l[i]? = some v) : (l ++ l')[i]? = some v := by
  have hi : i < l.length := by
    by_contra hc
    rw [List.getElem?_eq_none (by omega)] at h
    exact absurd h (by simp)
  rw [List.getElem?_append_left hi]
  exact h

theorem nodeMeshCount_mono (meshOffsets meshOffsets' : List Nat)
    (hext : ∀ (i v : Nat), meshOffsets[i]? = some v → meshOffsets'[i]? = some v)
    (meshes : List Nat) (count : Int) (h : nodeMeshCount meshOffsets meshes = some count) :
    nodeMeshCount meshOffsets' meshes = some count := by
  unfold nodeMeshCount at h ⊢
  obtain ⟨total, htotal, hcount⟩ := Option.map_eq_some'.mp h
  rw [foldlM_transfer _ _ meshes ?_ _ _ htotal]
  · rw [Option.map_some', hcount]
  · intro s idx s' _ hf
    obtain ⟨hi, hhi, hf⟩ := bind_eq_some_elim hf
    obtain ⟨lo, hlo, hf⟩ := bind_eq_some_elim hf
    rw [hext _ _ hhi, some_bind_eq, hext _ _ hlo, some_bind_eq]
    exact hf

theorem nodeMeshList_mono (meshOffsets meshOffsets' : List Nat)
    (hext : ∀ (i v : Nat), meshOffsets[i]? = some v → meshOffsets'[i]? = some v)
    (meshes : List Nat) (mMeshes : List Nat)
    (h : nodeMeshList meshOffsets meshes = some mMeshes) :
    nodeMeshList meshOffsets' meshes = some mMeshes := by
  unfold nodeMeshList at h ⊢
  obtain ⟨count, hcount, h⟩ := bind_eq_some_elim h
  rw [nodeMeshCount_mono _ _ hext _ _ hcount, some_bind_eq]
  by_cases hneg : count < 0
  · rw [if_pos hneg] at h
    exact absurd h (by simp)
  · rw [if_neg hneg] at h ⊢
    obtain ⟨st, hst, h⟩ := bind_eq_some_elim h
    rw [foldlM_transfer _ _ meshes ?_ _ _ hst, some_bind_eq]
    · exact h
    · intro s idx s' _ hf
      obtain ⟨lo, hlo, hf⟩ := bind_eq_some_elim hf
      obtain ⟨hi, hhi, hf⟩ := bind_eq_some_elim hf
      rw [hext _ _ hlo, some_bind_eq, hext _ _ hhi, some_bind_eq]
      exact hf

theorem skinPrimitive_mono {W : Type} [Zero W] [LT W] [DecidableRel (α := W) (· < ·)]
    (r : Asset W) (meshOffsets meshOffsets' : List Nat)
    (hext : ∀ (i v : Nat), meshOffsets[i]? = some v → meshOffsets'[i]? = some v)
    (mesh_idx : Nat) (node : Node) (skin : Skin) (primitiveNo : Nat)
    (sceneMeshes out : List (aiMesh W))
    (h : skinPrimitive r meshOffsets mesh_idx node skin primitiveNo sceneMeshes = some out) :
    skinPrimitive r meshOffsets' mesh_idx node skin primitiveNo sceneMeshes = some out := by
  unfold skinPrimitive at h ⊢
  obtain ⟨offset, hoffset, h⟩ := bind_eq_some_elim h
  rw [hext _ _ hoffset, some_bind_eq]
  exact h

theorem ImportNode_meshes_mono {W : Type} [Zero W] [LT W] [DecidableRel (α := W) (· < ·)]
    (r : Asset W) (meshOffsets meshOffsets' : List Nat)
    (hext : ∀ (i v : Nat), meshOffsets[i]? = some v → meshOffsets'[i]? = some v)
    (mesh_idx : Nat) (node : Node) (sceneMeshes : List (aiMesh W))
    (res : List Nat × List (aiMesh W))
    (h : ImportNode_meshes r meshOffsets mesh_idx node sceneMeshes = some res) :
    ImportNode_meshes r meshOffsets' mesh_idx node sceneMeshes = some res := by
  unfold ImportNode_meshes at h ⊢
  by_cases hempty : node.meshes.isEmpty = true
  · rw [if_pos hempty] at h ⊢
    exact h
  · rw [if_neg hempty] at h ⊢
    obtain ⟨count, hcount, h⟩ := bind_eq_some_elim h
    obtain ⟨mMeshes, hlist, h⟩ := bind_eq_some_elim h
    obtain ⟨sceneMeshes', hbind, h⟩ := bind_eq_some_elim h
    obtain ⟨lo, hlo, h⟩ := bind_eq_some_elim h
    obtain ⟨hi, hhi, h⟩ := bind_eq_some_elim h
    have hbind' : bindSkin r meshOffsets' mesh_idx node count sceneMeshes
        = some sceneMeshes' := by
      unfold bindSkin at hbind ⊢
      cases hskin : node.skin with
      | none => rw [hskin] at hbind; exact hbind
      | some skinRef =>
        rw [hskin] at hbind
        obtain ⟨skin, hskin', hbind⟩ := bind_eq_some_elim hbind
        show (r.skins[skinRef]? >>= _) = _
        rw [hskin', some_bind_eq]
        exact foldlM_transfer _ _ _
          (fun s x s' _ hf => skinPrimitive_mono r _ _ hext _ _ _ _ _ _ hf) _ _ hbind
    rw [nodeMeshCount_mono _ _ hext _ _ hcount, some_bind_eq,
      nodeMeshList_mono _ _ hext _ _ hlist, some_bind_eq, hbind', some_bind_eq,
      hext _ _ hlo, some_bind_eq, hext _ _ hhi, some_bind_eq]
    exact h

theorem importChildren_mono {W : Type}
    (importNode importNode' : Nat → aiScene W → Option (Nat × aiScene W))
    (himp : ∀ ref s res, importNode ref s = some res → importNode' ref s = some res)
    (parent : Nat) (refs : List Nat) (pScene pScene' : aiScene W)
    (h : importChildren importNode parent refs pScene = some pScene') :
    importChildren importNode' parent refs pScene = some pScene' := by
  unfold importChildren at h ⊢
  refine foldlM_transfer _ _ refs ?_ _ _ h
  intro s ref s' _ hf
  obtain ⟨res, hres, hf⟩ := bind_eq_some_elim hf
  rw [himp _ _ _ hres, some_bind_eq]
  exact hf

/-- A call of `ImportNode` that returns reads the offsets table inside the
table only: with a table that has the same entries and more it returns the
same. -/
theorem ImportNode_mono {W : Type} [Zero W] [LT W] [DecidableRel (α := W) (· < ·)]
    (r : Asset W) (meshOffsets meshOffsets' : List Nat)
    (hext : ∀ (i v : Nat), meshOffsets[i]? = some v → meshOffsets'[i]? = some v)
    (mesh_idx : Node → Nat) :
    ∀ (fuel ptr : Nat) (pScene : aiScene W) (res : Nat × aiScene W),
      ImportNode r meshOffsets mesh_idx fuel ptr pScene = some res →
      ImportNode r meshOffsets' mesh_idx fuel ptr pScene = some res := by
  intro fuel
  induction fuel with
  | zero =>
    intro ptr pScene res h
    simp only [ImportNode] at h
    cases h
  | succ fuel ih =>
    intro ptr pScene res h
    rw [ImportNode] at h ⊢
    obtain ⟨node, hnode, h⟩ := bind_eq_some_elim h
    rw [hnode, some_bind_eq]
    dsimp only at h ⊢
    obtain ⟨s1, hch, h⟩ := bind_eq_some_elim h
    obtain ⟨res1, hmeshes, h⟩ := bind_eq_some_elim h
    rw [importChildren_mono _ _ (fun ref s res => ih ref s res) _ _ _ _ hch, some_bind_eq,
      ImportNode_meshes_mono r _ _ hext _ _ _ _ hmeshes, some_bind_eq]
    exact h

/-- The function `ImportNodes` with a table that has the same entries and
more. -/
theorem ImportNodes_mono {W : Type} [Zero W] [LT W] [DecidableRel (α := W) (· < ·)]
    (r : Asset W) (meshOffsets meshOffsets' : List Nat)
    (hext : ∀ (i v : Nat), meshOffsets[i]? = some v → meshOffsets'[i]? = some v)
    (mesh_idx : Node → Nat) (fuel : Nat) (pScene pScene' : aiScene W)
    (h : ImportNodes r meshOffsets mesh_idx fuel pScene = some pScene') :
    ImportNodes r meshOffsets' mesh_idx fuel pScene = some pScene' := by
  unfold ImportNodes at h ⊢
  cases hscene : r.scene with
  | none => rw [hscene] at h; exact h
  | some scene =>
    rw [hscene] at h
    dsimp only at h ⊢
    split at h
    · rename_i h1
      rw [if_pos h1]
      obtain ⟨rootRef, hroot, h⟩ := bind_eq_some_elim h
      obtain ⟨res, hres, h⟩ := bind_eq_some_elim h
      rw [hroot, some_bind_eq,
        ImportNode_mono r _ _ hext mesh_idx fuel _ _ _ hres, some_bind_eq]
      exact h
    · rename_i h1
      rw [if_neg h1]
      split at h
      · rename_i h2
        rw [if_pos h2]
        obtain ⟨s1, hch, h⟩ := bind_eq_some_elim h
        rw [importChildren_mono _ _
          (fun ref s res => ImportNode_mono r _ _ hext mesh_idx fuel ref s res) _ _ _ _ hch,
          some_bind_eq]
        exact h
      · rename_i h2
        rw [if_neg h2]
        exact h


/-- The offsets table that `ImportMeshes` leaves is the table at the call with
the offsets of the asset appended, and the output meshes do not depend on the
table at the call. -/
theorem ImportMeshes_table {W : Type} [Zero W] [One W] [Add W] [Mul W] [Sub W]
    (mNumMaterials : Nat) (rmeshes : List (Mesh W))
    (meshOffsets meshOffsets' : List Nat) (res : List Nat × List (aiMesh W))
    (h : ImportMeshes mNumMaterials rmeshes meshOffsets = some res) :
    ∃ added, res.1 = meshOffsets ++ added ∧
      ImportMeshes mNumMaterials rmeshes meshOffsets' = some (meshOffsets' ++ added, res.2) := by
  unfold ImportMeshes at h ⊢
  obtain ⟨st, hloop, h⟩ := bind_eq_some_elim h
  cases h
  unfold forLoop at hloop ⊢
  obtain ⟨st', hloop', added, h1, h2, hk, hm⟩ := forLoopAux_sim
    (fun (s t : MeshImportState W) =>
      ∃ added, s.meshOffsets = meshOffsets ++ added ∧ t.meshOffsets = meshOffsets' ++ added ∧
        s.k = t.k ∧ s.meshes = t.meshes)
    _ _
    (fun m (st : MeshImportState W) => do
      let mesh ← rmeshes[m]?
      let meshes ← importMeshPrimitives mNumMaterials mesh st.meshes
      pure
        { meshOffsets := st.meshOffsets ++ [st.k]
          k := u32 (st.k + u32 mesh.primitives.length)
          meshes := meshes })
    (fun m (st : MeshImportState W) => do
      let mesh ← rmeshes[m]?
      let meshes ← importMeshPrimitives mNumMaterials mesh st.meshes
      pure
        { meshOffsets := st.meshOffsets ++ [st.k]
          k := u32 (st.k + u32 mesh.primitives.length)
          meshes := meshes })
    (by
      intro i s t s' hR hi hb
      obtain ⟨added, h1, h2, hk, hm⟩ := hR
      obtain ⟨mesh, hmesh, hb⟩ := bind_eq_some_elim hb
      obtain ⟨meshes, hprims, hb⟩ := bind_eq_some_elim hb
      cases hb
      refine ⟨{ meshOffsets := t.meshOffsets ++ [t.k]
                k := u32 (t.k + u32 mesh.primitives.length)
                meshes := meshes }, ?_, added ++ [s.k], ?_, ?_, ?_, rfl⟩
      · beta_reduce
        rw [hmesh, some_bind_eq, ← hm, hprims, some_bind_eq]
        rfl
      · show s.meshOffsets ++ [s.k] = _
        rw [h1, List.append_assoc]
      · show t.meshOffsets ++ [t.k] = _
        rw [h2, List.append_assoc, hk]
      · show u32 (s.k + _) = u32 (t.k + _)
        rw [hk])
    _ _ { meshOffsets := meshOffsets, k := 0, meshes := [] }
    { meshOffsets := meshOffsets', k := 0, meshes := [] } _
    ⟨[], by simp, by simp, rfl, rfl⟩ hloop
  refine ⟨added ++ [st.k], ?_, ?_⟩
  · show st.meshOffsets ++ [st.k] = _
    rw [h1, List.append_assoc]
  · rw [hloop', some_bind_eq]
    show some (st'.meshOffsets ++ [st'.k], st'.meshes) = _
    rw [h2, List.append_assoc, ← hk, ← hm]

/-- The second loop of `ImportEmbeddedTextures` keeps the length of the table
and the entries before the first image it handles. -/
theorem addEmbeddedTextures_frame :
    ∀ (images : List Image) (i : Nat) (st st' : TextureState),
      addEmbeddedTextures i images st = some st' →
      st'.embeddedTexIdxs.length = st.embeddedTexIdxs.length ∧
      ∀ k : Nat, k < i → st'.embeddedTexIdxs[k]? = st.embeddedTexIdxs[k]? := by
  intro images
  induction images with
  | nil =>
    intro i st st' h
    rw [addEmbeddedTextures] at h
    cases h
    exact ⟨rfl, fun _ _ => rfl⟩
  | cons img images ih =>
    intro i st st' h
    rw [addEmbeddedTextures] at h
    by_cases hdata : img.hasData = true
    · simp only [hdata, Bool.not_true, Bool.false_eq_true, if_false] at h
      by_cases hi : i < st.embeddedTexIdxs.length
      · rw [if_pos hi, some_bind_eq] at h
        obtain ⟨hint, -, h⟩ := bind_eq_some_elim h
        by_cases hw : 0 ≤ i32 st.mNumTextures ∧
            (i32 st.mNumTextures).toNat < st.mTextures.length
        · rw [if_pos hw, some_bind_eq] at h
          obtain ⟨hlen, hkeep⟩ := ih _ _ _ h
          dsimp only at hlen hkeep
          refine ⟨by rw [hlen, List.length_set], fun k hk => ?_⟩
          rw [hkeep k (by omega), List.getElem?_set_ne (by omega)]
        · rw [if_neg hw] at h
          cases h
      · rw [if_neg hi] at h
        cases h
    · simp only [hdata, Bool.not_false, if_true] at h
      obtain ⟨hlen, hkeep⟩ := ih _ _ _ h
      exact ⟨hlen, fun k hk => hkeep k (by omega)⟩

/-- The second loop of `ImportEmbeddedTextures` on another table of the same
length: the run is the same, and each entry of the table after it is the entry
of the first run or the entry the table had before. -/
theorem addEmbeddedTextures_table :
    ∀ (images : List Image) (i : Nat) (st st' : TextureState) (table : List Int),
      addEmbeddedTextures i images st = some st' →
      table.length = st.embeddedTexIdxs.length →
      ∃ table',
        addEmbeddedTextures i images
            { embeddedTexIdxs := table, mNumTextures := st.mNumTextures,
              mTextures := st.mTextures }
          = some { embeddedTexIdxs := table', mNumTextures := st'.mNumTextures,
                   mTextures := st'.mTextures } ∧
        table'.length = table.length ∧
        ∀ k : Nat, table'[k]? = st'.embeddedTexIdxs[k]? ∨ table'[k]? = table[k]? := by
  intro images
  induction images with
  | nil =>
    intro i st st' table h hlen
    rw [addEmbeddedTextures] at h
    cases h
    refine ⟨table, ?_, rfl, fun k => Or.inr rfl⟩
    rw [addEmbeddedTextures]
  | cons img images ih =>
    intro i st st' table h hlen
    rw [addEmbeddedTextures] at h ⊢
    by_cases hdata : img.hasData = true
    · simp only [hdata, Bool.not_true, Bool.false_eq_true, if_false] at h ⊢
      by_cases hi : i < st.embeddedTexIdxs.length
      · rw [if_pos hi, some_bind_eq] at h
        obtain ⟨hint, hhint, h⟩ := bind_eq_some_elim h
        by_cases hw : 0 ≤ i32 st.mNumTextures ∧
            (i32 st.mNumTextures).toNat < st.mTextures.length
        · rw [if_pos hw, some_bind_eq] at h
          obtain ⟨table', hrun, hlen', hentries⟩ := ih _ _ _
            (table.set i (i32 st.mNumTextures)) h
            (by simp only [List.length_set]; exact hlen)
          obtain ⟨-, hkeep⟩ := addEmbeddedTextures_frame _ _ _ _ h
          dsimp only at hkeep hrun
          refine ⟨table', ?_, by rw [hlen', List.length_set], fun k => ?_⟩
          · dsimp only
            rw [if_pos (by omega), some_bind_eq, hhint, some_bind_eq, if_pos hw, some_bind_eq]
            exact hrun
          · rcases hentries k with h1 | h1
            · exact Or.inl h1
            · by_cases hki : k = i
              · subst hki
                left
                rw [h1, List.getElem?_set_self (by omega), hkeep k (by omega),
                  List.getElem?_set_self hi]
              · right
                rw [h1, List.getElem?_set_ne (fun hc => hki hc.symm)]
        · rw [if_neg hw] at h
          cases h
      · rw [if_neg hi] at h
        cases h
    · simp only [hdata, Bool.not_false, if_true] at h ⊢
      exact ih _ _ _ table h hlen

theorem resize_length {α : Type} (v : List α) (size : Nat) (value : α) :
    (resize v size value).length = size := by
  simp only [resize, List.length_append, List.length_take, List.length_replicate]
  omega

theorem resize_of_length {α : Type} (v : List α) (size : Nat) (value : α)
    (h : v.length = size) : resize v size value = v := by
  simp only [resize, h, Nat.sub_self, List.replicate_zero, List.append_nil]
  rw [← h, List.take_length]

/-- The function `ImportEmbeddedTextures` run again on the table that it has
left, for the same images and the same scene: it returns the same. -/
theorem ImportEmbeddedTextures_again (images : List Image) (st st1 : TextureState)
    (h : ImportEmbeddedTextures images st = some st1) :
    ImportEmbeddedTextures images
        { embeddedTexIdxs := st1.embeddedTexIdxs, mNumTextures := st.mNumTextures,
          mTextures := st.mTextures } = some st1 := by
  unfold ImportEmbeddedTextures at h ⊢
  dsimp only at h ⊢
  by_cases hzero : i32 (List.countP (fun img => img.hasData)
      (List.take (u32 images.length) images)) = 0
  · rw [if_pos hzero] at h ⊢
    have h1 := Option.some.inj h
    rw [← h1]
    dsimp only
    rw [resize_of_length _ _ _ (resize_length _ _ _)]
  · rw [if_neg hzero] at h ⊢
    by_cases hneg : i32 (List.countP (fun img => img.hasData)
        (List.take (u32 images.length) images)) < 0
    · rw [if_pos hneg] at h
      cases h
    · rw [if_neg hneg] at h ⊢
      obtain ⟨hlen, -⟩ := addEmbeddedTextures_frame _ _ _ _ h
      dsimp only at hlen
      rw [resize_length] at hlen
      obtain ⟨table', hrun, hlen', hentries⟩ :=
        addEmbeddedTextures_table _ _ _ _ st1.embeddedTexIdxs h
          (by dsimp only; rw [resize_length]; exact hlen)
      dsimp only at hrun
      have htable : table' = st1.embeddedTexIdxs := by
        apply List.ext_getElem?
        intro k
        rcases hentries k with h1 | h1 <;> exact h1
      rw [htable] at hrun
      rw [resize_of_length _ _ _ hlen]
      exact hrun

/-- Claim C36: importing the same asset twice gives equal scenes, also when
the second import is run by the importer object that has run the first one and
still holds its offsets table and its texture table.  Whatever the importer
object has imported before, when an import of an asset into a scene returns,
the next import of the same asset into an equal scene by the same importer
object returns an equal scene. -/
theorem C36_same_asset_twice {W : Type} [Zero W] [One W] [Add W] [Sub W] [Mul W] [NatCast W]
    [LT W]
    [DecidableRel (α := W) (· < ·)]
    (slots : PbrTextureSlots) (defaultMaterial : Material W) (mesh_idx : Node → Nat)
    (fuel : Nat) (self self1 : Importer) (asset : LoadedAsset W)
    (pScene pScene1 : ImportedScene W)
    (h : InternReadFile slots defaultMaterial mesh_idx fuel self asset pScene
      = some (self1, pScene1)) :
    ∃ self2, InternReadFile slots defaultMaterial mesh_idx fuel self1 asset pScene
      = some (self2, pScene1) := by
  unfold InternReadFile at h ⊢
  obtain ⟨textures, htextures, h⟩ := bind_eq_some_elim h
  obtain ⟨mats, hmats, h⟩ := bind_eq_some_elim h
  obtain ⟨mMaterials, hmaterials, h⟩ := bind_eq_some_elim h
  obtain ⟨meshes, hmeshes, h⟩ := bind_eq_some_elim h
  dsimp only at h
  obtain ⟨graph, hgraph, h⟩ := bind_eq_some_elim h
  obtain ⟨mAnimations, hanims, h⟩ := bind_eq_some_elim h
  obtain ⟨hself, hscene⟩ := Prod.mk.inj (Option.some.inj h)
  have htable : self1.embeddedTexIdxs = textures.embeddedTexIdxs := by rw [← hself]
  have hoffsets : self1.meshOffsets = meshes.1 := by rw [← hself]
  obtain ⟨added, hadded, hmeshes'⟩ :=
    ImportMeshes_table _ _ _ self1.meshOffsets _ hmeshes
  have hgraph' := ImportNodes_mono asset.core meshes.1 (self1.meshOffsets ++ added)
    (fun i v hv => by rw [hoffsets]; exact getElem?_append_of_some _ _ _ _ hv)
    mesh_idx fuel _ _ hgraph
  have htextures' := ImportEmbeddedTextures_again _ _ _ htextures
  dsimp only at htextures'
  rw [htable, htextures', some_bind_eq, hmats, some_bind_eq, hmaterials, some_bind_eq,
    hmeshes', some_bind_eq]
  dsimp only
  rw [hgraph', some_bind_eq, hanims, some_bind_eq]
  exact ⟨_, by rw [← hscene]; rfl⟩

/-- Witness for C36: asset `A` imported by a fresh importer and then again by
the same importer, which holds the offsets `[0, 2]` and the texture slot `0`
of the first import. -/
theorem C36_same_asset_twice_witness :
    ∃ self1 pScene1 self2,
      InternReadFile exampleSlots exampleDefaultMaterial (fun _ => 0) 3 {} exampleAssetA {}
        = some (self1, pScene1) ∧
      self1 = { meshOffsets := [0, 2], embeddedTexIdxs := [0] } ∧
      InternReadFile exampleSlots exampleDefaultMaterial (fun _ => 0) 3 self1 exampleAssetA {}
        = some (self2, pScene1) := by
  have hA : ∃ res,
      InternReadFile exampleSlots exampleDefaultMaterial (fun _ => 0) 3 {} exampleAssetA {}
        = some res ∧ res.1 = { meshOffsets := [0, 2], embeddedTexIdxs := [0] } := by decide
  obtain ⟨⟨self1, pScene1⟩, hrun, hself⟩ := hA
  obtain ⟨self2, hrun2⟩ := C36_same_asset_twice _ _ _ _ _ _ _ _ _ hrun
  exact ⟨self1, pScene1, self2, hrun, hself, hrun2⟩

/-! ## The whole import -/

/-- Claim C39, the code at a failing input.  A fresh importer gives the node
of asset `B` the mesh list `[0]` and its material the texture path "wood.png".
The importer that has imported asset `A` before still holds the offsets
`[0, 2]` and the texture slot `0` of `A`: it gives the node of `B` the mesh
list `[0, 1]`, although the scene has one mesh only, and its material the
texture path "*0", although the scene has no embedded texture. -/
theorem C39_import_after_import :
    (InternReadFile exampleSlots exampleDefaultMaterial (fun _ => 0) 3 {} exampleAssetA {}).map
        (fun res => res.1)
      = some { meshOffsets := [0, 2], embeddedTexIdxs := [0] } ∧
    (InternReadFile exampleSlots exampleDefaultMaterial (fun _ => 0) 3 {} exampleAssetB {}).map
        (fun res =>
          (res.2.graph.nodes.map (fun ainode => ainode.mMeshes), res.2.graph.mMeshes.length))
      = some ([[0]], 1) ∧
    (InternReadFile exampleSlots exampleDefaultMaterial (fun _ => 0) 3
        { meshOffsets := [0, 2], embeddedTexIdxs := [0] } exampleAssetB {}).map
        (fun res =>
          (res.2.graph.nodes.map (fun ainode => ainode.mMeshes), res.2.graph.mMeshes.length))
      = some ([[0, 1]], 1) ∧
    (InternReadFile exampleSlots exampleDefaultMaterial (fun _ => 0) 3 {} exampleAssetB {}).map
        (fun res =>
          (res.2.mMaterials.map (fun aimat => propertyValues aimat MatKey.AI_MATKEY_TEXTURE),
            res.2.mNumTextures))
      = some ([[(aiPropertyValue.aiString "wood.png" : aiPropertyValue Int),
            aiPropertyValue.aiString "wood.png"], []], 0) ∧
    (InternReadFile exampleSlots exampleDefaultMaterial (fun _ => 0) 3
        { meshOffsets := [0, 2], embeddedTexIdxs := [0] } exampleAssetB {}).map
        (fun res =>
          (res.2.mMaterials.map (fun aimat => propertyValues aimat MatKey.AI_MATKEY_TEXTURE),
            res.2.mNumTextures))
      = some ([[(aiPropertyValue.aiString "*0" : aiPropertyValue Int),
            aiPropertyValue.aiString "*0"], []], 0) := by
  refine ⟨?_, ?_, ?_, ?_, ?_⟩ <;> decide

/-! ## The format check -/

/-- Counterexample to C35 as stated: for the path "model.obj", whose extension
is "obj", `CanRead` returns false although the asset loaded from the path has
the version "2.0", which begins with "2". -/
theorem C35_can_read_counterexample :
    ¬ (CanRead exampleGetExtension exampleLoad "model.obj" (some ()) = some true ↔
        ∃ version, exampleLoad () "model.obj" false = some version ∧
          version ≠ "" ∧ version.data[0]? = some '2') := by
  intro h
  have h2 := h.2 ⟨"2.0", rfl, by decide, by decide⟩
  exact absurd h2 (by decide)

/-- Claim C35, amended: `CanRead` returns true if and only if the extension of
the path is "gltf" or "glb", the handler is not null, and the version string
of the asset loaded from the path begins with "2". -/
theorem C35_can_read {IOSystem : Type} (GetExtension : String → String)
    (Load : IOSystem → String → Bool → Option String) (pFile : String)
    (pIOHandler : Option IOSystem) :
    CanRead GetExtension Load pFile pIOHandler = some true ↔
      (GetExtension pFile = "gltf" ∨ GetExtension pFile = "glb") ∧
      ∃ handler, pIOHandler = some handler ∧
        ∃ version, Load handler pFile (GetExtension pFile == "glb") = some version ∧
          version ≠ "" ∧ version.data[0]? = some '2' := by
  unfold CanRead
  by_cases hext : GetExtension pFile ≠ "gltf" ∧ GetExtension pFile ≠ "glb"
  · rw [if_pos hext]
    constructor
    · intro h; exact absurd h (by simp)
    · rintro ⟨h1 | h1, -⟩
      · exact absurd h1 hext.1
      · exact absurd h1 hext.2
  · rw [if_neg hext]
    have hext' : GetExtension pFile = "gltf" ∨ GetExtension pFile = "glb" := by
      by_contra hc
      push_neg at hc
      exact hext hc
    cases pIOHandler with
    | none =>
      constructor
      · intro h; exact absurd h (by simp)
      · rintro ⟨-, handler, hhandler, -⟩; exact absurd hhandler (by simp)
    | some handler =>
      cases hl : Load handler pFile (GetExtension pFile == "glb") with
      | none =>
        simp only [hl]
        constructor
        · intro h; exact absurd h (by simp)
        · rintro ⟨-, handler', hhandler, version, hv, -⟩
          cases hhandler
          rw [hl] at hv; exact absurd hv (by simp)
      | some version =>
        simp only [hl]
        constructor
        · intro h
          have h : (decide (version ≠ "") && decide (version.data[0]? = some '2')) = true :=
            Option.some.inj h
          simp only [Bool.and_eq_true, decide_eq_true_eq] at h
          exact ⟨hext', handler, rfl, version, hl, h.1, h.2⟩
        · rintro ⟨-, handler', hhandler, version', hv, h1, h2⟩
          cases hhandler
          rw [hl] at hv
          cases hv
          show some (decide (version ≠ "") && decide (version.data[0]? = some '2')) = some true
          simp only [h1, h2, ne_eq, not_false_eq_true, decide_True, Bool.and_self]

/-! ## Skin binding in the `GVRF_ASSIMP` build -/

end glTF2Importer
